import Mathlib

/-! World generation and frame loop of `CrateApp` (src/Engine/CrateApp.cpp)

A shallow embedding of `CrateApp::BuildRenderItems`, the procedural pass that
fills `mAllRitems` with one render item per block of the four terrain
quadrants and of the trees of the grass quadrant, and of the calls that follow
it: `Initialize`, `Update` and `Draw`, as far as the render lists, the choice
of pipeline state, the ring of frame resources, the constants copied to the
upload buffers and the cycle of day and night go.

* C `int` values are `Int`; no value of the generator leaves the `int` range.
* `rand()` is a stream `rng : Nat → Nat`: the `k`-th call returns `rng k`.
  "For every sequence of random draws" is "for every `rng`".
* `bool ar1[80][50][50]` is represented by the list of the index triples whose
  entry holds `true` (every entry starts `false`, and the only store is
  `= true`).  Loads and stores check the declared bounds and return `Option`.
* An access to `ar1` outside its declared bounds has no defined behaviour in
  C++.  The compiled program computes an address all the same: the 200000
  entries of `ar1` are contiguous, and `ar1[a][j][i]` addresses entry number
  `a * 2500 + j * 50 + i`.  The generator does what the program does: a store
  outside the declared bounds sets the entry at that address, which a later
  search reads back under the subscripts of its own, and the access is
  recorded in the history field `faults`.  A store whose address is beyond
  the last entry (first index 79 or 80 only) leaves the array: it is recorded,
  and what it overwrites is no variable of this model; no search reads it,
  every load being within the declared bounds.  The generation is a total
  function of the stream of draws; a run is free of such accesses exactly when
  its `faults` is empty.
* The history fields `trees` and `faults` are not variables of the source.
  No branch of the generator reads them.
* The application state `App` holds the members that `Update` and `Draw` read
  and write for the render lists, the flags, the fences, the materials, the
  pass constants and the light.  A pointer is the position of its target in
  the owning vector.  A call has no result (`none`) when it would dereference
  a null pointer, index a vector out of range, write a record outside an
  upload buffer, or wait for a fence value that is never signalled.
* The headers of the framework (`UploadBuffer`, `FrameResource`, `Material`,
  `Camera`, `d3dUtil`) are not under src/.  An upload buffer is a number of
  records and their contents; what `Camera::Walk` and `Camera::Strafe` do to
  the position of the camera is an input of `Update`.
* The floats of the camera, the light, the sky colour and the materials are
  exact rationals: the claims on them are claims on the exact arithmetic.
* The GPU is the field `completed`, the value of `GetCompletedValue()`: it only
  grows, and never beyond the last fence value signalled.  How far it grows
  between two calls of `Update` is an input of the call.
* The fence counter is a `Nat`; the wrap of the 64-bit counter is out of reach.
-/

namespace CrateApp

/-! ## Data model -/

/-- The ten materials of `BuildMaterials`, by the key under which `mMaterials` holds them. -/
inductive Material where
  | dirt | bedrock | stone | grass | wood | leaves | iron | gravel | sand | water
  deriving DecidableEq, Repr

/-- The fields of `struct RenderItem` that `BuildRenderItems` sets per block.
`World` is the translation `(x, y, z)` of `XMMatrixTranslation`; the geometry,
topology and draw arguments are the same for every block and are left out. -/
structure RenderItem where
  World : Int × Int × Int
  NumFramesDirty : Int := 3
  ObjCBIndex : Nat
  Mat : Material
  deriving DecidableEq, Repr

/-- The truth content of `bool ar1[80][50][50]`: the triples `(a, j, k)` with `ar1[a][j][k] == true`. -/
abbrev Ar1 := List (Int × Int × Int)

/-- The declared bounds of `ar1[80][50][50]`. -/
def ar1InBounds (a j k : Int) : Prop :=
  0 ≤ a ∧ a < 80 ∧ 0 ≤ j ∧ j < 50 ∧ 0 ≤ k ∧ k < 50

instance (a j k : Int) : Decidable (ar1InBounds a j k) := by
  unfold ar1InBounds; infer_instance

/-- The load `ar1[a][j][k]`; `none` when an index is outside the declared bounds. -/
def ar1Get (ar : Ar1) (a j k : Int) : Option Bool :=
  if ar1InBounds a j k then some (decide ((a, j, k) ∈ ar)) else none

/-- The store `ar1[a][j][k] = true`; `none` when an index is outside the declared bounds. -/
def ar1Set (ar : Ar1) (a j k : Int) : Option Ar1 :=
  if ar1InBounds a j k then some ((a, j, k) :: ar) else none

/-- A history record of one execution of the tree-building branch (line 1508):
the anchor cell, the height draw `random` of the anchor column, the value of
`treeCount` used as first index of the marking loop (line 1659), and the
value of `index` when the first block of the tree was created.  The record is
not a variable of the source; it names what the claims call "a placed tree". -/
structure Tree where
  x : Int
  z : Int
  random : Int
  slot : Int
  first : Nat
  deriving DecidableEq, Repr

/-- The variables of `BuildRenderItems` (`treeCount`, `index`, `random`, `ar1`),
the member `mAllRitems`, the number of `rand()` calls made so far, and two
history fields: the trees placed, oldest first, and the accesses to `ar1` that
fell outside its declared bounds. -/
structure Gen where
  calls : Nat
  treeCount : Int
  index : Nat
  random : Int
  ar1 : Ar1
  mAllRitems : List RenderItem
  trees : List Tree
  faults : List (Int × Int × Int)

/-- The state at line 1388: counters zero, every entry of `ar1` false (lines 1376-1386),
`mAllRitems` empty. -/
def Gen.init : Gen :=
  { calls := 0, treeCount := 0, index := 0, random := 0, ar1 := [],
    mAllRitems := [], trees := [], faults := [] }

/-! ## Control structure -/

/-- The loop `for (int k = lo; k < hi; k++) body`. -/
def forUp {σ : Type} (lo hi : Int) (body : Int → σ → σ) (s : σ) : σ :=
  (List.range (hi - lo).toNat).foldl (fun acc (n : Nat) => body (lo + (n : Int)) acc) s

/-- The loop `for (int k = hi; k > lo; k--) body`. -/
def forDown {σ : Type} (hi lo : Int) (body : Int → σ → σ) (s : σ) : σ :=
  (List.range (hi - lo).toNat).foldl (fun acc (n : Nat) => body (hi - (n : Int)) acc) s

/-- One call of `rand()`: the value drawn and the state after the call. -/
def rand (rng : Nat → Nat) (s : Gen) : Int × Gen :=
  ((rng s.calls : Int), { s with calls := s.calls + 1 })

/-- The nine statements that create one block: a render item translated to
`(x, y, z)` with `ObjCBIndex = index` and the given material is appended to
`mAllRitems`, then `index++`. -/
def pushBlock (x y z : Int) (m : Material) (s : Gen) : Gen :=
  { s with
    mAllRitems := s.mAllRitems ++ [{ World := (x, y, z), ObjCBIndex := s.index, Mat := m }],
    index := s.index + 1 }

/-! ## Terrain columns -/

/-- The branch `else if (y > 0 && y < 4)` (lines 1412-1459, and the same text in
every other quadrant): gravel when `rand() % 5 + 1 == 2`, else iron when
`rand() % 10 + 1 == 2`, else stone. -/
def lowLayer (rng : Nat → Nat) (x y z : Int) (s : Gen) : Gen :=
  let d1 := rand rng s
  if d1.1 % 5 + 1 = 2 then pushBlock x y z .gravel d1.2
  else
    let d2 := rand rng d1.2
    if d2.1 % 10 + 1 = 2 then pushBlock x y z .iron d2.2
    else pushBlock x y z .stone d2.2

/-- The body of a layer loop.  The five layer loops of the source (lines
1394-1491, 1679-1776, 1781-1878, 1889-1986, 1994-2091) are the same if-chain:
bedrock at `y == 0`, the low layers for `y > 0 && y < 4`, then a cap test with
the cap material, and dirt otherwise.  They differ in the cap test `cap` and
the cap material `capMat` only. -/
def layer (rng : Nat → Nat) (cap : Int → Bool) (capMat : Material) (x z y : Int) (s : Gen) : Gen :=
  if y = 0 then pushBlock x y z .bedrock s
  else if 0 < y ∧ y < 4 then lowLayer rng x y z s
  else if cap y then pushBlock x y z capMat s
  else pushBlock x y z .dirt s

/-- The cap test of the grass quadrant (line 1461). -/
def grassCap (random : Int) (y : Int) : Bool :=
  (random = 2 ∧ y = 9) ∨ (random = 1 ∧ y = 8)

/-- The cap tests `y == 9`, `y == 8` of the sand and water quadrants (lines 1746, 1848, 2061). -/
def flatCap (top : Int) (y : Int) : Bool :=
  decide (y = top)

/-- The cap test of the gravel quadrant (line 1956). -/
def gravelCap (random : Int) (y : Int) : Bool :=
  (random = 1 ∧ y = 8) ∨ (random = 2 ∧ (y = 9 ∨ y = 8)) ∨ (random = 3 ∧ (y = 10 ∨ y = 9 ∨ y = 8))

/-! ## Trees -/

/-- The entry of `ar1` at the address of `ar1[a][j][i]`.  The 200000 entries of
`bool ar1[80][50][50]` are contiguous and the subscripts `a`, `j`, `i` address entry
number `a * 2500 + j * 50 + i`, whether or not each of them is within its declared bound.
The result is that entry, named by its subscripts within the declared bounds; `none`
when the address is outside the array. -/
def ar1Entry (a j i : Int) : Option (Int × Int × Int) :=
  let n := a * 2500 + j * 50 + i
  if 0 ≤ n ∧ n < 200000 then some (n / 2500, n % 2500 / 50, n % 50) else none

/-- The store `ar1[a][j][i] = true` of line 1659.  Within the declared bounds it is
`ar1Set`.  Outside them the access is recorded in `faults`, and the entry at the address
of `ar1[a][j][i]` becomes true when that address is within the array: `ar1[2][9][51]` is
the entry `ar1[2][10][1]`, and `ar1[2][-1][20]` is the entry `ar1[1][49][20]`.  A store
beyond the last entry of the array is recorded only. -/
def store (a j i : Int) (s : Gen) : Gen :=
  match ar1Set s.ar1 a j i with
  | some ar => { s with ar1 := ar }
  | none =>
    match ar1Entry a j i with
    | some e => { s with ar1 := e :: s.ar1, faults := s.faults ++ [(a, j, i)] }
    | none => { s with faults := s.faults ++ [(a, j, i)] }

/-- The search of lines 1501-1506: `isTree` becomes true when some `ar1[a][x][z]`,
`a < 80`, is true.  The first component is `isTree`. -/
def scanTrees (x z : Int) (s : Gen) : Bool × Gen :=
  forUp 0 80 (fun a p =>
    match ar1Get p.2.ar1 a x z with
    | some true => (true, p.2)
    | some false => p
    | none => (p.1, { p.2 with faults := p.2.faults ++ [(a, x, z)] })) (false, s)

/-- The marking loops of lines 1657-1661. -/
def markFootprint (x z : Int) (s : Gen) : Gen :=
  forDown (z + 2) (z - 1) (fun i s1 =>
    forUp (x - 2) (x + 3) (fun j s2 => store s2.treeCount j i s2) s1) s

/-- The twelve blocks of lines 1510-1652, in the order of the source (`boxRitem`,
`boxR2item`, ..., `boxR12item`): three wood blocks, then nine leaves blocks. -/
def treeBlocks (x z : Int) (s : Gen) : Gen :=
  let r := s.random
  s |> pushBlock x (r + 8) z .wood
    |> pushBlock x (r + 9) z .wood
    |> pushBlock x (r + 10) z .wood
    |> pushBlock (x + 1) (r + 10) z .leaves
    |> pushBlock (x + 1) (r + 10) (z + 1) .leaves
    |> pushBlock x (r + 10) (z + 1) .leaves
    |> pushBlock (x - 1) (r + 10) (z + 1) .leaves
    |> pushBlock (x - 1) (r + 10) z .leaves
    |> pushBlock (x - 1) (r + 10) (z - 1) .leaves
    |> pushBlock x (r + 10) (z - 1) .leaves
    |> pushBlock (x + 1) (r + 10) (z - 1) .leaves
    |> pushBlock x (r + 11) z .leaves

/-- The branch `if (!isTree)` (lines 1508-1663): the twelve blocks, `treeCount++`,
then the marking loops.  The history record of the tree is appended between. -/
def placeTree (x z : Int) (s : Gen) : Gen :=
  let s1 := treeBlocks x z s
  let s2 := { s1 with treeCount := s1.treeCount + 1 }
  let s3 := { s2 with
    trees := s2.trees ++ [{ x := x, z := z, random := s.random, slot := s2.treeCount, first := s.index }] }
  markFootprint x z s3

/-- The tree part of a grass cell (lines 1493-1668). -/
def treeStep (rng : Nat → Nat) (x z : Int) (s : Gen) : Gen :=
  if s.treeCount < 80 then
    let d := rand rng s
    if d.1 % 20 = 4 then
      if 0 < x ∧ x < 50 then
        if 0 < z ∧ z < 50 then
          let chk := scanTrees x z d.2
          if !chk.1 then placeTree x z chk.2 else chk.2
        else d.2
      else d.2
    else d.2
  else s

/-! ## The four quadrants -/

/-- The body of the grass loops for one cell (lines 1392-1668). -/
def grassCell (rng : Nat → Nat) (z x : Int) (s : Gen) : Gen :=
  let d := rand rng s
  let s1 := { d.2 with random := d.1 % 2 + 1 }
  let s2 := forUp 0 (s1.random + 8) (layer rng (grassCap s1.random) .grass x z) s1
  treeStep rng x z s2

/-- The body of the sand loops for one cell (lines 1675-1879). -/
def sandCell (rng : Nat → Nat) (z x : Int) (s : Gen) : Gen :=
  let d := rand rng s
  let s1 : Gen := { d.2 with random := d.1 % 10 + 1 }
  if s1.random == 2 then
    forUp 0 10 (layer rng (flatCap 9) .sand x z) s1
  else
    forUp 0 9 (layer rng (flatCap 8) .sand x z) s1

/-- The body of the gravel loops for one cell (lines 1887-1986). -/
def gravelCell (rng : Nat → Nat) (z x : Int) (s : Gen) : Gen :=
  let d := rand rng s
  let s1 := { d.2 with random := d.1 % 3 + 1 }
  forUp 0 (s1.random + 8) (layer rng (gravelCap s1.random) .gravel x z) s1

/-- The body of the water loops for one cell (lines 1994-2091). -/
def waterCell (rng : Nat → Nat) (z x : Int) (s : Gen) : Gen :=
  forUp 0 9 (layer rng (flatCap 8) .water x z) s

/-- Grass quadrant (lines 1389-1670). -/
def grassQuadrant (rng : Nat → Nat) (s : Gen) : Gen :=
  forUp 0 50 (fun z s1 => forUp 0 50 (grassCell rng z) s1) s

/-- Sand quadrant (lines 1673-1881). -/
def sandQuadrant (rng : Nat → Nat) (s : Gen) : Gen :=
  forUp 50 100 (fun z s1 => forUp 50 100 (sandCell rng z) s1) s

/-- Gravel quadrant (lines 1885-1988). -/
def gravelQuadrant (rng : Nat → Nat) (s : Gen) : Gen :=
  forUp 0 50 (fun z s1 => forUp 50 100 (gravelCell rng z) s1) s

/-- Water quadrant (lines 1992-2093). -/
def waterQuadrant (rng : Nat → Nat) (s : Gen) : Gen :=
  forUp 50 100 (fun z s1 => forUp 0 50 (waterCell rng z) s1) s

/-- The generation pass of `CrateApp::BuildRenderItems` (lines 1362-2093): the
state after the four pairs of loops, in the order grass, sand, gravel, water. -/
def BuildRenderItems (rng : Nat → Nat) : Gen :=
  waterQuadrant rng (gravelQuadrant rng (sandQuadrant rng (grassQuadrant rng Gen.init)))

/-! ## Observations on the generated world -/

/-- The materials of the render items selected by a test on position and material, in creation order. -/
def matsWhere (q : Int × Int × Int → Material → Bool) (items : List RenderItem) : List Material :=
  (items.filter (fun it => q it.World it.Mat)).map (fun it => it.Mat)

/-- The materials of all render items at position `(x, y, z)`. -/
def blocksAt (items : List RenderItem) (x y z : Int) : List Material :=
  matsWhere (fun w _ => decide (w = (x, y, z))) items

/-- A terrain block is a block of a terrain column: any material but wood and leaves. -/
def isTerrain (m : Material) : Bool :=
  m != .wood && m != .leaves

/-- The materials of the terrain blocks at position `(x, y, z)`. -/
def terrainAt (items : List RenderItem) (x y z : Int) : List Material :=
  matsWhere (fun w m => decide (w = (x, y, z)) && isTerrain m) items

/-- The render item that `pushBlock` creates. -/
def mkItem (x y z : Int) (i : Nat) (m : Material) : RenderItem :=
  { World := (x, y, z), ObjCBIndex := i, Mat := m }

/-- The render items of a column of `h` layers at cell `(x, z)`, the first with slot index `i0`,
layer `n` having material `mat n`. -/
def columnItems (x z : Int) (i0 : Nat) (mat : Int → Material) (h : Nat) : List RenderItem :=
  (List.range h).map (fun (n : Nat) => mkItem x (n : Int) z (i0 + n) (mat (n : Int)))

/-- The material rule of a layer loop with cap test `cap` and cap material `capMat`. -/
def LayerRule (cap : Int → Bool) (capMat : Material) (mat : Int → Material) : Prop :=
  mat 0 = .bedrock ∧
  (∀ y, 0 < y → y < 4 → mat y = .gravel ∨ mat y = .iron ∨ mat y = .stone) ∧
  (∀ y, 4 ≤ y → mat y = if cap y then capMat else .dirt)

/-- The twelve render items of a tree anchored at `(x, z)` on a column of height draw `r`,
the first with slot index `i0`, in creation order. -/
def treeItems (x z r : Int) (i0 : Nat) : List RenderItem :=
  [ mkItem x (r + 8) z i0 .wood,
    mkItem x (r + 9) z (i0 + 1) .wood,
    mkItem x (r + 10) z (i0 + 2) .wood,
    mkItem (x + 1) (r + 10) z (i0 + 3) .leaves,
    mkItem (x + 1) (r + 10) (z + 1) (i0 + 4) .leaves,
    mkItem x (r + 10) (z + 1) (i0 + 5) .leaves,
    mkItem (x - 1) (r + 10) (z + 1) (i0 + 6) .leaves,
    mkItem (x - 1) (r + 10) z (i0 + 7) .leaves,
    mkItem (x - 1) (r + 10) (z - 1) (i0 + 8) .leaves,
    mkItem x (r + 10) (z - 1) (i0 + 9) .leaves,
    mkItem (x + 1) (r + 10) (z - 1) (i0 + 10) .leaves,
    mkItem x (r + 11) z (i0 + 11) .leaves ]

/-- The cells over which the marking loops of lines 1657-1661 run for a tree anchored at `(x, z)`:
`j` from `x - 2` to `x + 2`, `i` from `z + 2` down to `z`. -/
def inRect (x z : Int) (c : Int × Int) : Prop :=
  x - 2 ≤ c.1 ∧ c.1 ≤ x + 2 ∧ z ≤ c.2 ∧ c.2 ≤ z + 2

instance (x z : Int) (c : Int × Int) : Decidable (inRect x z c) := by
  unfold inRect; infer_instance

/-- The subscripts `(j, i)` of the fifteen stores `ar1[treeCount][j][i] = true` that the
marking loops of lines 1657-1661 execute for a tree anchored at `(x, z)`, in the order of
the loops: `i = z + 2, z + 1, z` outside, `j = x - 2, ..., x + 2` inside. -/
def rectCells (x z : Int) : List (Int × Int) :=
  forDown (z + 2) (z - 1) (fun i l => forUp (x - 2) (x + 3) (fun j l1 => l1 ++ [(j, i)]) l) []

/-- The entries of `ar1` that the marking pass of the tree `t` sets to true: the entry at
the address of `ar1[t.slot][j][i]` for each of the fifteen stores, as far as the address is
within the array. -/
def Tree.marks (t : Tree) : List (Int × Int × Int) :=
  (rectCells t.x t.z).filterMap (fun c => ar1Entry t.slot c.1 c.2)

/-- The exclusion footprint marked for the tree `t`: the `(x, z)` cells of the entries that
its marking pass sets to true. -/
def Tree.footprint (t : Tree) : List (Int × Int) :=
  t.marks.map (fun e => e.2)

/-- What one pass of a layer loop body does to the state: one render item is appended. -/
def LayerStep (x z y : Int) (m : Material) (s t : Gen) : Prop :=
  t.mAllRitems = s.mAllRitems ++ [mkItem x y z s.index m] ∧ t.index = s.index + 1 ∧
  s.calls ≤ t.calls ∧ t.treeCount = s.treeCount ∧ t.ar1 = s.ar1 ∧ t.trees = s.trees ∧
  t.faults = s.faults ∧ t.random = s.random

/-- What a layer loop of `h` layers does to the state. -/
def ColumnStep (cap : Int → Bool) (capMat : Material) (x z : Int) (h : Nat) (s t : Gen) : Prop :=
  ∃ mat, LayerRule cap capMat mat ∧
    t.mAllRitems = s.mAllRitems ++ columnItems x z s.index mat h ∧ t.index = s.index + h ∧
    s.calls ≤ t.calls ∧ t.treeCount = s.treeCount ∧ t.ar1 = s.ar1 ∧ t.trees = s.trees ∧
    t.faults = s.faults ∧ t.random = s.random

/-- What a layer loop does to the variables of the cell that started it: `ColumnStep` without
the clause on `random`. -/
def CellStep (cap : Int → Bool) (capMat : Material) (x z : Int) (h : Nat) (s t : Gen) : Prop :=
  ∃ mat, LayerRule cap capMat mat ∧
    t.mAllRitems = s.mAllRitems ++ columnItems x z s.index mat h ∧ t.index = s.index + h ∧
    s.calls ≤ t.calls ∧ t.treeCount = s.treeCount ∧ t.ar1 = s.ar1 ∧ t.trees = s.trees ∧
    t.faults = s.faults

/-- The stores of a marking pass over the subscripts selected by `B`, with first index `a0`:
every field but `ar1` and `faults` is unchanged, the entries at the addresses of the stores
are added to `ar1`, and the stores outside the declared bounds to `faults`. -/
def MarkedBy (a0 : Int) (B : Int → Int → Prop) (s t : Gen) : Prop :=
  t.calls = s.calls ∧ t.treeCount = s.treeCount ∧ t.index = s.index ∧ t.random = s.random ∧
  t.mAllRitems = s.mAllRitems ∧ t.trees = s.trees ∧
  (∀ e, e ∈ t.ar1 ↔ e ∈ s.ar1 ∨ ∃ j i, B j i ∧ ar1Entry a0 j i = some e) ∧
  (∀ a j i, (a, j, i) ∈ t.faults ↔ (a, j, i) ∈ s.faults ∨ (a = a0 ∧ B j i ∧ ¬ ar1InBounds a j i))

/-- The tree part of a grass cell left the world as it was (at most one draw was consumed). -/
def Idle (s t : Gen) : Prop :=
  s.calls ≤ t.calls ∧ t.treeCount = s.treeCount ∧ t.index = s.index ∧ t.random = s.random ∧
  t.mAllRitems = s.mAllRitems ∧ t.trees = s.trees ∧ t.ar1 = s.ar1 ∧ t.faults = s.faults

/-- The tree part of a grass cell placed a tree at `(x, z)`. -/
def Placed (x z : Int) (s t : Gen) : Prop :=
  s.treeCount < 80 ∧ 0 < x ∧ x < 50 ∧ 0 < z ∧ z < 50 ∧
  (∀ a, 0 ≤ a → a < 80 → (a, x, z) ∉ s.ar1) ∧
  s.calls ≤ t.calls ∧ t.treeCount = s.treeCount + 1 ∧ t.index = s.index + 12 ∧
  t.random = s.random ∧
  t.mAllRitems = s.mAllRitems ++ treeItems x z s.random s.index ∧
  t.trees = s.trees ++
    [{ x := x, z := z, random := s.random, slot := s.treeCount + 1, first := s.index }] ∧
  (∀ e, e ∈ t.ar1 ↔
    e ∈ s.ar1 ∨ ∃ j i, inRect x z (j, i) ∧ ar1Entry (s.treeCount + 1) j i = some e) ∧
  (∀ a j i, (a, j, i) ∈ t.faults ↔
    (a, j, i) ∈ s.faults ∨ (a = s.treeCount + 1 ∧ inRect x z (j, i) ∧ ¬ ar1InBounds a j i))

/-- What the tree part of a grass cell does: nothing to the world, or one tree. -/
def TreeStep (x z : Int) (s t : Gen) : Prop :=
  Idle s t ∨ Placed x z s t

/-- What the body of the grass loops does for the cell `(x, z)`: the height draw `r`, the
column of `r + 8` layers, then the tree part, which places no tree unless its draw is 4
modulo 20. -/
def GrassCellStep (rng : Nat → Nat) (x z : Int) (s t : Gen) : Prop :=
  ∃ r u, r = ((rng s.calls : Nat) : Int) % 2 + 1 ∧ (r = 1 ∨ r = 2) ∧
    CellStep (grassCap r) .grass x z (r + 8).toNat s u ∧ u.random = r ∧ TreeStep x z u t ∧
    (((rng u.calls : Nat) : Int) % 20 ≠ 4 → Idle u t)

/-- What the body of the sand loops does for the cell `(x, z)`. -/
def SandCellStep (rng : Nat → Nat) (x z : Int) (s t : Gen) : Prop :=
  ∃ r, r = ((rng s.calls : Nat) : Int) % 10 + 1 ∧ 1 ≤ r ∧ r ≤ 10 ∧
    ((r = 2 ∧ CellStep (flatCap 9) .sand x z 10 s t) ∨
     (r ≠ 2 ∧ CellStep (flatCap 8) .sand x z 9 s t))

/-- What the body of the gravel loops does for the cell `(x, z)`. -/
def GravelCellStep (rng : Nat → Nat) (x z : Int) (s t : Gen) : Prop :=
  ∃ r, r = ((rng s.calls : Nat) : Int) % 3 + 1 ∧ (r = 1 ∨ r = 2 ∨ r = 3) ∧
    CellStep (gravelCap r) .gravel x z (r + 8).toNat s t

/-- What the body of the water loops does for the cell `(x, z)`. -/
def WaterCellStep (x z : Int) (s t : Gen) : Prop :=
  CellStep (flatCap 8) .water x z 9 s t

/-- The relation between a tree `S` and a tree `T` placed after it: the marking slot of `T` is
larger, the anchor of `T` lies outside the rectangle over which the marking loops ran for `S`,
the anchor of `T` comes after the anchor of `S` in the order in which the grass loops visit the
cells (`z` outer, `x` inner), and the anchor of `T` is not a cell of the footprint marked for
`S`. -/
def TreeOrder (S T : Tree) : Prop :=
  S.slot < T.slot ∧ ¬ inRect S.x S.z (T.x, T.z) ∧ (S.z < T.z ∨ (S.z = T.z ∧ S.x < T.x)) ∧
  (T.x, T.z) ∉ S.footprint

/-- The invariant of the generation on the tree bookkeeping: `index` is the number of render
items; `treeCount` is the number of trees placed and at most 80; every placed tree is anchored
strictly inside the grass quadrant, on a column of height draw 1 or 2, its slot lies between 1
and `treeCount`, and its twelve blocks are the render items from position `first`; an entry
of `ar1` is true exactly when the marking pass of a placed tree has set it; the trees are in
`TreeOrder`. -/
def TreeInv (s : Gen) : Prop :=
  s.index = s.mAllRitems.length ∧
  (0 ≤ s.treeCount ∧ s.treeCount ≤ 80 ∧ s.treeCount = (s.trees.length : Int)) ∧
  (∀ t ∈ s.trees, 0 < t.x ∧ t.x < 50 ∧ 0 < t.z ∧ t.z < 50 ∧ (t.random = 1 ∨ t.random = 2) ∧
    1 ≤ t.slot ∧ t.slot ≤ s.treeCount ∧ t.first + 12 ≤ s.mAllRitems.length ∧
    (s.mAllRitems.drop t.first).take 12 = treeItems t.x t.z t.random t.first) ∧
  (∀ e, e ∈ s.ar1 ↔ ∃ t ∈ s.trees, e ∈ t.marks) ∧
  s.trees.Pairwise TreeOrder

/-- Every tree placed so far is anchored at a cell that the grass loops visit before `(x, z)`. -/
def Visited (z x : Int) (s : Gen) : Prop :=
  ∀ t ∈ s.trees, t.z < z ∨ (t.z = z ∧ t.x < x)

/-- The state of the generation when the grass loops are about to run the cell `(x, z)`
(with `x = 50`: when row `z` is finished). -/
def grassUpTo (rng : Nat → Nat) (z x : Int) : Gen :=
  forUp 0 x (grassCell rng z) (forUp 0 z (fun z1 s1 => forUp 0 50 (grassCell rng z1) s1) Gen.init)

/-- The state of the generation when the sand loops are about to run the cell `(x, z)`. -/
def sandUpTo (rng : Nat → Nat) (z x : Int) : Gen :=
  forUp 50 x (sandCell rng z)
    (forUp 50 z (fun z1 s1 => forUp 50 100 (sandCell rng z1) s1) (grassQuadrant rng Gen.init))

/-- The state of the generation when the gravel loops are about to run the cell `(x, z)`. -/
def gravelUpTo (rng : Nat → Nat) (z x : Int) : Gen :=
  forUp 50 x (gravelCell rng z)
    (forUp 0 z (fun z1 s1 => forUp 50 100 (gravelCell rng z1) s1)
      (sandQuadrant rng (grassQuadrant rng Gen.init)))

/-- The state of the generation when the water loops are about to run the cell `(x, z)`. -/
def waterUpTo (rng : Nat → Nat) (z x : Int) : Gen :=
  forUp 0 x (waterCell rng z)
    (forUp 50 z (fun z1 s1 => forUp 0 50 (waterCell rng z1) s1)
      (gravelQuadrant rng (sandQuadrant rng (grassQuadrant rng Gen.init))))

/-- The value that line 1393, `random = rand() % 2 + 1`, assigns for the grass cell `(x, z)`:
the height draw of the cell. -/
def grassRandom (rng : Nat → Nat) (x z : Int) : Int :=
  (rand rng (grassUpTo rng z x)).1 % 2 + 1

/-- The value that line 1676, `random = rand() % 10 + 1`, assigns for the sand cell `(x, z)`:
the height roll of the cell. -/
def sandRandom (rng : Nat → Nat) (x z : Int) : Int :=
  (rand rng (sandUpTo rng z x)).1 % 10 + 1

/-- The value that line 1888, `random = rand() % 3 + 1`, assigns for the gravel cell `(x, z)`:
the height draw of the cell. -/
def gravelRandom (rng : Nat → Nat) (x z : Int) : Int :=
  (rand rng (gravelUpTo rng z x)).1 % 3 + 1

/-- The state of the generation when the layer loop of the cell `(x, z)` is about to run the
layer `y`: the body of the loops of the quadrant of the cell, run from the state in which the
loops reach the cell, its layer loop stopped before the layer `y`. -/
def layerStart (rng : Nat → Nat) (x z y : Int) : Gen :=
  if x < 50 then
    if z < 50 then
      let d := rand rng (grassUpTo rng z x)
      let s1 := { d.2 with random := d.1 % 2 + 1 }
      forUp 0 y (layer rng (grassCap s1.random) .grass x z) s1
    else
      forUp 0 y (layer rng (flatCap 8) .water x z) (waterUpTo rng z x)
  else
    if z < 50 then
      let d := rand rng (gravelUpTo rng z x)
      let s1 := { d.2 with random := d.1 % 3 + 1 }
      forUp 0 y (layer rng (gravelCap s1.random) .gravel x z) s1
    else
      let d := rand rng (sandUpTo rng z x)
      let s1 : Gen := { d.2 with random := d.1 % 10 + 1 }
      if s1.random == 2 then
        forUp 0 y (layer rng (flatCap 9) .sand x z) s1
      else
        forUp 0 y (layer rng (flatCap 8) .sand x z) s1

/-- A stream of draws under which the tree draw succeeds at the cells (3, 1) and (6, 1) only:
every draw is 0 (every height draw is 1, every low layer is stone, no tree), so every cell
consumes 8 draws, the last one being the tree draw; the tree draws of the 54th and the 57th
cell visited, the draws number 431 and 455, are 4. -/
def rngTwo (k : Nat) : Nat :=
  if k = 431 ∨ k = 455 then 4 else 0

/-- The number of render items of a material. -/
def countMat (m : Material) (items : List RenderItem) : Nat :=
  (matsWhere (fun _ m' => decide (m' = m)) items).length

/-- The object indices of the items created so far are 0, 1, 2, ... in creation order, and
the running index is the number of items. -/
def Dense (s : Gen) : Prop :=
  s.index = s.mAllRitems.length ∧
  s.mAllRitems.map (fun it => it.ObjCBIndex) = List.range s.mAllRitems.length

/-- A stream of draws under which the tree draw succeeds at the cell (1, 1) only: every draw
is 0 but the tree draw of the 52nd cell visited, the draw number 415, which is 4. -/
def rngEdge (k : Nat) : Nat :=
  if k = 415 then 4 else 0

/-- A stream of draws under which the tree draw succeeds at the cells (1, 1) and (49, 1) only:
every draw is 0 but the draws number 415 and 799, which are 4. -/
def rngAlias (k : Nat) : Nat :=
  if k = 415 ∨ k = 799 then 4 else 0

/-- A stream of draws under which the tree draw succeeds at the cell (49, 1) only: every draw
is 0 but the tree draw of the 100th cell visited, the draw number 799, which is 4. -/
def rngBorder (k : Nat) : Nat :=
  if k = 799 then 4 else 0

/-! ## The application: render lists, pipeline states, the ring of frame resources -/

/-- The number of frame resources (line 23). -/
def gNumFrameResources : Nat := 3

/-- The render layers (`enum class RenderLayer`, lines 57-64), without the count. -/
inductive RenderLayer where
  | Opaque | Mirrors | Reflected | Transparent | Shadow
  deriving DecidableEq, Repr

/-- The pipeline states that `BuildPSOs` stores in the map `mOpaquePSO` (lines 1201-1234),
named by their keys; `opaque_solid` is the state stored under the key "opaque". -/
inductive PSO where
  | opaque_solid | opaque_wireframe | opaque_cullfront | opaque_cullnone | transparent
  deriving DecidableEq, Repr

/-- Whether a pipeline state blends (line 1222: `BlendEnable = true` is set in the
description of "transparent" only; the others keep the default blend state). -/
def PSO.BlendEnable : PSO → Bool
  | .transparent => true
  | _ => false

/-- The commands recorded in `mCommandList` that are followed here: the reset of the list,
which sets its initial pipeline state, and the indexed draw of a render item (`ri` is the
render item bound for the draw, given by its position in `mAllRitems`; the second argument of
`DrawIndexedInstanced` is the instance count).  Viewport, barriers, clears and bindings are not
recorded. -/
inductive Cmd where
  | Reset (pso : PSO)
  | DrawIndexedInstanced (ri : Nat) (InstanceCount : Nat)
  deriving DecidableEq, Repr

/-- `XMFLOAT3`.  The floats of the camera, of the light, of the sky colour and of the materials
are taken as exact rationals. -/
abbrev XMFLOAT3 := ℚ × ℚ × ℚ

/-- `XMFLOAT4`, with exact rationals for the floats. -/
abbrev XMFLOAT4 := ℚ × ℚ × ℚ × ℚ

/-- Modelled from the spec: the template `UploadBuffer` (Common/UploadBuffer.h is not under
src/), "a GPU-visible upload region" of `count` records, written one record at a time at "the
entity's fixed index".  A record never written is `none`.  `writes` is a history field: how
often each record has been written. -/
structure UploadBuffer (α : Type) where
  count : Nat
  data : Nat → Option α
  writes : Nat → Nat

/-- Modelled from the spec: `UploadBuffer::CopyData(elementIndex, data)` writes the record
`elementIndex`; a write outside the `count` records of the buffer has no result. -/
def UploadBuffer.CopyData {α : Type} (b : UploadBuffer α) (elementIndex : Nat) (x : α) :
    Option (UploadBuffer α) :=
  if elementIndex < b.count then
    some { b with
      data := fun i => if i = elementIndex then some x else b.data i,
      writes := fun i => if i = elementIndex then b.writes i + 1 else b.writes i }
  else none

/-- Modelled from the spec: `struct Material` (Common/d3dUtil.h is not under src/), by the
members that `BuildMaterials`, `AnimateMaterials`, `UpdateMaterialCBs` and `DrawRenderItems`
use: "slot index into the material constant buffer, slot index into the shader-visible texture
descriptor table, diffuse color, Fresnel reflectance, roughness scalar, a UV transform matrix,
and a dirty countdown".  `MatTransform` is given by its entries (3,0) and (3,1), the only ones
that are written; the countdown of a new material is the ring depth, as for a render item
(line 42).  The name `Material` is that of the keys of `mMaterials` here. -/
structure MaterialData where
  MatCBIndex : Nat
  DiffuseSrvHeapIndex : Nat
  DiffuseAlbedo : XMFLOAT4
  FresnelR0 : XMFLOAT3
  Roughness : ℚ
  NumFramesDirty : Int := 3
  MatTransform : ℚ × ℚ := (0, 0)

/-- The members of `MaterialConstants` that `UpdateMaterialCBs` sets (lines 725-729). -/
structure MaterialConstants where
  DiffuseAlbedo : XMFLOAT4
  FresnelR0 : XMFLOAT3
  Roughness : ℚ
  MatTransform : ℚ × ℚ

/-- The members of `PassConstants` that `UpdateMainPassCB` takes from the eye position and
from the light (lines 758, 766-782); the matrices, which it takes from `mCamera`, the sizes and
the times are left out. -/
structure PassConstants where
  EyePosW : XMFLOAT3 := (0, 0, 0)
  AmbientLight : XMFLOAT4 := (0, 0, 0, 1)
  Lights0Direction : XMFLOAT3 := (0, -1, 0)
  Lights0Strength : XMFLOAT3 := (1/2, 1/2, 1/2)

/-- The camera `mCamera`, by its position. -/
structure Camera where
  mPosition : XMFLOAT3 := (0, 0, 0)

/-- The members of `CrateApp` of the cycle of day and night (lines 161-175), with their
initial values. -/
structure DayCycle where
  lightAngle : ℚ := 0
  angleIncrease : ℚ := 1 / 100
  ambientStrength : XMFLOAT4 := (1, 1, 1, 1)
  ambientIncrease : XMFLOAT4 :=
    (ambientStrength.1 * angleIncrease, ambientStrength.2.1 * angleIncrease,
      ambientStrength.2.2.1 * angleIncrease, ambientStrength.2.2.2 * angleIncrease)
  sunStrength : XMFLOAT3 := (6 / 10, 6 / 10, 8 / 100)
  colourChange : ℚ := (1 / 2) / angleIncrease
  red : ℚ := 0
  green : ℚ := 749019623 / 1000000000
  blue : ℚ := 1

/-- A frame resource, as far as `CrateApp` reads and writes it: the fence value and the three
upload buffers (the object constants of a render item are given by its `World`). -/
structure FrameResource where
  Fence : Nat
  PassCB : UploadBuffer PassConstants
  MaterialCB : UploadBuffer MaterialConstants
  ObjectCB : UploadBuffer (Int × Int × Int)

/-- The members of `CrateApp` (lines 83-86, 122-179) and of its base class that the render
lists, the choice of pipeline state, the ring of frame resources and the constants of the
frame depend on.  A pointer to a render item is the position of the item in `mAllRitems`, a
pointer to a frame resource is its position in `mFrameResources`, a null pointer is `none`.
`completed` is the value of `mFence->GetCompletedValue()`: the last fence value that the GPU
has reached.  `mMaterials` maps a key to its material, `none` for a key that the map does not
hold; the members of the cycle of day and night are those of `cycle`. -/
structure App where
  debugMode : Bool := false
  cullFront : Bool := false
  cullNone : Bool := false
  isBuilt : Bool := false
  mFrameResources : List FrameResource := []
  mCurrFrameResource : Option Nat := none
  mCurrFrameResourceIndex : Nat := 0
  mAllRitems : List RenderItem := []
  mOpaqueRitems : List Nat := []
  mRitemLayer : RenderLayer → List Nat := fun _ => []
  mCommandList : List Cmd := []
  mCurrentFence : Nat
  completed : Nat
  mMaterials : Material → Option MaterialData := fun _ => none
  mMainPassCB : PassConstants := {}
  mEyePos : XMFLOAT3 := (0, 0, 0)
  mCamera : Camera := {}
  cycle : DayCycle := {}
  lightingOff : Bool := false
  lightOffAmbientStrength : XMFLOAT4 := (0, 0, 0, 1)
  lightOffSunStrength : XMFLOAT3 := (0, 0, 0)

/-- The keys of the materials, in the order in which `BuildMaterials` stores them.  The loops
over `mMaterials` visit the keys that the map holds; the order in which an unordered map
yields them is not fixed, this one is taken. -/
def Material.all : List Material :=
  [.dirt, .bedrock, .stone, .grass, .wood, .leaves, .iron, .gravel, .sand, .water]

/-- The number of entries of `mMaterials` (`mMaterials.size()`). -/
def App.materialCount (a : App) : Nat :=
  (Material.all.filter (fun k => (a.mMaterials k).isSome)).length

/-- The assignment `mMaterials[key] = mat`. -/
def App.setMaterial (a : App) (key : Material) (mat : MaterialData) : App :=
  { a with mMaterials := fun k => if k = key then some mat else a.mMaterials k }

/-- A material as `BuildMaterials` sets it up: both slot indices are `i`, the albedo is white,
the Fresnel reflectance is 0.05 and the roughness 0.2 for each of the ten. -/
def newMaterial (i : Nat) : MaterialData :=
  { MatCBIndex := i, DiffuseSrvHeapIndex := i, DiffuseAlbedo := (1, 1, 1, 1),
    FresnelR0 := (5 / 100, 5 / 100, 5 / 100), Roughness := 2 / 10 }

/-- `CrateApp::BuildMaterials` (lines 1248-1359). -/
def BuildMaterials (a : App) : App :=
  let a := a.setMaterial .dirt (newMaterial 0)
  let a := a.setMaterial .bedrock (newMaterial 1)
  let a := a.setMaterial .stone (newMaterial 2)
  let a := a.setMaterial .grass (newMaterial 3)
  let a := a.setMaterial .wood (newMaterial 4)
  let a := a.setMaterial .leaves (newMaterial 5)
  let a := a.setMaterial .iron (newMaterial 6)
  let a := a.setMaterial .gravel (newMaterial 7)
  let a := a.setMaterial .sand (newMaterial 8)
  a.setMaterial .water (newMaterial 9)

/-- `CrateApp::BuildRenderItems` as a member function: the generation pass (lines 1362-2093,
`BuildRenderItems rng`) fills `mAllRitems`; then `isBuilt` is set and a pointer to every item
is pushed to `mOpaqueRitems` (lines 2095-2098). -/
def App.BuildRenderItems (rng : Nat → Nat) (a : App) : App :=
  let a1 : App :=
    { a with mAllRitems := a.mAllRitems ++ (CrateApp.BuildRenderItems rng).mAllRitems }
  let a2 : App := { a1 with isBuilt := true }
  (List.range a2.mAllRitems.length).foldl
    (fun (b : App) (e : Nat) => { b with mOpaqueRitems := b.mOpaqueRitems ++ [e] }) a2

/-- Modelled from the spec: a frame resource as its constructor leaves it (`FrameResource.h`
is not under src/), with upload buffers of `passCount`, `objectCount` and `materialCount`
records.  The fence value is 0, the value that line 272 takes as "not submitted yet" ("a ring
slot's fence value, once non-zero, must be reached by the GPU fence before the CPU reuses that
slot"), and nothing is written to the upload buffers. -/
def FrameResource.fresh (passCount objectCount materialCount : Nat) : FrameResource :=
  { Fence := 0,
    PassCB := { count := passCount, data := fun _ => none, writes := fun _ => 0 },
    MaterialCB := { count := materialCount, data := fun _ => none, writes := fun _ => 0 },
    ObjectCB := { count := objectCount, data := fun _ => none, writes := fun _ => 0 } }

/-- `CrateApp::BuildFrameResources` (lines 1238-1245): `gNumFrameResources` new frame
resources are pushed to `mFrameResources`, each with one pass record, one object record for
every render item and one material record for every material. -/
def BuildFrameResources (a : App) : App :=
  (List.range gNumFrameResources).foldl
    (fun (b : App) (_ : Nat) =>
      { b with mFrameResources := b.mFrameResources ++
          [FrameResource.fresh 1 b.mAllRitems.length b.materialCount] })
    a

/-- `CrateApp::Initialize` (lines 218-250), as far as the members above go: the materials,
the render items, then the frame resources.  `fence0` is the fence value at the end of the
function: the value that `FlushCommandQueue` of the base class signals and waits for at
line 247. -/
def Initialize (rng : Nat → Nat) (fence0 : Nat) : App :=
  let a : App := { mCurrentFence := fence0, completed := fence0 }
  BuildFrameResources ((BuildMaterials a).BuildRenderItems rng)

/-- What one call of `Update` reads from outside the program: whether the keys 1, 2, 3, W, S,
A, D, N and L are down (`GetAsyncKeyState(..) & 0x8000`), the number of fence values that the
GPU has passed since the program last looked, the time `dt` since the last frame
(`gt.DeltaTime()`), and what `Camera::Walk` and `Camera::Strafe` make of a distance and of the
position of the camera (the class `Camera` is not under src/). -/
structure Input where
  key1 : Bool
  key2 : Bool
  key3 : Bool
  gpu : Nat
  keyW : Bool := false
  keyS : Bool := false
  keyA : Bool := false
  keyD : Bool := false
  keyN : Bool := false
  keyL : Bool := false
  dt : ℚ := 0
  Walk : ℚ → XMFLOAT3 → XMFLOAT3 := fun _ p => p
  Strafe : ℚ → XMFLOAT3 → XMFLOAT3 := fun _ p => p

/-- `CrateApp::OnKeyboardInput` (lines 577-646): the camera walks and strafes with the keys W,
S, A and D, the key N switches the lighting off and the key L on, and the three flags follow
the keys 1, 2 and 3. -/
def OnKeyboardInput (inp : Input) (a : App) : App :=
  let dt := inp.dt
  let p0 := a.mCamera.mPosition
  let p1 := if inp.keyW then inp.Walk (10 * dt) p0 else p0
  let p2 := if inp.keyS then inp.Walk (-10 * dt) p1 else p1
  let p3 := if inp.keyA then inp.Strafe (-10 * dt) p2 else p2
  let p4 := if inp.keyD then inp.Strafe (10 * dt) p3 else p3
  let l1 := if inp.keyN then true else a.lightingOff
  let l2 := if inp.keyL then false else l1
  { a with
    mCamera := { mPosition := p4 },
    lightingOff := l2,
    debugMode := if inp.key1 then true else false,
    cullFront := if inp.key2 then true else false,
    cullNone := if inp.key3 then true else false }

/-- The GPU passes `n` more fence values, but none beyond the last one signalled. -/
def gpuAdvance (n : Nat) (a : App) : App :=
  { a with completed := min a.mCurrentFence (a.completed + n) }

/-- The wait of lines 274-277 for the fence value `f`: it returns when the GPU has reached
`f`, which is never when `f` was not signalled. -/
def waitForFence (f : Nat) (a : App) : Option App :=
  if f ≤ a.mCurrentFence then some { a with completed := max a.completed f } else none

/-- Lines 263-278 of `Update`: the keyboard, the step to the next frame resource, and the
wait for its fence.  No result (`none`) stands for an index outside `mFrameResources` or a wait
that never returns. -/
def acquireFrameResource (inp : Input) (a : App) : Option App :=
  let a1 := OnKeyboardInput inp a
  let a2 : App :=
    { a1 with mCurrFrameResourceIndex := (a1.mCurrFrameResourceIndex + 1) % gNumFrameResources }
  match a2.mFrameResources[a2.mCurrFrameResourceIndex]? with
  | none => none
  | some fr =>
    let a3 : App := { a2 with mCurrFrameResource := some a2.mCurrFrameResourceIndex }
    let a4 := gpuAdvance inp.gpu a3
    if fr.Fence ≠ 0 ∧ a4.completed < fr.Fence then waitForFence fr.Fence a4 else some a4

/-- `CrateApp::AnimateMaterials` (lines 664-687): the texture coordinates of the water
material scroll with the time, and its countdown is set to the ring depth.  No result when
`mMaterials` holds no water material (a null pointer is dereferenced). -/
def AnimateMaterials (inp : Input) (a : App) : Option App :=
  match a.mMaterials .water with
  | none => none
  | some waterMat =>
    let a0 := waterMat.MatTransform.1 + (1 / 10) * inp.dt
    let b0 := waterMat.MatTransform.2 + (2 / 100) * inp.dt
    let a1 := if a0 ≥ 1 then a0 - 1 else a0
    let b1 := if b0 ≥ 1 then b0 - 1 else b0
    some (a.setMaterial .water
      { waterMat with MatTransform := (a1, b1), NumFramesDirty := gNumFrameResources })

/-- The body of the loop of `UpdateObjectCBs` for the item `e`: the first component of `p`
is the upload buffer, the second the items already passed. -/
def copyObject (p : UploadBuffer (Int × Int × Int) × List RenderItem) (e : RenderItem) :
    Option (UploadBuffer (Int × Int × Int) × List RenderItem) :=
  if 0 < e.NumFramesDirty then
    match p.1.CopyData e.ObjCBIndex e.World with
    | none => none
    | some cb => some (cb, p.2 ++ [{ e with NumFramesDirty := e.NumFramesDirty - 1 }])
  else some (p.1, p.2 ++ [e])

/-- `CrateApp::UpdateObjectCBs` (lines 689-711): every item with a positive `NumFramesDirty`
is copied to the element `ObjCBIndex` of the object buffer of the current frame resource, and
its `NumFramesDirty` is decremented. -/
def UpdateObjectCBs (a : App) : Option App :=
  match a.mCurrFrameResource with
  | none => none
  | some k =>
    match a.mFrameResources[k]? with
    | none => none
    | some fr =>
      match a.mAllRitems.foldlM copyObject (fr.ObjectCB, []) with
      | none => none
      | some p =>
        some { a with
          mAllRitems := p.2,
          mFrameResources := a.mFrameResources.set k { fr with ObjectCB := p.1 } }

/-- The constants `matConstants` that `UpdateMaterialCBs` builds from a material
(lines 725-729). -/
def MaterialData.constants (mat : MaterialData) : MaterialConstants :=
  { DiffuseAlbedo := mat.DiffuseAlbedo, FresnelR0 := mat.FresnelR0,
    Roughness := mat.Roughness, MatTransform := mat.MatTransform }

/-- The body of the loop of `UpdateMaterialCBs` for the key `key`: the first component of `p`
is the upload buffer, the second the materials. -/
def copyMaterial (p : UploadBuffer MaterialConstants × (Material → Option MaterialData))
    (key : Material) :
    Option (UploadBuffer MaterialConstants × (Material → Option MaterialData)) :=
  match p.2 key with
  | none => some p
  | some mat =>
    if 0 < mat.NumFramesDirty then
      match p.1.CopyData mat.MatCBIndex mat.constants with
      | none => none
      | some cb =>
        some (cb, fun k =>
          if k = key then some { mat with NumFramesDirty := mat.NumFramesDirty - 1 }
          else p.2 k)
    else some p

/-- `CrateApp::UpdateMaterialCBs` (lines 713-737): every material with a positive
`NumFramesDirty` is copied to the element `MatCBIndex` of the material buffer of the current
frame resource, and its `NumFramesDirty` is decremented. -/
def UpdateMaterialCBs (a : App) : Option App :=
  match a.mCurrFrameResource with
  | none => none
  | some k =>
    match a.mFrameResources[k]? with
    | none => none
    | some fr =>
      match Material.all.foldlM copyMaterial (fr.MaterialCB, a.mMaterials) with
      | none => none
      | some p =>
        some { a with
          mMaterials := p.2,
          mFrameResources := a.mFrameResources.set k { fr with MaterialCB := p.1 } }

/-- `CrateApp::UpdateMainPassCB` (lines 739-786), for the members of `PassConstants` above:
the eye position is `mEyePos`, the ambient light and the strength of the first light are those
of the cycle, or those of the switched-off lighting, the direction of the first light follows
`lightAngle`; the constants are copied to the element 0 of the pass buffer of the current
frame resource. -/
def UpdateMainPassCB (a : App) : Option App :=
  let c0 := a.mMainPassCB
  let c1 : PassConstants := { c0 with EyePosW := a.mEyePos }
  let c2 : PassConstants :=
    if a.lightingOff == false then { c1 with AmbientLight := a.cycle.ambientStrength }
    else if a.lightingOff == true then { c1 with AmbientLight := a.lightOffAmbientStrength }
    else c1
  let c3 : PassConstants :=
    { c2 with Lights0Direction := (a.cycle.lightAngle, -45 / 100, 45 / 100) }
  let c4 : PassConstants :=
    if a.lightingOff == false then { c3 with Lights0Strength := a.cycle.sunStrength }
    else if a.lightingOff == true then { c3 with Lights0Strength := a.lightOffSunStrength }
    else c3
  match a.mCurrFrameResource with
  | none => none
  | some k =>
    match a.mFrameResources[k]? with
    | none => none
    | some fr =>
      match fr.PassCB.CopyData 0 c4 with
      | none => none
      | some cb =>
        some { a with
          mMainPassCB := c4,
          mFrameResources := a.mFrameResources.set k { fr with PassCB := cb } }

/-- `CrateApp::changeSunStrength` (lines 380-424). -/
def changeSunStrength (c : DayCycle) : DayCycle :=
  if c.lightAngle ≥ -3 / 10 ∧ c.lightAngle < -20 / 100 then
    { c with sunStrength :=
        (c.sunStrength.1 - 10 / 100 * c.angleIncrease * 10,
          c.sunStrength.2.1 + 35 / 100 * c.angleIncrease * 10,
          8 / 100 * c.angleIncrease * 10) }
  else if c.lightAngle ≥ 70 / 100 ∧ c.lightAngle < 80 / 100 then
    { c with sunStrength :=
        (c.sunStrength.1 - 3 / 10 * c.angleIncrease * 10,
          c.sunStrength.2.1 - 3 / 10 * c.angleIncrease * 10,
          c.sunStrength.2.2 + 22 / 100 * c.angleIncrease * 10) }
  else if c.lightAngle ≥ -75 / 100 ∧ c.lightAngle < -65 / 100 then
    { c with sunStrength :=
        (c.sunStrength.1 + 4 / 10 * c.angleIncrease * 10,
          c.sunStrength.2.1 - 5 / 100 * c.angleIncrease * 10,
          c.sunStrength.2.2 - 3 / 10 * c.angleIncrease * 10) }
  else c

/-- `CrateApp::changeLightStrength` (lines 355-378): the ambient light loses
`ambientIncrease` per frame from noon to midnight and gains it from midnight to noon; then
`changeSunStrength`. -/
def changeLightStrength (c : DayCycle) : DayCycle :=
  let c1 : DayCycle :=
    if c.lightAngle ≥ 0 then
      { c with ambientStrength :=
          (c.ambientStrength.1 - c.ambientIncrease.1,
            c.ambientStrength.2.1 - c.ambientIncrease.2.1,
            c.ambientStrength.2.2.1 - c.ambientIncrease.2.2.1, c.ambientStrength.2.2.2) }
    else if c.lightAngle < 0 then
      { c with ambientStrength :=
          (c.ambientStrength.1 + c.ambientIncrease.1,
            c.ambientStrength.2.1 + c.ambientIncrease.2.1,
            c.ambientStrength.2.2.1 + c.ambientIncrease.2.2.1, c.ambientStrength.2.2.2) }
    else c
  changeSunStrength c1

/-- `CrateApp::backColourChange` (lines 298-353): the four tests on `lightAngle`, in the
order of the source, each with its change of `red`, `green` and `blue`. -/
def backColourChange (c : DayCycle) : DayCycle :=
  let c1 : DayCycle :=
    if c.lightAngle ≥ -50 / 100 ∧ c.lightAngle < 0 then
      { c with
        red := c.red - 98092218 / 100000000 / c.colourChange,
        green := c.green - 231372595 / 1000000000 / c.colourChange,
        blue := c.blue + 176470518 / 1000000000 / c.colourChange }
    else c
  let c2 : DayCycle :=
    if c1.lightAngle ≥ 0 ∧ c1.lightAngle < 50 / 100 then
      { c1 with
        red := c1.red,
        green := c1.green - 203921557 / 1000000000 / c1.colourChange,
        blue := c1.blue - 454901934 / 1000000000 / c1.colourChange }
    else c1
  let c3 : DayCycle :=
    if c2.lightAngle ≥ 50 / 100 ∧ c2.lightAngle < 1 then
      { c2 with
        red := c2.red,
        green := c2.green - 545098066 / 1000000000 / c2.colourChange,
        blue := c2.blue - 545098066 / 1000000000 / c2.colourChange }
    else c2
  if c3.lightAngle < -50 / 100 then
    { c3 with
      red := c3.red + 980392218 / 1000000000 / c3.colourChange,
      green := c3.green + 980392218 / 1000000000 / c3.colourChange,
      blue := c3.blue + 823529482 / 1000000000 / c3.colourChange }
  else c3

/-- Lines 290-296 of `Update`: `lightAngle` grows by `angleIncrease`, and from 1 on it is set
to -1. -/
def advanceLightAngle (c : DayCycle) : DayCycle :=
  let c1 : DayCycle := { c with lightAngle := c.lightAngle + c.angleIncrease }
  if c1.lightAngle ≥ 1 then { c1 with lightAngle := -1 } else c1

/-- Lines 285-296 of `Update` on the members of the cycle: `changeLightStrength`,
`backColourChange` (`playSounds` changes no member), then the step of `lightAngle`. -/
def DayCycle.next (c : DayCycle) : DayCycle :=
  advanceLightAngle (backColourChange (changeLightStrength c))

/-- `CrateApp::Update` (lines 259-297): the steps of `acquireFrameResource`, then
`AnimateMaterials`, `UpdateObjectCBs`, `UpdateMaterialCBs`, `UpdateMainPassCB`, and the step of
the cycle of day and night.  `UpdateCamera` is not called (line 264 is a comment). -/
def Update (inp : Input) (a : App) : Option App :=
  ((((acquireFrameResource inp a).bind (AnimateMaterials inp)).bind UpdateObjectCBs).bind
    UpdateMaterialCBs).bind UpdateMainPassCB |>.map
      (fun b => { b with cycle := b.cycle.next })

/-- `CrateApp::DrawRenderItems` (lines 2101-2130): one `DrawIndexedInstanced` with instance
count 1 for every entry of `ritems`, in the order of the list, appended to the command list. -/
def DrawRenderItems (a : App) (cmdList : List Cmd) (ritems : List Nat) : Option (List Cmd) :=
  match a.mCurrFrameResource.bind (fun k => a.mFrameResources[k]?) with
  | none => none
  | some _ =>
    ritems.foldlM (fun cmds ri =>
      match a.mAllRitems[ri]? with
      | none => none
      | some _ => some (cmds ++ [Cmd.DrawIndexedInstanced ri 1])) cmdList

/-- `CrateApp::Draw` (lines 434-519): the command list is reset with the pipeline state that
the flags select (in the last branch the items of the layer `Transparent` are drawn at once),
the items of `mOpaqueRitems` are drawn, and the current frame resource gets the next fence
value, which is signalled. -/
def Draw (a : App) : Option App :=
  match a.mCurrFrameResource with
  | none => none
  | some k =>
    match a.mFrameResources[k]? with
    | none => none
    | some fr =>
      let first : Option (List Cmd) :=
        if a.debugMode then some [Cmd.Reset .opaque_wireframe]
        else if a.cullFront then some [Cmd.Reset .opaque_cullfront]
        else if a.cullNone then some [Cmd.Reset .opaque_cullnone]
        else DrawRenderItems a [Cmd.Reset .transparent] (a.mRitemLayer .Transparent)
      match first.bind (fun cmds => DrawRenderItems a cmds a.mOpaqueRitems) with
      | none => none
      | some cmds =>
        let a1 : App := { a with mCommandList := cmds }
        let a2 : App := { a1 with mCurrentFence := a1.mCurrentFence + 1 }
        some { a2 with
          mFrameResources := a2.mFrameResources.set k { fr with Fence := a2.mCurrentFence } }

/-- The calls that the application makes after `Initialize`. -/
inductive Event where
  | update (inp : Input)
  | draw

/-- One call. -/
def step (a : App) (e : Event) : Option App :=
  match e with
  | .update inp => Update inp a
  | .draw => Draw a

/-- A sequence of calls; no result when one of them has none. -/
def run (evs : List Event) (a : App) : Option App :=
  evs.foldlM step a

/-- Modelled from the spec: the calls of a sequence of frames, `Update`, then `Draw`, for
every frame ("Control flow per frame: Update() ... Draw()"; the frame loop `D3DApp::Run` is
not under src/). -/
def frames (inps : List Input) : List Event :=
  inps.flatMap (fun inp => [Event.update inp, Event.draw])

/-- The pipeline state under which each draw of a command list is executed: the state of the
last reset before it (`none` for a draw that no reset precedes), with the render item and the
instance count of the draw. -/
def drawsWithPSO (cmds : List Cmd) : List (Option PSO × Nat × Nat) :=
  (cmds.foldl (fun (p : Option PSO × List (Option PSO × Nat × Nat)) c =>
    match c with
    | .Reset pso => (some pso, p.2)
    | .DrawIndexedInstanced ri n => (p.1, p.2 ++ [(p.1, ri, n)])) (none, [])).2

/-- The pipeline states that the resets of a command list select. -/
def resets (cmds : List Cmd) : List PSO :=
  cmds.filterMap (fun c => match c with | .Reset pso => some pso | _ => none)

/-- The number of calls of `Update` in a sequence of calls. -/
def updates (evs : List Event) : Nat :=
  (evs.filter (fun e => match e with | .update _ => true | .draw => false)).length

/-- The draws of a command list: the render item and the instance count of each, in order. -/
def draws (cmds : List Cmd) : List (Nat × Nat) :=
  cmds.filterMap (fun c => match c with | .DrawIndexedInstanced ri n => some (ri, n) | _ => none)

/-- The choice of the pipeline state as the specification words it, to compare the tests of
`Draw` with: wireframe when `debugMode` is set; otherwise cull-front when `cullFront` is set;
otherwise cull-none when `cullNone` is set; otherwise the blending state. -/
def selectedPSO (debugMode cullFront cullNone : Bool) : PSO :=
  if debugMode then .opaque_wireframe
  else if cullFront then .opaque_cullfront
  else if cullNone then .opaque_cullnone
  else .transparent

/-- The fence values of the frame resources, in the order of `mFrameResources`. -/
def App.fences (a : App) : List Nat :=
  a.mFrameResources.map (fun fr => fr.Fence)

/-- The fence of the current frame resource is 0 or has been reached by the GPU. -/
def FenceReached (a : App) : Prop :=
  ∃ f, a.mCurrFrameResource = some a.mCurrFrameResourceIndex ∧
    a.fences[a.mCurrFrameResourceIndex]? = some f ∧ (f = 0 ∨ f ≤ a.completed)

/-- The part of a render item that no call after `Initialize` writes. -/
def RenderItem.fixed (e : RenderItem) : (Int × Int × Int) × Nat × Material :=
  (e.World, e.ObjCBIndex, e.Mat)

/-- The number of records of the upload buffers of a frame resource: pass, object,
material. -/
def FrameResource.counts (fr : FrameResource) : Nat × Nat × Nat :=
  (fr.PassCB.count, fr.ObjectCB.count, fr.MaterialCB.count)

/-- The slot index of a material in the material buffer, `none` for a key that `mMaterials`
does not hold. -/
def App.matIndex (a : App) (k : Material) : Option Nat :=
  (a.mMaterials k).map (fun mat => mat.MatCBIndex)

/-- The slot index that `BuildMaterials` gives to the material of each key. -/
def Material.slot : Material → Nat
  | .dirt => 0 | .bedrock => 1 | .stone => 2 | .grass => 3 | .wood => 4
  | .leaves => 5 | .iron => 6 | .gravel => 7 | .sand => 8 | .water => 9

/-- The sizes and the slot indices that no call after `Initialize` changes: every frame
resource has one pass record, one object record for every render item and ten material
records; the object indices are 0, 1, 2, ... in the order of `mAllRitems`; `mMaterials` holds
the ten materials with the slot indices of `BuildMaterials`. -/
def Sized (a : App) : Prop :=
  (∀ fr ∈ a.mFrameResources, fr.counts = (1, a.mAllRitems.length, 10)) ∧
  a.mAllRitems.map (fun it => it.ObjCBIndex) = List.range a.mAllRitems.length ∧
  (∀ k, a.matIndex k = some k.slot)

/-- What holds of the members between the calls: there are three frame resources, the index
is one of theirs, the pointer to the current one is null or agrees with the index, no fence
of a frame resource is beyond the fence counter, the GPU has not passed the fence counter,
`mOpaqueRitems` points to the items of `mAllRitems` in order, the layer lists are empty, and
the sizes and slot indices are those of `Sized`. -/
def Ready (a : App) : Prop :=
  a.mFrameResources.length = 3 ∧ a.mCurrFrameResourceIndex < 3 ∧
  (∀ k, a.mCurrFrameResource = some k → k = a.mCurrFrameResourceIndex) ∧
  (∀ f ∈ a.fences, f ≤ a.mCurrentFence) ∧
  a.completed ≤ a.mCurrentFence ∧
  a.mOpaqueRitems = List.range a.mAllRitems.length ∧
  (∀ l, a.mRitemLayer l = []) ∧
  Sized a

/-- A small state on which the calls can be evaluated: one frame resource, which is the
current one, one water item, no flag set. -/
def sampleApp : App :=
  { mFrameResources := [FrameResource.fresh 1 1 10],
    mCurrFrameResource := some 0,
    mAllRitems := [mkItem 0 8 50 0 .water],
    mOpaqueRitems := [0],
    mCurrentFence := 0, completed := 0 }

/-- The anchors of two trees are at least 3 cells apart along x or along z. -/
def Apart (S T : Tree) : Prop :=
  3 ≤ |S.x - T.x| ∨ 3 ≤ |S.z - T.z|

/-- The render items of a placed tree. -/
def Tree.items (t : Tree) : List RenderItem :=
  treeItems t.x t.z t.random t.first

/-- The world position of a render item (the translation of its `World` matrix). -/
def positions (items : List RenderItem) : List (Int × Int × Int) :=
  items.map (fun it => it.World)

/-- The number of render items that are not blocks of a tree: every placed tree accounts for
twelve items. -/
def terrainCount (s : Gen) : Int :=
  (s.mAllRitems.length : Int) - 12 * (s.trees.length : Int)

/-- What the loop of `UpdateObjectCBs` leaves of a render item: the countdown is one less
when it was positive. -/
def RenderItem.afterCopy (e : RenderItem) : RenderItem :=
  if 0 < e.NumFramesDirty then { e with NumFramesDirty := e.NumFramesDirty - 1 } else e

/-- What the loop of `UpdateMaterialCBs` leaves of a material: the countdown is one less
when it was positive. -/
def MaterialData.afterCopy (mat : MaterialData) : MaterialData :=
  if 0 < mat.NumFramesDirty then { mat with NumFramesDirty := mat.NumFramesDirty - 1 } else mat

/-- The water material after `AnimateMaterials` with the time step `dt`. -/
def MaterialData.animate (dt : ℚ) (waterMat : MaterialData) : MaterialData :=
  { waterMat with
    MatTransform :=
      (if waterMat.MatTransform.1 + (1 / 10) * dt ≥ 1
        then waterMat.MatTransform.1 + (1 / 10) * dt - 1
        else waterMat.MatTransform.1 + (1 / 10) * dt,
       if waterMat.MatTransform.2 + (2 / 100) * dt ≥ 1
        then waterMat.MatTransform.2 + (2 / 100) * dt - 1
        else waterMat.MatTransform.2 + (2 / 100) * dt),
    NumFramesDirty := 3 }

/-- The pass constants that `UpdateMainPassCB` builds in the state `a`. -/
def App.passConstants (a : App) : PassConstants :=
  { EyePosW := a.mEyePos,
    AmbientLight := if a.lightingOff then a.lightOffAmbientStrength else a.cycle.ambientStrength,
    Lights0Direction := (a.cycle.lightAngle, -45 / 100, 45 / 100),
    Lights0Strength := if a.lightingOff then a.lightOffSunStrength else a.cycle.sunStrength }

/-- Whether one of the first `n` calls of `Update` after `Initialize` that found the countdown
of a new entity positive, the first three, copied into the frame resource `s`: the `m`-th call
copies into the slot `m % 3`. -/
def copied (n s : Nat) : Bool :=
  (List.range' 1 (min n 3)).any (fun m => m % 3 == s)

/-- The countdowns and the records of the upload buffers after `n` calls of `Update`: the
index of the current frame resource is `n % 3`; the countdown of every render item and of
every material but water is 3 less the number of calls, at least 0; that of the water material
is 2 after every call; in every frame resource the record of a render item and of a material
but water holds the constants of the entity, written once, when one of the first three calls
copied into the frame resource, and is unwritten otherwise; the record of the water material
in the current frame resource holds its constants. -/
def Synced (n : Nat) (a : App) : Prop :=
  a.mCurrFrameResourceIndex = n % 3 ∧
  (∀ e ∈ a.mAllRitems, e.NumFramesDirty = 3 - ((min n 3 : Nat) : Int)) ∧
  (∀ k mat, a.mMaterials k = some mat → k ≠ Material.water →
    mat.NumFramesDirty = 3 - ((min n 3 : Nat) : Int)) ∧
  (∀ mat, a.mMaterials Material.water = some mat →
    mat.NumFramesDirty = if n = 0 then 3 else 2) ∧
  (∀ s fr, a.mFrameResources[s]? = some fr →
    (∀ i e, a.mAllRitems[i]? = some e →
      fr.ObjectCB.data i = (if copied n s then some e.World else none) ∧
      fr.ObjectCB.writes i = (if copied n s then 1 else 0)) ∧
    (∀ k mat, a.mMaterials k = some mat → k ≠ Material.water →
      fr.MaterialCB.data k.slot = (if copied n s then some mat.constants else none) ∧
      fr.MaterialCB.writes k.slot = (if copied n s then 1 else 0)) ∧
    (∀ mat, a.mMaterials Material.water = some mat → 0 < n → s = n % 3 →
      fr.MaterialCB.data Material.water.slot = some mat.constants))

/-- Modelled from the spec: `d3dUtil::CalcConstantBufferByteSize` (Common/d3dUtil.h is not
under src/), the size of a record "rounded up to the platform's minimum constant-buffer
alignment", 256 bytes: 255 is added and the low 8 bits are cleared, in the 32 bits of a
`UINT` (4294967296 is 2^32). -/
def CalcConstantBufferByteSize (byteSize : Nat) : Nat :=
  (byteSize + 255) % 4294967296 / 256 * 256

/-- The address `objCBAddress` of `DrawRenderItems` (line 2118) for the render item `ri`:
the address `objectCB` of the object buffer plus `ri->ObjCBIndex*objCBByteSize`.  The product
of the two `UINT` is taken in 32 bits, the sum with the 64-bit address in 64 bits
(18446744073709551616 is 2^64). -/
def objCBAddress (objectCB objCBByteSize : Nat) (ri : RenderItem) : Nat :=
  (objectCB + ri.ObjCBIndex * objCBByteSize % 4294967296) % 18446744073709551616

/-- The address `matCBAddress` of `DrawRenderItems` (line 2119) for the material `mat` of a
render item: the address `matCB` of the material buffer plus
`ri->Mat->MatCBIndex*matCBByteSize`, with the same widths. -/
def matCBAddress (matCB matCBByteSize : Nat) (mat : MaterialData) : Nat :=
  (matCB + mat.MatCBIndex * matCBByteSize % 4294967296) % 18446744073709551616

/-- The input of a frame of a tenth of a second in which the key W is down and no other key,
with a camera that `Camera::Walk` moves along the z axis by the distance it is given. -/
def walkInput : Input :=
  { key1 := false, key2 := false, key3 := false, gpu := 0, keyW := true, dt := 1 / 10,
    Walk := fun d p => (p.1, p.2.1, p.2.2 + d) }

/-- The members of the cycle of day and night that the sky colour depends on: `lightAngle`
and the colour have the given values, and the increments are those of the source
(`angleIncrease` 0.01, `colourChange` 50). -/
def DayCycle.At (c : DayCycle) (lightAngle red green blue : ℚ) : Prop :=
  c.lightAngle = lightAngle ∧ c.angleIncrease = 1 / 100 ∧ c.colourChange = 50 ∧
  c.red = red ∧ c.green = green ∧ c.blue = blue

/-- The input of a frame in which no key is down and the GPU passes no fence value. -/
def idleInput : Input :=
  { key1 := false, key2 := false, key3 := false, gpu := 0 }

/-! ## Loop lemmas -/

theorem forUp_of_le {σ : Type} (lo hi : Int) (body : Int → σ → σ) (s : σ) (h : hi ≤ lo) :
    forUp lo hi body s = s := by
  have h0 : (hi - lo).toNat = 0 := by omega
  simp [forUp, h0]

theorem forUp_succ {σ : Type} (lo hi : Int) (body : Int → σ → σ) (s : σ) (h : lo ≤ hi) :
    forUp lo (hi + 1) body s = body hi (forUp lo hi body s) := by
  have h1 : (hi + 1 - lo).toNat = (hi - lo).toNat + 1 := by omega
  have h2 : lo + (((hi - lo).toNat : Nat) : Int) = hi := by omega
  simp only [forUp, h1, List.range_succ, List.foldl_append, List.foldl_cons, List.foldl_nil, h2]

theorem forUp_inv {σ : Type} (I : Int → σ → Prop) (lo hi : Int) (body : Int → σ → σ) (s : σ)
    (hle : lo ≤ hi) (h0 : I lo s)
    (hstep : ∀ k t, lo ≤ k → k < hi → I k t → I (k + 1) (body k t)) :
    I hi (forUp lo hi body s) := by
  have key : ∀ m, lo ≤ m → m ≤ hi → I m (forUp lo m body s) := by
    intro m hm
    refine Int.le_induction (P := fun m => m ≤ hi → I m (forUp lo m body s)) ?_ ?_ m hm
    · intro _; rw [forUp_of_le lo lo body s (le_refl _)]; exact h0
    · intro n hn ih hlt
      rw [forUp_succ lo n body s hn]
      exact hstep n _ hn (by omega) (ih (by omega))
  exact key hi hle (le_refl _)

theorem forUp_preserve {σ : Type} (P : σ → Prop) (lo hi : Int) (body : Int → σ → σ) (s : σ)
    (h0 : P s) (hstep : ∀ k t, lo ≤ k → k < hi → P t → P (body k t)) :
    P (forUp lo hi body s) := by
  by_cases hle : lo ≤ hi
  · exact forUp_inv (fun _ t => P t) lo hi body s hle h0 hstep
  · rw [forUp_of_le lo hi body s (by omega)]; exact h0

theorem forUp_split {σ : Type} (lo mid hi : Int) (body : Int → σ → σ) (s : σ)
    (h1 : lo ≤ mid) (h2 : mid ≤ hi) :
    forUp lo hi body s = forUp mid hi body (forUp lo mid body s) := by
  refine Int.le_induction (P := fun hi => forUp lo hi body s = forUp mid hi body (forUp lo mid body s))
    ?_ ?_ hi h2
  · show forUp lo mid body s = forUp mid mid body (forUp lo mid body s)
    rw [forUp_of_le mid mid body _ (le_refl _)]
  · intro n hn ih
    show forUp lo (n + 1) body s = forUp mid (n + 1) body (forUp lo mid body s)
    rw [forUp_succ lo n body s (by omega), forUp_succ mid n body _ hn, ih]

theorem forUp_one {σ : Type} (lo : Int) (body : Int → σ → σ) (s : σ) :
    forUp lo (lo + 1) body s = body lo s := by
  rw [forUp_succ lo lo body s (le_refl _), forUp_of_le lo lo body s (le_refl _)]

theorem forDown_of_le {σ : Type} (hi lo : Int) (body : Int → σ → σ) (s : σ) (h : hi ≤ lo) :
    forDown hi lo body s = s := by
  have h0 : (hi - lo).toNat = 0 := by omega
  simp [forDown, h0]

theorem forDown_succ {σ : Type} (hi lo : Int) (body : Int → σ → σ) (s : σ) (h : lo ≤ hi) :
    forDown hi (lo - 1) body s = body lo (forDown hi lo body s) := by
  have h1 : (hi - (lo - 1)).toNat = (hi - lo).toNat + 1 := by omega
  have h2 : hi - (((hi - lo).toNat : Nat) : Int) = lo := by omega
  simp only [forDown, h1, List.range_succ, List.foldl_append, List.foldl_cons, List.foldl_nil, h2]

theorem forDown_inv {σ : Type} (I : Int → σ → Prop) (hi lo : Int) (body : Int → σ → σ) (s : σ)
    (hle : lo ≤ hi) (h0 : I hi s)
    (hstep : ∀ k t, lo < k → k ≤ hi → I k t → I (k - 1) (body k t)) :
    I lo (forDown hi lo body s) := by
  have key : ∀ m, m ≤ hi → lo ≤ m → I m (forDown hi m body s) := by
    intro m hm
    refine Int.le_induction_down (P := fun m => lo ≤ m → I m (forDown hi m body s)) ?_ ?_ m hm
    · intro _; rw [forDown_of_le hi hi body s (le_refl _)]; exact h0
    · intro n hn ih hlt
      rw [forDown_succ hi n body s hn]
      exact hstep n _ (by omega) hn (ih (by omega))
  exact key lo hle (le_refl _)

theorem forDown_preserve {σ : Type} (P : σ → Prop) (hi lo : Int) (body : Int → σ → σ) (s : σ)
    (h0 : P s) (hstep : ∀ k t, lo < k → k ≤ hi → P t → P (body k t)) :
    P (forDown hi lo body s) := by
  by_cases hle : lo ≤ hi
  · exact forDown_inv (fun _ t => P t) hi lo body s hle h0 hstep
  · rw [forDown_of_le hi lo body s (by omega)]; exact h0

/-! ## Terrain columns: what a layer loop appends -/

theorem pushBlock_step (x y z : Int) (m : Material) (s : Gen) :
    LayerStep x z y m s (pushBlock x y z m s) := by
  simp [LayerStep, pushBlock, mkItem]

theorem layer_step (rng : Nat → Nat) (cap : Int → Bool) (capMat : Material) (x z y : Int) (s : Gen) :
    ∃ m, LayerStep x z y m s (layer rng cap capMat x z y s) ∧
      (y = 0 → m = .bedrock) ∧
      (0 < y → y < 4 → m = .gravel ∨ m = .iron ∨ m = .stone) ∧
      (4 ≤ y → m = if cap y then capMat else .dirt) := by
  unfold layer
  by_cases h0 : y = 0
  · exact ⟨.bedrock, by simp [h0, LayerStep, pushBlock, mkItem], by simp, by omega, by omega⟩
  by_cases h1 : 0 < y ∧ y < 4
  · rw [if_neg h0, if_pos h1]
    simp only [lowLayer, rand]
    by_cases g : ((rng s.calls : Nat) : Int) % 5 + 1 = 2
    · rw [if_pos g]
      exact ⟨.gravel, by simp [LayerStep, pushBlock, mkItem], by omega, by simp, by omega⟩
    rw [if_neg g]
    by_cases i : ((rng (s.calls + 1) : Nat) : Int) % 10 + 1 = 2
    · rw [if_pos i]
      exact ⟨.iron, by simp [LayerStep, pushBlock, mkItem]; omega, by omega, by simp, by omega⟩
    · rw [if_neg i]
      exact ⟨.stone, by simp [LayerStep, pushBlock, mkItem]; omega, by omega, by simp, by omega⟩
  · rw [if_neg h0, if_neg h1]
    by_cases c : cap y = true
    · rw [if_pos c]
      exact ⟨capMat, by simp [LayerStep, pushBlock, mkItem], by omega, by omega, by simp [c]⟩
    · rw [if_neg c]
      exact ⟨.dirt, by simp [LayerStep, pushBlock, mkItem], by omega, by omega, by simp [c]⟩

theorem columnItems_succ (x z : Int) (i0 : Nat) (mat : Int → Material) (h : Nat) :
    columnItems x z i0 mat (h + 1) =
      columnItems x z i0 mat h ++ [mkItem x (h : Int) z (i0 + h) (mat (h : Int))] := by
  simp [columnItems, List.range_succ]

theorem columnItems_congr (x z : Int) (i0 : Nat) (mat mat' : Int → Material) (h : Nat)
    (heq : ∀ n : Nat, n < h → mat' (n : Int) = mat (n : Int)) :
    columnItems x z i0 mat' h = columnItems x z i0 mat h := by
  unfold columnItems
  apply List.map_congr_left
  intro n hn
  rw [heq n (List.mem_range.mp hn)]

theorem column_step (rng : Nat → Nat) (cap : Int → Bool) (capMat : Material) (x z : Int)
    (h : Int) (hh : 0 ≤ h) (s : Gen) :
    ColumnStep cap capMat x z h.toNat s (forUp 0 h (layer rng cap capMat x z) s) := by
  refine forUp_inv (fun k t => ColumnStep cap capMat x z k.toNat s t) 0 h _ s hh ?_ ?_
  · refine ⟨fun y => if y = 0 then .bedrock else if y < 4 then .stone
        else if cap y then capMat else .dirt, ⟨by simp, ?_, ?_⟩, by simp [columnItems], by simp,
        le_refl _, rfl, rfl, rfl, rfl, rfl⟩
    · intro y h1 h2
      have : y ≠ 0 := by omega
      simp [this, h2]
    · intro y h1
      have : y ≠ 0 := by omega
      have : ¬ y < 4 := by omega
      simp [*]
  · intro k t hk hkh ⟨mat, hrule, hitems, hidx, hcalls, htc, har, htr, hf, hr⟩
    obtain ⟨m, ⟨e1, e2, e3, e4, e5, e6, e7, e8⟩, m0, m1, m2⟩ := layer_step rng cap capMat x z k t
    have hk1 : (k + 1).toNat = k.toNat + 1 := by omega
    have hkk : ((k.toNat : Nat) : Int) = k := by omega
    refine ⟨Function.update mat k m, ⟨?_, ?_, ?_⟩, ?_, by omega, by omega, by rw [e4, htc],
      by rw [e5, har], by rw [e6, htr], by rw [e7, hf], by rw [e8, hr]⟩
    · by_cases hk0 : k = 0
      · subst hk0; simp [m0]
      · rw [Function.update_noteq (Ne.symm hk0)]; exact hrule.1
    · intro y h1 h2
      by_cases hy : y = k
      · subst hy; simp only [Function.update_same]; exact m1 h1 h2
      · rw [Function.update_noteq hy]; exact hrule.2.1 y h1 h2
    · intro y h1
      by_cases hy : y = k
      · subst hy; simp only [Function.update_same]; exact m2 h1
      · rw [Function.update_noteq hy]; exact hrule.2.2 y h1
    · rw [e1, hitems, hk1, columnItems_succ, hkk, hidx, List.append_assoc]
      congr 1
      rw [columnItems_congr x z s.index mat (Function.update mat k m) k.toNat]
      · simp
      · intro n hn
        rw [Function.update_noteq]
        omega

/-! ## Trees: the search, the marking loops, the tree-building branch -/

theorem scanTrees_spec (x z : Int) (s : Gen) (hx : 0 ≤ x ∧ x < 50) (hz : 0 ≤ z ∧ z < 50) :
    (scanTrees x z s).2 = s ∧
      ((scanTrees x z s).1 = true ↔ ∃ a, 0 ≤ a ∧ a < 80 ∧ (a, x, z) ∈ s.ar1) := by
  unfold scanTrees
  refine forUp_inv (fun k p => p.2 = s ∧ (p.1 = true ↔ ∃ a, 0 ≤ a ∧ a < k ∧ (a, x, z) ∈ s.ar1))
    0 80 _ (false, s) (by omega) ⟨rfl, by constructor <;> intro h <;> [cases h; (obtain ⟨a, h1, h2, _⟩ := h; omega)]⟩ ?_
  intro k p hk0 hk80 ⟨hp, hiff⟩
  have hb : ar1InBounds k x z := ⟨hk0, hk80, hx.1, hx.2, hz.1, hz.2⟩
  have hget : ar1Get p.2.ar1 k x z = some (decide ((k, x, z) ∈ s.ar1)) := by
    simp [ar1Get, hb, hp]
  simp only [hget]
  by_cases hm : (k, x, z) ∈ s.ar1
  · simp only [hm, decide_True]
    refine ⟨hp, ?_⟩
    simp only [true_iff]
    exact ⟨k, hk0, by omega, hm⟩
  · simp only [hm, decide_False]
    refine ⟨hp, ?_⟩
    rw [hiff]
    constructor
    · rintro ⟨a, h1, h2, h3⟩
      exact ⟨a, h1, by omega, h3⟩
    · rintro ⟨a, h1, h2, h3⟩
      have : a ≠ k := by
        intro h; subst h; exact hm h3
      exact ⟨a, h1, by omega, h3⟩

theorem MarkedBy.refl (a0 : Int) (s : Gen) : MarkedBy a0 (fun _ _ => False) s s := by
  simp [MarkedBy]

theorem MarkedBy.trans {a0 : Int} {B B' B'' : Int → Int → Prop} {s t u : Gen}
    (h1 : MarkedBy a0 B s t) (h2 : MarkedBy a0 B' t u)
    (hB : ∀ j i, B'' j i ↔ B j i ∨ B' j i) : MarkedBy a0 B'' s u := by
  obtain ⟨a1, a2, a3, a4, a5, a6, a7, a8⟩ := h1
  obtain ⟨b1, b2, b3, b4, b5, b6, b7, b8⟩ := h2
  refine ⟨by rw [b1, a1], by rw [b2, a2], by rw [b3, a3], by rw [b4, a4], by rw [b5, a5],
    by rw [b6, a6], ?_, ?_⟩
  · intro e
    rw [b7, a7]
    constructor
    · rintro ((h | ⟨j, i, h1, h2⟩) | ⟨j, i, h1, h2⟩)
      · exact Or.inl h
      · exact Or.inr ⟨j, i, (hB j i).mpr (Or.inl h1), h2⟩
      · exact Or.inr ⟨j, i, (hB j i).mpr (Or.inr h1), h2⟩
    · rintro (h | ⟨j, i, h1, h2⟩)
      · exact Or.inl (Or.inl h)
      · rcases (hB j i).mp h1 with h | h
        · exact Or.inl (Or.inr ⟨j, i, h, h2⟩)
        · exact Or.inr ⟨j, i, h, h2⟩
  · intro a j i; rw [b8, a8, hB]; tauto

theorem MarkedBy.congr {a0 : Int} {B B' : Int → Int → Prop} {s t : Gen}
    (h1 : MarkedBy a0 B s t) (hB : ∀ j i, B' j i ↔ B j i) : MarkedBy a0 B' s t := by
  obtain ⟨a1, a2, a3, a4, a5, a6, a7, a8⟩ := h1
  refine ⟨a1, a2, a3, a4, a5, a6, ?_, ?_⟩
  · intro e
    rw [a7]
    constructor
    · rintro (h | ⟨j, i, h1, h2⟩)
      · exact Or.inl h
      · exact Or.inr ⟨j, i, (hB j i).mpr h1, h2⟩
    · rintro (h | ⟨j, i, h1, h2⟩)
      · exact Or.inl h
      · exact Or.inr ⟨j, i, (hB j i).mp h1, h2⟩
  · intro a j i; rw [a8, hB]

/-- Within the declared bounds the address of `ar1[a][j][i]` is the one of the entry
`(a, j, i)` itself. -/
theorem ar1Entry_inBounds {a j i : Int} (h : ar1InBounds a j i) :
    ar1Entry a j i = some (a, j, i) := by
  obtain ⟨h1, h2, h3, h4, h5, h6⟩ := h
  have hn : 0 ≤ a * 2500 + j * 50 + i ∧ a * 2500 + j * 50 + i < 200000 := by omega
  simp only [ar1Entry, hn, and_self, if_true, Option.some.injEq, Prod.mk.injEq]
  refine ⟨by omega, by omega, by omega⟩

/-- An entry reached by an address is within the declared bounds, and it is the entry of
that address. -/
theorem ar1Entry_some {a j i : Int} {e : Int × Int × Int} (h : ar1Entry a j i = some e) :
    ar1InBounds e.1 e.2.1 e.2.2 ∧ e.1 * 2500 + e.2.1 * 50 + e.2.2 = a * 2500 + j * 50 + i := by
  simp only [ar1Entry] at h
  split at h
  · rename_i hn
    simp only [Option.some.injEq] at h
    subst h
    simp only [ar1InBounds]
    omega
  · cases h

theorem store_spec (a j i : Int) (s : Gen) :
    MarkedBy a (fun j' i' => j' = j ∧ i' = i) s (store a j i s) := by
  unfold store ar1Set
  by_cases hb : ar1InBounds a j i
  · simp only [hb, if_true, MarkedBy, true_and]
    refine ⟨?_, ?_⟩
    · intro e
      simp only [List.mem_cons]
      constructor
      · rintro (h | h)
        · exact Or.inr ⟨j, i, ⟨rfl, rfl⟩, by rw [h]; exact ar1Entry_inBounds hb⟩
        · exact Or.inl h
      · rintro (h | ⟨j', i', ⟨h2, h3⟩, h4⟩)
        · exact Or.inr h
        · subst h2 h3
          rw [ar1Entry_inBounds hb, Option.some.injEq] at h4
          exact Or.inl h4.symm
    · intro a' j' i'
      constructor
      · intro h; exact Or.inl h
      · rintro (h | ⟨h1, ⟨h2, h3⟩, h4⟩)
        · exact h
        · subst h1 h2 h3; exact absurd hb h4
  · have hfaults : ∀ f : List (Int × Int × Int), ∀ a' j' i' : Int,
        (a', j', i') ∈ f ++ [(a, j, i)] ↔
          (a', j', i') ∈ f ∨ (a' = a ∧ (j' = j ∧ i' = i) ∧ ¬ ar1InBounds a' j' i') := by
      intro f a' j' i'
      simp only [List.mem_append, List.mem_singleton, Prod.mk.injEq]
      constructor
      · rintro (h | ⟨h1, h2, h3⟩)
        · exact Or.inl h
        · subst h1 h2 h3; exact Or.inr ⟨rfl, ⟨rfl, rfl⟩, hb⟩
      · rintro (h | ⟨h1, ⟨h2, h3⟩, _⟩)
        · exact Or.inl h
        · exact Or.inr ⟨h1, h2, h3⟩
    simp only [hb, if_false]
    cases he : ar1Entry a j i with
    | none =>
      simp only [MarkedBy, true_and]
      refine ⟨?_, hfaults s.faults⟩
      intro e
      constructor
      · intro h; exact Or.inl h
      · rintro (h | ⟨j', i', ⟨h2, h3⟩, h4⟩)
        · exact h
        · subst h2 h3; rw [he] at h4; cases h4
    | some e0 =>
      simp only [MarkedBy, true_and]
      refine ⟨?_, hfaults s.faults⟩
      intro e
      simp only [List.mem_cons]
      constructor
      · rintro (h | h)
        · exact Or.inr ⟨j, i, ⟨rfl, rfl⟩, by rw [h]; exact he⟩
        · exact Or.inl h
      · rintro (h | ⟨j', i', ⟨h2, h3⟩, h4⟩)
        · exact Or.inr h
        · subst h2 h3
          rw [he, Option.some.injEq] at h4
          exact Or.inl h4.symm

theorem markFootprint_spec (x z : Int) (s : Gen) :
    MarkedBy s.treeCount (fun j i => inRect x z (j, i)) s (markFootprint x z s) := by
  unfold markFootprint
  have inner : ∀ (i : Int) (s1 : Gen), s1.treeCount = s.treeCount →
      MarkedBy s.treeCount (fun j' i' => x - 2 ≤ j' ∧ j' < x + 3 ∧ i' = i) s1
        (forUp (x - 2) (x + 3) (fun j s2 => store s2.treeCount j i s2) s1) := by
    intro i s1 h1
    refine forUp_inv (fun k t => MarkedBy s.treeCount (fun j' i' => x - 2 ≤ j' ∧ j' < k ∧ i' = i) s1 t)
      (x - 2) (x + 3) _ s1 (by omega) ?_ ?_
    · exact (MarkedBy.refl _ s1).congr (by intro j i; constructor <;> intro h <;> [omega; exact h.elim])
    · intro k t hk1 hk2 ht
      have htc : t.treeCount = s.treeCount := by rw [ht.2.1, h1]
      have hst : MarkedBy s.treeCount (fun j' i' => j' = k ∧ i' = i) t (store t.treeCount k i t) := by
        rw [htc]
        exact store_spec s.treeCount k i t
      exact ht.trans hst (by intro j' i'; constructor <;> intro h <;> omega)
  have outer := forDown_inv
    (fun k t => MarkedBy s.treeCount
      (fun j' i' => x - 2 ≤ j' ∧ j' < x + 3 ∧ k < i' ∧ i' ≤ z + 2) s t)
    (z + 2) (z - 1)
    (fun i s1 => forUp (x - 2) (x + 3) (fun j s2 => store s2.treeCount j i s2) s1) s
    (by omega)
    ((MarkedBy.refl _ s).congr (by intro j i; constructor <;> intro h <;> [omega; exact h.elim]))
    (by
      intro k t hk1 hk2 ht
      exact ht.trans (inner k t ht.2.1) (by intro j' i'; constructor <;> intro h <;> omega))
  exact outer.congr (by intro j i; simp only [inRect]; constructor <;> intro h <;> omega)

theorem treeBlocks_spec (x z : Int) (s : Gen) :
    (treeBlocks x z s).mAllRitems = s.mAllRitems ++ treeItems x z s.random s.index ∧
    (treeBlocks x z s).index = s.index + 12 ∧ (treeBlocks x z s).calls = s.calls ∧
    (treeBlocks x z s).treeCount = s.treeCount ∧ (treeBlocks x z s).random = s.random ∧
    (treeBlocks x z s).trees = s.trees ∧ (treeBlocks x z s).ar1 = s.ar1 ∧
    (treeBlocks x z s).faults = s.faults := by
  simp [treeBlocks, pushBlock, treeItems, mkItem]

theorem placeTree_spec (x z : Int) (s : Gen) (h80 : s.treeCount < 80) (hx : 0 < x ∧ x < 50)
    (hz : 0 < z ∧ z < 50) (hfree : ∀ a, 0 ≤ a → a < 80 → (a, x, z) ∉ s.ar1) :
    Placed x z s (placeTree x z s) := by
  obtain ⟨b1, b2, b3, b4, b5, b6, b7, b8⟩ := treeBlocks_spec x z s
  have hm : MarkedBy ((treeBlocks x z s).treeCount + 1) (fun j i => inRect x z (j, i))
      { treeBlocks x z s with
        treeCount := (treeBlocks x z s).treeCount + 1
        trees := (treeBlocks x z s).trees ++
          [{ x := x, z := z, random := s.random, slot := (treeBlocks x z s).treeCount + 1,
             first := s.index }] }
      (placeTree x z s) := markFootprint_spec x z _
  obtain ⟨m1, m2, m3, m4, m5, m6, m7, m8⟩ := hm
  refine ⟨h80, hx.1, hx.2, hz.1, hz.2, hfree, ?_, ?_, ?_, ?_, ?_, ?_, ?_, ?_⟩
  · exact le_of_eq (m1.trans b3).symm
  · exact m2.trans (congrArg (fun n => n + 1) b4)
  · exact m3.trans b2
  · exact m4.trans b5
  · exact m5.trans b1
  · refine m6.trans ?_
    show (treeBlocks x z s).trees ++ _ = _
    rw [b6, b4]
  · intro e
    have h := m7 e
    change _ ↔ e ∈ (treeBlocks x z s).ar1 ∨ _ at h
    rw [b7, b4] at h
    exact h
  · intro a j i
    have h := m8 a j i
    change _ ↔ (a, j, i) ∈ (treeBlocks x z s).faults ∨ _ at h
    rw [b8, b4] at h
    exact h

theorem treeStep_spec (rng : Nat → Nat) (x z : Int) (s : Gen) :
    TreeStep x z s (treeStep rng x z s) := by
  have hr : Idle s (rand rng s).2 := by simp [Idle, rand]
  unfold treeStep TreeStep
  by_cases h80 : s.treeCount < 80
  · rw [if_pos h80]
    by_cases hd : (rand rng s).1 % 20 = 4
    · simp only [hd, if_true]
      by_cases hx : 0 < x ∧ x < 50
      · rw [if_pos hx]
        by_cases hz : 0 < z ∧ z < 50
        · rw [if_pos hz]
          obtain ⟨e1, e2⟩ := scanTrees_spec x z (rand rng s).2 ⟨by omega, hx.2⟩ ⟨by omega, hz.2⟩
          rw [e1]
          by_cases hs : (scanTrees x z (rand rng s).2).1 = true
          · left
            rw [hs]
            simp only [Bool.not_true, Bool.false_eq_true, if_false]
            exact hr
          · right
            have hs2 : (scanTrees x z (rand rng s).2).1 = false := by
              simpa using hs
            rw [hs2]
            simp only [Bool.not_false, if_true]
            have hfree : ∀ a, 0 ≤ a → a < 80 → (a, x, z) ∉ (rand rng s).2.ar1 := by
              intro a h1 h2 h3
              exact hs (e2.mpr ⟨a, h1, h2, h3⟩)
            have := placeTree_spec x z (rand rng s).2 h80 hx hz hfree
            obtain ⟨p1, p2, p3, p4, p5, p6, p7, p8, p9, p10, p11, p12, p13, p14⟩ := this
            exact ⟨h80, p2, p3, p4, p5, hfree, le_trans hr.1 p7, p8, p9, p10, p11,
              p12, p13, p14⟩
        · left; rw [if_neg hz]; exact hr
      · left; rw [if_neg hx]; exact hr
    · left; simp only [hd, if_false]; exact hr
  · left; rw [if_neg h80]; simp [Idle]

theorem treeStep_idle (rng : Nat → Nat) (x z : Int) (s : Gen)
    (hd : ((rng s.calls : Nat) : Int) % 20 ≠ 4) : Idle s (treeStep rng x z s) := by
  have hr : Idle s (rand rng s).2 := by simp [Idle, rand]
  unfold treeStep
  by_cases h80 : s.treeCount < 80
  · rw [if_pos h80]
    have : ¬ (rand rng s).1 % 20 = 4 := hd
    simp only [this, if_false]
    exact hr
  · rw [if_neg h80]; simp [Idle]

theorem ColumnStep.toCell {cap : Int → Bool} {capMat : Material} {x z : Int} {h : Nat}
    {s s1 t : Gen} (hc : ColumnStep cap capMat x z h s1 t)
    (e1 : s1.mAllRitems = s.mAllRitems) (e2 : s1.index = s.index) (e3 : s.calls ≤ s1.calls)
    (e4 : s1.treeCount = s.treeCount) (e5 : s1.ar1 = s.ar1) (e6 : s1.trees = s.trees)
    (e7 : s1.faults = s.faults) : CellStep cap capMat x z h s t := by
  obtain ⟨mat, hr, c1, c2, c3, c4, c5, c6, c7, _⟩ := hc
  exact ⟨mat, hr, by rw [c1, e1, e2], by rw [c2, e2], by omega, by rw [c4, e4], by rw [c5, e5],
    by rw [c6, e6], by rw [c7, e7]⟩

theorem grassCell_spec (rng : Nat → Nat) (z x : Int) (s : Gen) :
    GrassCellStep rng x z s (grassCell rng z x s) := by
  have hr : ((rng s.calls : Nat) : Int) % 2 + 1 = 1 ∨ ((rng s.calls : Nat) : Int) % 2 + 1 = 2 := by
    omega
  have hcol := column_step rng (grassCap (((rng s.calls : Nat) : Int) % 2 + 1)) .grass x z
    (((rng s.calls : Nat) : Int) % 2 + 1 + 8) (by omega)
    { (rand rng s).2 with random := (rand rng s).1 % 2 + 1 }
  refine ⟨((rng s.calls : Nat) : Int) % 2 + 1, _, rfl, hr,
    hcol.toCell rfl rfl (by simp [rand]) rfl rfl rfl rfl, ?_, ?_, ?_⟩
  · obtain ⟨mat, _, _, _, _, _, _, _, _, h9⟩ := hcol
    rw [h9]; rfl
  · exact treeStep_spec rng x z _
  · exact treeStep_idle rng x z _

theorem sandCell_spec (rng : Nat → Nat) (z x : Int) (s : Gen) :
    SandCellStep rng x z s (sandCell rng z x s) := by
  refine ⟨((rng s.calls : Nat) : Int) % 10 + 1, rfl, by omega, by omega, ?_⟩
  unfold sandCell
  by_cases h2 : ((rng s.calls : Nat) : Int) % 10 + 1 = 2
  · left
    refine ⟨h2, ?_⟩
    have hcol := column_step rng (flatCap 9) .sand x z 10 (by omega)
      { (rand rng s).2 with random := (rand rng s).1 % 10 + 1 }
    have hb : ({ (rand rng s).2 with random := (rand rng s).1 % 10 + 1 } : Gen).random == 2 := by
      simp [rand, h2]
    simp only [hb, if_true]
    exact hcol.toCell rfl rfl (by simp [rand]) rfl rfl rfl rfl
  · right
    refine ⟨h2, ?_⟩
    have hcol := column_step rng (flatCap 8) .sand x z 9 (by omega)
      { (rand rng s).2 with random := (rand rng s).1 % 10 + 1 }
    have hb : (({ (rand rng s).2 with random := (rand rng s).1 % 10 + 1 } : Gen).random == 2)
        = false := by
      simp [rand, h2]
    simp only [hb]
    exact hcol.toCell rfl rfl (by simp [rand]) rfl rfl rfl rfl

theorem gravelCell_spec (rng : Nat → Nat) (z x : Int) (s : Gen) :
    GravelCellStep rng x z s (gravelCell rng z x s) := by
  have hcol := column_step rng (gravelCap (((rng s.calls : Nat) : Int) % 3 + 1)) .gravel x z
    (((rng s.calls : Nat) : Int) % 3 + 1 + 8) (by omega)
    { (rand rng s).2 with random := (rand rng s).1 % 3 + 1 }
  exact ⟨((rng s.calls : Nat) : Int) % 3 + 1, rfl, by omega,
    hcol.toCell rfl rfl (by simp [rand]) rfl rfl rfl rfl⟩

theorem waterCell_spec (rng : Nat → Nat) (z x : Int) (s : Gen) :
    WaterCellStep x z s (waterCell rng z x s) := by
  have hcol := column_step rng (flatCap 8) .water x z 9 (by omega) s
  exact hcol.toCell rfl rfl (le_refl _) rfl rfl rfl rfl

/-! ## Induction over the cells of a quadrant and of the world -/

theorem quadrant_preserve (P : Gen → Prop) (cell : Int → Int → Gen → Gen)
    (zlo zhi xlo xhi : Int) (s : Gen) (h0 : P s)
    (hstep : ∀ z x t, zlo ≤ z → z < zhi → xlo ≤ x → x < xhi → P t → P (cell z x t)) :
    P (forUp zlo zhi (fun z s1 => forUp xlo xhi (cell z) s1) s) := by
  refine forUp_preserve P zlo zhi _ s h0 ?_
  intro z t hz1 hz2 ht
  exact forUp_preserve P xlo xhi _ t ht (fun x u hx1 hx2 hu => hstep z x u hz1 hz2 hx1 hx2 hu)

theorem Build_induct (P : Gen → Prop) (rng : Nat → Nat) (h0 : P Gen.init)
    (hg : ∀ x z s t, 0 ≤ x → x < 50 → 0 ≤ z → z < 50 → GrassCellStep rng x z s t → P s → P t)
    (hs : ∀ x z s t, 50 ≤ x → x < 100 → 50 ≤ z → z < 100 → SandCellStep rng x z s t → P s → P t)
    (hv : ∀ x z s t, 50 ≤ x → x < 100 → 0 ≤ z → z < 50 → GravelCellStep rng x z s t → P s → P t)
    (hw : ∀ x z s t, 0 ≤ x → x < 50 → 50 ≤ z → z < 100 → WaterCellStep x z s t → P s → P t) :
    P (BuildRenderItems rng) := by
  unfold BuildRenderItems waterQuadrant gravelQuadrant sandQuadrant grassQuadrant
  refine quadrant_preserve P _ _ _ _ _ _ ?_ ?_
  refine quadrant_preserve P _ _ _ _ _ _ ?_ ?_
  refine quadrant_preserve P _ _ _ _ _ _ ?_ ?_
  refine quadrant_preserve P _ _ _ _ _ _ h0 ?_
  · intro z x t h1 h2 h3 h4 ht
    exact hg x z t _ h3 h4 h1 h2 (grassCell_spec rng z x t) ht
  · intro z x t h1 h2 h3 h4 ht
    exact hs x z t _ h3 h4 h1 h2 (sandCell_spec rng z x t) ht
  · intro z x t h1 h2 h3 h4 ht
    exact hv x z t _ h3 h4 h1 h2 (gravelCell_spec rng z x t) ht
  · intro z x t h1 h2 h3 h4 ht
    exact hw x z t _ h3 h4 h1 h2 (waterCell_spec rng z x t) ht

theorem quadrant_keep {α : Type} (V : Gen → α) (cell : Int → Int → Gen → Gen)
    (zlo zhi xlo xhi : Int) (s : Gen)
    (keep : ∀ z x t, zlo ≤ z → z < zhi → xlo ≤ x → x < xhi → V (cell z x t) = V t) :
    V (forUp zlo zhi (fun z s1 => forUp xlo xhi (cell z) s1) s) = V s := by
  refine quadrant_preserve (fun t => V t = V s) cell zlo zhi xlo xhi s rfl ?_
  intro z x t h1 h2 h3 h4 ht
  rw [keep z x t h1 h2 h3 h4, ht]

theorem row_hit {α : Type} (V : Gen → α) (Good : α → Prop) (v0 : α) (body : Int → Gen → Gen)
    (lo hi x : Int) (hx : lo ≤ x ∧ x < hi)
    (keep : ∀ k t, lo ≤ k → k < hi → k ≠ x → V (body k t) = V t)
    (hit : ∀ t, V t = v0 → Good (V (body x t)))
    (s : Gen) (hs : V s = v0) : Good (V (forUp lo hi body s)) := by
  rw [forUp_split lo x hi body s hx.1 (by omega),
    forUp_split x (x + 1) hi body _ (by omega) (by omega), forUp_one]
  have h1 : V (forUp lo x body s) = v0 := by
    refine forUp_preserve (fun t => V t = v0) lo x body s hs ?_
    intro k t hk1 hk2 ht
    rw [keep k t hk1 (by omega) (by omega), ht]
  have h2 : V (forUp (x + 1) hi body (body x (forUp lo x body s))) =
      V (body x (forUp lo x body s)) := by
    refine forUp_preserve (fun t => V t = V (body x (forUp lo x body s))) (x + 1) hi body _ rfl ?_
    intro k t hk1 hk2 ht
    rw [keep k t (by omega) hk2 (by omega), ht]
  rw [h2]
  exact hit _ h1

theorem quadrant_hit {α : Type} (V : Gen → α) (Good : α → Prop) (v0 : α)
    (cell : Int → Int → Gen → Gen) (zlo zhi xlo xhi x z : Int)
    (hx : xlo ≤ x ∧ x < xhi) (hz : zlo ≤ z ∧ z < zhi)
    (keep : ∀ z' x' t, zlo ≤ z' → z' < zhi → xlo ≤ x' → x' < xhi → ¬ (x' = x ∧ z' = z) →
      V (cell z' x' t) = V t)
    (hit : ∀ t, V t = v0 → Good (V (cell z x t)))
    (s : Gen) (hs : V s = v0) :
    Good (V (forUp zlo zhi (fun z s1 => forUp xlo xhi (cell z) s1) s)) := by
  refine row_hit V Good v0 (fun z s1 => forUp xlo xhi (cell z) s1) zlo zhi z hz ?_ ?_ s hs
  · intro k t hk1 hk2 hk3
    refine forUp_preserve (fun u => V u = V t) xlo xhi (cell k) t rfl ?_
    intro x' u hx1 hx2 hu
    rw [keep k x' u hk1 hk2 hx1 hx2 (by intro h; exact hk3 h.2), hu]
  · intro t ht
    exact row_hit V Good v0 (cell z) xlo xhi x hx
      (fun k u hk1 hk2 hk3 => keep z k u hz.1 hz.2 hk1 hk2 (by intro h; exact hk3 h.1)) hit t ht

/-- The hypotheses under which an observation `V` of the world is not changed by the cells
other than `(x, z)`. -/
theorem Build_hit {α : Type} (V : Gen → α) (Good : α → Prop) (rng : Nat → Nat) (x z : Int)
    (hx : 0 ≤ x ∧ x < 100) (hz : 0 ≤ z ∧ z < 100)
    (kg : ∀ x' z' s t, ¬ (x' = x ∧ z' = z) → GrassCellStep rng x' z' s t → V t = V s)
    (ks : ∀ x' z' s t, ¬ (x' = x ∧ z' = z) → SandCellStep rng x' z' s t → V t = V s)
    (kv : ∀ x' z' s t, ¬ (x' = x ∧ z' = z) → GravelCellStep rng x' z' s t → V t = V s)
    (kw : ∀ x' z' s t, ¬ (x' = x ∧ z' = z) → WaterCellStep x' z' s t → V t = V s)
    (hg : x < 50 → z < 50 → ∀ s t, V s = V Gen.init → GrassCellStep rng x z s t → Good (V t))
    (hs : 50 ≤ x → 50 ≤ z → ∀ s t, V s = V Gen.init → SandCellStep rng x z s t → Good (V t))
    (hv : 50 ≤ x → z < 50 → ∀ s t, V s = V Gen.init → GravelCellStep rng x z s t → Good (V t))
    (hw : x < 50 → 50 ≤ z → ∀ s t, V s = V Gen.init → WaterCellStep x z s t → Good (V t)) :
    Good (V (BuildRenderItems rng)) := by
  have KG : ∀ s, V (grassQuadrant rng s) = V s ∨ (x < 50 ∧ z < 50) := by
    intro s
    by_cases h : x < 50 ∧ z < 50
    · exact Or.inr h
    · left
      exact quadrant_keep V _ 0 50 0 50 s (fun z' x' t h1 h2 h3 h4 =>
        kg x' z' t _ (by omega) (grassCell_spec rng z' x' t))
  have KS : ∀ s, V (sandQuadrant rng s) = V s ∨ (50 ≤ x ∧ 50 ≤ z) := by
    intro s
    by_cases h : 50 ≤ x ∧ 50 ≤ z
    · exact Or.inr h
    · left
      exact quadrant_keep V _ 50 100 50 100 s (fun z' x' t h1 h2 h3 h4 =>
        ks x' z' t _ (by omega) (sandCell_spec rng z' x' t))
  have KV : ∀ s, V (gravelQuadrant rng s) = V s ∨ (50 ≤ x ∧ z < 50) := by
    intro s
    by_cases h : 50 ≤ x ∧ z < 50
    · exact Or.inr h
    · left
      exact quadrant_keep V _ 0 50 50 100 s (fun z' x' t h1 h2 h3 h4 =>
        kv x' z' t _ (by omega) (gravelCell_spec rng z' x' t))
  have KW : ∀ s, V (waterQuadrant rng s) = V s ∨ (x < 50 ∧ 50 ≤ z) := by
    intro s
    by_cases h : x < 50 ∧ 50 ≤ z
    · exact Or.inr h
    · left
      exact quadrant_keep V _ 50 100 0 50 s (fun z' x' t h1 h2 h3 h4 =>
        kw x' z' t _ (by omega) (waterCell_spec rng z' x' t))
  unfold BuildRenderItems
  by_cases hxl : x < 50 <;> by_cases hzl : z < 50
  · -- grass
    rcases KW (gravelQuadrant rng (sandQuadrant rng (grassQuadrant rng Gen.init))) with e | e
    swap; · omega
    rcases KV (sandQuadrant rng (grassQuadrant rng Gen.init)) with f | f
    swap; · omega
    rcases KS (grassQuadrant rng Gen.init) with g | g
    swap; · omega
    rw [e, f, g]
    exact quadrant_hit V Good (V Gen.init) (grassCell rng) 0 50 0 50 x z ⟨hx.1, hxl⟩ ⟨hz.1, hzl⟩
      (fun z' x' t _ _ _ _ hne => kg x' z' t _ hne (grassCell_spec rng z' x' t))
      (fun t ht => hg hxl hzl t _ ht (grassCell_spec rng z x t)) Gen.init rfl
  · -- water
    rcases KV (sandQuadrant rng (grassQuadrant rng Gen.init)) with f | f
    swap; · omega
    rcases KS (grassQuadrant rng Gen.init) with g | g
    swap; · omega
    rcases KG Gen.init with k | k
    swap; · omega
    exact quadrant_hit V Good (V Gen.init) (waterCell rng) 50 100 0 50 x z ⟨hx.1, hxl⟩
      ⟨by omega, hz.2⟩
      (fun z' x' t _ _ _ _ hne => kw x' z' t _ hne (waterCell_spec rng z' x' t))
      (fun t ht => hw hxl (by omega) t _ ht (waterCell_spec rng z x t)) _ (by rw [f, g, k])
  · -- gravel
    rcases KW (gravelQuadrant rng (sandQuadrant rng (grassQuadrant rng Gen.init))) with e | e
    swap; · omega
    rcases KS (grassQuadrant rng Gen.init) with g | g
    swap; · omega
    rcases KG Gen.init with k | k
    swap; · omega
    rw [e]
    exact quadrant_hit V Good (V Gen.init) (gravelCell rng) 0 50 50 100 x z ⟨by omega, hx.2⟩
      ⟨hz.1, hzl⟩
      (fun z' x' t _ _ _ _ hne => kv x' z' t _ hne (gravelCell_spec rng z' x' t))
      (fun t ht => hv (by omega) hzl t _ ht (gravelCell_spec rng z x t)) _ (by rw [g, k])
  · -- sand
    rcases KW (gravelQuadrant rng (sandQuadrant rng (grassQuadrant rng Gen.init))) with e | e
    swap; · omega
    rcases KV (sandQuadrant rng (grassQuadrant rng Gen.init)) with f | f
    swap; · omega
    rcases KG Gen.init with k | k
    swap; · omega
    rw [e, f]
    exact quadrant_hit V Good (V Gen.init) (sandCell rng) 50 100 50 100 x z ⟨by omega, hx.2⟩
      ⟨by omega, hz.2⟩
      (fun z' x' t _ _ _ _ hne => ks x' z' t _ hne (sandCell_spec rng z' x' t))
      (fun t ht => hs (by omega) (by omega) t _ ht (sandCell_spec rng z x t)) _ (by rw [k])

/-- The cells other than `(x, z)` of a pair of loops leave an observation `V` as it was: the
observation after the loops is the one after the body of the cell `(x, z)`, run from the state
in which the loops reach the cell, and that state is observed as the state before the loops. -/
theorem quadrant_at {α : Type} (V : Gen → α) (cell : Int → Int → Gen → Gen)
    (zlo zhi xlo xhi x z : Int) (hx : xlo ≤ x ∧ x < xhi) (hz : zlo ≤ z ∧ z < zhi)
    (keep : ∀ z' x' t, zlo ≤ z' → z' < zhi → xlo ≤ x' → x' < xhi → ¬ (x' = x ∧ z' = z) →
      V (cell z' x' t) = V t) (s : Gen) :
    V (forUp zlo zhi (fun z1 s1 => forUp xlo xhi (cell z1) s1) s) =
      V (cell z x (forUp xlo x (cell z)
        (forUp zlo z (fun z1 s1 => forUp xlo xhi (cell z1) s1) s))) ∧
    V (forUp xlo x (cell z) (forUp zlo z (fun z1 s1 => forUp xlo xhi (cell z1) s1) s)) =
      V s := by
  constructor
  · rw [forUp_split zlo z zhi _ s hz.1 (by omega),
      forUp_split z (z + 1) zhi _ _ (by omega) (by omega), forUp_one]
    rw [quadrant_keep V cell (z + 1) zhi xlo xhi _ (fun z' x' t h1 h2 h3 h4 =>
      keep z' x' t (by omega) h2 h3 h4 (by omega))]
    show V (forUp xlo xhi (cell z) _) = _
    rw [forUp_split xlo x xhi _ _ hx.1 (by omega),
      forUp_split x (x + 1) xhi _ _ (by omega) (by omega), forUp_one]
    refine forUp_preserve (fun t => V t = V (cell z x _)) (x + 1) xhi (cell z) _ rfl ?_
    intro k t hk1 hk2 ht
    rw [keep z k t hz.1 hz.2 (by omega) hk2 (by omega), ht]
  · have h1 : V (forUp zlo z (fun z1 s1 => forUp xlo xhi (cell z1) s1) s) = V s :=
      quadrant_keep V cell zlo z xlo xhi s (fun z' x' t h1 h2 h3 h4 =>
        keep z' x' t h1 (by omega) h3 h4 (by omega))
    refine forUp_preserve (fun t => V t = V s) xlo x (cell z) _ h1 ?_
    intro k t hk1 hk2 ht
    rw [keep z k t hz.1 hz.2 hk1 (by omega) (by omega), ht]

/-- An observation `V` of the world that the cells other than `(x, z)` do not change is, in the
finished world, the observation after the body of the cell `(x, z)`, run from the state in
which the loops of its quadrant reach the cell; in that state the observation is the one of
the empty world. -/
theorem Build_at {α : Type} (V : Gen → α) (rng : Nat → Nat) (x z : Int)
    (kg : ∀ x' z' s t, ¬ (x' = x ∧ z' = z) → GrassCellStep rng x' z' s t → V t = V s)
    (ks : ∀ x' z' s t, ¬ (x' = x ∧ z' = z) → SandCellStep rng x' z' s t → V t = V s)
    (kv : ∀ x' z' s t, ¬ (x' = x ∧ z' = z) → GravelCellStep rng x' z' s t → V t = V s)
    (kw : ∀ x' z' s t, ¬ (x' = x ∧ z' = z) → WaterCellStep x' z' s t → V t = V s) :
    (0 ≤ x → x < 50 → 0 ≤ z → z < 50 →
      V (BuildRenderItems rng) = V (grassCell rng z x (grassUpTo rng z x)) ∧
      V (grassUpTo rng z x) = V Gen.init) ∧
    (50 ≤ x → x < 100 → 50 ≤ z → z < 100 →
      V (BuildRenderItems rng) = V (sandCell rng z x (sandUpTo rng z x)) ∧
      V (sandUpTo rng z x) = V Gen.init) ∧
    (50 ≤ x → x < 100 → 0 ≤ z → z < 50 →
      V (BuildRenderItems rng) = V (gravelCell rng z x (gravelUpTo rng z x)) ∧
      V (gravelUpTo rng z x) = V Gen.init) ∧
    (0 ≤ x → x < 50 → 50 ≤ z → z < 100 →
      V (BuildRenderItems rng) = V (waterCell rng z x (waterUpTo rng z x)) ∧
      V (waterUpTo rng z x) = V Gen.init) := by
  have KG : ∀ s, ¬ (x < 50 ∧ z < 50) → V (grassQuadrant rng s) = V s := by
    intro s h
    exact quadrant_keep V _ 0 50 0 50 s (fun z' x' t h1 h2 h3 h4 =>
      kg x' z' t _ (by omega) (grassCell_spec rng z' x' t))
  have KS : ∀ s, ¬ (50 ≤ x ∧ 50 ≤ z) → V (sandQuadrant rng s) = V s := by
    intro s h
    exact quadrant_keep V _ 50 100 50 100 s (fun z' x' t h1 h2 h3 h4 =>
      ks x' z' t _ (by omega) (sandCell_spec rng z' x' t))
  have KV : ∀ s, ¬ (50 ≤ x ∧ z < 50) → V (gravelQuadrant rng s) = V s := by
    intro s h
    exact quadrant_keep V _ 0 50 50 100 s (fun z' x' t h1 h2 h3 h4 =>
      kv x' z' t _ (by omega) (gravelCell_spec rng z' x' t))
  have KW : ∀ s, ¬ (x < 50 ∧ 50 ≤ z) → V (waterQuadrant rng s) = V s := by
    intro s h
    exact quadrant_keep V _ 50 100 0 50 s (fun z' x' t h1 h2 h3 h4 =>
      kw x' z' t _ (by omega) (waterCell_spec rng z' x' t))
  refine ⟨?_, ?_, ?_, ?_⟩
  · intro hx1 hx2 hz1 hz2
    have q := quadrant_at V (grassCell rng) 0 50 0 50 x z ⟨hx1, hx2⟩ ⟨hz1, hz2⟩
      (fun z' x' t _ _ _ _ hne => kg x' z' t _ hne (grassCell_spec rng z' x' t)) Gen.init
    refine ⟨?_, q.2⟩
    unfold BuildRenderItems
    rw [KW _ (by omega), KV _ (by omega), KS _ (by omega)]
    exact q.1
  · intro hx1 hx2 hz1 hz2
    have q := quadrant_at V (sandCell rng) 50 100 50 100 x z ⟨hx1, hx2⟩ ⟨hz1, hz2⟩
      (fun z' x' t _ _ _ _ hne => ks x' z' t _ hne (sandCell_spec rng z' x' t))
      (grassQuadrant rng Gen.init)
    refine ⟨?_, q.2.trans (KG _ (by omega))⟩
    unfold BuildRenderItems
    rw [KW _ (by omega), KV _ (by omega)]
    exact q.1
  · intro hx1 hx2 hz1 hz2
    have q := quadrant_at V (gravelCell rng) 0 50 50 100 x z ⟨hx1, hx2⟩ ⟨hz1, hz2⟩
      (fun z' x' t _ _ _ _ hne => kv x' z' t _ hne (gravelCell_spec rng z' x' t))
      (sandQuadrant rng (grassQuadrant rng Gen.init))
    refine ⟨?_, q.2.trans ((KS _ (by omega)).trans (KG _ (by omega)))⟩
    unfold BuildRenderItems
    rw [KW _ (by omega)]
    exact q.1
  · intro hx1 hx2 hz1 hz2
    have q := quadrant_at V (waterCell rng) 50 100 0 50 x z ⟨hx1, hx2⟩ ⟨hz1, hz2⟩
      (fun z' x' t _ _ _ _ hne => kw x' z' t _ hne (waterCell_spec rng z' x' t))
      (gravelQuadrant rng (sandQuadrant rng (grassQuadrant rng Gen.init)))
    refine ⟨?_, q.2.trans ((KV _ (by omega)).trans ((KS _ (by omega)).trans (KG _ (by omega))))⟩
    exact q.1

/-! ## Observing columns -/

theorem matsWhere_append (q : Int × Int × Int → Material → Bool) (l1 l2 : List RenderItem) :
    matsWhere q (l1 ++ l2) = matsWhere q l1 ++ matsWhere q l2 := by
  simp [matsWhere, List.filter_append]

theorem matsWhere_eq_nil (q : Int × Int × Int → Material → Bool) (l : List RenderItem)
    (h : ∀ it ∈ l, q it.World it.Mat = false) : matsWhere q l = [] := by
  unfold matsWhere
  rw [List.map_eq_nil_iff, List.filter_eq_nil_iff]
  intro it hit
  simp [h it hit]

theorem mem_columnItems {x z : Int} {i0 : Nat} {mat : Int → Material} {h : Nat} {it : RenderItem}
    (hit : it ∈ columnItems x z i0 mat h) :
    ∃ n : Nat, n < h ∧ it = mkItem x (n : Int) z (i0 + n) (mat (n : Int)) := by
  unfold columnItems at hit
  rw [List.mem_map] at hit
  obtain ⟨n, hn, rfl⟩ := hit
  exact ⟨n, List.mem_range.mp hn, rfl⟩

theorem mem_treeItems {x z r : Int} {i0 : Nat} {it : RenderItem}
    (hit : it ∈ treeItems x z r i0) :
    (it.Mat = .wood ∨ it.Mat = .leaves) ∧ r + 8 ≤ it.World.2.1 ∧ it.World.2.1 ≤ r + 11 ∧
    x - 1 ≤ it.World.1 ∧ it.World.1 ≤ x + 1 ∧ z - 1 ≤ it.World.2.2 ∧ it.World.2.2 ≤ z + 1 ∧
    i0 ≤ it.ObjCBIndex ∧ it.ObjCBIndex < i0 + 12 ∧ it.NumFramesDirty = 3 := by
  simp only [treeItems, List.mem_cons, List.mem_singleton, List.not_mem_nil, or_false] at hit
  rcases hit with h | h | h | h | h | h | h | h | h | h | h | h <;> subst h <;>
    simp [mkItem] <;> omega

theorem matsWhere_columnItems_other (q : Int × Int × Int → Material → Bool) (x z : Int) (i0 : Nat)
    (mat : Int → Material) (h : Nat) (hq : ∀ y m, q (x, y, z) m = false) :
    matsWhere q (columnItems x z i0 mat h) = [] := by
  apply matsWhere_eq_nil
  intro it hit
  obtain ⟨n, _, rfl⟩ := mem_columnItems hit
  exact hq _ _

theorem matsWhere_treeItems (q : Int × Int × Int → Material → Bool) (x z r : Int) (i0 : Nat)
    (hr : 1 ≤ r)
    (hq : ∀ w m, (m = .wood ∨ m = .leaves) → 9 ≤ w.2.1 → q w m = false) :
    matsWhere q (treeItems x z r i0) = [] := by
  apply matsWhere_eq_nil
  intro it hit
  obtain ⟨h1, h2, _⟩ := mem_treeItems hit
  exact hq _ _ h1 (by omega)

theorem matsWhere_columnItems (q : Int × Int × Int → Material → Bool) (x z : Int) (i0 : Nat)
    (mat : Int → Material) (h : Nat) (y : Int)
    (hq1 : ∀ y' m, q (x, y', z) m = true → y' = y)
    (hq2 : ∀ n : Nat, n < h → (n : Int) = y → q (x, y, z) (mat y) = true) :
    matsWhere q (columnItems x z i0 mat h) = if 0 ≤ y ∧ y < h then [mat y] else [] := by
  induction h with
  | zero =>
    have : ¬ (0 ≤ y ∧ y < ((0 : Nat) : Int)) := by omega
    simp [columnItems, matsWhere, this]
  | succ n ih =>
    have ih' := ih (fun k hk => hq2 k (by omega))
    rw [columnItems_succ, matsWhere_append, ih']
    by_cases hy : (n : Int) = y
    · subst hy
      have h1 : ¬ (0 ≤ (n : Int) ∧ (n : Int) < (n : Int)) := by omega
      have h2 : (0 ≤ (n : Int) ∧ (n : Int) < ((n + 1 : Nat) : Int)) := by omega
      rw [if_neg h1, if_pos h2]
      simp [matsWhere, mkItem, hq2 n (by omega) rfl]
    · have h3 : (0 ≤ y ∧ y < ((n + 1 : Nat) : Int)) ↔ (0 ≤ y ∧ y < (n : Int)) := by omega
      have h4 : matsWhere q [mkItem x (n : Int) z (i0 + n) (mat (n : Int))] = [] := by
        apply matsWhere_eq_nil
        intro it hit
        rw [List.mem_singleton] at hit
        subst hit
        by_contra hc
        exact hy (hq1 _ _ (by simpa [mkItem] using hc))
      rw [h4, List.append_nil]
      simp only [h3]

theorem terrainAt_columnItems (x z : Int) (i0 : Nat) (mat : Int → Material) (h : Nat) (y : Int)
    (hmat : ∀ n : Nat, n < h → isTerrain (mat (n : Int)) = true) :
    terrainAt (columnItems x z i0 mat h) x y z = if 0 ≤ y ∧ y < h then [mat y] else [] := by
  unfold terrainAt
  apply matsWhere_columnItems
  · intro y' m hq
    simp only [Bool.and_eq_true, decide_eq_true_eq, Prod.mk.injEq] at hq
    exact hq.1.2.1
  · intro n hn hy
    subst hy
    simp [hmat n hn]

theorem blocksAt_columnItems (x z : Int) (i0 : Nat) (mat : Int → Material) (h : Nat) (y : Int) :
    blocksAt (columnItems x z i0 mat h) x y z = if 0 ≤ y ∧ y < h then [mat y] else [] := by
  unfold blocksAt
  apply matsWhere_columnItems
  · intro y' m hq
    simp only [decide_eq_true_eq, Prod.mk.injEq] at hq
    exact hq.2.1
  · intro n hn hy
    simp

theorem LayerRule.terrain {cap : Int → Bool} {capMat : Material} {mat : Int → Material}
    (hr : LayerRule cap capMat mat) (hc : isTerrain capMat = true) (y : Int) (hy : 0 ≤ y) :
    isTerrain (mat y) = true := by
  obtain ⟨h0, h1, h2⟩ := hr
  by_cases a : y = 0
  · subst a; rw [h0]; rfl
  by_cases b : y < 4
  · rcases h1 y (by omega) b with h | h | h <;> rw [h] <;> rfl
  · rw [h2 y (by omega)]
    split
    · exact hc
    · rfl

/-- A layer loop at another cell leaves the observation of cell `(x, z)` as it was. -/
theorem CellStep.keepView {cap : Int → Bool} {capMat : Material} {x z : Int} {h : Nat} {s t : Gen}
    (hc : CellStep cap capMat x z h s t) (q : Int × Int × Int → Material → Bool)
    (hq : ∀ y m, q (x, y, z) m = false) :
    matsWhere q t.mAllRitems = matsWhere q s.mAllRitems := by
  obtain ⟨mat, _, h1, _⟩ := hc
  rw [h1, matsWhere_append, matsWhere_columnItems_other q x z s.index mat h hq, List.append_nil]

/-- The tree part of a cell leaves every observation that looks below layer 9, or at terrain
materials only, as it was. -/
theorem TreeStep.keepObs {x z : Int} {s t : Gen} (hc : TreeStep x z s t)
    (q : Int × Int × Int → Material → Bool) (hr : 1 ≤ s.random)
    (hq : ∀ w m, (m = .wood ∨ m = .leaves) → 9 ≤ w.2.1 → q w m = false) :
    matsWhere q t.mAllRitems = matsWhere q s.mAllRitems := by
  rcases hc with h | h
  · rw [h.2.2.2.2.1]
  · obtain ⟨_, _, _, _, _, _, _, _, _, _, h11, _⟩ := h
    rw [h11, matsWhere_append, matsWhere_treeItems q x z s.random s.index hr hq, List.append_nil]

/-- The terrain column that a layer loop leaves at its own cell. -/
theorem CellStep.column {cap : Int → Bool} {capMat : Material} {x z : Int} {h : Nat} {s t : Gen}
    (hc : CellStep cap capMat x z h s t) (hcap : isTerrain capMat = true)
    (hs : ∀ y, terrainAt s.mAllRitems x y z = []) :
    ∃ mat, LayerRule cap capMat mat ∧
      ∀ y, terrainAt t.mAllRitems x y z = if 0 ≤ y ∧ y < h then [mat y] else [] := by
  obtain ⟨mat, hr, h1, _⟩ := hc
  refine ⟨mat, hr, ?_⟩
  intro y
  have := terrainAt_columnItems x z s.index mat h y (fun n _ => hr.terrain hcap n (by omega))
  unfold terrainAt at this hs ⊢
  rw [h1, matsWhere_append, hs y, List.nil_append, this]

/-! ## The terrain column of a cell in the finished world -/

theorem terrain_keep_cell {cap : Int → Bool} {capMat : Material} {x x' z z' : Int} {h : Nat}
    {s t : Gen} (hc : CellStep cap capMat x' z' h s t) (hne : ¬ (x' = x ∧ z' = z)) :
    (fun y => terrainAt t.mAllRitems x y z) = (fun y => terrainAt s.mAllRitems x y z) := by
  funext y
  unfold terrainAt
  apply hc.keepView
  intro y' m
  have : ¬ ((x', y', z') = (x, y, z)) := by
    intro h; simp only [Prod.mk.injEq] at h; exact hne ⟨h.1, h.2.2⟩
  simp [this]

theorem terrain_keep_tree {x x' z z' : Int} {s t : Gen} (hc : TreeStep x' z' s t) :
    (fun y => terrainAt t.mAllRitems x y z) = (fun y => terrainAt s.mAllRitems x y z) := by
  funext y
  unfold terrainAt
  rcases hc with h | h
  · rw [h.2.2.2.2.1]
  · obtain ⟨_, _, _, _, _, _, _, _, _, _, h11, _⟩ := h
    rw [h11, matsWhere_append]
    rw [matsWhere_eq_nil _ (treeItems x' z' s.random s.index), List.append_nil]
    intro it hit
    obtain ⟨h1, _⟩ := mem_treeItems hit
    rcases h1 with h1 | h1 <;> simp [h1, isTerrain]

/-- The terrain column of a cell of the finished world, by the quadrant of the cell: the
column is the one that the layer loop of the cell's own pass created, of the height that the
height draw of the cell gives. -/
theorem terrain_column_at (Good : (Int → List Material) → Prop) (rng : Nat → Nat) (x z : Int)
    (hx : 0 ≤ x ∧ x < 100) (hz : 0 ≤ z ∧ z < 100)
    (hg : x < 50 → z < 50 → ∀ (mat : Int → Material),
      LayerRule (grassCap (grassRandom rng x z)) .grass mat →
      Good (fun y => if 0 ≤ y ∧ y < grassRandom rng x z + 8 then [mat y] else []))
    (hs : 50 ≤ x → 50 ≤ z → ∀ (mat : Int → Material),
      (sandRandom rng x z = 2 → LayerRule (flatCap 9) .sand mat →
        Good (fun y => if 0 ≤ y ∧ y < 10 then [mat y] else [])) ∧
      (sandRandom rng x z ≠ 2 → LayerRule (flatCap 8) .sand mat →
        Good (fun y => if 0 ≤ y ∧ y < 9 then [mat y] else [])))
    (hv : 50 ≤ x → z < 50 → ∀ (mat : Int → Material),
      LayerRule (gravelCap (gravelRandom rng x z)) .gravel mat →
      Good (fun y => if 0 ≤ y ∧ y < gravelRandom rng x z + 8 then [mat y] else []))
    (hw : x < 50 → 50 ≤ z → ∀ (mat : Int → Material), LayerRule (flatCap 8) .water mat →
      Good (fun y => if 0 ≤ y ∧ y < 9 then [mat y] else [])) :
    Good (fun y => terrainAt (BuildRenderItems rng).mAllRitems x y z) := by
  have hinit : ∀ s : Gen,
      (fun y => terrainAt s.mAllRitems x y z) = (fun y => terrainAt Gen.init.mAllRitems x y z) →
      ∀ y, terrainAt s.mAllRitems x y z = [] := by
    intro s h y
    have := congrFun h y
    rw [this]; rfl
  obtain ⟨ag, as, av, aw⟩ := Build_at (fun s => fun y => terrainAt s.mAllRitems x y z) rng x z
    (by
      rintro x' z' s t hne ⟨r, u, _, _, hc, _, ht, _⟩
      show (fun y => terrainAt t.mAllRitems x y z) = (fun y => terrainAt s.mAllRitems x y z)
      rw [terrain_keep_tree ht, terrain_keep_cell hc hne])
    (by
      rintro x' z' s t hne ⟨r, _, _, _, hc⟩
      rcases hc with ⟨_, hc⟩ | ⟨_, hc⟩ <;> exact terrain_keep_cell hc hne)
    (by
      rintro x' z' s t hne ⟨r, _, _, hc⟩
      exact terrain_keep_cell hc hne)
    (by
      rintro x' z' s t hne hc
      exact terrain_keep_cell hc hne)
  by_cases hxl : x < 50 <;> by_cases hzl : z < 50
  · obtain ⟨e1, e2⟩ := ag hx.1 hxl hz.1 hzl
    show Good (fun y => terrainAt (BuildRenderItems rng).mAllRitems x y z)
    rw [e1]
    obtain ⟨r, u, hr, hr12, hc, _, ht, _⟩ := grassCell_spec rng z x (grassUpTo rng z x)
    have hrr : r = grassRandom rng x z := hr
    rw [terrain_keep_tree ht]
    obtain ⟨mat, hrule, hcol⟩ := hc.column rfl (hinit _ e2)
    have hh : (((r + 8).toNat : Nat) : Int) = r + 8 := by omega
    simp only [hh] at hcol
    rw [hrr] at hrule hcol
    have := hg hxl hzl mat hrule
    rwa [show (fun y => terrainAt u.mAllRitems x y z) =
      (fun y => if 0 ≤ y ∧ y < grassRandom rng x z + 8 then [mat y] else []) from funext hcol]
  · obtain ⟨e1, e2⟩ := aw hx.1 hxl (by omega) hz.2
    show Good (fun y => terrainAt (BuildRenderItems rng).mAllRitems x y z)
    rw [e1]
    have hc := waterCell_spec rng z x (waterUpTo rng z x)
    obtain ⟨mat, hrule, hcol⟩ := hc.column rfl (hinit _ e2)
    have := hw hxl (by omega) mat hrule
    rwa [show (fun y => terrainAt (waterCell rng z x (waterUpTo rng z x)).mAllRitems x y z) =
      (fun y => if 0 ≤ y ∧ y < 9 then [mat y] else []) from funext hcol]
  · obtain ⟨e1, e2⟩ := av (by omega) hx.2 hz.1 hzl
    show Good (fun y => terrainAt (BuildRenderItems rng).mAllRitems x y z)
    rw [e1]
    obtain ⟨r, hr, hr123, hc⟩ := gravelCell_spec rng z x (gravelUpTo rng z x)
    have hrr : r = gravelRandom rng x z := hr
    obtain ⟨mat, hrule, hcol⟩ := hc.column rfl (hinit _ e2)
    have hh : (((r + 8).toNat : Nat) : Int) = r + 8 := by omega
    simp only [hh] at hcol
    rw [hrr] at hrule hcol
    have := hv (by omega) hzl mat hrule
    rwa [show (fun y => terrainAt (gravelCell rng z x (gravelUpTo rng z x)).mAllRitems x y z) =
      (fun y => if 0 ≤ y ∧ y < gravelRandom rng x z + 8 then [mat y] else []) from funext hcol]
  · obtain ⟨e1, e2⟩ := as (by omega) hx.2 (by omega) hz.2
    show Good (fun y => terrainAt (BuildRenderItems rng).mAllRitems x y z)
    rw [e1]
    obtain ⟨r, hr, _, _, hc⟩ := sandCell_spec rng z x (sandUpTo rng z x)
    have hrr : r = sandRandom rng x z := hr
    rcases hc with ⟨h2', hc⟩ | ⟨h2', hc⟩
    · obtain ⟨mat, hrule, hcol⟩ := hc.column rfl (hinit _ e2)
      have := (hs (by omega) (by omega) mat).1 (by rw [← hrr]; exact h2') hrule
      rwa [show (fun y => terrainAt (sandCell rng z x (sandUpTo rng z x)).mAllRitems x y z) =
        (fun y => if 0 ≤ y ∧ y < 10 then [mat y] else []) from funext hcol]
    · obtain ⟨mat, hrule, hcol⟩ := hc.column rfl (hinit _ e2)
      have := (hs (by omega) (by omega) mat).2 (by rw [← hrr]; exact h2') hrule
      rwa [show (fun y => terrainAt (sandCell rng z x (sandUpTo rng z x)).mAllRitems x y z) =
        (fun y => if 0 ≤ y ∧ y < 9 then [mat y] else []) from funext hcol]

/-- The terrain column of a cell of the finished world, for a property that holds whatever
draw of the stream the height draw of the cell is. -/
theorem terrain_column (Good : (Int → List Material) → Prop) (rng : Nat → Nat) (x z : Int)
    (hx : 0 ≤ x ∧ x < 100) (hz : 0 ≤ z ∧ z < 100)
    (hg : x < 50 → z < 50 → ∀ (k : Nat) (r : Int) (mat : Int → Material),
      r = ((rng k : Nat) : Int) % 2 + 1 → LayerRule (grassCap r) .grass mat →
      Good (fun y => if 0 ≤ y ∧ y < r + 8 then [mat y] else []))
    (hs : 50 ≤ x → 50 ≤ z → ∀ (k : Nat) (r : Int) (mat : Int → Material),
      r = ((rng k : Nat) : Int) % 10 + 1 →
      (r = 2 → LayerRule (flatCap 9) .sand mat →
        Good (fun y => if 0 ≤ y ∧ y < 10 then [mat y] else [])) ∧
      (r ≠ 2 → LayerRule (flatCap 8) .sand mat →
        Good (fun y => if 0 ≤ y ∧ y < 9 then [mat y] else [])))
    (hv : 50 ≤ x → z < 50 → ∀ (k : Nat) (r : Int) (mat : Int → Material),
      r = ((rng k : Nat) : Int) % 3 + 1 → LayerRule (gravelCap r) .gravel mat →
      Good (fun y => if 0 ≤ y ∧ y < r + 8 then [mat y] else []))
    (hw : x < 50 → 50 ≤ z → ∀ (mat : Int → Material), LayerRule (flatCap 8) .water mat →
      Good (fun y => if 0 ≤ y ∧ y < 9 then [mat y] else [])) :
    Good (fun y => terrainAt (BuildRenderItems rng).mAllRitems x y z) :=
  terrain_column_at Good rng x z hx hz
    (fun h1 h2 mat hrule => hg h1 h2 (grassUpTo rng z x).calls _ mat rfl hrule)
    (fun h1 h2 mat => hs h1 h2 (sandUpTo rng z x).calls _ mat rfl)
    (fun h1 h2 mat hrule => hv h1 h2 (gravelUpTo rng z x).calls _ mat rfl hrule)
    hw

/-- Every render item of the finished world is a column item of one of the four quadrants or
a tree item: a property of all of these is a property of every render item. -/
theorem Build_items (Q : RenderItem → Prop) (rng : Nat → Nat)
    (hg : ∀ (x z r : Int) (n i : Nat) (mat : Int → Material), 0 ≤ x → x < 50 → 0 ≤ z → z < 50 →
      (r = 1 ∨ r = 2) → (n : Int) < r + 8 → LayerRule (grassCap r) .grass mat →
      Q (mkItem x n z i (mat n)))
    (ht : ∀ (x z r : Int) (i : Nat) (it : RenderItem), 0 < x → x < 50 → 0 < z → z < 50 →
      (r = 1 ∨ r = 2) → it ∈ treeItems x z r i → Q it)
    (hs : ∀ (x z top : Int) (n i : Nat) (mat : Int → Material), 50 ≤ x → x < 100 → 50 ≤ z →
      z < 100 → (top = 8 ∨ top = 9) → (n : Int) ≤ top → LayerRule (flatCap top) .sand mat →
      Q (mkItem x n z i (mat n)))
    (hv : ∀ (x z r : Int) (n i : Nat) (mat : Int → Material), 50 ≤ x → x < 100 → 0 ≤ z → z < 50 →
      (r = 1 ∨ r = 2 ∨ r = 3) → (n : Int) < r + 8 → LayerRule (gravelCap r) .gravel mat →
      Q (mkItem x n z i (mat n)))
    (hw : ∀ (x z : Int) (n i : Nat) (mat : Int → Material), 0 ≤ x → x < 50 → 50 ≤ z → z < 100 →
      (n : Int) < 9 → LayerRule (flatCap 8) .water mat → Q (mkItem x n z i (mat n))) :
    ∀ it ∈ (BuildRenderItems rng).mAllRitems, Q it := by
  refine Build_induct (fun s => ∀ it ∈ s.mAllRitems, Q it) rng ?_ ?_ ?_ ?_ ?_
  · intro it hit; cases hit
  · rintro x z s t hx1 hx2 hz1 hz2 ⟨r, u, _, hr12, ⟨mat, hrule, hitems, _⟩, hur, htree, _⟩ hP it hit
    have hu : ∀ it ∈ u.mAllRitems, Q it := by
      intro it hit
      rw [hitems, List.mem_append] at hit
      rcases hit with h | h
      · exact hP it h
      · obtain ⟨n, hn, rfl⟩ := mem_columnItems h
        exact hg x z r n _ mat hx1 hx2 hz1 hz2 hr12 (by omega) hrule
    rcases htree with h | h
    · rw [h.2.2.2.2.1] at hit; exact hu it hit
    · obtain ⟨_, p2, p3, p4, p5, _, _, _, _, _, p11, _⟩ := h
      rw [p11, List.mem_append] at hit
      rcases hit with h | h
      · exact hu it h
      · exact ht x z u.random _ it p2 p3 p4 p5 (by rw [hur]; exact hr12) h
  · rintro x z s t hx1 hx2 hz1 hz2 ⟨r, _, _, _, hc⟩ hP it hit
    rcases hc with ⟨_, mat, hrule, hitems, _⟩ | ⟨_, mat, hrule, hitems, _⟩
    · rw [hitems, List.mem_append] at hit
      rcases hit with h | h
      · exact hP it h
      · obtain ⟨n, hn, rfl⟩ := mem_columnItems h
        exact hs x z 9 n _ mat hx1 hx2 hz1 hz2 (Or.inr rfl) (by omega) hrule
    · rw [hitems, List.mem_append] at hit
      rcases hit with h | h
      · exact hP it h
      · obtain ⟨n, hn, rfl⟩ := mem_columnItems h
        exact hs x z 8 n _ mat hx1 hx2 hz1 hz2 (Or.inl rfl) (by omega) hrule
  · rintro x z s t hx1 hx2 hz1 hz2 ⟨r, _, hr123, mat, hrule, hitems, _⟩ hP it hit
    rw [hitems, List.mem_append] at hit
    rcases hit with h | h
    · exact hP it h
    · obtain ⟨n, hn, rfl⟩ := mem_columnItems h
      exact hv x z r n _ mat hx1 hx2 hz1 hz2 hr123 (by omega) hrule
  · rintro x z s t hx1 hx2 hz1 hz2 ⟨mat, hrule, hitems, _⟩ hP it hit
    rw [hitems, List.mem_append] at hit
    rcases hit with h | h
    · exact hP it h
    · obtain ⟨n, hn, rfl⟩ := mem_columnItems h
      exact hw x z n _ mat hx1 hx2 hz1 hz2 (by omega) hrule

/-- In every column, the material at a layer from 1 to 3 is gravel, iron or stone. -/
theorem LayerRule.low {cap : Int → Bool} {capMat : Material} {mat : Int → Material}
    (hr : LayerRule cap capMat mat) (y : Int) (h1 : 1 ≤ y) (h3 : y ≤ 3) :
    mat y = .gravel ∨ mat y = .iron ∨ mat y = .stone :=
  hr.2.1 y (by omega) (by omega)

theorem blocksAt_keep_cell {cap : Int → Bool} {capMat : Material} {x x' y z z' : Int} {h : Nat}
    {s t : Gen} (hc : CellStep cap capMat x' z' h s t) (hne : ¬ (x' = x ∧ z' = z)) :
    blocksAt t.mAllRitems x y z = blocksAt s.mAllRitems x y z := by
  unfold blocksAt
  apply hc.keepView
  intro y' m
  have : ¬ ((x', y', z') = (x, y, z)) := by
    intro h; simp only [Prod.mk.injEq] at h; exact hne ⟨h.1, h.2.2⟩
  simp [this]

theorem blocksAt_keep_tree {x x' y z z' : Int} {s t : Gen} (hc : TreeStep x' z' s t)
    (hr : 1 ≤ s.random) (hy : y < 9) :
    blocksAt t.mAllRitems x y z = blocksAt s.mAllRitems x y z := by
  unfold blocksAt
  apply hc.keepObs _ hr
  intro w m _ hw
  have : ¬ (w = (x, y, z)) := by
    intro h; rw [h] at hw; simp only at hw; omega
  simp [this]

theorem blocksAt_hit {cap : Int → Bool} {capMat : Material} {x z : Int} {h : Nat}
    {s t : Gen} (hc : CellStep cap capMat x z h s t) (hh : 0 < h)
    (hs : blocksAt s.mAllRitems x 0 z = []) :
    blocksAt t.mAllRitems x 0 z = [.bedrock] := by
  obtain ⟨mat, hrule, hitems, _⟩ := hc
  have hb := blocksAt_columnItems x z s.index mat h 0
  unfold blocksAt at hb hs ⊢
  rw [hitems, matsWhere_append, hs, hb, List.nil_append, if_pos ⟨le_refl _, by omega⟩, hrule.1]

/-- The body of a layer loop at a layer from 1 to 3: one block, of the material that the two
draws of the layer decide, and one draw consumed when the first draw is 2, two otherwise. -/
theorem layer_low (rng : Nat → Nat) (cap : Int → Bool) (capMat : Material) (x z y : Int)
    (s : Gen) (hy : 1 ≤ y ∧ y ≤ 3) :
    (layer rng cap capMat x z y s).mAllRitems =
      s.mAllRitems ++ [mkItem x y z s.index
        (if ((rng s.calls : Nat) : Int) % 5 + 1 = 2 then .gravel
          else if ((rng (s.calls + 1) : Nat) : Int) % 10 + 1 = 2 then .iron else .stone)] ∧
    (layer rng cap capMat x z y s).calls =
      s.calls + (if ((rng s.calls : Nat) : Int) % 5 + 1 = 2 then 1 else 2) := by
  have h0 : ¬ y = 0 := by omega
  have h1 : 0 < y ∧ y < 4 := by omega
  by_cases g : ((rng s.calls : Nat) : Int) % 5 + 1 = 2
  · simp only [layer, if_neg h0, if_pos h1, lowLayer, rand, if_pos g, pushBlock, mkItem,
      and_self]
  · by_cases i : ((rng (s.calls + 1) : Nat) : Int) % 10 + 1 = 2
    · simp only [layer, if_neg h0, if_pos h1, lowLayer, rand, if_neg g, if_pos i, pushBlock,
        mkItem, and_self]
    · simp only [layer, if_neg h0, if_pos h1, lowLayer, rand, if_neg g, if_neg i, pushBlock,
        mkItem, and_self]

/-- The body of a layer loop at a layer other than `y` creates no block at layer `y`. -/
theorem blocksAt_layer_other (rng : Nat → Nat) (cap : Int → Bool) (capMat : Material)
    (x z k y : Int) (s : Gen) (hne : k ≠ y) :
    blocksAt (layer rng cap capMat x z k s).mAllRitems x y z = blocksAt s.mAllRitems x y z := by
  obtain ⟨m, ⟨e1, _⟩, _⟩ := layer_step rng cap capMat x z k s
  unfold blocksAt
  rw [e1, matsWhere_append, matsWhere_eq_nil _ [mkItem x k z s.index m], List.append_nil]
  intro it hit
  rw [List.mem_singleton] at hit
  subst hit
  have : ¬ ((x, k, z) = (x, y, z)) := by
    intro h; simp only [Prod.mk.injEq] at h; exact hne h.2.1
  simp [mkItem, this]

/-- The block at a layer `y` from 1 to 3 of a column: its material is decided by the draws
that the layer loop makes when it reaches the layer `y`. -/
theorem blocksAt_column_low (rng : Nat → Nat) (cap : Int → Bool) (capMat : Material)
    (x z h y : Int) (hy : 1 ≤ y ∧ y ≤ 3) (hh : y < h) (s : Gen)
    (hs : blocksAt s.mAllRitems x y z = []) :
    blocksAt (forUp 0 h (layer rng cap capMat x z) s).mAllRitems x y z =
      [if ((rng (forUp 0 y (layer rng cap capMat x z) s).calls : Nat) : Int) % 5 + 1 = 2
        then .gravel
        else if ((rng ((forUp 0 y (layer rng cap capMat x z) s).calls + 1) : Nat) : Int) % 10 + 1
          = 2 then .iron else .stone] ∧
    (forUp 0 (y + 1) (layer rng cap capMat x z) s).calls =
      (forUp 0 y (layer rng cap capMat x z) s).calls +
        (if ((rng (forUp 0 y (layer rng cap capMat x z) s).calls : Nat) : Int) % 5 + 1 = 2
          then 1 else 2) ∧
    forUp 0 (y + 1) (layer rng cap capMat x z) s =
      lowLayer rng x y z (forUp 0 y (layer rng cap capMat x z) s) := by
  have hbelow : blocksAt (forUp 0 y (layer rng cap capMat x z) s).mAllRitems x y z = [] := by
    refine forUp_preserve (fun t : Gen => blocksAt t.mAllRitems x y z = []) 0 y _ s hs ?_
    intro k t _ hk ht
    rw [blocksAt_layer_other rng cap capMat x z k y t (by omega), ht]
  obtain ⟨l1, l2⟩ := layer_low rng cap capMat x z y (forUp 0 y (layer rng cap capMat x z) s) hy
  refine ⟨?_, ?_, ?_⟩
  · rw [forUp_split 0 (y + 1) h _ s (by omega) (by omega)]
    have habove : blocksAt (forUp (y + 1) h (layer rng cap capMat x z)
        (forUp 0 (y + 1) (layer rng cap capMat x z) s)).mAllRitems x y z =
        blocksAt (forUp 0 (y + 1) (layer rng cap capMat x z) s).mAllRitems x y z := by
      refine forUp_preserve (fun t : Gen => blocksAt t.mAllRitems x y z =
        blocksAt (forUp 0 (y + 1) (layer rng cap capMat x z) s).mAllRitems x y z)
        (y + 1) h _ _ rfl ?_
      intro k t hk _ ht
      rw [blocksAt_layer_other rng cap capMat x z k y t (by omega), ht]
    rw [habove, forUp_succ 0 y _ s (by omega), l1]
    unfold blocksAt at hbelow ⊢
    rw [matsWhere_append, hbelow, List.nil_append]
    simp [matsWhere, mkItem]
  · rw [forUp_succ 0 y _ s (by omega), l2]
  · rw [forUp_succ 0 y _ s (by omega)]
    have h0 : ¬ y = 0 := by omega
    have h1 : 0 < y ∧ y < 4 := by omega
    simp only [layer, if_neg h0, if_pos h1]

/-! ## The claims on the terrain -/

/-- C1: for every cell `(x, z)` of the 100 x 100 grid and every sequence of random draws,
exactly one render item of the finished world lies at `(x, 0, z)`, and its material is
bedrock.  The four quadrants are the four cases of the proof. -/
theorem layer_zero_is_bedrock (rng : Nat → Nat) (x z : Int) (hx : 0 ≤ x ∧ x < 100)
    (hz : 0 ≤ z ∧ z < 100) :
    blocksAt (BuildRenderItems rng).mAllRitems x 0 z = [Material.bedrock] := by
  refine Build_hit (fun s => blocksAt s.mAllRitems x 0 z) (fun v => v = [Material.bedrock])
    rng x z hx hz ?_ ?_ ?_ ?_ ?_ ?_ ?_ ?_
  · rintro x' z' s t hne ⟨r, u, _, hr12, hc, hur, ht, _⟩
    show blocksAt t.mAllRitems x 0 z = blocksAt s.mAllRitems x 0 z
    rw [blocksAt_keep_tree ht (by omega) (by omega), blocksAt_keep_cell hc hne]
  · rintro x' z' s t hne ⟨r, _, _, _, hc⟩
    rcases hc with ⟨_, hc⟩ | ⟨_, hc⟩ <;> exact blocksAt_keep_cell hc hne
  · rintro x' z' s t hne ⟨r, _, _, hc⟩
    exact blocksAt_keep_cell hc hne
  · rintro x' z' s t hne hc
    exact blocksAt_keep_cell hc hne
  · rintro _ _ s t hs ⟨r, u, _, hr12, hc, hur, ht, _⟩
    show blocksAt t.mAllRitems x 0 z = [Material.bedrock]
    rw [blocksAt_keep_tree ht (by omega) (by omega)]
    exact blocksAt_hit hc (by omega) hs
  · rintro _ _ s t hs ⟨r, _, _, _, hc⟩
    rcases hc with ⟨_, hc⟩ | ⟨_, hc⟩ <;> exact blocksAt_hit hc (by omega) hs
  · rintro _ _ s t hs ⟨r, _, hr123, hc⟩
    exact blocksAt_hit hc (by omega) hs
  · rintro _ _ s t hs hc
    exact blocksAt_hit hc (by omega) hs

/-- Witness of C1: the cell `(60, 60)` under the stream of draws that is constantly 1. -/
theorem layer_zero_is_bedrock_witness :
    ((0 : Int) ≤ 60 ∧ (60 : Int) < 100) ∧
      blocksAt (BuildRenderItems (fun _ => 1)).mAllRitems 60 0 60 = [Material.bedrock] :=
  ⟨by decide, layer_zero_is_bedrock (fun _ => 1) 60 60 (by decide) (by decide)⟩

/-- C2: for every cell `(x, z)` of the 100 x 100 grid, every layer `y` in {1, 2, 3} and every
sequence of random draws: when the layer loop of the cell reaches the layer `y`, the first
draw `d1 = rand() % 5 + 1` lies in [1, 5] and the draw after it, `d2 = rand() % 10 + 1`, in
[1, 10]; exactly one render item of the finished world lies at `(x, y, z)`, and it is gravel
when `d1 = 2` (whatever `d2` is), iron when `d1 ≠ 2` and `d2 = 2`, stone otherwise; the layer
consumes one draw when `d1 = 2` and two draws otherwise (the state in which the loop reaches
the layer `y + 1` is the branch of lines 1412-1459 run from the state in which it reaches the
layer `y`).  Every render item of the finished world at a layer from 1 to 3 is gravel, iron
or stone. -/
theorem low_layer_rule (rng : Nat → Nat) (x z y : Int) (hx : 0 ≤ x ∧ x < 100)
    (hz : 0 ≤ z ∧ z < 100) (hy : 1 ≤ y ∧ y ≤ 3) :
    (1 ≤ ((rng (layerStart rng x z y).calls : Nat) : Int) % 5 + 1 ∧
      ((rng (layerStart rng x z y).calls : Nat) : Int) % 5 + 1 ≤ 5 ∧
      1 ≤ ((rng ((layerStart rng x z y).calls + 1) : Nat) : Int) % 10 + 1 ∧
      ((rng ((layerStart rng x z y).calls + 1) : Nat) : Int) % 10 + 1 ≤ 10) ∧
    blocksAt (BuildRenderItems rng).mAllRitems x y z =
      [if ((rng (layerStart rng x z y).calls : Nat) : Int) % 5 + 1 = 2 then .gravel
        else if ((rng ((layerStart rng x z y).calls + 1) : Nat) : Int) % 10 + 1 = 2 then .iron
        else .stone] ∧
    layerStart rng x z (y + 1) = lowLayer rng x y z (layerStart rng x z y) ∧
    (layerStart rng x z (y + 1)).calls =
      (layerStart rng x z y).calls +
        (if ((rng (layerStart rng x z y).calls : Nat) : Int) % 5 + 1 = 2 then 1 else 2) ∧
    (∀ it ∈ (BuildRenderItems rng).mAllRitems, 1 ≤ it.World.2.1 → it.World.2.1 ≤ 3 →
      it.Mat = .gravel ∨ it.Mat = .iron ∨ it.Mat = .stone) := by
  have hitems : ∀ it ∈ (BuildRenderItems rng).mAllRitems, 1 ≤ it.World.2.1 →
      it.World.2.1 ≤ 3 → it.Mat = .gravel ∨ it.Mat = .iron ∨ it.Mat = .stone := by
    refine Build_items (fun it => 1 ≤ it.World.2.1 → it.World.2.1 ≤ 3 →
      it.Mat = .gravel ∨ it.Mat = .iron ∨ it.Mat = .stone) rng ?_ ?_ ?_ ?_ ?_
    · intro x z r n i mat _ _ _ _ _ _ hrule a b
      exact hrule.low n a b
    · intro x z r i it _ _ _ _ hr hit a b
      obtain ⟨_, h2, _⟩ := mem_treeItems hit
      omega
    · intro x z top n i mat _ _ _ _ _ _ hrule a b
      exact hrule.low n a b
    · intro x z r n i mat _ _ _ _ _ _ hrule a b
      exact hrule.low n a b
    · intro x z n i mat _ _ _ _ _ hrule a b
      exact hrule.low n a b
  refine ⟨by omega, ?_⟩
  suffices hmain : blocksAt (BuildRenderItems rng).mAllRitems x y z =
      [if ((rng (layerStart rng x z y).calls : Nat) : Int) % 5 + 1 = 2 then .gravel
        else if ((rng ((layerStart rng x z y).calls + 1) : Nat) : Int) % 10 + 1 = 2 then .iron
        else .stone] ∧
    layerStart rng x z (y + 1) = lowLayer rng x y z (layerStart rng x z y) ∧
    (layerStart rng x z (y + 1)).calls =
      (layerStart rng x z y).calls +
        (if ((rng (layerStart rng x z y).calls : Nat) : Int) % 5 + 1 = 2 then 1 else 2) from
    ⟨hmain.1, hmain.2.1, hmain.2.2, hitems⟩
  obtain ⟨ag, as, av, aw⟩ := Build_at (fun s => blocksAt s.mAllRitems x y z) rng x z
    (by
      rintro x' z' s t hne ⟨r, u, _, hr12, hc, hur, ht, _⟩
      show blocksAt t.mAllRitems x y z = blocksAt s.mAllRitems x y z
      rw [blocksAt_keep_tree ht (by omega) (by omega), blocksAt_keep_cell hc hne])
    (by
      rintro x' z' s t hne ⟨r, _, _, _, hc⟩
      rcases hc with ⟨_, hc⟩ | ⟨_, hc⟩ <;> exact blocksAt_keep_cell hc hne)
    (by
      rintro x' z' s t hne ⟨r, _, _, hc⟩
      exact blocksAt_keep_cell hc hne)
    (by
      rintro x' z' s t hne hc
      exact blocksAt_keep_cell hc hne)
  have hnil : ∀ s : Gen, blocksAt s.mAllRitems x y z = blocksAt Gen.init.mAllRitems x y z →
      blocksAt s.mAllRitems x y z = [] := by
    intro s h; rw [h]; rfl
  by_cases hxl : x < 50 <;> by_cases hzl : z < 50
  · -- grass
    obtain ⟨e1, e2⟩ := ag hx.1 hxl hz.1 hzl
    have hL : ∀ y', layerStart rng x z y' =
        forUp 0 y' (layer rng (grassCap (grassRandom rng x z)) .grass x z)
          { (rand rng (grassUpTo rng z x)).2 with random := grassRandom rng x z } := by
      intro y'
      simp only [layerStart, if_pos hxl, if_pos hzl]
      rfl
    have hr : 1 ≤ grassRandom rng x z := by
      simp only [grassRandom, rand]; omega
    obtain ⟨c1, c2, c3⟩ := blocksAt_column_low rng (grassCap (grassRandom rng x z)) .grass x z
      (grassRandom rng x z + 8) y hy (by omega)
      { (rand rng (grassUpTo rng z x)).2 with random := grassRandom rng x z } (hnil _ e2)
    rw [hL (y + 1), hL y]
    refine ⟨?_, c3, c2⟩
    rw [e1, ← c1]
    have hcol := column_step rng (grassCap (grassRandom rng x z)) .grass x z
      (grassRandom rng x z + 8) (by omega)
      { (rand rng (grassUpTo rng z x)).2 with random := grassRandom rng x z }
    have hrand := hcol.choose_spec.2.2.2.2.2.2.2.2
    exact blocksAt_keep_tree (treeStep_spec rng x z _) (by rw [hrand]; exact hr) (by omega)
  · -- water
    obtain ⟨e1, e2⟩ := aw hx.1 hxl (by omega) hz.2
    have hL : ∀ y', layerStart rng x z y' =
        forUp 0 y' (layer rng (flatCap 8) .water x z) (waterUpTo rng z x) := by
      intro y'
      simp only [layerStart, if_pos hxl, if_neg hzl]
    obtain ⟨c1, c2, c3⟩ := blocksAt_column_low rng (flatCap 8) .water x z 9 y hy (by omega)
      (waterUpTo rng z x) (hnil _ e2)
    rw [hL (y + 1), hL y]
    refine ⟨?_, c3, c2⟩
    rw [e1, ← c1]
    rfl
  · -- gravel
    obtain ⟨e1, e2⟩ := av (by omega) hx.2 hz.1 hzl
    have hL : ∀ y', layerStart rng x z y' =
        forUp 0 y' (layer rng (gravelCap (gravelRandom rng x z)) .gravel x z)
          { (rand rng (gravelUpTo rng z x)).2 with random := gravelRandom rng x z } := by
      intro y'
      simp only [layerStart, if_neg hxl, if_pos hzl]
      rfl
    have hr : 1 ≤ gravelRandom rng x z := by
      simp only [gravelRandom, rand]; omega
    obtain ⟨c1, c2, c3⟩ := blocksAt_column_low rng (gravelCap (gravelRandom rng x z)) .gravel x z
      (gravelRandom rng x z + 8) y hy (by omega)
      { (rand rng (gravelUpTo rng z x)).2 with random := gravelRandom rng x z } (hnil _ e2)
    rw [hL (y + 1), hL y]
    refine ⟨?_, c3, c2⟩
    rw [e1, ← c1]
    rfl
  · -- sand
    obtain ⟨e1, e2⟩ := as (by omega) hx.2 (by omega) hz.2
    by_cases h2 : sandRandom rng x z = 2
    · have hb : ((sandRandom rng x z) == 2) = true := by rw [h2]; rfl
      have hL : ∀ y', layerStart rng x z y' =
          forUp 0 y' (layer rng (flatCap 9) .sand x z)
            { (rand rng (sandUpTo rng z x)).2 with random := sandRandom rng x z } := by
        intro y'
        simp only [layerStart, if_neg hxl, if_neg hzl]
        exact if_pos hb
      obtain ⟨c1, c2, c3⟩ := blocksAt_column_low rng (flatCap 9) .sand x z 10 y hy (by omega)
        { (rand rng (sandUpTo rng z x)).2 with random := sandRandom rng x z } (hnil _ e2)
      rw [hL (y + 1), hL y]
      refine ⟨?_, c3, c2⟩
      have hcell : sandCell rng z x (sandUpTo rng z x) =
          forUp 0 10 (layer rng (flatCap 9) .sand x z)
            { (rand rng (sandUpTo rng z x)).2 with random := sandRandom rng x z } := if_pos hb
      rw [e1, hcell]
      exact c1
    · have hb : ¬ (((sandRandom rng x z) == 2) = true) := by
        simpa using h2
      have hL : ∀ y', layerStart rng x z y' =
          forUp 0 y' (layer rng (flatCap 8) .sand x z)
            { (rand rng (sandUpTo rng z x)).2 with random := sandRandom rng x z } := by
        intro y'
        simp only [layerStart, if_neg hxl, if_neg hzl]
        exact if_neg hb
      obtain ⟨c1, c2, c3⟩ := blocksAt_column_low rng (flatCap 8) .sand x z 9 y hy (by omega)
        { (rand rng (sandUpTo rng z x)).2 with random := sandRandom rng x z } (hnil _ e2)
      rw [hL (y + 1), hL y]
      refine ⟨?_, c3, c2⟩
      have hcell : sandCell rng z x (sandUpTo rng z x) =
          forUp 0 9 (layer rng (flatCap 8) .sand x z)
            { (rand rng (sandUpTo rng z x)).2 with random := sandRandom rng x z } := if_neg hb
      rw [e1, hcell]
      exact c1

/-- Witness of C2: layer 2 of the sand column at `(60, 60)` when every draw returns 1
(`1 % 5 + 1 = 2`): the block at (60, 2, 60) is gravel. -/
theorem low_layer_rule_witness :
    (((0 : Int) ≤ 60 ∧ (60 : Int) < 100) ∧ ((1 : Int) ≤ 2 ∧ (2 : Int) ≤ 3)) ∧
      blocksAt (BuildRenderItems (fun _ => 1)).mAllRitems 60 2 60 = [Material.gravel] :=
  ⟨by decide,
    (low_layer_rule (fun _ => 1) 60 60 2 (by decide) (by decide) (by decide)).2.1⟩

/-- C3: in the grass quadrant, with `r` the height draw `rand() % 2 + 1` that line 1393 makes
for the cell `(x, z)` itself: `r` is 1 or 2, and the terrain column of the cell in the
finished world has exactly one terrain block at each layer from 0 to `r + 7` and none
elsewhere; bedrock at layer 0, stone, gravel or iron at layers 1 to 3, dirt at every layer
strictly between 3 and `r + 7`, grass at layer `r + 7`.  When the draw of the cell is 1 (at
the cell (10, 10) as at any other) the column has 9 blocks and layer 8 is grass. -/
theorem grass_column (rng : Nat → Nat) (x z : Int) (hx : 0 ≤ x ∧ x < 50) (hz : 0 ≤ z ∧ z < 50) :
    (grassRandom rng x z = 1 ∨ grassRandom rng x z = 2) ∧
    terrainAt (BuildRenderItems rng).mAllRitems x 0 z = [.bedrock] ∧
    (∀ y, 1 ≤ y → y ≤ 3 → ∃ m, (m = .stone ∨ m = .gravel ∨ m = .iron) ∧
      terrainAt (BuildRenderItems rng).mAllRitems x y z = [m]) ∧
    (∀ y, 3 < y → y < grassRandom rng x z + 7 →
      terrainAt (BuildRenderItems rng).mAllRitems x y z = [.dirt]) ∧
    terrainAt (BuildRenderItems rng).mAllRitems x (grassRandom rng x z + 7) z = [.grass] ∧
    (∀ y, y < 0 ∨ grassRandom rng x z + 8 ≤ y →
      terrainAt (BuildRenderItems rng).mAllRitems x y z = []) ∧
    (grassRandom rng x z = 1 →
      terrainAt (BuildRenderItems rng).mAllRitems x 8 z = [.grass] ∧
      ∀ y, 9 ≤ y → terrainAt (BuildRenderItems rng).mAllRitems x y z = []) := by
  have hr12 : grassRandom rng x z = 1 ∨ grassRandom rng x z = 2 := by
    simp only [grassRandom, rand]; omega
  have key := terrain_column_at (fun col =>
      col 0 = [Material.bedrock] ∧
      (∀ y, 1 ≤ y → y ≤ 3 → ∃ m, (m = Material.stone ∨ m = .gravel ∨ m = .iron) ∧ col y = [m]) ∧
      (∀ y, 3 < y → y < grassRandom rng x z + 7 → col y = [Material.dirt]) ∧
      col (grassRandom rng x z + 7) = [Material.grass] ∧
      (∀ y, y < 0 ∨ grassRandom rng x z + 8 ≤ y → col y = []))
    rng x z ⟨hx.1, by omega⟩ ⟨hz.1, by omega⟩ ?_ (by omega) (by omega) (by omega)
  · obtain ⟨k1, k2, k3, k4, k5⟩ := key
    refine ⟨hr12, k1, k2, k3, k4, k5, ?_⟩
    intro h1
    rw [h1] at k4 k5
    exact ⟨k4, fun y hy => k5 y (Or.inr (by omega))⟩
  intro _ _ mat hrule
  refine ⟨?_, ?_, ?_, ?_, ?_⟩
  · show (if (0 : Int) ≤ 0 ∧ (0 : Int) < grassRandom rng x z + 8 then [mat 0] else []) = _
    rw [if_pos (by omega), hrule.1]
  · intro y h1 h3
    refine ⟨mat y, ?_, ?_⟩
    · rcases hrule.low y h1 h3 with h | h | h <;> simp [h]
    · show (if 0 ≤ y ∧ y < grassRandom rng x z + 8 then [mat y] else []) = _
      rw [if_pos (by omega)]
  · intro y h3 h7
    show (if 0 ≤ y ∧ y < grassRandom rng x z + 8 then [mat y] else []) = _
    rw [if_pos (by omega), hrule.2.2 y (by omega)]
    have : grassCap (grassRandom rng x z) y = false := by
      simp only [grassCap, decide_eq_false_iff_not]; omega
    simp [this]
  · show (if 0 ≤ grassRandom rng x z + 7 ∧ grassRandom rng x z + 7 < grassRandom rng x z + 8
      then [mat (grassRandom rng x z + 7)] else []) = _
    rw [if_pos (by omega), hrule.2.2 (grassRandom rng x z + 7) (by omega)]
    have : grassCap (grassRandom rng x z) (grassRandom rng x z + 7) = true := by
      simp only [grassCap, decide_eq_true_eq]; omega
    simp [this]
  · intro y hy
    show (if 0 ≤ y ∧ y < grassRandom rng x z + 8 then [mat y] else []) = _
    rw [if_neg (by omega)]

/-- Witness of C3: the cell (10, 10) under the stream of draws that is constantly 0, where the
height draw of the cell is `0 % 2 + 1 = 1`: the column has height 9 and layer 8 is grass. -/
theorem grass_column_witness :
    (((0 : Int) ≤ 10 ∧ (10 : Int) < 50) ∧ grassRandom (fun _ => 0) 10 10 = 1) ∧
      terrainAt (BuildRenderItems (fun _ => 0)).mAllRitems 10 8 10 = [.grass] ∧
      ∀ y, 9 ≤ y → terrainAt (BuildRenderItems (fun _ => 0)).mAllRitems 10 y 10 = [] :=
  ⟨⟨by decide, rfl⟩,
    (grass_column (fun _ => 0) 10 10 (by decide) (by decide)).2.2.2.2.2.2 rfl⟩

/-- C4: in the sand quadrant, with `r` the height roll `rand() % 10 + 1` that line 1676 makes
for the cell `(x, z)` itself: `r` lies in [1, 10]; when `r = 2` the terrain column of the cell
in the finished world has exactly one terrain block at each layer from 0 to 9 and none
elsewhere, with sand at layer 9; otherwise exactly one at each layer from 0 to 8 and none
elsewhere, with sand at layer 8.  In both cases layer 0 is bedrock, layers 1 to 3 are stone,
gravel or iron, and every layer strictly between 3 and the top is dirt. -/
theorem sand_column (rng : Nat → Nat) (x z : Int) (hx : 50 ≤ x ∧ x < 100)
    (hz : 50 ≤ z ∧ z < 100) :
    (1 ≤ sandRandom rng x z ∧ sandRandom rng x z ≤ 10) ∧
    terrainAt (BuildRenderItems rng).mAllRitems x 0 z = [.bedrock] ∧
    (∀ y, 1 ≤ y → y ≤ 3 → ∃ m, (m = .stone ∨ m = .gravel ∨ m = .iron) ∧
      terrainAt (BuildRenderItems rng).mAllRitems x y z = [m]) ∧
    (sandRandom rng x z = 2 →
      (∀ y, 3 < y → y < 9 → terrainAt (BuildRenderItems rng).mAllRitems x y z = [.dirt]) ∧
      terrainAt (BuildRenderItems rng).mAllRitems x 9 z = [.sand] ∧
      (∀ y, y < 0 ∨ 10 ≤ y → terrainAt (BuildRenderItems rng).mAllRitems x y z = [])) ∧
    (sandRandom rng x z ≠ 2 →
      (∀ y, 3 < y → y < 8 → terrainAt (BuildRenderItems rng).mAllRitems x y z = [.dirt]) ∧
      terrainAt (BuildRenderItems rng).mAllRitems x 8 z = [.sand] ∧
      (∀ y, y < 0 ∨ 9 ≤ y → terrainAt (BuildRenderItems rng).mAllRitems x y z = [])) := by
  have hr : 1 ≤ sandRandom rng x z ∧ sandRandom rng x z ≤ 10 := by
    simp only [sandRandom, rand]; omega
  refine ⟨hr, ?_⟩
  refine terrain_column_at (fun col =>
      col 0 = [Material.bedrock] ∧
      (∀ y, 1 ≤ y → y ≤ 3 → ∃ m, (m = Material.stone ∨ m = .gravel ∨ m = .iron) ∧ col y = [m]) ∧
      (sandRandom rng x z = 2 → (∀ y, 3 < y → y < 9 → col y = [Material.dirt]) ∧
        col 9 = [Material.sand] ∧ (∀ y, y < 0 ∨ 10 ≤ y → col y = [])) ∧
      (sandRandom rng x z ≠ 2 → (∀ y, 3 < y → y < 8 → col y = [Material.dirt]) ∧
        col 8 = [Material.sand] ∧ (∀ y, y < 0 ∨ 9 ≤ y → col y = [])))
    rng x z ⟨by omega, hx.2⟩ ⟨by omega, hz.2⟩ (by omega) ?_ (by omega) (by omega)
  intro _ _ mat
  constructor
  · intro h2 hrule
    refine ⟨?_, ?_, ?_, fun h => absurd h2 h⟩
    · show (if (0 : Int) ≤ 0 ∧ (0 : Int) < 10 then [mat 0] else []) = _
      rw [if_pos (by omega), hrule.1]
    · intro y h1 h3
      refine ⟨mat y, ?_, ?_⟩
      · rcases hrule.low y h1 h3 with h | h | h <;> simp [h]
      · show (if 0 ≤ y ∧ y < 10 then [mat y] else []) = _
        rw [if_pos (by omega)]
    · intro _
      refine ⟨?_, ?_, ?_⟩
      · intro y h3 h9
        show (if 0 ≤ y ∧ y < 10 then [mat y] else []) = _
        rw [if_pos (by omega), hrule.2.2 y (by omega)]
        have : flatCap 9 y = false := by
          simp only [flatCap, decide_eq_false_iff_not]; omega
        simp [this]
      · show (if (0 : Int) ≤ 9 ∧ (9 : Int) < 10 then [mat 9] else []) = _
        rw [if_pos (by omega), hrule.2.2 9 (by omega)]
        rfl
      · intro y hy
        show (if 0 ≤ y ∧ y < 10 then [mat y] else []) = _
        rw [if_neg (by omega)]
  · intro h2 hrule
    refine ⟨?_, ?_, fun h => absurd h h2, ?_⟩
    · show (if (0 : Int) ≤ 0 ∧ (0 : Int) < 9 then [mat 0] else []) = _
      rw [if_pos (by omega), hrule.1]
    · intro y h1 h3
      refine ⟨mat y, ?_, ?_⟩
      · rcases hrule.low y h1 h3 with h | h | h <;> simp [h]
      · show (if 0 ≤ y ∧ y < 9 then [mat y] else []) = _
        rw [if_pos (by omega)]
    · intro _
      refine ⟨?_, ?_, ?_⟩
      · intro y h3 h9
        show (if 0 ≤ y ∧ y < 9 then [mat y] else []) = _
        rw [if_pos (by omega), hrule.2.2 y (by omega)]
        have : flatCap 8 y = false := by
          simp only [flatCap, decide_eq_false_iff_not]; omega
        simp [this]
      · show (if (0 : Int) ≤ 8 ∧ (8 : Int) < 9 then [mat 8] else []) = _
        rw [if_pos (by omega), hrule.2.2 8 (by omega)]
        rfl
      · intro y hy
        show (if 0 ≤ y ∧ y < 9 then [mat y] else []) = _
        rw [if_neg (by omega)]

/-- Witness of C4: the cell (60, 60) under the stream of draws that is constantly 1, where the
height roll of the cell is `1 % 10 + 1 = 2`: the column has 10 blocks and layer 9 is sand. -/
theorem sand_column_witness :
    ((((50 : Int) ≤ 60 ∧ (60 : Int) < 100)) ∧ sandRandom (fun _ => 1) 60 60 = 2) ∧
      terrainAt (BuildRenderItems (fun _ => 1)).mAllRitems 60 9 60 = [.sand] ∧
      ∀ y, y < 0 ∨ 10 ≤ y → terrainAt (BuildRenderItems (fun _ => 1)).mAllRitems 60 y 60 = [] :=
  ⟨⟨by decide, rfl⟩,
    ((sand_column (fun _ => 1) 60 60 (by decide) (by decide)).2.2.2.1 rfl).2⟩

/-- C6: in the gravel quadrant, with `r` the height draw `rand() % 3 + 1` that line 1888 makes
for the cell `(x, z)` itself: `r` is 1, 2 or 3, the height `r + 8` of the column lies between
9 and 11, and the terrain column of the cell in the finished world has exactly one terrain
block at each layer from 0 to `r + 7` and none elsewhere; bedrock at layer 0, stone, gravel
or iron at layers 1 to 3, dirt at layers 4 to 7, and gravel at every layer from 8 to the top
layer `r + 7` (a cap of `r` blocks). -/
theorem gravel_column (rng : Nat → Nat) (x z : Int) (hx : 50 ≤ x ∧ x < 100)
    (hz : 0 ≤ z ∧ z < 50) :
    (gravelRandom rng x z = 1 ∨ gravelRandom rng x z = 2 ∨ gravelRandom rng x z = 3) ∧
    9 ≤ gravelRandom rng x z + 8 ∧ gravelRandom rng x z + 8 ≤ 11 ∧
    terrainAt (BuildRenderItems rng).mAllRitems x 0 z = [.bedrock] ∧
    (∀ y, 1 ≤ y → y ≤ 3 → ∃ m, (m = .stone ∨ m = .gravel ∨ m = .iron) ∧
      terrainAt (BuildRenderItems rng).mAllRitems x y z = [m]) ∧
    (∀ y, 4 ≤ y → y ≤ 7 → terrainAt (BuildRenderItems rng).mAllRitems x y z = [.dirt]) ∧
    (∀ y, 8 ≤ y → y ≤ gravelRandom rng x z + 7 →
      terrainAt (BuildRenderItems rng).mAllRitems x y z = [.gravel]) ∧
    (∀ y, y < 0 ∨ gravelRandom rng x z + 8 ≤ y →
      terrainAt (BuildRenderItems rng).mAllRitems x y z = []) := by
  have hr123 : gravelRandom rng x z = 1 ∨ gravelRandom rng x z = 2 ∨
      gravelRandom rng x z = 3 := by
    simp only [gravelRandom, rand]; omega
  refine ⟨hr123, by omega, by omega, ?_⟩
  refine terrain_column_at (fun col =>
      col 0 = [Material.bedrock] ∧
      (∀ y, 1 ≤ y → y ≤ 3 → ∃ m, (m = Material.stone ∨ m = .gravel ∨ m = .iron) ∧ col y = [m]) ∧
      (∀ y, 4 ≤ y → y ≤ 7 → col y = [Material.dirt]) ∧
      (∀ y, 8 ≤ y → y ≤ gravelRandom rng x z + 7 → col y = [Material.gravel]) ∧
      (∀ y, y < 0 ∨ gravelRandom rng x z + 8 ≤ y → col y = []))
    rng x z ⟨by omega, hx.2⟩ ⟨hz.1, by omega⟩ (by omega) (by omega) ?_ (by omega)
  intro _ _ mat hrule
  refine ⟨?_, ?_, ?_, ?_, ?_⟩
  · show (if (0 : Int) ≤ 0 ∧ (0 : Int) < gravelRandom rng x z + 8 then [mat 0] else []) = _
    rw [if_pos (by omega), hrule.1]
  · intro y h1 h3
    refine ⟨mat y, ?_, ?_⟩
    · rcases hrule.low y h1 h3 with h | h | h <;> simp [h]
    · show (if 0 ≤ y ∧ y < gravelRandom rng x z + 8 then [mat y] else []) = _
      rw [if_pos (by omega)]
  · intro y h4 h7
    show (if 0 ≤ y ∧ y < gravelRandom rng x z + 8 then [mat y] else []) = _
    rw [if_pos (by omega), hrule.2.2 y (by omega)]
    have : gravelCap (gravelRandom rng x z) y = false := by
      simp only [gravelCap, decide_eq_false_iff_not]; omega
    simp [this]
  · intro y h8 ht
    show (if 0 ≤ y ∧ y < gravelRandom rng x z + 8 then [mat y] else []) = _
    rw [if_pos (by omega), hrule.2.2 y (by omega)]
    have : gravelCap (gravelRandom rng x z) y = true := by
      simp only [gravelCap, decide_eq_true_eq]; omega
    simp [this]
  · intro y hy
    show (if 0 ≤ y ∧ y < gravelRandom rng x z + 8 then [mat y] else []) = _
    rw [if_neg (by omega)]

/-- Witness of C6: the cell (70, 20) under the stream of draws that is constantly 2, where the
height draw of the cell is `2 % 3 + 1 = 3`: the column has 11 blocks, gravel from layer 8 to
layer 10. -/
theorem gravel_column_witness :
    ((((50 : Int) ≤ 70 ∧ (70 : Int) < 100) ∧ ((0 : Int) ≤ 20 ∧ (20 : Int) < 50)) ∧
        gravelRandom (fun _ => 2) 70 20 = 3) ∧
      terrainAt (BuildRenderItems (fun _ => 2)).mAllRitems 70 10 20 = [.gravel] ∧
      ∀ y, y < 0 ∨ 11 ≤ y → terrainAt (BuildRenderItems (fun _ => 2)).mAllRitems 70 y 20 = [] := by
  have hr : gravelRandom (fun _ => 2) 70 20 = 3 := rfl
  have h := gravel_column (fun _ => 2) 70 20 (by decide) (by decide)
  rw [hr] at h
  exact ⟨⟨by decide, hr⟩, h.2.2.2.2.2.2.1 10 (by decide) (by decide), h.2.2.2.2.2.2.2⟩

/-- A column material is water only at a layer from 4 up that passes the cap test, and only
when the cap material is water. -/
theorem LayerRule.water {cap : Int → Bool} {capMat : Material} {mat : Int → Material}
    (hr : LayerRule cap capMat mat) (y : Int) (hy : 0 ≤ y) (hw : mat y = .water) :
    4 ≤ y ∧ cap y = true ∧ capMat = .water := by
  obtain ⟨h0, h1, h2⟩ := hr
  by_cases a : y = 0
  · subst a; rw [h0] at hw; cases hw
  by_cases b : y < 4
  · rcases h1 y (by omega) b with h | h | h <;> rw [h] at hw <;> cases hw
  · have h := h2 y (by omega)
    rw [hw] at h
    by_cases c : cap y = true
    · rw [if_pos c] at h
      exact ⟨by omega, c, h.symm⟩
    · rw [if_neg c] at h; cases h

/-- C5: in the water quadrant, for every sequence of random draws, the terrain column of the
cell `(x, z)` has exactly one terrain block at each layer from 0 to 8 and none elsewhere:
bedrock at layer 0, stone, gravel or iron at layers 1 to 3, dirt at layers 4 to 7, water at
layer 8.  Every water block of the finished world lies at layer 8 of a cell of the water
quadrant. -/
theorem water_column (rng : Nat → Nat) (x z : Int) (hx : 0 ≤ x ∧ x < 50)
    (hz : 50 ≤ z ∧ z < 100) :
    terrainAt (BuildRenderItems rng).mAllRitems x 0 z = [.bedrock] ∧
    (∀ y, 1 ≤ y → y ≤ 3 → ∃ m, (m = .stone ∨ m = .gravel ∨ m = .iron) ∧
      terrainAt (BuildRenderItems rng).mAllRitems x y z = [m]) ∧
    (∀ y, 4 ≤ y → y ≤ 7 → terrainAt (BuildRenderItems rng).mAllRitems x y z = [.dirt]) ∧
    terrainAt (BuildRenderItems rng).mAllRitems x 8 z = [.water] ∧
    (∀ y, y < 0 ∨ 9 ≤ y → terrainAt (BuildRenderItems rng).mAllRitems x y z = []) ∧
    (∀ it ∈ (BuildRenderItems rng).mAllRitems, it.Mat = .water →
      it.World.2.1 = 8 ∧ 0 ≤ it.World.1 ∧ it.World.1 < 50 ∧
      50 ≤ it.World.2.2 ∧ it.World.2.2 < 100) := by
  have hcol := terrain_column (fun col => col 0 = [Material.bedrock] ∧
      (∀ y, 1 ≤ y → y ≤ 3 → ∃ m, (m = Material.stone ∨ m = .gravel ∨ m = .iron) ∧ col y = [m]) ∧
      (∀ y, 4 ≤ y → y ≤ 7 → col y = [Material.dirt]) ∧ col 8 = [Material.water] ∧
      (∀ y, y < 0 ∨ 9 ≤ y → col y = [])) rng x z ⟨hx.1, by omega⟩ ⟨by omega, hz.2⟩
    (by omega) (by omega) (by omega) (by
      intro _ _ mat hrule
      refine ⟨?_, ?_, ?_, ?_, ?_⟩
      · show (if (0 : Int) ≤ 0 ∧ (0 : Int) < 9 then [mat 0] else []) = _
        rw [if_pos (by omega), hrule.1]
      · intro y h1 h3
        refine ⟨mat y, ?_, ?_⟩
        · rcases hrule.low y h1 h3 with h | h | h <;> simp [h]
        · show (if 0 ≤ y ∧ y < 9 then [mat y] else []) = _
          rw [if_pos (by omega)]
      · intro y h4 h7
        show (if 0 ≤ y ∧ y < 9 then [mat y] else []) = _
        rw [if_pos (by omega), hrule.2.2 y (by omega)]
        have : flatCap 8 y = false := by
          simp only [flatCap, decide_eq_false_iff_not]; omega
        simp [this]
      · show (if (0 : Int) ≤ 8 ∧ (8 : Int) < 9 then [mat 8] else []) = _
        rw [if_pos (by omega), hrule.2.2 8 (by omega)]
        rfl
      · intro y hy
        show (if 0 ≤ y ∧ y < 9 then [mat y] else []) = _
        rw [if_neg (by omega)])
  obtain ⟨c1, c2, c3, c4, c5⟩ := hcol
  refine ⟨c1, c2, c3, c4, c5, ?_⟩
  refine Build_items (fun it => it.Mat = .water →
      it.World.2.1 = 8 ∧ 0 ≤ it.World.1 ∧ it.World.1 < 50 ∧
      50 ≤ it.World.2.2 ∧ it.World.2.2 < 100) rng ?_ ?_ ?_ ?_ ?_
  · intro x z r n i mat _ _ _ _ _ _ hrule hw
    have := (hrule.water n (by omega) hw).2.2
    cases this
  · intro x z r i it _ _ _ _ _ hit hw
    obtain ⟨h1, _⟩ := mem_treeItems hit
    rcases h1 with h | h <;> rw [h] at hw <;> cases hw
  · intro x z top n i mat _ _ _ _ _ _ hrule hw
    have := (hrule.water n (by omega) hw).2.2
    cases this
  · intro x z r n i mat _ _ _ _ _ _ hrule hw
    have := (hrule.water n (by omega) hw).2.2
    cases this
  · intro x z n i mat hx1 hx2 hz1 hz2 hn hrule hw
    have h := (hrule.water n (by omega) hw).2.1
    simp only [flatCap, decide_eq_true_eq] at h
    exact ⟨h, hx1, hx2, hz1, hz2⟩

/-- Witness of C5: the cell (20, 70) under the stream of draws that is constantly 0. -/
theorem water_column_witness :
    (((0 : Int) ≤ 20 ∧ (20 : Int) < 50) ∧ ((50 : Int) ≤ 70 ∧ (70 : Int) < 100)) ∧
    terrainAt (BuildRenderItems (fun _ => 0)).mAllRitems 20 8 70 = [.water] :=
  ⟨by decide, (water_column (fun _ => 0) 20 70 (by decide) (by decide)).2.2.2.1⟩

/-! ## The invariant of the tree bookkeeping -/

theorem columnItems_length (x z : Int) (i0 : Nat) (mat : Int → Material) (h : Nat) :
    (columnItems x z i0 mat h).length = h := by
  simp [columnItems]

theorem treeItems_length (x z r : Int) (i0 : Nat) : (treeItems x z r i0).length = 12 := rfl

theorem drop_take_append (l l' : List RenderItem) (n : Nat) (h : n + 12 ≤ l.length) :
    ((l ++ l').drop n).take 12 = (l.drop n).take 12 := by
  rw [List.drop_append_of_le_length (by omega), List.take_append_of_le_length]
  rw [List.length_drop]; omega

/-- The fifteen stores of a marking pass, one by one. -/
theorem rectCells_eq (x z : Int) :
    rectCells x z =
      [(x - 2, z + 2), (x - 1, z + 2), (x, z + 2), (x + 1, z + 2), (x + 2, z + 2),
       (x - 2, z + 1), (x - 1, z + 1), (x, z + 1), (x + 1, z + 1), (x + 2, z + 1),
       (x - 2, z), (x - 1, z), (x, z), (x + 1, z), (x + 2, z)] := by
  have h3 : (z + 2 - (z - 1)).toNat = 3 := by omega
  have h5 : (x + 3 - (x - 2)).toNat = 5 := by omega
  simp only [rectCells, forDown, forUp, h3, h5, List.range_succ, List.range_zero, List.nil_append,
    List.foldl_cons, List.foldl_nil, List.cons_append, Nat.cast_zero, Nat.cast_one,
    Nat.cast_ofNat, List.singleton_append]
  simp only [List.cons.injEq, Prod.mk.injEq, and_true]
  omega

theorem mem_rectCells (x z : Int) (c : Int × Int) : c ∈ rectCells x z ↔ inRect x z c := by
  obtain ⟨j, i⟩ := c
  rw [rectCells_eq]
  simp only [List.mem_cons, List.mem_singleton, Prod.mk.injEq, inRect, List.not_mem_nil, or_false]
  constructor
  · intro h
    omega
  · rintro ⟨h1, h2, h3, h4⟩
    have hj : j = x - 2 ∨ j = x - 1 ∨ j = x ∨ j = x + 1 ∨ j = x + 2 := by omega
    have hi : i = z + 2 ∨ i = z + 1 ∨ i = z := by omega
    rcases hj with rfl | rfl | rfl | rfl | rfl <;> rcases hi with rfl | rfl | rfl <;> simp

/-- The entries that the marking pass of a tree sets: the entries at the addresses of the stores
over the rectangle of the tree. -/
theorem mem_marks (t : Tree) (e : Int × Int × Int) :
    e ∈ t.marks ↔ ∃ j i, inRect t.x t.z (j, i) ∧ ar1Entry t.slot j i = some e := by
  unfold Tree.marks
  rw [List.mem_filterMap]
  constructor
  · rintro ⟨⟨j, i⟩, hc, he⟩
    exact ⟨j, i, (mem_rectCells _ _ _).mp hc, he⟩
  · rintro ⟨j, i, hc, he⟩
    exact ⟨(j, i), (mem_rectCells _ _ _).mpr hc, he⟩

theorem TreeInv.atInit : TreeInv Gen.init := by
  refine ⟨rfl, ⟨le_refl _, by decide, rfl⟩, ?_, ?_, List.Pairwise.nil⟩
  · intro t ht; cases ht
  · intro e
    constructor
    · intro h; cases h
    · rintro ⟨t, ht, _⟩; cases ht

/-- A layer loop keeps the invariant. -/
theorem TreeInv.cell {cap : Int → Bool} {capMat : Material} {x z : Int} {h : Nat} {s t : Gen}
    (hc : CellStep cap capMat x z h s t) (hs : TreeInv s) : TreeInv t := by
  obtain ⟨mat, _, c1, c2, _, c4, c5, c6, _⟩ := hc
  obtain ⟨i1, i2, i3, i4, i5⟩ := hs
  refine ⟨?_, ?_, ?_, ?_, ?_⟩
  · rw [c2, c1, List.length_append, columnItems_length, i1]
  · rw [c4, c6]; exact i2
  · intro tr htr
    rw [c6] at htr
    obtain ⟨a1, a2, a3, a4, a5, a6, a7, a8, a9⟩ := i3 tr htr
    refine ⟨a1, a2, a3, a4, a5, a6, by rw [c4]; exact a7, ?_, ?_⟩
    · rw [c1, List.length_append]; omega
    · rw [c1, drop_take_append _ _ _ a8]; exact a9
  · intro e
    rw [c5, c6]; exact i4 e
  · rw [c6]; exact i5

/-- The tree part of the grass cell `(x, z)` keeps the invariant, and the trees stay within the
cells visited. -/
theorem TreeInv.tree {x z : Int} {s t : Gen} (hc : TreeStep x z s t) (hr : s.random = 1 ∨ s.random = 2)
    (hs : TreeInv s) (hv : Visited z x s) : TreeInv t ∧ Visited z (x + 1) t := by
  obtain ⟨i1, i2, i3, i4, i5⟩ := hs
  rcases hc with ⟨_, c2, c3, _, c5, c6, c7, _⟩ | hp
  · refine ⟨⟨by rw [c3, c5]; exact i1, by rw [c2, c6]; exact i2, ?_, ?_, by rw [c6]; exact i5⟩, ?_⟩
    · intro tr htr
      rw [c6] at htr
      rw [c2, c5]; exact i3 tr htr
    · intro e
      rw [c7, c6]; exact i4 e
    · intro tr htr
      rw [c6] at htr
      rcases hv tr htr with h | h
      · exact Or.inl h
      · exact Or.inr ⟨h.1, by omega⟩
  · obtain ⟨p1, p2, p3, p4, p5, p6, _, p8, p9, _, p11, p12, p13, _⟩ := hp
    refine ⟨⟨?_, ?_, ?_, ?_, ?_⟩, ?_⟩
    · rw [p9, p11, List.length_append, treeItems_length, i1]
    · rw [p8, p12, List.length_append]
      simp only [List.length_singleton, Nat.cast_add, Nat.cast_one]
      omega
    · intro tr htr
      rw [p12, List.mem_append, List.mem_singleton] at htr
      rcases htr with htr | rfl
      · obtain ⟨a1, a2, a3, a4, a5, a6, a7, a8, a9⟩ := i3 tr htr
        refine ⟨a1, a2, a3, a4, a5, a6, by rw [p8]; omega, ?_, ?_⟩
        · rw [p11, List.length_append]; omega
        · rw [p11, drop_take_append _ _ _ a8]; exact a9
      · refine ⟨p2, p3, p4, p5, hr, by show 1 ≤ s.treeCount + 1; omega,
          by show s.treeCount + 1 ≤ t.treeCount; omega, ?_, ?_⟩
        · show s.index + 12 ≤ t.mAllRitems.length
          rw [p11, List.length_append, treeItems_length, i1]
        · show (t.mAllRitems.drop s.index).take 12 = treeItems x z s.random s.index
          rw [p11, i1, List.drop_left, List.take_of_length_le (by rw [treeItems_length])]
    · intro e
      rw [p13, i4, p12]
      constructor
      · rintro (⟨tr, htr, h1⟩ | ⟨j, i, h1, h2⟩)
        · exact ⟨tr, List.mem_append_left _ htr, h1⟩
        · exact ⟨_, List.mem_append_right _ (List.mem_singleton_self _),
            (mem_marks _ e).mpr ⟨j, i, h1, h2⟩⟩
      · rintro ⟨tr, htr, h1⟩
        rw [List.mem_append, List.mem_singleton] at htr
        rcases htr with htr | rfl
        · exact Or.inl ⟨tr, htr, h1⟩
        · exact Or.inr ((mem_marks _ e).mp h1)
    · rw [p12, List.pairwise_append]
      refine ⟨i5, List.pairwise_singleton _ _, ?_⟩
      intro S hS T hT
      rw [List.mem_singleton] at hT
      subst hT
      obtain ⟨a1, a2, a3, a4, a5, a6, a7, a8, a9⟩ := i3 S hS
      refine ⟨by show S.slot < s.treeCount + 1; omega, ?_, hv S hS, ?_⟩
      · intro hin
        have hb : ar1InBounds S.slot x z := ⟨by omega, by omega, by omega, p3, by omega, p5⟩
        exact p6 S.slot (by omega) (by omega)
          ((i4 (S.slot, x, z)).mpr ⟨S, hS, (mem_marks S _).mpr ⟨x, z, hin, ar1Entry_inBounds hb⟩⟩)
      · intro hm
        obtain ⟨e, he, hxz⟩ := List.mem_map.mp hm
        obtain ⟨j, i, _, hji⟩ := (mem_marks S e).mp he
        obtain ⟨⟨b1, b2, _⟩, _⟩ := ar1Entry_some hji
        have hmem : e ∈ s.ar1 := (i4 e).mpr ⟨S, hS, he⟩
        have hE : e = (e.1, x, z) := by
          rw [← hxz]
        rw [hE] at hmem
        exact p6 e.1 b1 b2 hmem
    · intro tr htr
      rw [p12, List.mem_append, List.mem_singleton] at htr
      rcases htr with htr | rfl
      · rcases hv tr htr with h | h
        · exact Or.inl h
        · exact Or.inr ⟨h.1, by omega⟩
      · exact Or.inr ⟨rfl, by show x < x + 1; omega⟩

theorem grassCell_inv (rng : Nat → Nat) (z x : Int) (s : Gen) (hs : TreeInv s)
    (hv : Visited z x s) :
    TreeInv (grassCell rng z x s) ∧ Visited z (x + 1) (grassCell rng z x s) := by
  obtain ⟨r, u, _, hr12, hc, hur, ht, _⟩ := grassCell_spec rng z x s
  have hu : TreeInv u := TreeInv.cell hc hs
  have hvu : Visited z x u := by
    obtain ⟨mat, _, _, _, _, _, _, c6, _⟩ := hc
    intro t htr; rw [c6] at htr; exact hv t htr
  exact TreeInv.tree ht (by rw [hur]; exact hr12) hu hvu

/-- The invariant holds whenever the grass loops are about to run a cell. -/
theorem grassUpTo_inv (rng : Nat → Nat) (z x : Int) (hz : 0 ≤ z) (hx : 0 ≤ x ∧ x ≤ 50) :
    TreeInv (grassUpTo rng z x) ∧ Visited z x (grassUpTo rng z x) := by
  have rows : ∀ z, 0 ≤ z → TreeInv (grassUpTo rng z 0) ∧ Visited z 0 (grassUpTo rng z 0) := by
    intro z hz
    have := forUp_inv (fun k t => TreeInv t ∧ Visited k 0 t) 0 z
      (fun z1 s1 => forUp 0 50 (grassCell rng z1) s1) Gen.init hz
      ⟨TreeInv.atInit, by intro t ht; cases ht⟩
      (by
        intro k t hk1 hk2 ⟨h1, h2⟩
        have := forUp_inv (fun j u => TreeInv u ∧ Visited k j u) 0 50 (grassCell rng k) t
          (by omega) ⟨h1, h2⟩
          (by
            intro j u _ _ ⟨g1, g2⟩
            exact grassCell_inv rng k j u g1 g2)
        refine ⟨this.1, ?_⟩
        intro tr htr
        rcases this.2 tr htr with h | h
        · left; omega
        · left; omega)
    unfold grassUpTo
    rw [forUp_of_le 0 0 _ _ (le_refl _)]
    exact this
  unfold grassUpTo
  refine forUp_inv (fun j u => TreeInv u ∧ Visited z j u) 0 x (grassCell rng z) _ hx.1 ?_ ?_
  · have := rows z hz
    unfold grassUpTo at this
    rw [forUp_of_le 0 0 _ _ (le_refl _)] at this
    exact this
  · intro j u _ _ ⟨g1, g2⟩
    exact grassCell_inv rng z j u g1 g2

theorem grassQuadrant_eq_upTo (rng : Nat → Nat) :
    grassQuadrant rng Gen.init = grassUpTo rng 50 0 := by
  unfold grassQuadrant grassUpTo
  rw [forUp_of_le 0 0 _ _ (le_refl _)]

/-- Induction over the cells that run after the grass loops reached the cell `(x, z)`. -/
theorem Build_from (P : Gen → Prop) (rng : Nat → Nat) (z x : Int) (hz : 0 ≤ z ∧ z < 50)
    (hx : 0 ≤ x ∧ x ≤ 50) (h0 : P (grassUpTo rng z x))
    (hg : ∀ x z s t, GrassCellStep rng x z s t → P s → P t)
    (hs : ∀ x z s t, SandCellStep rng x z s t → P s → P t)
    (hv : ∀ x z s t, GravelCellStep rng x z s t → P s → P t)
    (hw : ∀ x z s t, WaterCellStep x z s t → P s → P t) :
    P (BuildRenderItems rng) := by
  have hgrass : P (grassQuadrant rng Gen.init) := by
    unfold grassQuadrant
    rw [forUp_split 0 z 50 _ _ hz.1 (by omega), forUp_split z (z + 1) 50 _ _ (by omega) (by omega),
      forUp_one]
    refine quadrant_preserve P (grassCell rng) (z + 1) 50 0 50 _ ?_ ?_
    · show P (forUp 0 50 (grassCell rng z) _)
      rw [forUp_split 0 x 50 _ _ hx.1 hx.2]
      refine forUp_preserve P x 50 _ _ h0 ?_
      intro k t _ _ ht
      exact hg k z t _ (grassCell_spec rng z k t) ht
    · intro z' x' t _ _ _ _ ht
      exact hg x' z' t _ (grassCell_spec rng z' x' t) ht
  unfold BuildRenderItems waterQuadrant gravelQuadrant sandQuadrant
  refine quadrant_preserve P _ _ _ _ _ _ ?_ ?_
  refine quadrant_preserve P _ _ _ _ _ _ ?_ ?_
  refine quadrant_preserve P _ _ _ _ _ _ hgrass ?_
  · intro z x t _ _ _ _ ht
    exact hs x z t _ (sandCell_spec rng z x t) ht
  · intro z x t _ _ _ _ ht
    exact hv x z t _ (gravelCell_spec rng z x t) ht
  · intro z x t _ _ _ _ ht
    exact hw x z t _ (waterCell_spec rng z x t) ht

/-- The invariant holds in the finished world. -/
theorem Build_inv (rng : Nat → Nat) : TreeInv (BuildRenderItems rng) := by
  have hgrass : TreeInv (grassQuadrant rng Gen.init) := by
    rw [grassQuadrant_eq_upTo]
    exact (grassUpTo_inv rng 50 0 (by omega) (by omega)).1
  unfold BuildRenderItems waterQuadrant gravelQuadrant sandQuadrant
  refine quadrant_preserve TreeInv _ _ _ _ _ _ ?_ ?_
  refine quadrant_preserve TreeInv _ _ _ _ _ _ ?_ ?_
  refine quadrant_preserve TreeInv _ _ _ _ _ _ hgrass ?_
  · intro z x t _ _ _ _ ht
    obtain ⟨r, _, _, _, hc⟩ := sandCell_spec rng z x t
    rcases hc with ⟨_, hc⟩ | ⟨_, hc⟩ <;> exact TreeInv.cell hc ht
  · intro z x t _ _ _ _ ht
    obtain ⟨r, _, _, hc⟩ := gravelCell_spec rng z x t
    exact TreeInv.cell hc ht
  · intro z x t _ _ _ _ ht
    exact TreeInv.cell (waterCell_spec rng z x t) ht

/-! ## The claims on the trees -/

/-- The marking loops of lines 1657-1661, run for the tree `t` (in a state whose tree counter is
the slot of `t`), set the entries `t.marks` and no other. -/
theorem markFootprint_marks (t : Tree) (s : Gen) (hs : s.treeCount = t.slot)
    (e : Int × Int × Int) :
    e ∈ (markFootprint t.x t.z s).ar1 ↔ e ∈ s.ar1 ∨ e ∈ t.marks := by
  rw [(markFootprint_spec t.x t.z s).2.2.2.2.2.2.1 e, mem_marks, hs]

theorem Tree.marks_length_le (t : Tree) : t.marks.length ≤ 15 := by
  unfold Tree.marks
  refine (List.length_filterMap_le _ _).trans ?_
  rw [rectCells_eq]
  simp

/-- The marking pass of a tree has fifteen stores, so it sets at most fifteen cells. -/
theorem Tree.footprint_card_le (t : Tree) : t.footprint.toFinset.card ≤ 15 := by
  refine (List.toFinset_card_le _).trans ?_
  unfold Tree.footprint
  rw [List.length_map]
  exact t.marks_length_le

/-- When every store of the marking pass of a tree is within the declared bounds of `ar1`, the
entries set are the entries of the rectangle of the tree in the slot of the tree, and the
footprint is the 15 cells of the rectangle. -/
theorem Tree.marks_interior (t : Tree) (hx : 2 ≤ t.x ∧ t.x ≤ 47) (hz : 0 ≤ t.z ∧ t.z ≤ 47)
    (ha : 0 ≤ t.slot ∧ t.slot ≤ 79) :
    (∀ e, e ∈ t.marks ↔ e.1 = t.slot ∧ inRect t.x t.z e.2) ∧
    (∀ c, c ∈ t.footprint ↔ inRect t.x t.z c) ∧ t.footprint.toFinset.card = 15 := by
  have hb : ∀ j i, inRect t.x t.z (j, i) → ar1Entry t.slot j i = some (t.slot, j, i) := by
    intro j i h
    simp only [inRect] at h
    exact ar1Entry_inBounds ⟨by omega, by omega, by omega, by omega, by omega, by omega⟩
  have hmarks : ∀ e, e ∈ t.marks ↔ e.1 = t.slot ∧ inRect t.x t.z e.2 := by
    intro e
    rw [mem_marks]
    constructor
    · rintro ⟨j, i, h1, h2⟩
      rw [hb j i h1, Option.some.injEq] at h2
      subst h2
      exact ⟨rfl, h1⟩
    · rintro ⟨h1, h2⟩
      refine ⟨e.2.1, e.2.2, h2, ?_⟩
      rw [hb e.2.1 e.2.2 h2, ← h1]
  have hiff : ∀ c, c ∈ t.footprint ↔ inRect t.x t.z c := by
    intro c
    unfold Tree.footprint
    rw [List.mem_map]
    constructor
    · rintro ⟨e, he, rfl⟩
      exact ((hmarks e).mp he).2
    · intro h
      exact ⟨(t.slot, c), (hmarks _).mpr ⟨rfl, h⟩, rfl⟩
  refine ⟨hmarks, hiff, ?_⟩
  have heq : t.footprint.toFinset =
      Finset.Icc (t.x - 2) (t.x + 2) ×ˢ Finset.Icc t.z (t.z + 2) := by
    ext c
    rw [List.mem_toFinset, hiff, Finset.mem_product, Finset.mem_Icc, Finset.mem_Icc]
    unfold inRect
    tauto
  rw [heq, Finset.card_product, Int.card_Icc, Int.card_Icc]
  have e1 : t.x + 2 + 1 - (t.x - 2) = 5 := by ring
  have e2 : t.z + 2 + 1 - t.z = 3 := by ring
  rw [e1, e2]; decide

/-- Induction over the layer loops of the sand, gravel and water quadrants. -/
theorem Build_rest (P : Gen → Prop) (rng : Nat → Nat) (h0 : P (grassQuadrant rng Gen.init))
    (hcell : ∀ cap capMat x z h s t, CellStep cap capMat x z h s t → P s → P t) :
    P (BuildRenderItems rng) := by
  unfold BuildRenderItems waterQuadrant gravelQuadrant sandQuadrant
  refine quadrant_preserve P _ _ _ _ _ _ ?_ ?_
  refine quadrant_preserve P _ _ _ _ _ _ ?_ ?_
  refine quadrant_preserve P _ _ _ _ _ _ h0 ?_
  · intro z x t _ _ _ _ ht
    obtain ⟨r, _, _, _, hc⟩ := sandCell_spec rng z x t
    rcases hc with ⟨_, hc⟩ | ⟨_, hc⟩ <;> exact hcell _ _ _ _ _ _ _ hc ht
  · intro z x t _ _ _ _ ht
    obtain ⟨r, _, _, hc⟩ := gravelCell_spec rng z x t
    exact hcell _ _ _ _ _ _ _ hc ht
  · intro z x t _ _ _ _ ht
    exact hcell _ _ _ _ _ _ _ (waterCell_spec rng z x t) ht

/-- The sand, gravel and water loops leave the tree bookkeeping as the grass loops left it. -/
theorem Build_trees (rng : Nat → Nat) :
    (BuildRenderItems rng).treeCount = (grassUpTo rng 50 0).treeCount ∧
    (BuildRenderItems rng).trees = (grassUpTo rng 50 0).trees ∧
    (BuildRenderItems rng).ar1 = (grassUpTo rng 50 0).ar1 := by
  refine Build_rest (fun s => s.treeCount = (grassUpTo rng 50 0).treeCount ∧
    s.trees = (grassUpTo rng 50 0).trees ∧ s.ar1 = (grassUpTo rng 50 0).ar1) rng ?_ ?_
  · rw [grassQuadrant_eq_upTo]; exact ⟨rfl, rfl, rfl⟩
  · rintro cap capMat x z h s t ⟨mat, _, _, _, _, c4, c5, c6, _⟩ ⟨h1, h2, h3⟩
    exact ⟨by rw [c4, h1], by rw [c6, h2], by rw [c5, h3]⟩

/-- C7: for every sequence of random draws the tree counter is between 0 and 80 and equals
the number of trees placed, whenever the grass loops are about to run a cell (or have
finished a row) and in the finished world; the tree part of a cell does nothing at all,
not even a draw, once the counter has reached 80; the sand, gravel and water loops leave the
counter and the trees as the grass loops left them. -/
theorem tree_count_capped (rng : Nat → Nat) :
    ((BuildRenderItems rng).treeCount ≤ 80 ∧ (BuildRenderItems rng).trees.length ≤ 80 ∧
      (BuildRenderItems rng).treeCount = ((BuildRenderItems rng).trees.length : Int)) ∧
    (∀ z x, 0 ≤ z → 0 ≤ x → x ≤ 50 →
      0 ≤ (grassUpTo rng z x).treeCount ∧ (grassUpTo rng z x).treeCount ≤ 80 ∧
      (grassUpTo rng z x).treeCount = ((grassUpTo rng z x).trees.length : Int)) ∧
    (∀ x z s, 80 ≤ s.treeCount → treeStep rng x z s = s) ∧
    ((BuildRenderItems rng).treeCount = (grassUpTo rng 50 0).treeCount ∧
      (BuildRenderItems rng).trees = (grassUpTo rng 50 0).trees) := by
  refine ⟨?_, ?_, ?_, ?_⟩
  · obtain ⟨_, ⟨h1, h2, h3⟩, _⟩ := Build_inv rng
    exact ⟨h2, by omega, h3⟩
  · intro z x hz hx1 hx2
    exact (grassUpTo_inv rng z x hz ⟨hx1, hx2⟩).1.2.1
  · intro x z s h80
    unfold treeStep
    rw [if_neg (by omega)]
  · exact ⟨(Build_trees rng).1, (Build_trees rng).2.1⟩

/-- C9: for every sequence of random draws, the entries of `ar1` that are true in the
finished world are the entries set by the marking passes of the placed trees, and for every
placed tree `T` and every tree `S` placed before `T`, the anchor cell of `T` is not a cell of
the footprint marked for `S` (in whichever slot of `ar1` the stores for `S` arrived), nor a
cell of the rectangle over which the marking loops ran for `S`. -/
theorem anchor_outside_earlier_footprints (rng : Nat → Nat) :
    (∀ e, e ∈ (BuildRenderItems rng).ar1 ↔ ∃ t ∈ (BuildRenderItems rng).trees, e ∈ t.marks) ∧
    (BuildRenderItems rng).trees.Pairwise (fun S T =>
      (T.x, T.z) ∉ S.footprint ∧ ¬ inRect S.x S.z (T.x, T.z)) := by
  have hinv := Build_inv rng
  refine ⟨hinv.2.2.2.1, ?_⟩
  exact hinv.2.2.2.2.imp (fun {S T} h => ⟨h.2.2.2, h.2.1⟩)

/-- A tree placed when the grass loops reached some cell is a tree of the finished world. -/
theorem trees_persist (rng : Nat → Nat) (z x : Int) (hz : 0 ≤ z ∧ z < 50) (hx : 0 ≤ x ∧ x ≤ 50)
    (t : Tree) (ht : t ∈ (grassUpTo rng z x).trees) : t ∈ (BuildRenderItems rng).trees := by
  have hk : ∀ {cap capMat x z h s u}, CellStep cap capMat x z h s u → t ∈ s.trees →
      t ∈ u.trees := by
    rintro cap capMat x z h s u ⟨mat, _, _, _, _, _, _, c6, _⟩ hs
    rw [c6]; exact hs
  refine Build_from (fun s => t ∈ s.trees) rng z x hz hx ht ?_ ?_ ?_ ?_
  · rintro x' z' s u ⟨r, v, _, _, hc, _, htree, _⟩ hs
    have hv := hk hc hs
    rcases htree with h | h
    · rw [h.2.2.2.2.2.1]; exact hv
    · obtain ⟨_, _, _, _, _, _, _, _, _, _, _, p12, _⟩ := h
      rw [p12]; exact List.mem_append_left _ hv
  · rintro x' z' s u ⟨r, _, _, _, hc⟩ hs
    rcases hc with ⟨_, hc⟩ | ⟨_, hc⟩ <;> exact hk hc hs
  · rintro x' z' s u ⟨r, _, _, hc⟩ hs
    exact hk hc hs
  · rintro x' z' s u hc hs
    exact hk hc hs

set_option maxRecDepth 100000 in
/-- Under `rngTwo`, when the grass loops are about to run the cell (7, 1), 456 draws have been
made, two trees have been placed, at (3, 1) and at (6, 1), and no access to `ar1` was out of
bounds. -/
theorem rngTwo_early :
    (grassUpTo rngTwo 1 7).calls = 456 ∧
    (grassUpTo rngTwo 1 7).trees =
      [{ x := 3, z := 1, random := 1, slot := 1, first := 486 },
       { x := 6, z := 1, random := 1, slot := 2, first := 525 }] ∧
    (grassUpTo rngTwo 1 7).faults = [] := by
  decide!

/-- Under `rngTwo` the whole generation places the two trees at (3, 1) and (6, 1) and no
other, and no access to `ar1` is out of bounds. -/
theorem rngTwo_run :
    (BuildRenderItems rngTwo).trees =
      [{ x := 3, z := 1, random := 1, slot := 1, first := 486 },
       { x := 6, z := 1, random := 1, slot := 2, first := 525 }] ∧
    (BuildRenderItems rngTwo).faults = [] := by
  have hzero : ∀ k, 456 ≤ k → ((rngTwo k : Nat) : Int) % 20 ≠ 4 := by
    intro k hk
    have : rngTwo k = 0 := by
      unfold rngTwo
      rw [if_neg (by omega)]
    rw [this]; decide
  have hk : ∀ {cap capMat x z h s u}, CellStep cap capMat x z h s u →
      (456 ≤ s.calls ∧ s.trees = (grassUpTo rngTwo 1 7).trees ∧ s.faults = []) →
      (456 ≤ u.calls ∧ u.trees = (grassUpTo rngTwo 1 7).trees ∧ u.faults = []) := by
    rintro cap capMat x z h s u ⟨mat, _, _, _, c3, _, _, c6, c7⟩ ⟨h1, h2, h3⟩
    exact ⟨by omega, by rw [c6, h2], by rw [c7, h3]⟩
  obtain ⟨e1, e2, e3⟩ := rngTwo_early
  have key := Build_from
    (fun s => 456 ≤ s.calls ∧ s.trees = (grassUpTo rngTwo 1 7).trees ∧ s.faults = [])
    rngTwo 1 7 (by decide) (by decide) ⟨by rw [e1], rfl, e3⟩ ?_ ?_ ?_ ?_
  · exact ⟨by rw [key.2.1, e2], key.2.2⟩
  · rintro x' z' s u ⟨r, v, _, _, hc, _, _, hidle⟩ hs
    obtain ⟨h1, h2, h3⟩ := hk hc hs
    obtain ⟨i1, _, _, _, _, i6, _, i8⟩ := hidle (hzero v.calls h1)
    exact ⟨by omega, by rw [i6, h2], by rw [i8, h3]⟩
  · rintro x' z' s u ⟨r, _, _, _, hc⟩ hs
    rcases hc with ⟨_, hc⟩ | ⟨_, hc⟩ <;> exact hk hc hs
  · rintro x' z' s u ⟨r, _, _, hc⟩ hs
    exact hk hc hs
  · rintro x' z' s u hc hs
    exact hk hc hs

theorem rngTwo_trees :
    ({ x := 3, z := 1, random := 1, slot := 1, first := 486 } : Tree) ∈
      (BuildRenderItems rngTwo).trees ∧
    ({ x := 6, z := 1, random := 1, slot := 2, first := 525 } : Tree) ∈
      (BuildRenderItems rngTwo).trees := by
  rw [rngTwo_run.1]
  simp

/-- C8 as amended: for every sequence of random draws and every two distinct placed trees,
the anchor cell of neither tree lies in the block of cells `x - 2 .. x + 2` by `z .. z + 2`
over which the marking loops run for the other tree, and the anchor cell of the tree placed
later is not a cell of the footprint marked for the tree placed earlier.  (The footprints
themselves can share cells.) -/
theorem anchors_outside_each_others_rectangles (rng : Nat → Nat) :
    (BuildRenderItems rng).trees.Pairwise (fun S T =>
      ¬ inRect S.x S.z (T.x, T.z) ∧ ¬ inRect T.x T.z (S.x, S.z) ∧
      (T.x, T.z) ∉ S.footprint) := by
  refine (Build_inv rng).2.2.2.2.imp ?_
  rintro S T ⟨_, hrect, hord, hfoot⟩
  refine ⟨hrect, ?_, hfoot⟩
  intro h
  simp only [inRect] at h hrect
  omega

/-- Counterexample to C8 as stated: under `rngTwo` the generation places two trees, at (3, 1)
and at (6, 1), without any access to `ar1` out of bounds; the marking pass of the first sets
the entry `ar1[1][4][1]`, the marking pass of the second sets the entry `ar1[2][4][1]`, both
entries are true in the finished world, and so the cell (4, 1) is in the footprint marked for
each of the two trees. -/
theorem footprints_overlap :
    (BuildRenderItems rngTwo).trees =
      [{ x := 3, z := 1, random := 1, slot := 1, first := 486 },
       { x := 6, z := 1, random := 1, slot := 2, first := 525 }] ∧
    (BuildRenderItems rngTwo).faults = [] ∧
    ((1, 4, 1) : Int × Int × Int) ∈ (BuildRenderItems rngTwo).ar1 ∧
    ((2, 4, 1) : Int × Int × Int) ∈ (BuildRenderItems rngTwo).ar1 ∧
    ((4, 1) : Int × Int) ∈
      ({ x := 3, z := 1, random := 1, slot := 1, first := 486 } : Tree).footprint ∧
    ((4, 1) : Int × Int) ∈
      ({ x := 6, z := 1, random := 1, slot := 2, first := 525 } : Tree).footprint := by
  have hinv := Build_inv rngTwo
  obtain ⟨h1, h2⟩ := rngTwo_trees
  have m1 := (Tree.marks_interior { x := 3, z := 1, random := 1, slot := 1, first := 486 }
    (by decide) (by decide) (by decide))
  have m2 := (Tree.marks_interior { x := 6, z := 1, random := 1, slot := 2, first := 525 }
    (by decide) (by decide) (by decide))
  refine ⟨rngTwo_run.1, rngTwo_run.2, ?_, ?_, ?_, ?_⟩
  · exact (hinv.2.2.2.1 _).mpr ⟨_, h1, (m1.1 _).mpr (by decide)⟩
  · exact (hinv.2.2.2.1 _).mpr ⟨_, h2, (m2.1 _).mpr (by decide)⟩
  · exact (m1.2.1 _).mpr (by decide)
  · exact (m2.2.1 _).mpr (by decide)

theorem countMat_append (m : Material) (l1 l2 : List RenderItem) :
    countMat m (l1 ++ l2) = countMat m l1 + countMat m l2 := by
  simp [countMat, matsWhere_append]

theorem countMat_columnItems {cap : Int → Bool} {capMat : Material} {mat : Int → Material}
    (hr : LayerRule cap capMat mat) (hc : isTerrain capMat = true) (m : Material)
    (hm : isTerrain m = false) (x z : Int) (i0 h : Nat) :
    countMat m (columnItems x z i0 mat h) = 0 := by
  unfold countMat
  rw [matsWhere_eq_nil]; rfl
  intro it hit
  obtain ⟨n, _, rfl⟩ := mem_columnItems hit
  have := hr.terrain hc n (by omega)
  simp only [mkItem, decide_eq_false_iff_not]
  intro h
  rw [h, hm] at this
  cases this

theorem countMat_treeItems (x z r : Int) (i0 : Nat) :
    countMat .wood (treeItems x z r i0) = 3 ∧ countMat .leaves (treeItems x z r i0) = 9 := by
  constructor <;> rfl

/-- The wood and leaves blocks of the world are the blocks of the placed trees: three wood
blocks and nine leaves blocks for each. -/
theorem Build_counts (rng : Nat → Nat) :
    countMat .wood (BuildRenderItems rng).mAllRitems = 3 * (BuildRenderItems rng).trees.length ∧
    countMat .leaves (BuildRenderItems rng).mAllRitems =
      9 * (BuildRenderItems rng).trees.length := by
  have hk : ∀ {cap capMat x z h s t}, CellStep cap capMat x z h s t → isTerrain capMat = true →
      (countMat .wood s.mAllRitems = 3 * s.trees.length ∧
        countMat .leaves s.mAllRitems = 9 * s.trees.length) →
      (countMat .wood t.mAllRitems = 3 * t.trees.length ∧
        countMat .leaves t.mAllRitems = 9 * t.trees.length) := by
    rintro cap capMat x z h s t ⟨mat, hr, c1, _, _, _, _, c6, _⟩ hcap ⟨h1, h2⟩
    rw [c1, c6, countMat_append, countMat_append, countMat_columnItems hr hcap .wood rfl,
      countMat_columnItems hr hcap .leaves rfl]
    exact ⟨h1, h2⟩
  refine Build_induct (fun s => countMat .wood s.mAllRitems = 3 * s.trees.length ∧
    countMat .leaves s.mAllRitems = 9 * s.trees.length) rng ⟨rfl, rfl⟩ ?_ ?_ ?_ ?_
  · rintro x z s t _ _ _ _ ⟨r, u, _, _, hc, _, htree, _⟩ hs
    obtain ⟨h1, h2⟩ := hk hc rfl hs
    rcases htree with h | h
    · rw [h.2.2.2.2.1, h.2.2.2.2.2.1]; exact ⟨h1, h2⟩
    · obtain ⟨_, _, _, _, _, _, _, _, _, _, p11, p12, _⟩ := h
      rw [p11, p12, countMat_append, countMat_append, (countMat_treeItems _ _ _ _).1,
        (countMat_treeItems _ _ _ _).2, List.length_append, List.length_singleton, h1, h2]
      constructor <;> ring
  · rintro x z s t _ _ _ _ ⟨r, _, _, _, hc⟩ hs
    rcases hc with ⟨_, hc⟩ | ⟨_, hc⟩ <;> exact hk hc rfl hs
  · rintro x z s t _ _ _ _ ⟨r, _, _, hc⟩ hs
    exact hk hc rfl hs
  · rintro x z s t _ _ _ _ hc hs
    exact hk hc rfl hs

/-- A placed tree stands on the top block of its anchor column: with `r` the height draw
recorded for the tree, the terrain block at layer `r + 7` of the anchor cell is grass and
there is no terrain block from layer `r + 8` up. -/
theorem tree_on_column (rng : Nat → Nat) (t : Tree) (ht : t ∈ (BuildRenderItems rng).trees) :
    terrainAt (BuildRenderItems rng).mAllRitems t.x (t.random + 7) t.z = [.grass] ∧
    ∀ y, t.random + 8 ≤ y → terrainAt (BuildRenderItems rng).mAllRitems t.x y t.z = [] := by
  obtain ⟨a1, a2, a3, a4, _⟩ := (Build_inv rng).2.2.1 t ht
  have key := Build_hit
    (fun s => ((fun y => terrainAt s.mAllRitems t.x y t.z),
      s.trees.filter (fun t' => decide (t'.x = t.x ∧ t'.z = t.z))))
    (fun v => ∀ t' ∈ v.2, v.1 (t'.random + 7) = [Material.grass] ∧
      ∀ y, t'.random + 8 ≤ y → v.1 y = [])
    rng t.x t.z ⟨by omega, by omega⟩ ⟨by omega, by omega⟩ ?_ ?_ ?_ ?_ ?_ (by omega) (by omega)
    (by omega)
  · exact key t (by simp [ht])
  · rintro x' z' s u hne ⟨r, v, _, _, hc, _, htree, _⟩
    have e1 := terrain_keep_cell (x := t.x) (z := t.z) hc hne
    have e2 := terrain_keep_tree (x := t.x) (z := t.z) htree
    obtain ⟨mat, _, _, _, _, _, _, c6, _⟩ := hc
    show (_, _) = (_, _)
    rw [e2, e1]
    congr 1
    rcases htree with h | h
    · rw [h.2.2.2.2.2.1, c6]
    · obtain ⟨_, _, _, _, _, _, _, _, _, _, _, p12, _⟩ := h
      rw [p12, c6, List.filter_append]
      have : ¬ (x' = t.x ∧ z' = t.z) := hne
      simp [List.filter_cons, this]
  · rintro x' z' s u hne ⟨r, _, _, _, hc⟩
    show (_, _) = (_, _)
    rcases hc with ⟨_, hc⟩ | ⟨_, hc⟩
    · rw [terrain_keep_cell (x := t.x) (z := t.z) hc hne]
      obtain ⟨mat, _, _, _, _, _, _, c6, _⟩ := hc
      rw [c6]
    · rw [terrain_keep_cell (x := t.x) (z := t.z) hc hne]
      obtain ⟨mat, _, _, _, _, _, _, c6, _⟩ := hc
      rw [c6]
  · rintro x' z' s u hne ⟨r, _, _, hc⟩
    show (_, _) = (_, _)
    rw [terrain_keep_cell (x := t.x) (z := t.z) hc hne]
    obtain ⟨mat, _, _, _, _, _, _, c6, _⟩ := hc
    rw [c6]
  · rintro x' z' s u hne hc
    show (_, _) = (_, _)
    rw [terrain_keep_cell (x := t.x) (z := t.z) hc hne]
    obtain ⟨mat, _, _, _, _, _, _, c6, _⟩ := hc
    rw [c6]
  · rintro _ _ s u hs ⟨r, v, _, hr12, hc, hvr, htree, _⟩
    have hs1 : ∀ y, terrainAt s.mAllRitems t.x y t.z = [] := by
      intro y
      have := congrFun (congrArg Prod.fst hs) y
      exact this
    have hs2 : s.trees.filter (fun t' => decide (t'.x = t.x ∧ t'.z = t.z)) = [] :=
      congrArg Prod.snd hs
    obtain ⟨mat, hrule, hcol⟩ := hc.column rfl hs1
    have hh : (((r + 8).toNat : Nat) : Int) = r + 8 := by omega
    simp only [hh] at hcol
    have e2 := terrain_keep_tree (x := t.x) (z := t.z) htree
    obtain ⟨_, _, _, _, _, _, _, c6, _⟩ := hc
    have e3 : ∀ y, terrainAt u.mAllRitems t.x y t.z = terrainAt v.mAllRitems t.x y t.z :=
      fun y => congrFun e2 y
    intro t' ht'
    simp only [e3] at ht' ⊢
    rcases htree with h | h
    · rw [h.2.2.2.2.2.1, c6, hs2] at ht'
      cases ht'
    · obtain ⟨_, _, _, _, _, _, _, _, _, _, _, p12, _⟩ := h
      rw [p12, c6, List.filter_append, hs2, List.nil_append] at ht'
      simp only [List.filter_cons, List.filter_nil] at ht'
      split at ht'
      · rw [List.mem_singleton] at ht'
        subst ht'
        simp only [hvr]
        constructor
        · rw [hcol, if_pos (by omega), hrule.2.2 (r + 7) (by omega)]
          have : grassCap r (r + 7) = true := by
            simp only [grassCap, decide_eq_true_eq]; omega
          simp [this]
        · intro y hy
          rw [hcol, if_neg (by omega)]
      · cases ht'

/-- C10 as amended: every placed tree consists of exactly 12 blocks, created one after the
other: a trunk of 3 wood blocks at `(x, h, z)`, `(x, h + 1, z)`, `(x, h + 2, z)`, where
`h = r + 8` for the height draw `r` of the anchor column (the terrain block at layer `h - 1`
of the anchor cell is the grass block on top of the column and there is no terrain block
from layer `h` up), and 9 leaves blocks: the 8 blocks around the top trunk block at height
`h + 2`, and one at `(x, h + 3, z)`.  The world has no other wood or leaves block: it has 3
wood blocks and 9 leaves blocks per placed tree. -/
theorem tree_blocks (rng : Nat → Nat) :
    (∀ t ∈ (BuildRenderItems rng).trees,
      (t.random = 1 ∨ t.random = 2) ∧
      terrainAt (BuildRenderItems rng).mAllRitems t.x (t.random + 8 - 1) t.z = [.grass] ∧
      (∀ y, t.random + 8 ≤ y → terrainAt (BuildRenderItems rng).mAllRitems t.x y t.z = []) ∧
      (((BuildRenderItems rng).mAllRitems.drop t.first).take 12).map
          (fun it => (it.World, it.Mat)) =
        [ ((t.x, t.random + 8, t.z), .wood),
          ((t.x, t.random + 8 + 1, t.z), .wood),
          ((t.x, t.random + 8 + 2, t.z), .wood),
          ((t.x + 1, t.random + 8 + 2, t.z), .leaves),
          ((t.x + 1, t.random + 8 + 2, t.z + 1), .leaves),
          ((t.x, t.random + 8 + 2, t.z + 1), .leaves),
          ((t.x - 1, t.random + 8 + 2, t.z + 1), .leaves),
          ((t.x - 1, t.random + 8 + 2, t.z), .leaves),
          ((t.x - 1, t.random + 8 + 2, t.z - 1), .leaves),
          ((t.x, t.random + 8 + 2, t.z - 1), .leaves),
          ((t.x + 1, t.random + 8 + 2, t.z - 1), .leaves),
          ((t.x, t.random + 8 + 3, t.z), .leaves) ]) ∧
    countMat .wood (BuildRenderItems rng).mAllRitems = 3 * (BuildRenderItems rng).trees.length ∧
    countMat .leaves (BuildRenderItems rng).mAllRitems =
      9 * (BuildRenderItems rng).trees.length := by
  refine ⟨?_, Build_counts rng⟩
  intro t ht
  obtain ⟨_, _, _, _, a5, _, _, _, a9⟩ := (Build_inv rng).2.2.1 t ht
  obtain ⟨b1, b2⟩ := tree_on_column rng t ht
  have e7 : t.random + 8 - 1 = t.random + 7 := by ring
  have e9 : t.random + 8 + 1 = t.random + 9 := by ring
  have e10 : t.random + 8 + 2 = t.random + 10 := by ring
  have e11 : t.random + 8 + 3 = t.random + 11 := by ring
  refine ⟨a5, by rw [e7]; exact b1, b2, ?_⟩
  rw [a9, e9, e10, e11]
  rfl

/-- Counterexample to C10 as stated: under `rngTwo` a tree is placed at (3, 1), without any
access to `ar1` out of bounds, and among its twelve blocks, the render items number 486 to
497, there are 3 wood blocks and 9 leaves blocks, not 8. -/
theorem tree_has_nine_leaves :
    ({ x := 3, z := 1, random := 1, slot := 1, first := 486 } : Tree) ∈
      (BuildRenderItems rngTwo).trees ∧
    (BuildRenderItems rngTwo).faults = [] ∧
    countMat .wood (((BuildRenderItems rngTwo).mAllRitems.drop 486).take 12) = 3 ∧
    countMat .leaves (((BuildRenderItems rngTwo).mAllRitems.drop 486).take 12) = 9 := by
  obtain ⟨h1, _⟩ := rngTwo_trees
  obtain ⟨_, _, _, _, _, _, _, _, a9⟩ := (Build_inv rngTwo).2.2.1 _ h1
  refine ⟨h1, rngTwo_run.2, ?_, ?_⟩
  · rw [show ((BuildRenderItems rngTwo).mAllRitems.drop 486).take 12 = treeItems 3 1 1 486 from a9]
    rfl
  · rw [show ((BuildRenderItems rngTwo).mAllRitems.drop 486).take 12 = treeItems 3 1 1 486 from a9]
    rfl

/-- Witness of C7: the state in which the grass loops are about to run the cell (7, 1), under
`rngTwo`. -/
theorem tree_count_capped_witness :
    ((0 : Int) ≤ 1 ∧ (0 : Int) ≤ 7 ∧ (7 : Int) ≤ 50) ∧
    0 ≤ (grassUpTo rngTwo 1 7).treeCount ∧ (grassUpTo rngTwo 1 7).treeCount ≤ 80 ∧
      (grassUpTo rngTwo 1 7).treeCount = ((grassUpTo rngTwo 1 7).trees.length : Int) :=
  ⟨by decide, (tree_count_capped rngTwo).2.1 1 7 (by decide) (by decide) (by decide)⟩

/-- Witness of C9: under `rngTwo` the tree at (6, 1) is placed after the tree at (3, 1), and
its anchor cell is not in the footprint marked for the tree at (3, 1). -/
theorem anchor_outside_earlier_footprints_witness :
    ((6, 1) : Int × Int) ∉
        ({ x := 3, z := 1, random := 1, slot := 1, first := 486 } : Tree).footprint ∧
      ¬ inRect 3 1 ((6, 1) : Int × Int) := by
  have h := (anchor_outside_earlier_footprints rngTwo).2
  rw [rngTwo_run.1, List.pairwise_cons] at h
  exact h.1 _ (List.mem_singleton_self _)

/-- Witness of C8 as amended: under `rngTwo`, the anchor of the tree at (6, 1) is not in the
rectangle of the tree at (3, 1) nor in its footprint, and the anchor of the tree at (3, 1) is
not in the rectangle of the tree at (6, 1). -/
theorem anchors_outside_each_others_rectangles_witness :
    ¬ inRect 3 1 ((6, 1) : Int × Int) ∧ ¬ inRect 6 1 ((3, 1) : Int × Int) ∧
      ((6, 1) : Int × Int) ∉
        ({ x := 3, z := 1, random := 1, slot := 1, first := 486 } : Tree).footprint := by
  have h := anchors_outside_each_others_rectangles rngTwo
  rw [rngTwo_run.1, List.pairwise_cons] at h
  exact h.1 _ (List.mem_singleton_self _)

/-- Witness of C10 as amended: under `rngTwo` the tree at (3, 1) stands on a column of height
draw 1; the grass block of the column is at layer 8 and the trunk starts at layer 9. -/
theorem tree_blocks_witness :
    ({ x := 3, z := 1, random := 1, slot := 1, first := 486 } : Tree) ∈
      (BuildRenderItems rngTwo).trees ∧
    terrainAt (BuildRenderItems rngTwo).mAllRitems 3 8 1 = [.grass] ∧
    (((BuildRenderItems rngTwo).mAllRitems.drop 486).take 12).map (fun it => (it.World, it.Mat)) =
      [ ((3, 9, 1), .wood), ((3, 10, 1), .wood), ((3, 11, 1), .wood),
        ((4, 11, 1), .leaves), ((4, 11, 2), .leaves), ((3, 11, 2), .leaves),
        ((2, 11, 2), .leaves), ((2, 11, 1), .leaves), ((2, 11, 0), .leaves),
        ((3, 11, 0), .leaves), ((4, 11, 0), .leaves), ((3, 12, 1), .leaves) ] :=
  ⟨rngTwo_trees.1, ((tree_blocks rngTwo).1 _ rngTwo_trees.1).2.1,
    ((tree_blocks rngTwo).1 _ rngTwo_trees.1).2.2.2⟩

/-! ## The claims on the bookkeeping: footprint, array bounds, tree blocks, indices -/

theorem range_add_split (n h : Nat) : List.range (n + h) = List.range n ++ List.range' n h := by
  rw [List.range_eq_range', List.range_eq_range']
  have := List.range'_append 0 n h 1
  simp only [Nat.one_mul, Nat.zero_add] at this
  rw [this, Nat.add_comm]

theorem columnItems_indices (x z : Int) (i0 : Nat) (mat : Int → Material) (h : Nat) :
    (columnItems x z i0 mat h).map (fun it => it.ObjCBIndex) = List.range' i0 h := by
  induction h with
  | zero => simp [columnItems]
  | succ n ih =>
    rw [columnItems_succ, List.map_append, ih, List.range'_concat]
    simp [mkItem]

theorem treeItems_indices (x z r : Int) (i0 : Nat) :
    (treeItems x z r i0).map (fun it => it.ObjCBIndex) = List.range' i0 12 := by
  simp [treeItems, mkItem, List.range']

theorem Dense.keepCell {cap capMat x z h s t} (hc : CellStep cap capMat x z h s t) (hs : Dense s) :
    Dense t := by
  obtain ⟨mat, _, c2, c3, _⟩ := hc
  obtain ⟨h1, h2⟩ := hs
  refine ⟨by rw [c3, c2, List.length_append, columnItems_length, h1], ?_⟩
  rw [c2, List.map_append, h2, columnItems_indices, List.length_append, columnItems_length,
    range_add_split, h1]

theorem Dense.keepTree {x z s t} (hc : TreeStep x z s t) (hs : Dense s) : Dense t := by
  obtain ⟨h1, h2⟩ := hs
  rcases hc with ⟨_, _, i3, _, i5, _⟩ | ⟨_, _, _, _, _, _, _, _, p9, _, p11, _⟩
  · exact ⟨by rw [i3, i5, h1], by rw [i5, h2]⟩
  · refine ⟨by rw [p9, p11, List.length_append, treeItems_length, h1], ?_⟩
    rw [p11, List.map_append, h2, treeItems_indices, List.length_append, treeItems_length,
      range_add_split, h1]

theorem Build_dense (rng : Nat → Nat) : Dense (BuildRenderItems rng) := by
  refine Build_induct Dense rng ⟨rfl, rfl⟩ ?_ ?_ ?_ ?_
  · rintro x z s t _ _ _ _ ⟨r, u, _, _, hc, _, ht, _⟩ hs
    exact Dense.keepTree ht (Dense.keepCell hc hs)
  · rintro x z s t _ _ _ _ ⟨r, _, _, _, hc⟩ hs
    rcases hc with ⟨_, hc⟩ | ⟨_, hc⟩ <;> exact Dense.keepCell hc hs
  · rintro x z s t _ _ _ _ ⟨r, _, _, hc⟩ hs
    exact Dense.keepCell hc hs
  · rintro x z s t _ _ _ _ hc hs
    exact Dense.keepCell hc hs

/-- C14: for every sequence of random draws, the object indices of the render items, read in
creation order, are 0, 1, 2, ..., n - 1 where n is the number of items: the k-th item
appended (counting from zero) has `ObjCBIndex` k, so the indices have neither a gap nor a
duplicate. -/
theorem object_indices_dense (rng : Nat → Nat) :
    (BuildRenderItems rng).mAllRitems.map (fun it => it.ObjCBIndex) =
        List.range (BuildRenderItems rng).mAllRitems.length ∧
    (∀ (k : Nat) (it : RenderItem),
      (BuildRenderItems rng).mAllRitems[k]? = some it → it.ObjCBIndex = k) ∧
    ((BuildRenderItems rng).mAllRitems.map (fun it => it.ObjCBIndex)).Nodup := by
  have h := (Build_dense rng).2
  refine ⟨h, ?_, by rw [h]; exact List.nodup_range _⟩
  intro k it hk
  have h2 : ((BuildRenderItems rng).mAllRitems.map (fun it => it.ObjCBIndex))[k]? =
      some it.ObjCBIndex := by
    rw [List.getElem?_map, hk]; rfl
  rw [h] at h2
  have hlt : k < (BuildRenderItems rng).mAllRitems.length := by
    by_contra hge
    rw [List.getElem?_eq_none (by simpa using hge)] at hk
    exact Option.noConfusion hk
  rw [List.getElem?_range hlt] at h2
  exact (Option.some.inj h2).symm

/-- C11 as amended: for every sequence of random draws and every placed tree, anchored at
`(x, z)`: the marking loops run for it set the entries `marks` of the tree and no other, and
these entries are true in the finished world; its marking pass has 15 stores, over the block
`x - 2 .. x + 2` by `z .. z + 2` (5 along x, 3 along z), so at most 15 cells are set to true
for it; when every store is within the declared bounds of the array (`2 ≤ x ≤ 47`, `z ≤ 47`,
slot at most 79) the entries set are those of that 5 x 3 block in the slot of the tree:
exactly 15 cells are set to true. -/
theorem footprint_five_by_three (rng : Nat → Nat) (t : Tree)
    (ht : t ∈ (BuildRenderItems rng).trees) :
    (∀ s : Gen, s.treeCount = t.slot →
      ∀ e, e ∈ (markFootprint t.x t.z s).ar1 ↔ e ∈ s.ar1 ∨ e ∈ t.marks) ∧
    (∀ e ∈ t.marks, e ∈ (BuildRenderItems rng).ar1) ∧
    (rectCells t.x t.z).length = 15 ∧ (∀ c, c ∈ rectCells t.x t.z ↔ inRect t.x t.z c) ∧
    t.footprint.toFinset.card ≤ 15 ∧
    (2 ≤ t.x → t.x ≤ 47 → t.z ≤ 47 → t.slot ≤ 79 →
      (∀ e, e ∈ t.marks ↔ e.1 = t.slot ∧ inRect t.x t.z e.2) ∧
      (∀ c, c ∈ t.footprint ↔ inRect t.x t.z c) ∧ t.footprint.toFinset.card = 15) := by
  have hinv := Build_inv rng
  obtain ⟨_, _, hz0, _, _, ha1, _⟩ := hinv.2.2.1 t ht
  refine ⟨fun s hs e => markFootprint_marks t s hs e,
    fun e he => (hinv.2.2.2.1 e).mpr ⟨t, ht, he⟩, ?_, mem_rectCells t.x t.z,
    t.footprint_card_le, ?_⟩
  · rw [rectCells_eq]; rfl
  · intro h1 h2 h3 h4
    exact t.marks_interior ⟨h1, h2⟩ ⟨by omega, h3⟩ ⟨by omega, h4⟩

/-- Witness of C11 as amended: under `rngTwo` the tree at (3, 1), in slot 1, has every store
of its marking pass within the declared bounds. -/
theorem footprint_five_by_three_witness :
    ({ x := 3, z := 1, random := 1, slot := 1, first := 486 } : Tree) ∈
      (BuildRenderItems rngTwo).trees ∧
    (∀ c, c ∈ ({ x := 3, z := 1, random := 1, slot := 1, first := 486 } : Tree).footprint ↔
      inRect 3 1 c) ∧
    ({ x := 3, z := 1, random := 1, slot := 1, first := 486 } : Tree).footprint.toFinset.card
      = 15 :=
  ⟨rngTwo_trees.1,
    ((footprint_five_by_three rngTwo _ rngTwo_trees.1).2.2.2.2.2
      (by decide) (by decide) (by decide) (by decide)).2⟩

/-- Counterexample to C11 as stated: under `rngTwo` the generation places a tree at (3, 1),
no access to `ar1` is out of bounds, every entry that the marking pass of the tree sets is
true in the finished world, and the number of cells set to true for that tree is 15, not
20. -/
theorem footprint_has_fifteen_cells :
    ({ x := 3, z := 1, random := 1, slot := 1, first := 486 } : Tree) ∈
      (BuildRenderItems rngTwo).trees ∧
    (BuildRenderItems rngTwo).faults = [] ∧
    (∀ e ∈ ({ x := 3, z := 1, random := 1, slot := 1, first := 486 } : Tree).marks,
      e ∈ (BuildRenderItems rngTwo).ar1) ∧
    ({ x := 3, z := 1, random := 1, slot := 1, first := 486 } : Tree).footprint.toFinset.card
      = 15 ∧
    ({ x := 3, z := 1, random := 1, slot := 1, first := 486 } : Tree).footprint.toFinset.card
      ≠ 20 := by
  have h := (Tree.marks_interior { x := 3, z := 1, random := 1, slot := 1, first := 486 }
    (by decide) (by decide) (by decide)).2.2
  refine ⟨rngTwo_trees.1, rngTwo_run.2,
    fun e he => ((Build_inv rngTwo).2.2.2.1 e).mpr ⟨_, rngTwo_trees.1, he⟩, h, ?_⟩
  rw [h]; decide

/-- The accesses to `ar1` outside its bounds are the stores of the marking passes that fall
outside: the cells of the rectangle of a placed tree, at the slot of the tree. -/
theorem Build_faults (rng : Nat → Nat) (a j i : Int) :
    (a, j, i) ∈ (BuildRenderItems rng).faults ↔
      ¬ ar1InBounds a j i ∧
        ∃ t ∈ (BuildRenderItems rng).trees, t.slot = a ∧ inRect t.x t.z (j, i) := by
  have hk : ∀ {cap capMat x z h s u}, CellStep cap capMat x z h s u →
      (s.treeCount = (s.trees.length : Int) ∧ (∀ t ∈ s.trees, t.slot ≤ s.treeCount) ∧
        ∀ a j i, (a, j, i) ∈ s.faults ↔
          ¬ ar1InBounds a j i ∧ ∃ t ∈ s.trees, t.slot = a ∧ inRect t.x t.z (j, i)) →
      (u.treeCount = (u.trees.length : Int) ∧ (∀ t ∈ u.trees, t.slot ≤ u.treeCount) ∧
        ∀ a j i, (a, j, i) ∈ u.faults ↔
          ¬ ar1InBounds a j i ∧ ∃ t ∈ u.trees, t.slot = a ∧ inRect t.x t.z (j, i)) := by
    rintro cap capMat x z h s u ⟨mat, _, _, _, _, c4, _, c6, c7⟩ hs
    rw [c4, c6, c7]; exact hs
  have key := Build_induct (fun s =>
      s.treeCount = (s.trees.length : Int) ∧ (∀ t ∈ s.trees, t.slot ≤ s.treeCount) ∧
      ∀ a j i, (a, j, i) ∈ s.faults ↔
        ¬ ar1InBounds a j i ∧ ∃ t ∈ s.trees, t.slot = a ∧ inRect t.x t.z (j, i))
    rng ⟨rfl, by simp [Gen.init], by simp [Gen.init]⟩ ?_ ?_ ?_ ?_
  · exact key.2.2 a j i
  · rintro x z s t _ _ _ _ ⟨r, u, _, _, hc, _, htree, _⟩ hs
    obtain ⟨h1, h2, h3⟩ := hk hc hs
    rcases htree with ⟨_, i2, _, _, _, i6, _, i8⟩ | hp
    · rw [i2, i6, i8]; exact ⟨h1, h2, h3⟩
    · obtain ⟨_, _, _, _, _, _, _, p8, _, _, _, p12, _, p14⟩ := hp
      refine ⟨?_, ?_, ?_⟩
      · rw [p8, p12, List.length_append, h1]; simp
      · intro T hT
        rw [p12, List.mem_append, List.mem_singleton] at hT
        rcases hT with hT | rfl
        · have := h2 T hT; omega
        · simp only; omega
      · intro a j i
        rw [p14, h3, p12]
        constructor
        · rintro (⟨hb, T, hT, e1, e2⟩ | ⟨rfl, hr, hb⟩)
          · exact ⟨hb, T, List.mem_append_left _ hT, e1, e2⟩
          · exact ⟨hb, _, List.mem_append_right _ (List.mem_singleton.mpr rfl), rfl, hr⟩
        · rintro ⟨hb, T, hT, e1, e2⟩
          rw [List.mem_append, List.mem_singleton] at hT
          rcases hT with hT | rfl
          · exact Or.inl ⟨hb, T, hT, e1, e2⟩
          · exact Or.inr ⟨e1.symm, e2, hb⟩
  · rintro x z s t _ _ _ _ ⟨r, _, _, _, hc⟩ hs
    rcases hc with ⟨_, hc⟩ | ⟨_, hc⟩ <;> exact hk hc hs
  · rintro x z s t _ _ _ _ ⟨r, _, _, hc⟩ hs
    exact hk hc hs
  · rintro x z s t _ _ _ _ hc hs
    exact hk hc hs

/-- A store of the generation whose address is beyond the last entry of `ar1` has first index
79 or 80: it belongs to the marking pass of one of the last two trees that can be placed. -/
theorem stores_beyond_array (rng : Nat → Nat) (a j i : Int)
    (h : (a, j, i) ∈ (BuildRenderItems rng).faults) (hn : ar1Entry a j i = none) :
    a = 79 ∨ a = 80 := by
  obtain ⟨_, t, ht, hs, hr⟩ := (Build_faults rng a j i).mp h
  obtain ⟨x1, x2, z1, z2, _, s1, s2, _⟩ := (Build_inv rng).2.2.1 t ht
  have h80 := (Build_inv rng).2.1.2.1
  simp only [inRect] at hr
  simp only [ar1Entry] at hn
  split at hn
  · cases hn
  · rename_i hneg
    omega

set_option maxRecDepth 100000 in
/-- Under `rngEdge`, when the grass loops are about to run the cell (2, 1), one tree has been
placed, at (1, 1). -/
theorem rngEdge_early :
    (grassUpTo rngEdge 1 2).trees = [{ x := 1, z := 1, random := 1, slot := 1, first := 468 }] := by
  decide!

/-- C12, evaluated at a failing input: under `rngEdge` the generation places a tree at the
cell (1, 1); its marking pass executes the store `ar1[1][-1][3] = true`, whose second index
is below 0, so the store model `ar1Set` has no result for it. -/
theorem store_below_zero :
    ({ x := 1, z := 1, random := 1, slot := 1, first := 468 } : Tree) ∈
      (BuildRenderItems rngEdge).trees ∧
    ((1, -1, 3) : Int × Int × Int) ∈ (BuildRenderItems rngEdge).faults ∧
    ¬ ar1InBounds 1 (-1) 3 ∧
    ar1Set (BuildRenderItems rngEdge).ar1 1 (-1) 3 = none := by
  have ht : ({ x := 1, z := 1, random := 1, slot := 1, first := 468 } : Tree) ∈
      (BuildRenderItems rngEdge).trees :=
    trees_persist rngEdge 1 2 (by decide) (by decide) _ (by rw [rngEdge_early]; simp)
  refine ⟨ht, ?_, by decide, ?_⟩
  · rw [Build_faults]
    exact ⟨by decide, _, ht, rfl, by decide⟩
  · unfold ar1Set
    rw [if_neg (by decide)]

theorem mem_treeItems_wood {x z r : Int} {i0 : Nat} {it : RenderItem}
    (hit : it ∈ treeItems x z r i0) (hw : it.Mat = .wood) :
    it.World.1 = x ∧ it.World.2.2 = z := by
  simp only [treeItems, List.mem_cons, List.mem_singleton, List.not_mem_nil, or_false] at hit
  rcases hit with h | h | h | h | h | h | h | h | h | h | h | h <;> subst h <;>
    simp [mkItem] at hw ⊢

/-- Where the blocks of the trees lie, for every sequence of random draws: a tree is anchored
only at a cell with `0 < x < 50` and `0 < z < 50`; every wood block stands on an anchor cell,
so it has `0 < x < 50` and `0 < z < 50`; every leaves block lies within one cell of an anchor,
so it has `0 ≤ x ≤ 50` and `0 ≤ z ≤ 50`. -/
theorem tree_blocks_region (rng : Nat → Nat) :
    (∀ t ∈ (BuildRenderItems rng).trees, 0 < t.x ∧ t.x < 50 ∧ 0 < t.z ∧ t.z < 50) ∧
    (∀ it ∈ (BuildRenderItems rng).mAllRitems, it.Mat = .wood →
      0 < it.World.1 ∧ it.World.1 < 50 ∧ 0 < it.World.2.2 ∧ it.World.2.2 < 50) ∧
    (∀ it ∈ (BuildRenderItems rng).mAllRitems, it.Mat = .leaves →
      0 ≤ it.World.1 ∧ it.World.1 ≤ 50 ∧ 0 ≤ it.World.2.2 ∧ it.World.2.2 ≤ 50) := by
  have hterr : ∀ {cap capMat} {mat : Int → Material} (x z : Int) (n i : Nat),
      LayerRule cap capMat mat → isTerrain capMat = true →
      ((mkItem x n z i (mat n)).Mat = .wood →
        0 < (mkItem x n z i (mat n)).World.1 ∧ (mkItem x n z i (mat n)).World.1 < 50 ∧
        0 < (mkItem x n z i (mat n)).World.2.2 ∧ (mkItem x n z i (mat n)).World.2.2 < 50) ∧
      ((mkItem x n z i (mat n)).Mat = .leaves →
        0 ≤ (mkItem x n z i (mat n)).World.1 ∧ (mkItem x n z i (mat n)).World.1 ≤ 50 ∧
        0 ≤ (mkItem x n z i (mat n)).World.2.2 ∧ (mkItem x n z i (mat n)).World.2.2 ≤ 50) := by
    intro cap capMat mat x z n i hr hc
    have h := hr.terrain hc n (by omega)
    constructor <;> intro hm <;> (simp only [mkItem] at hm; rw [hm] at h; cases h)
  have key := Build_items (fun it =>
      (it.Mat = .wood →
        0 < it.World.1 ∧ it.World.1 < 50 ∧ 0 < it.World.2.2 ∧ it.World.2.2 < 50) ∧
      (it.Mat = .leaves →
        0 ≤ it.World.1 ∧ it.World.1 ≤ 50 ∧ 0 ≤ it.World.2.2 ∧ it.World.2.2 ≤ 50)) rng
    (fun x z r n i mat _ _ _ _ _ _ hr => hterr x z n i hr rfl)
    ?_
    (fun x z top n i mat _ _ _ _ _ _ hr => hterr x z n i hr rfl)
    (fun x z r n i mat _ _ _ _ _ _ hr => hterr x z n i hr rfl)
    (fun x z n i mat _ _ _ _ _ hr => hterr x z n i hr rfl)
  · refine ⟨fun t ht => ?_, fun it hit => (key it hit).1, fun it hit => (key it hit).2⟩
    obtain ⟨h1, h2, h3, h4, _⟩ := (Build_inv rng).2.2.1 t ht
    exact ⟨h1, h2, h3, h4⟩
  · intro x z r i it hx1 hx2 hz1 hz2 _ hit
    constructor
    · intro hw
      obtain ⟨e1, e2⟩ := mem_treeItems_wood hit hw
      rw [e1, e2]; exact ⟨hx1, hx2, hz1, hz2⟩
    · intro _
      obtain ⟨_, _, _, b1, b2, b3, b4, _⟩ := mem_treeItems hit
      omega

set_option maxRecDepth 100000 in
/-- Under `rngBorder`, when the grass loops have finished the row `z = 1`, one tree has been
placed, at (49, 1). -/
theorem rngBorder_early :
    (grassUpTo rngBorder 1 50).trees =
      [{ x := 49, z := 1, random := 1, slot := 1, first := 900 }] := by
  decide!

set_option maxRecDepth 100000 in
/-- Under `rngAlias` the tree draw succeeds at the cells (1, 1) and (49, 1).  The tree at
(1, 1) is placed, in slot 1; its store `ar1[1][-1][1] = true` sets the entry `ar1[0][49][1]`;
the search at the cell (49, 1) reads that entry and no tree is placed there: when the row
`z = 1` is finished, after 800 draws, the tree at (1, 1) is the only tree.  (Under `rngBorder`,
without the tree at (1, 1), the tree at (49, 1) is placed.) -/
theorem rngAlias_row :
    (grassUpTo rngAlias 1 50).calls = 800 ∧
    (grassUpTo rngAlias 1 50).trees =
      [{ x := 1, z := 1, random := 1, slot := 1, first := 468 }] ∧
    ((0, 49, 1) : Int × Int × Int) ∈ (grassUpTo rngAlias 1 50).ar1 := by
  decide!

/-- C13, evaluated at a failing input: under `rngBorder` the generation places a tree at the
cell (49, 1), which passes the guard `x > 0 && x < 50`; the leaves block of that tree at
(50, 11, 1) is a render item of the world: its x is 50, outside the grass quadrant and over
the gravel quadrant (`50 ≤ x < 100`, `0 ≤ z < 50`); and the marking pass of the same tree
executes the store `ar1[1][50][3] = true`, whose second index is outside the declared
bounds. -/
theorem leaves_over_gravel_quadrant :
    ({ x := 49, z := 1, random := 1, slot := 1, first := 900 } : Tree) ∈
      (BuildRenderItems rngBorder).trees ∧
    mkItem 50 11 1 903 .leaves ∈ (BuildRenderItems rngBorder).mAllRitems ∧
    ¬ ((mkItem 50 11 1 903 .leaves).World.1 < 50) ∧
    ((1, 50, 3) : Int × Int × Int) ∈ (BuildRenderItems rngBorder).faults := by
  have ht : ({ x := 49, z := 1, random := 1, slot := 1, first := 900 } : Tree) ∈
      (BuildRenderItems rngBorder).trees :=
    trees_persist rngBorder 1 50 (by decide) (by decide) _ (by rw [rngBorder_early]; simp)
  refine ⟨ht, ?_, by decide, (Build_faults rngBorder 1 50 3).mpr
    ⟨by decide, _, ht, rfl, by decide⟩⟩
  obtain ⟨_, _, _, _, _, _, _, _, h⟩ := (Build_inv rngBorder).2.2.1 _ ht
  have hm : mkItem 50 11 1 903 .leaves ∈
      ((BuildRenderItems rngBorder).mAllRitems.drop 900).take 12 := by
    rw [h]; simp [treeItems, mkItem]
  exact List.mem_of_mem_drop (List.mem_of_mem_take hm)

/-- Every render item of the finished world has the countdown `NumFramesDirty` of a new item,
the ring depth. -/
theorem Build_fresh (rng : Nat → Nat) :
    ∀ it ∈ (BuildRenderItems rng).mAllRitems, it.NumFramesDirty = 3 :=
  Build_items (fun it => it.NumFramesDirty = 3) rng
    (fun _ _ _ _ _ _ _ _ _ _ _ _ _ => rfl)
    (fun _ _ _ _ _ _ _ _ _ _ hit => (mem_treeItems hit).2.2.2.2.2.2.2.2.2)
    (fun _ _ _ _ _ _ _ _ _ _ _ _ _ => rfl)
    (fun _ _ _ _ _ _ _ _ _ _ _ _ _ => rfl)
    (fun _ _ _ _ _ _ _ _ _ _ _ => rfl)

/-! ## The application: lemmas on the calls -/

theorem pushAll (l : List Nat) (a : App) :
    l.foldl (fun (b : App) (e : Nat) => { b with mOpaqueRitems := b.mOpaqueRitems ++ [e] }) a =
      { a with mOpaqueRitems := a.mOpaqueRitems ++ l } := by
  induction l generalizing a with
  | nil => simp
  | cons e l ih => simp [ih, List.append_assoc]

theorem BuildMaterials_eq (a : App) :
    BuildMaterials a = { a with mMaterials := fun k => some (newMaterial k.slot) } := by
  unfold BuildMaterials App.setMaterial
  simp only []
  congr 1
  funext k
  cases k <;> rfl

/-- The state that `Initialize` leaves. -/
theorem Initialize_eq (rng : Nat → Nat) (fence0 : Nat) :
    Initialize rng fence0 =
      { isBuilt := true,
        mFrameResources :=
          [FrameResource.fresh 1 (BuildRenderItems rng).mAllRitems.length 10,
            FrameResource.fresh 1 (BuildRenderItems rng).mAllRitems.length 10,
            FrameResource.fresh 1 (BuildRenderItems rng).mAllRitems.length 10],
        mAllRitems := (BuildRenderItems rng).mAllRitems,
        mOpaqueRitems := List.range (BuildRenderItems rng).mAllRitems.length,
        mCurrentFence := fence0, completed := fence0,
        mMaterials := fun k => some (newMaterial k.slot) } := by
  unfold Initialize App.BuildRenderItems
  simp only [pushAll, BuildMaterials_eq]
  simp [BuildFrameResources, gNumFrameResources, List.range, List.range.loop,
    App.materialCount, Material.all]

theorem Initialize_ready (rng : Nat → Nat) (fence0 : Nat) : Ready (Initialize rng fence0) := by
  rw [Initialize_eq]
  refine ⟨rfl, Nat.zero_lt_succ _, ?_, ?_, le_refl _, rfl, fun _ => rfl, ?_, ?_, ?_⟩
  · intro k hk; cases hk
  · intro f hf
    simp only [App.fences, List.map_cons, List.map_nil, List.mem_cons, List.mem_singleton,
      List.not_mem_nil, or_false, or_self] at hf
    rw [hf]; exact Nat.zero_le _
  · intro fr hfr
    simp only [List.mem_cons, List.mem_singleton, List.not_mem_nil, or_false, or_self] at hfr
    rw [hfr]; rfl
  · exact (Build_dense rng).2
  · intro k; rfl

theorem set_same {α : Type} {l : List α} {k : Nat} {x : α} (h : l[k]? = some x) :
    l.set k x = l := by
  induction l generalizing k with
  | nil => rfl
  | cons y l ih =>
    cases k with
    | zero =>
      simp only [List.getElem?_cons_zero, Option.some.injEq] at h
      rw [List.set_cons_zero, h]
    | succ n =>
      simp only [List.getElem?_cons_succ] at h
      rw [List.set_cons_succ, ih h]

theorem CopyData_some {α : Type} (b : UploadBuffer α) (i : Nat) (x : α) (h : i < b.count) :
    b.CopyData i x = some { b with
      data := fun j => if j = i then some x else b.data j,
      writes := fun j => if j = i then b.writes j + 1 else b.writes j } := by
  unfold UploadBuffer.CopyData
  rw [if_pos h]

theorem afterCopy_fixed (e : RenderItem) : e.afterCopy.fixed = e.fixed := by
  unfold RenderItem.afterCopy
  by_cases h : 0 < e.NumFramesDirty
  · rw [if_pos h]; rfl
  · rw [if_neg h]

theorem afterCopy_index (e : RenderItem) : e.afterCopy.ObjCBIndex = e.ObjCBIndex :=
  congrArg (fun p => p.2.1) (afterCopy_fixed e)

/-- The loop of `UpdateObjectCBs` over items with pairwise different object indices inside
the buffer: it ends, every item is left as `afterCopy` leaves it, the record of an item
with a positive countdown is its `World`, written once more, and no other record is touched. -/
theorem copyObject_fold (items pre : List RenderItem) (cb : UploadBuffer (Int × Int × Int))
    (hb : ∀ e ∈ items, e.ObjCBIndex < cb.count)
    (hn : (items.map (fun it => it.ObjCBIndex)).Nodup) :
    ∃ cb1, items.foldlM copyObject (cb, pre) =
        some (cb1, pre ++ items.map RenderItem.afterCopy) ∧
      cb1.count = cb.count ∧
      (∀ i, (∀ e ∈ items, e.ObjCBIndex ≠ i) →
        cb1.data i = cb.data i ∧ cb1.writes i = cb.writes i) ∧
      (∀ e ∈ items,
        cb1.data e.ObjCBIndex =
          (if 0 < e.NumFramesDirty then some e.World else cb.data e.ObjCBIndex) ∧
        cb1.writes e.ObjCBIndex =
          cb.writes e.ObjCBIndex + (if 0 < e.NumFramesDirty then 1 else 0)) := by
  induction items generalizing pre cb with
  | nil => exact ⟨cb, by simp, rfl, fun _ _ => ⟨rfl, rfl⟩, fun e he => by cases he⟩
  | cons e items ih =>
    rw [List.map_cons, List.nodup_cons] at hn
    obtain ⟨hne, hn⟩ := hn
    have hbe := hb e (List.mem_cons_self _ _)
    have hne2 : ∀ x ∈ items, x.ObjCBIndex ≠ e.ObjCBIndex := by
      intro x hx heq
      exact hne (List.mem_map.mpr ⟨x, hx, heq⟩)
    by_cases hd : 0 < e.NumFramesDirty
    · have hstep : copyObject (cb, pre) e =
          some ({ cb with
              data := fun j => if j = e.ObjCBIndex then some e.World else cb.data j,
              writes := fun j => if j = e.ObjCBIndex then cb.writes j + 1 else cb.writes j },
            pre ++ [e.afterCopy]) := by
        unfold copyObject RenderItem.afterCopy
        rw [if_pos hd, if_pos hd]
        dsimp only
        rw [CopyData_some cb _ _ hbe]
      obtain ⟨cb1, h1, h2, h3, h4⟩ := ih (pre ++ [e.afterCopy])
        { cb with
          data := fun j => if j = e.ObjCBIndex then some e.World else cb.data j,
          writes := fun j => if j = e.ObjCBIndex then cb.writes j + 1 else cb.writes j }
        (fun x hx => hb x (List.mem_cons_of_mem _ hx)) hn
      refine ⟨cb1, ?_, h2, ?_, ?_⟩
      · rw [List.foldlM_cons, hstep]
        simp only [Option.bind_eq_bind, Option.some_bind]
        rw [h1]; simp
      · intro i hi
        obtain ⟨d1, d2⟩ := h3 i (fun x hx => hi x (List.mem_cons_of_mem _ hx))
        have hie : i ≠ e.ObjCBIndex := fun h => hi e (List.mem_cons_self _ _) h.symm
        rw [d1, d2]
        simp only [if_neg hie, and_self]
      · intro x hx
        rcases List.mem_cons.mp hx with rfl | hx
        · obtain ⟨d1, d2⟩ := h3 x.ObjCBIndex hne2
          rw [d1, d2]
          simp only [if_true, if_pos hd, and_self]
        · obtain ⟨d1, d2⟩ := h4 x hx
          rw [d1, d2]
          simp only [if_neg (hne2 x hx), and_self]
    · have hstep : copyObject (cb, pre) e = some (cb, pre ++ [e.afterCopy]) := by
        unfold copyObject RenderItem.afterCopy
        rw [if_neg hd, if_neg hd]
      obtain ⟨cb1, h1, h2, h3, h4⟩ := ih (pre ++ [e.afterCopy]) cb
        (fun x hx => hb x (List.mem_cons_of_mem _ hx)) hn
      refine ⟨cb1, ?_, h2, ?_, ?_⟩
      · rw [List.foldlM_cons, hstep]
        simp only [Option.bind_eq_bind, Option.some_bind]
        rw [h1]; simp
      · intro i hi
        exact h3 i (fun x hx => hi x (List.mem_cons_of_mem _ hx))
      · intro x hx
        rcases List.mem_cons.mp hx with rfl | hx
        · obtain ⟨d1, d2⟩ := h3 x.ObjCBIndex hne2
          rw [d1, d2]
          simp only [if_neg hd, Nat.add_zero, and_self]
        · exact h4 x hx

theorem constants_afterCopy (mat : MaterialData) : mat.afterCopy.constants = mat.constants := by
  unfold MaterialData.afterCopy
  by_cases h : 0 < mat.NumFramesDirty
  · rw [if_pos h]; rfl
  · rw [if_neg h]

theorem index_afterCopy (mat : MaterialData) : mat.afterCopy.MatCBIndex = mat.MatCBIndex := by
  unfold MaterialData.afterCopy
  by_cases h : 0 < mat.NumFramesDirty
  · rw [if_pos h]
  · rw [if_neg h]

theorem slot_injective {k j : Material} (h : k.slot = j.slot) : k = j := by
  cases k <;> cases j <;> first | rfl | (exact absurd h (by decide))

theorem slot_lt (k : Material) : k.slot < 10 := by
  cases k <;> decide

/-- The loop of `UpdateMaterialCBs` over pairwise different keys, when every key has its
material, at the slot index of the key, inside the buffer: it ends, the material of every key
of the loop is left as `afterCopy` leaves it, the record of a material with a positive
countdown is its constants, written once more, and no other record is touched. -/
theorem copyMaterial_fold (keys : List Material) (cb : UploadBuffer MaterialConstants)
    (mats : Material → Option MaterialData)
    (hi : ∀ k, (mats k).map (fun mat => mat.MatCBIndex) = some k.slot)
    (hb : 10 ≤ cb.count) (hn : keys.Nodup) :
    ∃ cb1, keys.foldlM copyMaterial (cb, mats) =
        some (cb1, fun k => if k ∈ keys then (mats k).map MaterialData.afterCopy else mats k) ∧
      cb1.count = cb.count ∧
      (∀ i, (∀ k ∈ keys, k.slot ≠ i) →
        cb1.data i = cb.data i ∧ cb1.writes i = cb.writes i) ∧
      (∀ k ∈ keys, ∀ mat, mats k = some mat →
        cb1.data k.slot =
          (if 0 < mat.NumFramesDirty then some mat.constants else cb.data k.slot) ∧
        cb1.writes k.slot = cb.writes k.slot + (if 0 < mat.NumFramesDirty then 1 else 0)) := by
  induction keys generalizing cb mats with
  | nil => exact ⟨cb, by simp, rfl, fun _ _ => ⟨rfl, rfl⟩, fun k hk => by cases hk⟩
  | cons key keys ih =>
    rw [List.nodup_cons] at hn
    obtain ⟨hne, hn⟩ := hn
    have hkey := hi key
    cases hm : mats key with
    | none => rw [hm] at hkey; cases hkey
    | some mat =>
      rw [hm] at hkey
      have hslot : mat.MatCBIndex = key.slot := Option.some.inj hkey
      have hne2 : ∀ x ∈ keys, x.slot ≠ key.slot := by
        intro x hx heq
        exact hne (slot_injective heq ▸ hx)
      have hlt : mat.MatCBIndex < cb.count := by
        rw [hslot]; exact lt_of_lt_of_le (slot_lt key) hb
      have hmats1 : ∀ k, ((fun k => if k = key then some mat.afterCopy else mats k) k).map
          (fun mat => mat.MatCBIndex) = some k.slot := by
        intro k
        by_cases hk : k = key
        · subst hk
          simp [index_afterCopy, hslot]
        · simp only [if_neg hk]; exact hi k
      have hfun : (fun k => if k ∈ keys then
            ((fun k => if k = key then some mat.afterCopy else mats k) k).map
              MaterialData.afterCopy
          else (fun k => if k = key then some mat.afterCopy else mats k) k) =
          (fun k => if k ∈ key :: keys then (mats k).map MaterialData.afterCopy else mats k) := by
        funext k
        by_cases hk : k = key
        · subst hk
          simp [hne, hm]
        · simp [hk]
      by_cases hd : 0 < mat.NumFramesDirty
      · have hstep : copyMaterial (cb, mats) key =
            some ({ cb with
                data := fun j => if j = mat.MatCBIndex then some mat.constants else cb.data j,
                writes := fun j => if j = mat.MatCBIndex then cb.writes j + 1 else cb.writes j },
              fun k => if k = key then some mat.afterCopy else mats k) := by
          unfold copyMaterial MaterialData.afterCopy
          simp only [hm]
          rw [if_pos hd, if_pos hd, CopyData_some cb _ _ hlt]
        obtain ⟨cb1, h1, h2, h3, h4⟩ := ih
          { cb with
            data := fun j => if j = mat.MatCBIndex then some mat.constants else cb.data j,
            writes := fun j => if j = mat.MatCBIndex then cb.writes j + 1 else cb.writes j }
          (fun k => if k = key then some mat.afterCopy else mats k) hmats1 hb hn
        refine ⟨cb1, ?_, h2, ?_, ?_⟩
        · rw [List.foldlM_cons, hstep]
          simp only [Option.bind_eq_bind, Option.some_bind]
          rw [h1, hfun]
        · intro i hi2
          obtain ⟨d1, d2⟩ := h3 i (fun x hx => hi2 x (List.mem_cons_of_mem _ hx))
          have hie : i ≠ mat.MatCBIndex := by
            rw [hslot]; exact fun h => hi2 key (List.mem_cons_self _ _) h.symm
          rw [d1, d2]
          simp only [if_neg hie, and_self]
        · intro x hx m2 hm2
          rcases List.mem_cons.mp hx with rfl | hx
          · obtain ⟨d1, d2⟩ := h3 x.slot hne2
            rw [hm] at hm2
            cases hm2
            rw [d1, d2]
            simp only [hslot, if_true, if_pos hd, and_self]
          · have hxk : x ≠ key := fun h => hne (h ▸ hx)
            obtain ⟨d1, d2⟩ := h4 x hx m2 (by simp only [if_neg hxk]; exact hm2)
            rw [d1, d2]
            simp only [hslot, if_neg (hne2 x hx), and_self]
      · have hstep : copyMaterial (cb, mats) key = some (cb, mats) := by
          unfold copyMaterial
          simp only [hm]
          rw [if_neg hd]
        have hsame : (fun k => if k = key then some mat.afterCopy else mats k) = mats := by
          funext k
          by_cases hk : k = key
          · subst hk
            simp only [if_true, hm, MaterialData.afterCopy, if_neg hd]
          · simp only [if_neg hk]
        rw [hsame] at hfun
        obtain ⟨cb1, h1, h2, h3, h4⟩ := ih cb mats hi hb hn
        refine ⟨cb1, ?_, h2, ?_, ?_⟩
        · rw [List.foldlM_cons, hstep]
          simp only [Option.bind_eq_bind, Option.some_bind]
          rw [h1, hfun]
        · intro i hi2
          exact h3 i (fun x hx => hi2 x (List.mem_cons_of_mem _ hx))
        · intro x hx m2 hm2
          rcases List.mem_cons.mp hx with rfl | hx
          · obtain ⟨d1, d2⟩ := h3 x.slot hne2
            rw [hm] at hm2
            cases hm2
            rw [d1, d2]
            simp only [if_neg hd, Nat.add_zero, and_self]
          · exact h4 x hx m2 hm2

theorem ite_bool (b : Bool) : (if b = true then true else false) = b := by
  cases b <;> rfl

theorem lookup_lt {α : Type} {l : List α} {k : Nat} {x : α} (h : l[k]? = some x) :
    k < l.length := by
  by_contra hcon
  rw [List.getElem?_eq_none (Nat.le_of_not_lt hcon)] at h
  cases h

theorem dense_index {items : List RenderItem}
    (hd : items.map (fun it => it.ObjCBIndex) = List.range items.length)
    {i : Nat} {e : RenderItem} (he : items[i]? = some e) : e.ObjCBIndex = i := by
  have h1 : (items.map (fun it => it.ObjCBIndex))[i]? = some e.ObjCBIndex := by
    rw [List.getElem?_map, he]; rfl
  rw [hd, List.getElem?_range (lookup_lt he)] at h1
  exact (Option.some.inj h1).symm

theorem dense_lt {items : List RenderItem}
    (hd : items.map (fun it => it.ObjCBIndex) = List.range items.length)
    {e : RenderItem} (he : e ∈ items) : e.ObjCBIndex < items.length := by
  obtain ⟨i, hi⟩ := List.mem_iff_getElem?.mp he
  rw [dense_index hd hi]
  exact lookup_lt hi

theorem dense_nodup {items : List RenderItem}
    (hd : items.map (fun it => it.ObjCBIndex) = List.range items.length) :
    (items.map (fun it => it.ObjCBIndex)).Nodup := by
  rw [hd]; exact List.nodup_range _

/-- Lines 263-278 of `Update` from a ready state: the flags follow the keys, the index
steps to the next frame resource, which becomes the current one, and the wait returns with the
fence of that frame resource 0 or reached. -/
theorem acquire_spec (inp : Input) (a : App) (ha : Ready a) :
    ∃ c, acquireFrameResource inp a = some { a with
        debugMode := inp.key1, cullFront := inp.key2, cullNone := inp.key3,
        mCamera := (OnKeyboardInput inp a).mCamera,
        lightingOff := (OnKeyboardInput inp a).lightingOff,
        mCurrFrameResourceIndex := (a.mCurrFrameResourceIndex + 1) % 3,
        mCurrFrameResource := some ((a.mCurrFrameResourceIndex + 1) % 3),
        completed := c } ∧
      a.completed ≤ c ∧ c ≤ a.mCurrentFence ∧
      ∃ f, a.fences[(a.mCurrFrameResourceIndex + 1) % 3]? = some f ∧ (f = 0 ∨ f ≤ c) := by
  obtain ⟨h1, h2, h3, h4, h5, h6, h7, h8⟩ := ha
  have hlt : (a.mCurrFrameResourceIndex + 1) % 3 < a.mFrameResources.length := by
    rw [h1]; exact Nat.mod_lt _ (by decide)
  have hget : a.mFrameResources[(a.mCurrFrameResourceIndex + 1) % 3]? =
      some (a.mFrameResources[(a.mCurrFrameResourceIndex + 1) % 3]) :=
    List.getElem?_eq_getElem hlt
  have hf : a.fences[(a.mCurrFrameResourceIndex + 1) % 3]? =
      some (a.mFrameResources[(a.mCurrFrameResourceIndex + 1) % 3]).Fence := by
    unfold App.fences
    rw [List.getElem?_map, hget]; rfl
  have hle : (a.mFrameResources[(a.mCurrFrameResourceIndex + 1) % 3]).Fence ≤ a.mCurrentFence :=
    h4 _ (List.mem_iff_getElem?.mpr ⟨_, hf⟩)
  unfold acquireFrameResource
  simp only [OnKeyboardInput, gNumFrameResources, hget, gpuAdvance, waitForFence, ite_bool]
  by_cases hw : (a.mFrameResources[(a.mCurrFrameResourceIndex + 1) % 3]).Fence ≠ 0 ∧
      min a.mCurrentFence (a.completed + inp.gpu) <
        (a.mFrameResources[(a.mCurrFrameResourceIndex + 1) % 3]).Fence
  · refine ⟨max (min a.mCurrentFence (a.completed + inp.gpu))
      (a.mFrameResources[(a.mCurrFrameResourceIndex + 1) % 3]).Fence, ?_, ?_, ?_, _, hf, ?_⟩
    · rw [if_pos hw, if_pos hle]
    · omega
    · omega
    · right; omega
  · refine ⟨min a.mCurrentFence (a.completed + inp.gpu), ?_, ?_, ?_, _, hf, ?_⟩
    · rw [if_neg hw]
    · omega
    · omega
    · by_contra hcon
      apply hw
      omega

theorem AnimateMaterials_spec (inp : Input) (b : App) (w : MaterialData)
    (hw : b.mMaterials .water = some w) :
    AnimateMaterials inp b = some { b with
      mMaterials := fun k => if k = .water then some (w.animate inp.dt) else b.mMaterials k } := by
  unfold AnimateMaterials
  simp only [hw]
  rfl

/-- `UpdateObjectCBs` with a current frame resource whose object buffer has a record for
every item, the object indices being the positions: it returns, every item is left as
`afterCopy` leaves it, and in the object buffer of the current frame resource the record of an
item with a positive countdown is its `World`, written once more; nothing else is touched. -/
theorem UpdateObjectCBs_spec (b : App) (k : Nat) (fr : FrameResource)
    (hk : b.mCurrFrameResource = some k) (hfr : b.mFrameResources[k]? = some fr)
    (hc : b.mAllRitems.length ≤ fr.ObjectCB.count)
    (hd : b.mAllRitems.map (fun it => it.ObjCBIndex) = List.range b.mAllRitems.length) :
    ∃ ocb, UpdateObjectCBs b = some { b with
        mAllRitems := b.mAllRitems.map RenderItem.afterCopy,
        mFrameResources := b.mFrameResources.set k { fr with ObjectCB := ocb } } ∧
      ocb.count = fr.ObjectCB.count ∧
      (∀ i e, b.mAllRitems[i]? = some e →
        ocb.data i = (if 0 < e.NumFramesDirty then some e.World else fr.ObjectCB.data i) ∧
        ocb.writes i = fr.ObjectCB.writes i + (if 0 < e.NumFramesDirty then 1 else 0)) ∧
      (∀ i, b.mAllRitems.length ≤ i →
        ocb.data i = fr.ObjectCB.data i ∧ ocb.writes i = fr.ObjectCB.writes i) := by
  obtain ⟨ocb, h1, h2, h3, h4⟩ := copyObject_fold b.mAllRitems [] fr.ObjectCB
    (fun e he => lt_of_lt_of_le (dense_lt hd he) hc) (dense_nodup hd)
  refine ⟨ocb, ?_, h2, ?_, ?_⟩
  · unfold UpdateObjectCBs
    simp only [hk, hfr, h1, List.nil_append]
  · intro i e he
    have := h4 e (List.mem_iff_getElem?.mpr ⟨i, he⟩)
    rw [dense_index hd he] at this
    exact this
  · intro i hi
    refine h3 i ?_
    intro e he heq
    have := dense_lt hd he
    omega

/-- `UpdateMaterialCBs` with a current frame resource whose material buffer has ten records,
every key having its material at the slot index of the key: it returns, every material is
left as `afterCopy` leaves it, and in the material buffer of the current frame resource the
record of a material with a positive countdown is its constants, written once more; nothing
else is touched. -/
theorem UpdateMaterialCBs_spec (b : App) (k : Nat) (fr : FrameResource)
    (hk : b.mCurrFrameResource = some k) (hfr : b.mFrameResources[k]? = some fr)
    (hc : 10 ≤ fr.MaterialCB.count) (hi : ∀ j, b.matIndex j = some j.slot) :
    ∃ mcb, UpdateMaterialCBs b = some { b with
        mMaterials := fun j => (b.mMaterials j).map MaterialData.afterCopy,
        mFrameResources := b.mFrameResources.set k { fr with MaterialCB := mcb } } ∧
      mcb.count = fr.MaterialCB.count ∧
      (∀ j mat, b.mMaterials j = some mat →
        mcb.data j.slot =
          (if 0 < mat.NumFramesDirty then some mat.constants else fr.MaterialCB.data j.slot) ∧
        mcb.writes j.slot =
          fr.MaterialCB.writes j.slot + (if 0 < mat.NumFramesDirty then 1 else 0)) ∧
      (∀ i, 10 ≤ i →
        mcb.data i = fr.MaterialCB.data i ∧ mcb.writes i = fr.MaterialCB.writes i) := by
  obtain ⟨mcb, h1, h2, h3, h4⟩ := copyMaterial_fold Material.all fr.MaterialCB b.mMaterials
    hi hc (by decide)
  have hall : ∀ j : Material, j ∈ Material.all := by
    intro j; cases j <;> decide
  refine ⟨mcb, ?_, h2, ?_, ?_⟩
  · unfold UpdateMaterialCBs
    simp only [hk, hfr, h1, hall, if_true]
  · intro j mat hm
    exact h4 j (hall j) mat hm
  · intro i hi2
    refine h3 i ?_
    intro j _ heq
    have := slot_lt j
    omega

theorem UpdateMainPassCB_spec (b : App) (k : Nat) (fr : FrameResource)
    (hk : b.mCurrFrameResource = some k) (hfr : b.mFrameResources[k]? = some fr)
    (hc : 0 < fr.PassCB.count) :
    UpdateMainPassCB b = some { b with
      mMainPassCB := b.passConstants,
      mFrameResources := b.mFrameResources.set k { fr with
        PassCB := { fr.PassCB with
          data := fun i => if i = 0 then some b.passConstants else fr.PassCB.data i,
          writes := fun i => if i = 0 then fr.PassCB.writes i + 1 else fr.PassCB.writes i } } } := by
  unfold UpdateMainPassCB
  simp only [hk, hfr, CopyData_some _ _ _ hc]
  unfold App.passConstants
  cases b.lightingOff <;> rfl

theorem getElem?_set_same {α : Type} (l : List α) (k : Nat) (x : α) (h : k < l.length) :
    (l.set k x)[k]? = some x := by
  simp [h]

/-- One call of `Update` from a ready state, step by step: the wait returns, every later step
returns, and the state after `Update` is the old one with the flags of the keys, the camera
and the lighting switch of `OnKeyboardInput`, the next frame resource as the current one, the
items and materials as `afterCopy` leaves them (the water material after `animate`), the three
buffers of the current frame resource written, and the cycle of day and night one step on. -/
theorem Update_eq (inp : Input) (a : App) (ha : Ready a) :
    ∃ (cv : Nat) (fr : FrameResource) (w : MaterialData)
      (ocb : UploadBuffer (Int × Int × Int)) (mcb : UploadBuffer MaterialConstants),
      a.mFrameResources[(a.mCurrFrameResourceIndex + 1) % 3]? = some fr ∧
      a.mMaterials .water = some w ∧
      a.completed ≤ cv ∧ cv ≤ a.mCurrentFence ∧ (fr.Fence = 0 ∨ fr.Fence ≤ cv) ∧
      fr.counts = (1, a.mAllRitems.length, 10) ∧
      ocb.count = fr.ObjectCB.count ∧
      (∀ i e, a.mAllRitems[i]? = some e →
        ocb.data i = (if 0 < e.NumFramesDirty then some e.World else fr.ObjectCB.data i) ∧
        ocb.writes i = fr.ObjectCB.writes i + (if 0 < e.NumFramesDirty then 1 else 0)) ∧
      (∀ i, a.mAllRitems.length ≤ i →
        ocb.data i = fr.ObjectCB.data i ∧ ocb.writes i = fr.ObjectCB.writes i) ∧
      mcb.count = fr.MaterialCB.count ∧
      (∀ j mat, (if j = Material.water then some (w.animate inp.dt) else a.mMaterials j) =
          some mat →
        mcb.data j.slot =
          (if 0 < mat.NumFramesDirty then some mat.constants else fr.MaterialCB.data j.slot) ∧
        mcb.writes j.slot =
          fr.MaterialCB.writes j.slot + (if 0 < mat.NumFramesDirty then 1 else 0)) ∧
      (∀ i, 10 ≤ i →
        mcb.data i = fr.MaterialCB.data i ∧ mcb.writes i = fr.MaterialCB.writes i) ∧
      acquireFrameResource inp a = some { a with
        debugMode := inp.key1, cullFront := inp.key2, cullNone := inp.key3,
        mCamera := (OnKeyboardInput inp a).mCamera,
        lightingOff := (OnKeyboardInput inp a).lightingOff,
        mCurrFrameResourceIndex := (a.mCurrFrameResourceIndex + 1) % 3,
        mCurrFrameResource := some ((a.mCurrFrameResourceIndex + 1) % 3),
        completed := cv } ∧
      AnimateMaterials inp { a with
        debugMode := inp.key1, cullFront := inp.key2, cullNone := inp.key3,
        mCamera := (OnKeyboardInput inp a).mCamera,
        lightingOff := (OnKeyboardInput inp a).lightingOff,
        mCurrFrameResourceIndex := (a.mCurrFrameResourceIndex + 1) % 3,
        mCurrFrameResource := some ((a.mCurrFrameResourceIndex + 1) % 3),
        completed := cv } = some { a with
        debugMode := inp.key1, cullFront := inp.key2, cullNone := inp.key3,
        mCamera := (OnKeyboardInput inp a).mCamera,
        lightingOff := (OnKeyboardInput inp a).lightingOff,
        mCurrFrameResourceIndex := (a.mCurrFrameResourceIndex + 1) % 3,
        mCurrFrameResource := some ((a.mCurrFrameResourceIndex + 1) % 3),
        completed := cv,
        mMaterials := fun j =>
          if j = Material.water then some (w.animate inp.dt) else a.mMaterials j } ∧
      UpdateObjectCBs { a with
        debugMode := inp.key1, cullFront := inp.key2, cullNone := inp.key3,
        mCamera := (OnKeyboardInput inp a).mCamera,
        lightingOff := (OnKeyboardInput inp a).lightingOff,
        mCurrFrameResourceIndex := (a.mCurrFrameResourceIndex + 1) % 3,
        mCurrFrameResource := some ((a.mCurrFrameResourceIndex + 1) % 3),
        completed := cv,
        mMaterials := fun j =>
          if j = Material.water then some (w.animate inp.dt) else a.mMaterials j } =
        some { a with
        debugMode := inp.key1, cullFront := inp.key2, cullNone := inp.key3,
        mCamera := (OnKeyboardInput inp a).mCamera,
        lightingOff := (OnKeyboardInput inp a).lightingOff,
        mCurrFrameResourceIndex := (a.mCurrFrameResourceIndex + 1) % 3,
        mCurrFrameResource := some ((a.mCurrFrameResourceIndex + 1) % 3),
        completed := cv,
        mMaterials := fun j =>
          if j = Material.water then some (w.animate inp.dt) else a.mMaterials j,
        mAllRitems := a.mAllRitems.map RenderItem.afterCopy,
        mFrameResources := a.mFrameResources.set ((a.mCurrFrameResourceIndex + 1) % 3)
          { fr with ObjectCB := ocb } } ∧
      Update inp a = some { a with
        debugMode := inp.key1, cullFront := inp.key2, cullNone := inp.key3,
        mCamera := (OnKeyboardInput inp a).mCamera,
        lightingOff := (OnKeyboardInput inp a).lightingOff,
        mCurrFrameResourceIndex := (a.mCurrFrameResourceIndex + 1) % 3,
        mCurrFrameResource := some ((a.mCurrFrameResourceIndex + 1) % 3),
        completed := cv,
        mMaterials := fun j =>
          (if j = Material.water then some (w.animate inp.dt) else a.mMaterials j).map
            MaterialData.afterCopy,
        mAllRitems := a.mAllRitems.map RenderItem.afterCopy,
        mFrameResources := a.mFrameResources.set ((a.mCurrFrameResourceIndex + 1) % 3)
          { Fence := fr.Fence,
            PassCB := { fr.PassCB with
              data := fun i =>
                if i = 0 then some (OnKeyboardInput inp a).passConstants else fr.PassCB.data i,
              writes := fun i =>
                if i = 0 then fr.PassCB.writes i + 1 else fr.PassCB.writes i },
            MaterialCB := mcb,
            ObjectCB := ocb },
        mMainPassCB := (OnKeyboardInput inp a).passConstants,
        cycle := a.cycle.next } := by
  obtain ⟨cv, hacq, hc1, hc2, f, hf, hfc⟩ := acquire_spec inp a ha
  obtain ⟨h1, h2, h3, h4, h5, h6, h7, h8, h9, h10⟩ := ha
  have hlt : (a.mCurrFrameResourceIndex + 1) % 3 < a.mFrameResources.length := by
    rw [h1]; exact Nat.mod_lt _ (by decide)
  have hget : a.mFrameResources[(a.mCurrFrameResourceIndex + 1) % 3]? =
      some (a.mFrameResources[(a.mCurrFrameResourceIndex + 1) % 3]) :=
    List.getElem?_eq_getElem hlt
  have hff : f = (a.mFrameResources[(a.mCurrFrameResourceIndex + 1) % 3]).Fence := by
    unfold App.fences at hf
    rw [List.getElem?_map, hget] at hf
    exact (Option.some.inj hf).symm
  have hcnt := h8 _ (List.mem_iff_getElem?.mpr ⟨_, hget⟩)
  have hcnt2 := hcnt
  unfold FrameResource.counts at hcnt2
  simp only [Prod.mk.injEq] at hcnt2
  obtain ⟨hp, ho, hm⟩ := hcnt2
  obtain ⟨w, hw⟩ : ∃ w, a.mMaterials .water = some w := by
    have := h10 .water
    unfold App.matIndex at this
    cases hwm : a.mMaterials .water with
    | none => rw [hwm] at this; cases this
    | some w => exact ⟨w, rfl⟩
  have hanim := AnimateMaterials_spec inp { a with
      debugMode := inp.key1, cullFront := inp.key2, cullNone := inp.key3,
      mCamera := (OnKeyboardInput inp a).mCamera,
      lightingOff := (OnKeyboardInput inp a).lightingOff,
      mCurrFrameResourceIndex := (a.mCurrFrameResourceIndex + 1) % 3,
      mCurrFrameResource := some ((a.mCurrFrameResourceIndex + 1) % 3),
      completed := cv } w hw
  obtain ⟨ocb, hobj, o1, o2, o3⟩ := UpdateObjectCBs_spec { a with
      debugMode := inp.key1, cullFront := inp.key2, cullNone := inp.key3,
      mCamera := (OnKeyboardInput inp a).mCamera,
      lightingOff := (OnKeyboardInput inp a).lightingOff,
      mCurrFrameResourceIndex := (a.mCurrFrameResourceIndex + 1) % 3,
      mCurrFrameResource := some ((a.mCurrFrameResourceIndex + 1) % 3),
      completed := cv,
      mMaterials := fun j =>
        if j = Material.water then some (w.animate inp.dt) else a.mMaterials j }
    _ _ rfl hget (le_of_eq ho.symm) h9
  have hidx : ∀ j, (Option.map (fun mat : MaterialData => mat.MatCBIndex)
      (if j = Material.water then some (w.animate inp.dt) else a.mMaterials j)) =
      some j.slot := by
    intro j
    by_cases hj : j = Material.water
    · subst hj
      have := h10 .water
      unfold App.matIndex at this
      rw [hw] at this
      simpa [MaterialData.animate] using this
    · rw [if_neg hj]; exact h10 j
  obtain ⟨mcb, hmat, m1, m2, m3⟩ := UpdateMaterialCBs_spec { a with
      debugMode := inp.key1, cullFront := inp.key2, cullNone := inp.key3,
      mCamera := (OnKeyboardInput inp a).mCamera,
      lightingOff := (OnKeyboardInput inp a).lightingOff,
      mCurrFrameResourceIndex := (a.mCurrFrameResourceIndex + 1) % 3,
      mCurrFrameResource := some ((a.mCurrFrameResourceIndex + 1) % 3),
      completed := cv,
      mMaterials := fun j =>
        if j = Material.water then some (w.animate inp.dt) else a.mMaterials j,
      mAllRitems := a.mAllRitems.map RenderItem.afterCopy,
      mFrameResources := a.mFrameResources.set ((a.mCurrFrameResourceIndex + 1) % 3)
        { a.mFrameResources[(a.mCurrFrameResourceIndex + 1) % 3] with ObjectCB := ocb } }
    _ _ rfl (getElem?_set_same _ _ _ hlt) (le_of_eq hm.symm) hidx
  have hpass := UpdateMainPassCB_spec { a with
      debugMode := inp.key1, cullFront := inp.key2, cullNone := inp.key3,
      mCamera := (OnKeyboardInput inp a).mCamera,
      lightingOff := (OnKeyboardInput inp a).lightingOff,
      mCurrFrameResourceIndex := (a.mCurrFrameResourceIndex + 1) % 3,
      mCurrFrameResource := some ((a.mCurrFrameResourceIndex + 1) % 3),
      completed := cv,
      mMaterials := fun j =>
        (if j = Material.water then some (w.animate inp.dt) else a.mMaterials j).map
          MaterialData.afterCopy,
      mAllRitems := a.mAllRitems.map RenderItem.afterCopy,
      mFrameResources := (a.mFrameResources.set ((a.mCurrFrameResourceIndex + 1) % 3)
        { a.mFrameResources[(a.mCurrFrameResourceIndex + 1) % 3] with ObjectCB := ocb }).set
          ((a.mCurrFrameResourceIndex + 1) % 3)
        { Fence := (a.mFrameResources[(a.mCurrFrameResourceIndex + 1) % 3]).Fence,
          PassCB := (a.mFrameResources[(a.mCurrFrameResourceIndex + 1) % 3]).PassCB,
          MaterialCB := mcb, ObjectCB := ocb } }
    ((a.mCurrFrameResourceIndex + 1) % 3)
    { Fence := (a.mFrameResources[(a.mCurrFrameResourceIndex + 1) % 3]).Fence,
      PassCB := (a.mFrameResources[(a.mCurrFrameResourceIndex + 1) % 3]).PassCB,
      MaterialCB := mcb, ObjectCB := ocb }
    rfl (getElem?_set_same _ _ _ (by rw [List.length_set]; exact hlt))
    (by show 0 < (a.mFrameResources[(a.mCurrFrameResourceIndex + 1) % 3]).PassCB.count
        rw [hp]; exact Nat.one_pos)
  refine ⟨cv, _, w, ocb, mcb, hget, hw, hc1, hc2, by rw [← hff]; exact hfc, hcnt, o1, o2, o3,
    m1, m2, m3, hacq, hanim, hobj, ?_⟩
  unfold Update
  rw [hacq, Option.some_bind, hanim, Option.some_bind, hobj, Option.some_bind]
  erw [hmat]
  rw [Option.some_bind]
  erw [hpass]
  simp only [Option.map_some', List.set_set]
  rfl

theorem fences_lookup {a : App} {k : Nat} {fr : FrameResource}
    (h : a.mFrameResources[k]? = some fr) : a.fences[k]? = some fr.Fence := by
  unfold App.fences
  rw [List.getElem?_map, h]; rfl

theorem map_set_same {α β : Type} (g : α → β) {l : List α} {k : Nat} {x y : α}
    (h : l[k]? = some x) (hxy : g y = g x) : (l.set k y).map g = l.map g := by
  rw [List.map_set, hxy]
  exact set_same (by rw [List.getElem?_map, h]; rfl)

theorem Sized.transfer {a b : App}
    (h1 : b.mFrameResources.map FrameResource.counts =
      a.mFrameResources.map FrameResource.counts)
    (h2 : b.mAllRitems.map (fun it => it.ObjCBIndex) =
      a.mAllRitems.map (fun it => it.ObjCBIndex))
    (h3 : ∀ k, b.matIndex k = a.matIndex k) (ha : Sized a) : Sized b := by
  obtain ⟨s1, s2, s3⟩ := ha
  have hlen : b.mAllRitems.length = a.mAllRitems.length := by
    have := congrArg List.length h2
    simpa using this
  refine ⟨?_, ?_, fun k => (h3 k).trans (s3 k)⟩
  · intro fr hfr
    have : fr.counts ∈ a.mFrameResources.map FrameResource.counts := by
      rw [← h1]; exact List.mem_map_of_mem _ hfr
    obtain ⟨fr2, hfr2, heq⟩ := List.mem_map.mp this
    rw [← heq, hlen]
    exact s1 fr2 hfr2
  · rw [h2, hlen]; exact s2

theorem drawFold_some (items : List RenderItem) (l : List Nat) (cmds out : List Cmd)
    (h : l.foldlM (fun cmds ri =>
      match items[ri]? with
      | none => none
      | some _ => some (cmds ++ [Cmd.DrawIndexedInstanced ri 1])) cmds = some out) :
    out = cmds ++ l.map (fun ri => Cmd.DrawIndexedInstanced ri 1) ∧ ∀ ri ∈ l, ri < items.length := by
  induction l generalizing cmds with
  | nil =>
    simp only [List.foldlM_nil] at h
    cases h
    simp
  | cons r l ih =>
    rw [List.foldlM_cons] at h
    cases hr : items[r]? with
    | none => simp [hr] at h
    | some it =>
      simp only [hr] at h
      obtain ⟨e1, e2⟩ := ih _ h
      refine ⟨by rw [e1]; simp, ?_⟩
      intro ri hri
      rcases List.mem_cons.mp hri with rfl | h'
      · by_contra hge
        rw [List.getElem?_eq_none (by omega)] at hr
        cases hr
      · exact e2 ri h'

theorem drawFold_ok (items : List RenderItem) (l : List Nat) (cmds : List Cmd)
    (h : ∀ ri ∈ l, ri < items.length) :
    l.foldlM (fun cmds ri =>
      match items[ri]? with
      | none => none
      | some _ => some (cmds ++ [Cmd.DrawIndexedInstanced ri 1])) cmds =
      some (cmds ++ l.map (fun ri => Cmd.DrawIndexedInstanced ri 1)) := by
  induction l generalizing cmds with
  | nil => simp
  | cons r l ih =>
    rw [List.foldlM_cons]
    have hlt : r < items.length := h r (List.mem_cons_self _ _)
    have hr : items[r]? = some items[r] := List.getElem?_eq_getElem hlt
    simp only [hr, Option.bind_eq_bind, Option.some_bind]
    rw [ih _ (fun ri hri => h ri (List.mem_cons_of_mem _ hri))]
    simp

/-- A call of `DrawRenderItems` that returns has appended one draw with instance count 1 for
every entry of the list, in order. -/
theorem DrawRenderItems_some (a : App) (cmds out : List Cmd) (l : List Nat)
    (h : DrawRenderItems a cmds l = some out) :
    out = cmds ++ l.map (fun ri => Cmd.DrawIndexedInstanced ri 1) := by
  unfold DrawRenderItems at h
  cases hc : a.mCurrFrameResource.bind (fun k => a.mFrameResources[k]?) with
  | none => simp [hc] at h
  | some fr =>
    simp only [hc] at h
    exact (drawFold_some _ _ _ _ h).1

theorem DrawRenderItems_ok (a : App) (cmds : List Cmd) (l : List Nat) (k : Nat)
    (hk : a.mCurrFrameResource = some k) (hlt : k < a.mFrameResources.length)
    (hl : ∀ ri ∈ l, ri < a.mAllRitems.length) :
    DrawRenderItems a cmds l = some (cmds ++ l.map (fun ri => Cmd.DrawIndexedInstanced ri 1)) := by
  unfold DrawRenderItems
  have hc : a.mCurrFrameResource.bind (fun k => a.mFrameResources[k]?) =
      some (a.mFrameResources[k]) := by
    rw [hk]; exact List.getElem?_eq_getElem hlt
  simp only [hc]
  exact drawFold_ok _ _ _ hl

/-- A call of `Draw` that returns: the command list is the reset with the pipeline state
selected by the flags, followed by one draw for every entry of the layer `Transparent` (when
no flag is set) and of `mOpaqueRitems`; the fence counter is incremented and stamped on the
current frame resource. -/
theorem Draw_some (a b : App) (h : Draw a = some b) :
    ∃ k fr, a.mCurrFrameResource = some k ∧ a.mFrameResources[k]? = some fr ∧
      b = { a with
        mCommandList := Cmd.Reset (selectedPSO a.debugMode a.cullFront a.cullNone) ::
          ((if a.debugMode || a.cullFront || a.cullNone then []
            else a.mRitemLayer .Transparent) ++ a.mOpaqueRitems).map
              (fun ri => Cmd.DrawIndexedInstanced ri 1),
        mCurrentFence := a.mCurrentFence + 1,
        mFrameResources := a.mFrameResources.set k { fr with Fence := a.mCurrentFence + 1 } } := by
  unfold Draw at h
  cases hk : a.mCurrFrameResource with
  | none => simp [hk] at h
  | some k =>
    cases hfr : a.mFrameResources[k]? with
    | none => simp [hk, hfr] at h
    | some fr =>
      refine ⟨k, fr, rfl, hfr, ?_⟩
      simp only [hk, hfr] at h
      have key : ∀ (first : Option (List Cmd)) (l : List Nat) (pso : PSO)
          (F : List Cmd → App),
          (∀ c, first = some c →
            c = Cmd.Reset pso :: l.map (fun ri => Cmd.DrawIndexedInstanced ri 1)) →
          (match first.bind (fun cmds => DrawRenderItems a cmds a.mOpaqueRitems) with
            | none => none
            | some cmds => some (F cmds)) = some b →
          b = F (Cmd.Reset pso ::
              (l ++ a.mOpaqueRitems).map (fun ri => Cmd.DrawIndexedInstanced ri 1)) := by
        intro first l pso F hfirst hb
        cases hf : first with
        | none => simp [hf] at hb
        | some c =>
          rw [hf, Option.some_bind] at hb
          cases hd : DrawRenderItems a c a.mOpaqueRitems with
          | none => simp [hd] at hb
          | some out =>
            simp only [hd, Option.some.injEq] at hb
            rw [← hb, DrawRenderItems_some _ _ _ _ hd, hfirst c hf]
            simp
      by_cases h1 : a.debugMode = true
      · rw [if_pos h1] at h
        rw [key (some [Cmd.Reset .opaque_wireframe]) [] .opaque_wireframe _
          (fun c hc => by cases hc; rfl) h]
        simp [selectedPSO, h1, hk]
      by_cases h2 : a.cullFront = true
      · rw [if_neg h1, if_pos h2] at h
        rw [key (some [Cmd.Reset .opaque_cullfront]) [] .opaque_cullfront _
          (fun c hc => by cases hc; rfl) h]
        simp [selectedPSO, h1, h2, hk]
      by_cases h3 : a.cullNone = true
      · rw [if_neg h1, if_neg h2, if_pos h3] at h
        rw [key (some [Cmd.Reset .opaque_cullnone]) [] .opaque_cullnone _
          (fun c hc => by cases hc; rfl) h]
        simp [selectedPSO, h1, h2, h3, hk]
      · rw [if_neg h1, if_neg h2, if_neg h3] at h
        rw [key (DrawRenderItems a [Cmd.Reset .transparent] (a.mRitemLayer .Transparent))
          (a.mRitemLayer .Transparent) .transparent _
          (fun c hc => by rw [DrawRenderItems_some _ _ _ _ hc]; rfl) h]
        simp [selectedPSO, h1, h2, h3, hk]

/-- From a ready state with a current frame resource, `Draw` returns. -/
theorem Draw_ok (a : App) (ha : Ready a) (k : Nat) (hk : a.mCurrFrameResource = some k) :
    ∃ b, Draw a = some b := by
  obtain ⟨h1, h2, h3, _, _, h6, h7, _⟩ := ha
  have hlt : k < a.mFrameResources.length := by rw [h3 k hk, h1]; exact h2
  have hget : a.mFrameResources[k]? = some (a.mFrameResources[k]) := List.getElem?_eq_getElem hlt
  have hop : ∀ cmds, DrawRenderItems a cmds a.mOpaqueRitems =
      some (cmds ++ a.mOpaqueRitems.map (fun ri => Cmd.DrawIndexedInstanced ri 1)) := by
    intro cmds
    apply DrawRenderItems_ok a cmds _ k hk hlt
    intro ri hri
    rw [h6] at hri
    exact List.mem_range.mp hri
  have htr : DrawRenderItems a [Cmd.Reset .transparent] (a.mRitemLayer .Transparent) =
      some [Cmd.Reset .transparent] := by
    rw [DrawRenderItems_ok a _ _ k hk hlt (by rw [h7]; intro ri hri; cases hri), h7]
    rfl
  unfold Draw
  simp only [hk, hget, htr]
  by_cases c1 : a.debugMode = true
  · simp only [c1, if_true, Option.some_bind, hop]
    exact ⟨_, rfl⟩
  by_cases c2 : a.cullFront = true
  · simp only [c1, c2, if_true, if_false, Option.some_bind, hop]
    exact ⟨_, rfl⟩
  by_cases c3 : a.cullNone = true
  · simp only [c1, c2, c3, if_true, if_false, Option.some_bind, hop]
    exact ⟨_, rfl⟩
  · simp only [c1, c2, c3, if_false, Option.some_bind, hop]
    exact ⟨_, rfl⟩

theorem fences_set (a : App) (k : Nat) (fr : FrameResource) (c : Nat) :
    (a.mFrameResources.set k { fr with Fence := c }).map (fun fr => fr.Fence) =
      a.fences.set k c := by
  rw [List.map_set]; rfl

/-- A call of `Draw` that returns keeps a ready state ready; it does not touch the index, the
pointer to the current frame resource, the flags or the items. -/
theorem Draw_ready (a b : App) (ha : Ready a) (h : Draw a = some b) :
    Ready b ∧ b.mCurrFrameResourceIndex = a.mCurrFrameResourceIndex ∧
    b.mCurrFrameResource = a.mCurrFrameResource ∧ b.mAllRitems = a.mAllRitems ∧
    b.mCurrentFence = a.mCurrentFence + 1 ∧ b.completed = a.completed ∧
    b.fences = a.fences.set a.mCurrFrameResourceIndex (a.mCurrentFence + 1) ∧
    b.mCommandList = Cmd.Reset (selectedPSO a.debugMode a.cullFront a.cullNone) ::
      (List.range a.mAllRitems.length).map (fun ri => Cmd.DrawIndexedInstanced ri 1) := by
  obtain ⟨k, fr, hk, hfr, rfl⟩ := Draw_some a b h
  obtain ⟨h1, h2, h3, h4, h5, h6, h7, h8⟩ := ha
  have hkidx := h3 k hk
  have hf : ({ a with
      mCommandList := Cmd.Reset (selectedPSO a.debugMode a.cullFront a.cullNone) ::
        ((if a.debugMode || a.cullFront || a.cullNone then []
          else a.mRitemLayer .Transparent) ++ a.mOpaqueRitems).map
            (fun ri => Cmd.DrawIndexedInstanced ri 1),
      mCurrentFence := a.mCurrentFence + 1,
      mFrameResources :=
        a.mFrameResources.set k { fr with Fence := a.mCurrentFence + 1 } } : App).fences =
      a.fences.set a.mCurrFrameResourceIndex (a.mCurrentFence + 1) := by
    rw [← hkidx]; exact fences_set a k fr _
  have hs : Sized { a with
      mCommandList := Cmd.Reset (selectedPSO a.debugMode a.cullFront a.cullNone) ::
        ((if a.debugMode || a.cullFront || a.cullNone then []
          else a.mRitemLayer .Transparent) ++ a.mOpaqueRitems).map
            (fun ri => Cmd.DrawIndexedInstanced ri 1),
      mCurrentFence := a.mCurrentFence + 1,
      mFrameResources :=
        a.mFrameResources.set k { fr with Fence := a.mCurrentFence + 1 } } :=
    Sized.transfer (map_set_same _ hfr rfl) rfl (fun _ => rfl) h8
  refine ⟨⟨?_, h2, h3, ?_, ?_, h6, h7, hs⟩, rfl, rfl, rfl, rfl, rfl, hf, ?_⟩
  · show (a.mFrameResources.set k _).length = 3
    rw [List.length_set]; exact h1
  · intro f hfm
    rw [hf] at hfm
    rcases List.mem_or_eq_of_mem_set hfm with hm | rfl
    · exact Nat.le_succ_of_le (h4 f hm)
    · exact le_refl _
  · exact Nat.le_succ_of_le h5
  · show Cmd.Reset _ :: _ = _
    rw [h7, h6]
    simp

/-- A call of `Update` from a ready state returns, in a ready state in which the fence of the
current frame resource is 0 or reached. -/
theorem Update_spec (inp : Input) (a : App) (ha : Ready a) :
    ∃ b c, acquireFrameResource inp a = some b ∧ FenceReached b ∧ Ready b ∧
      Update inp a = some c ∧ FenceReached c ∧ Ready c ∧
      c.mCurrFrameResourceIndex = (a.mCurrFrameResourceIndex + 1) % 3 ∧
      c.mCurrFrameResource = some c.mCurrFrameResourceIndex ∧
      c.mAllRitems.map RenderItem.fixed = a.mAllRitems.map RenderItem.fixed ∧
      c.debugMode = inp.key1 ∧ c.cullFront = inp.key2 ∧ c.cullNone = inp.key3 ∧
      c.fences = a.fences ∧ c.mCurrentFence = a.mCurrentFence ∧ a.completed ≤ c.completed ∧
      b.fences = a.fences ∧ b.mCurrentFence = a.mCurrentFence ∧ c.completed = b.completed := by
  obtain ⟨cv, fr, w, ocb, mcb, hget, hw, hc1, hc2, hfc, hcnt, o1, _, _, m1, _, _, hacq, _, _,
    hupd⟩ := Update_eq inp a ha
  obtain ⟨h1, h2, h3, h4, h5, h6, h7, h8⟩ := ha
  have hlt : (a.mCurrFrameResourceIndex + 1) % 3 < 3 := Nat.mod_lt _ (by decide)
  have hfixed : (a.mAllRitems.map RenderItem.afterCopy).map RenderItem.fixed =
      a.mAllRitems.map RenderItem.fixed := by
    rw [List.map_map]
    exact List.map_congr_left (fun e _ => afterCopy_fixed e)
  have hlen : (a.mAllRitems.map RenderItem.afterCopy).length = a.mAllRitems.length :=
    List.length_map _ _
  have hfences : (a.mFrameResources.set ((a.mCurrFrameResourceIndex + 1) % 3)
      { Fence := fr.Fence,
        PassCB := { fr.PassCB with
          data := fun i =>
            if i = 0 then some (OnKeyboardInput inp a).passConstants else fr.PassCB.data i,
          writes := fun i =>
            if i = 0 then fr.PassCB.writes i + 1 else fr.PassCB.writes i },
        MaterialCB := mcb,
        ObjectCB := ocb }).map (fun fr => fr.Fence) = a.fences :=
    map_set_same _ hget rfl
  have hcounts : (a.mFrameResources.set ((a.mCurrFrameResourceIndex + 1) % 3)
      { Fence := fr.Fence,
        PassCB := { fr.PassCB with
          data := fun i =>
            if i = 0 then some (OnKeyboardInput inp a).passConstants else fr.PassCB.data i,
          writes := fun i =>
            if i = 0 then fr.PassCB.writes i + 1 else fr.PassCB.writes i },
        MaterialCB := mcb,
        ObjectCB := ocb }).map FrameResource.counts =
      a.mFrameResources.map FrameResource.counts :=
    map_set_same _ hget (by unfold FrameResource.counts; rw [o1, m1])
  refine ⟨_, _, hacq, ⟨fr.Fence, rfl, fences_lookup hget, hfc⟩,
    ⟨h1, hlt, fun k hk => (Option.some.inj hk).symm, h4, hc2, h6, h7, h8⟩,
    hupd, ⟨fr.Fence, rfl, ?_, hfc⟩, ?_, rfl, rfl, hfixed, rfl, rfl, rfl, hfences, rfl, hc1,
    rfl, rfl, rfl⟩
  · show (List.map (fun fr : FrameResource => fr.Fence) _)[(a.mCurrFrameResourceIndex + 1) % 3]? = _
    rw [hfences]; exact fences_lookup hget
  · refine ⟨?_, hlt, fun k hk => (Option.some.inj hk).symm, ?_, hc2, ?_, h7, ?_⟩
    · show (List.set _ _ _).length = 3
      rw [List.length_set]; exact h1
    · intro g hg
      change g ∈ List.map (fun fr : FrameResource => fr.Fence) _ at hg
      rw [hfences] at hg
      exact h4 g hg
    · show a.mOpaqueRitems = List.range (a.mAllRitems.map RenderItem.afterCopy).length
      rw [hlen]; exact h6
    · refine Sized.transfer hcounts ?_ ?_ h8
      · show (a.mAllRitems.map RenderItem.afterCopy).map (fun it => it.ObjCBIndex) = _
        rw [List.map_map]
        exact List.map_congr_left (fun e _ => afterCopy_index e)
      · intro k
        show Option.map _ (Option.map _ _) = Option.map _ _
        by_cases hk : k = Material.water
        · subst hk
          simp [hw, index_afterCopy, MaterialData.animate]
        · rw [if_neg hk]
          cases a.mMaterials k with
          | none => rfl
          | some m => simp [index_afterCopy]

theorem run_cons (e : Event) (evs : List Event) (a : App) :
    run (e :: evs) a = (step a e).bind (run evs) := by
  unfold run
  rw [List.foldlM_cons]
  rfl

theorem run_append (e1 e2 : List Event) (a : App) :
    run (e1 ++ e2) a = (run e1 a).bind (run e2) := by
  unfold run
  rw [List.foldlM_append]
  rfl

theorem updates_append (e1 e2 : List Event) : updates (e1 ++ e2) = updates e1 + updates e2 := by
  simp [updates]

/-- What a sequence of calls that returns does to a ready state: the state stays ready, the
index has advanced by the number of calls of `Update`, modulo 3, and the fixed parts of the
render items are as before. -/
theorem run_spec (evs : List Event) (a b : App) (ha : Ready a) (h : run evs a = some b) :
    Ready b ∧
    b.mCurrFrameResourceIndex = (a.mCurrFrameResourceIndex + updates evs) % 3 ∧
    b.mAllRitems.map RenderItem.fixed = a.mAllRitems.map RenderItem.fixed ∧
    (0 < updates evs → b.mCurrFrameResource = some b.mCurrFrameResourceIndex) ∧
    (updates evs = 0 → b.mCurrFrameResource = a.mCurrFrameResource) ∧
    a.mCurrentFence ≤ b.mCurrentFence ∧ a.completed ≤ b.completed := by
  induction evs generalizing a with
  | nil =>
    have hb : a = b := by simpa [run] using h
    subst hb
    exact ⟨ha, (Nat.mod_eq_of_lt (by simpa [updates] using ha.2.1)).symm, rfl,
      fun h0 => absurd h0 (by simp [updates]), fun _ => rfl, le_refl _, le_refl _⟩
  | cons e evs ih =>
    rw [run_cons] at h
    cases e with
    | update inp =>
      obtain ⟨_, c, _, _, _, hupd, _, hrc, hidx, hcur, hits, _, _, _, _, hcf, hcc, _⟩ :=
        Update_spec inp a ha
      have hstep : step a (Event.update inp) = some c := hupd
      rw [hstep, Option.some_bind] at h
      obtain ⟨r1, r2, r3, r4, r5, r6, r7⟩ := ih c hrc h
      have hu : updates (Event.update inp :: evs) = updates evs + 1 := by simp [updates]
      refine ⟨r1, ?_, r3.trans hits, ?_, ?_, ?_, ?_⟩
      · rw [r2, hidx, hu]; omega
      · intro _
        by_cases h0 : updates evs = 0
        · rw [r5 h0, hcur, r2, h0, Nat.add_zero, Nat.mod_eq_of_lt hrc.2.1]
        · exact r4 (Nat.pos_of_ne_zero h0)
      · intro h0; rw [hu] at h0; omega
      · rw [← hcf]; exact r6
      · exact le_trans hcc r7
    | draw =>
      cases hd : Draw a with
      | none =>
        have hstep : step a Event.draw = none := hd
        rw [hstep] at h; cases h
      | some c =>
        have hstep : step a Event.draw = some c := hd
        rw [hstep, Option.some_bind] at h
        obtain ⟨hrc, hidx, hcur, hits, hcf, hcc, _, _⟩ := Draw_ready a c ha hd
        obtain ⟨r1, r2, r3, r4, r5, r6, r7⟩ := ih c hrc h
        have hu : updates (Event.draw :: evs) = updates evs := by simp [updates]
        refine ⟨r1, ?_, ?_, ?_, ?_, ?_, ?_⟩
        · rw [r2, hidx, hu]
        · rw [r3, hits]
        · intro h0; rw [hu] at h0; exact r4 h0
        · intro h0; rw [hu] at h0; rw [r5 h0, hcur]
        · rw [hcf] at r6; omega
        · rw [← hcc]; exact r7

/-- From a ready state, every sequence of frames (`Update`, then `Draw`) returns. -/
theorem frames_total (inps : List Input) (a : App) (ha : Ready a) :
    ∃ b, run (frames inps) a = some b := by
  induction inps generalizing a with
  | nil => exact ⟨a, rfl⟩
  | cons inp inps ih =>
    have hf : frames (inp :: inps) = Event.update inp :: Event.draw :: frames inps := by
      simp [frames]
    obtain ⟨_, c, _, _, _, hupd, _, hrc, _, hcur, _⟩ := Update_spec inp a ha
    obtain ⟨d, hd⟩ := Draw_ok c hrc _ hcur
    obtain ⟨hrd, _⟩ := Draw_ready c d hrc hd
    obtain ⟨b, hb⟩ := ih d hrd
    refine ⟨b, ?_⟩
    rw [hf, run_cons, show step a (Event.update inp) = some c from hupd, Option.some_bind,
      run_cons, show step c Event.draw = some d from hd, Option.some_bind, hb]

/-! ## The claims on the render lists and on drawing -/

theorem mem_matsWhere {q : Int × Int × Int → Material → Bool} {items : List RenderItem}
    {m : Material} (h : m ∈ matsWhere q items) : ∃ it ∈ items, it.Mat = m := by
  unfold matsWhere at h
  rw [List.mem_map] at h
  obtain ⟨it, hit, rfl⟩ := h
  exact ⟨it, (List.mem_filter.mp hit).1, rfl⟩

/-- For every sequence of draws the world has a water item. -/
theorem exists_water (rng : Nat → Nat) :
    ∃ (k : Nat) (it : RenderItem),
      (BuildRenderItems rng).mAllRitems[k]? = some it ∧ it.Mat = .water := by
  have h := terrain_column (fun col => col 8 = [Material.water]) rng 0 50
    (by decide) (by decide)
    (fun _ hz => absurd hz (by decide)) (fun hx => absurd hx (by decide))
    (fun hx => absurd hx (by decide))
    (fun _ _ mat hrule => by
      show (if (0 : Int) ≤ 8 ∧ (8 : Int) < 9 then [mat 8] else []) = _
      rw [if_pos (by decide), hrule.2.2 8 (by decide)]
      rfl)
  have hm : Material.water ∈ terrainAt (BuildRenderItems rng).mAllRitems 0 8 50 := by
    have : terrainAt (BuildRenderItems rng).mAllRitems 0 8 50 = [Material.water] := h
    rw [this]; exact List.mem_singleton.mpr rfl
  obtain ⟨it, hit, hmat⟩ := mem_matsWhere hm
  obtain ⟨k, hk⟩ := List.mem_iff_getElem?.mp hit
  exact ⟨k, it, hk, hmat⟩

/-- C15 as amended: at the end of `BuildRenderItems` (and of `Initialize`), for every
sequence of random draws, the opaque list holds a pointer to every render item, water items
included, exactly once and in creation order, and the list of every render layer, the layer
`Transparent` included, is empty; so the two lists are disjoint and together hold every item
exactly once. -/
theorem all_items_in_opaque_list (rng : Nat → Nat) (fence0 : Nat) :
    (Initialize rng fence0).mAllRitems = (BuildRenderItems rng).mAllRitems ∧
    (Initialize rng fence0).mOpaqueRitems =
      List.range (Initialize rng fence0).mAllRitems.length ∧
    (Initialize rng fence0).mOpaqueRitems.Nodup ∧
    (∀ l, (Initialize rng fence0).mRitemLayer l = []) ∧
    (∀ k it, (Initialize rng fence0).mAllRitems[k]? = some it →
      k ∈ (Initialize rng fence0).mOpaqueRitems ∧
      k ∉ (Initialize rng fence0).mRitemLayer .Transparent) := by
  have he := Initialize_eq rng fence0
  have h2 : (Initialize rng fence0).mOpaqueRitems =
      List.range (Initialize rng fence0).mAllRitems.length := by rw [he]
  have h4 : ∀ l, (Initialize rng fence0).mRitemLayer l = [] := by rw [he]; intro l; rfl
  refine ⟨by rw [he], h2, by rw [h2]; exact List.nodup_range _, h4, ?_⟩
  intro k it hk
  rw [h2, h4]
  exact ⟨List.mem_range.mpr (lookup_lt hk), List.not_mem_nil _⟩

/-- For every sequence of draws, after `Initialize` some water item is in the opaque list,
and the list of the layer `Transparent` is empty. -/
theorem water_in_opaque (rng : Nat → Nat) (fence0 : Nat) :
    ∃ (k : Nat) (it : RenderItem),
      (Initialize rng fence0).mAllRitems[k]? = some it ∧ it.Mat = .water ∧
      k ∈ (Initialize rng fence0).mOpaqueRitems ∧
      k ∉ (Initialize rng fence0).mRitemLayer .Transparent ∧
      (Initialize rng fence0).mRitemLayer .Transparent = [] := by
  obtain ⟨k, it, hk, hw⟩ := exists_water rng
  have he := Initialize_eq rng fence0
  refine ⟨k, it, by rw [he]; exact hk, hw, ?_, ?_, by rw [he]⟩
  · rw [he]; exact List.mem_range.mpr (lookup_lt hk)
  · rw [he]; exact List.not_mem_nil _

/-- Counterexample to C15 as stated: under the stream of draws that is constantly 0 the
world has a water item that is in the opaque list and not in the list of the layer
`Transparent`, which is empty. -/
theorem water_item_in_opaque_list :
    ∃ (k : Nat) (it : RenderItem),
      (Initialize (fun _ => 0) 0).mAllRitems[k]? = some it ∧ it.Mat = .water ∧
      k ∈ (Initialize (fun _ => 0) 0).mOpaqueRitems ∧
      k ∉ (Initialize (fun _ => 0) 0).mRitemLayer .Transparent ∧
      (Initialize (fun _ => 0) 0).mRitemLayer .Transparent = [] :=
  water_in_opaque (fun _ => 0) 0

theorem resets_canonical (p : PSO) (l : List Nat) :
    resets (Cmd.Reset p :: l.map (fun ri => Cmd.DrawIndexedInstanced ri 1)) = [p] := by
  unfold resets
  rw [List.filterMap_cons_some (by rfl : _ = some p)]
  rw [List.filterMap_eq_nil_iff.mpr]
  intro c hc
  obtain ⟨ri, _, rfl⟩ := List.mem_map.mp hc
  rfl

theorem draws_canonical (p : PSO) (l : List Nat) :
    draws (Cmd.Reset p :: l.map (fun ri => Cmd.DrawIndexedInstanced ri 1)) =
      l.map (fun ri => (ri, 1)) := by
  unfold draws
  rw [List.filterMap_cons_none (by rfl)]
  induction l with
  | nil => rfl
  | cons r l ih => rw [List.map_cons, List.filterMap_cons_some (by rfl : _ = some (r, 1)), ih]; rfl

theorem drawsWithPSO_canonical (p : PSO) (l : List Nat) :
    drawsWithPSO (Cmd.Reset p :: l.map (fun ri => Cmd.DrawIndexedInstanced ri 1)) =
      l.map (fun ri => (some p, ri, 1)) := by
  have key : ∀ (l : List Nat) (acc : List (Option PSO × Nat × Nat)),
      ((l.map (fun ri => Cmd.DrawIndexedInstanced ri 1)).foldl
        (fun (q : Option PSO × List (Option PSO × Nat × Nat)) c =>
          match c with
          | .Reset pso => (some pso, q.2)
          | .DrawIndexedInstanced ri n => (q.1, q.2 ++ [(q.1, ri, n)])) (some p, acc)).2 =
        acc ++ l.map (fun ri => (some p, ri, 1)) := by
    intro l
    induction l with
    | nil => intro acc; simp
    | cons r l ih =>
      intro acc
      rw [List.map_cons, List.foldl_cons]
      simp only []
      rw [ih]
      simp
  unfold drawsWithPSO
  rw [List.foldl_cons]
  simpa using key l []

theorem Draw_commands (a b : App) (h : Draw a = some b) :
    ∃ l : List Nat, b.mCommandList =
      Cmd.Reset (selectedPSO a.debugMode a.cullFront a.cullNone) ::
        l.map (fun ri => Cmd.DrawIndexedInstanced ri 1) := by
  obtain ⟨k, fr, _, _, rfl⟩ := Draw_some a b h
  exact ⟨_, rfl⟩

/-- C16: a call of `Draw` that returns has selected exactly one pipeline state for its
command list, the one of the reset that opens the list: wireframe when `debugMode` is set;
otherwise cull-front when `cullFront` is set; otherwise cull-none when `cullNone` is set;
otherwise the blending state "transparent".  Two calls in states with the same three flags
select the same pipeline state, and the three flags are the states of the keys 1, 2 and 3 read
by `OnKeyboardInput`. -/
theorem pipeline_state_by_priority (a b : App) (h : Draw a = some b) :
    resets b.mCommandList = [selectedPSO a.debugMode a.cullFront a.cullNone] ∧
    b.mCommandList.head? = some (Cmd.Reset (selectedPSO a.debugMode a.cullFront a.cullNone)) ∧
    (a.debugMode = true → resets b.mCommandList = [.opaque_wireframe]) ∧
    (a.debugMode = false → a.cullFront = true → resets b.mCommandList = [.opaque_cullfront]) ∧
    (a.debugMode = false → a.cullFront = false → a.cullNone = true →
      resets b.mCommandList = [.opaque_cullnone]) ∧
    (a.debugMode = false → a.cullFront = false → a.cullNone = false →
      resets b.mCommandList = [.transparent]) ∧
    (∀ a1 b1, Draw a1 = some b1 → a1.debugMode = a.debugMode → a1.cullFront = a.cullFront →
      a1.cullNone = a.cullNone → resets b1.mCommandList = resets b.mCommandList) ∧
    (∀ inp, (OnKeyboardInput inp a).debugMode = inp.key1 ∧
      (OnKeyboardInput inp a).cullFront = inp.key2 ∧
      (OnKeyboardInput inp a).cullNone = inp.key3) := by
  obtain ⟨l, hl⟩ := Draw_commands a b h
  have hr : resets b.mCommandList = [selectedPSO a.debugMode a.cullFront a.cullNone] := by
    rw [hl]; exact resets_canonical _ _
  refine ⟨hr, by rw [hl]; rfl, ?_, ?_, ?_, ?_, ?_, ?_⟩
  · intro h1; rw [hr, h1]; rfl
  · intro h1 h2; rw [hr, h1, h2]; rfl
  · intro h1 h2 h3; rw [hr, h1, h2, h3]; rfl
  · intro h1 h2 h3; rw [hr, h1, h2, h3]; rfl
  · intro a1 b1 hd e1 e2 e3
    obtain ⟨l1, hl1⟩ := Draw_commands a1 b1 hd
    rw [hr, hl1, resets_canonical, e1, e2, e3]
  · intro inp
    simp [OnKeyboardInput]

/-- Witness of C16: `Draw` on the small state with all three flags set, with `cullFront` and
`cullNone` set, with `cullNone` set, and with no flag set. -/
theorem pipeline_state_by_priority_witness :
    (∃ b, Draw { sampleApp with debugMode := true, cullFront := true, cullNone := true } = some b ∧
      resets b.mCommandList = [PSO.opaque_wireframe]) ∧
    (∃ b, Draw { sampleApp with cullFront := true, cullNone := true } = some b ∧
      resets b.mCommandList = [PSO.opaque_cullfront]) ∧
    (∃ b, Draw { sampleApp with cullNone := true } = some b ∧
      resets b.mCommandList = [PSO.opaque_cullnone]) ∧
    (∃ b, Draw sampleApp = some b ∧ resets b.mCommandList = [PSO.transparent]) :=
  ⟨⟨_, rfl, (pipeline_state_by_priority
      { sampleApp with debugMode := true, cullFront := true, cullNone := true } _ rfl).2.2.1 rfl⟩,
    ⟨_, rfl, (pipeline_state_by_priority
      { sampleApp with cullFront := true, cullNone := true } _ rfl).2.2.2.1 rfl rfl⟩,
    ⟨_, rfl, (pipeline_state_by_priority
      { sampleApp with cullNone := true } _ rfl).2.2.2.2.1 rfl rfl rfl⟩,
    ⟨_, rfl, (pipeline_state_by_priority sampleApp _ rfl).2.2.2.2.2.1 rfl rfl rfl⟩⟩

/-- C17 as amended: in a call of `Draw` that returns, every draw, the draws of the water
items included, is executed under the pipeline state that the flags select for the frame; so
the draw of a water item uses the blending state "transparent" when none of the three flags is
set, and the wireframe, cull-front or cull-none state (which do not blend) when one is set. -/
theorem draws_use_selected_pipeline_state (a b : App) (h : Draw a = some b) :
    (∀ d ∈ drawsWithPSO b.mCommandList,
      d.1 = some (selectedPSO a.debugMode a.cullFront a.cullNone)) ∧
    (a.debugMode = false → a.cullFront = false → a.cullNone = false →
      ∀ (k n : Nat) (it : RenderItem), a.mAllRitems[k]? = some it → it.Mat = .water →
        ∀ q, (q, k, n) ∈ drawsWithPSO b.mCommandList →
          q = some .transparent ∧ PSO.transparent.BlendEnable = true) ∧
    ((a.debugMode = true ∨ a.cullFront = true ∨ a.cullNone = true) →
      ∀ d ∈ drawsWithPSO b.mCommandList,
        ∃ pso, d.1 = some pso ∧ pso ≠ .transparent ∧ pso.BlendEnable = false) := by
  obtain ⟨l, hl⟩ := Draw_commands a b h
  have hall : ∀ d ∈ drawsWithPSO b.mCommandList,
      d.1 = some (selectedPSO a.debugMode a.cullFront a.cullNone) := by
    intro d hd
    rw [hl, drawsWithPSO_canonical] at hd
    obtain ⟨ri, _, rfl⟩ := List.mem_map.mp hd
    rfl
  refine ⟨hall, ?_, ?_⟩
  · intro h1 h2 h3 k n it _ _ q hd
    have := hall _ hd
    simp only [h1, h2, h3] at this
    exact ⟨this, rfl⟩
  · intro hflag d hd
    refine ⟨_, hall d hd, ?_⟩
    cases h1 : a.debugMode <;> cases h2 : a.cullFront <;> cases h3 : a.cullNone <;>
      simp [h1, h2, h3] at hflag <;> exact ⟨by decide, rfl⟩

/-- Witness of C17: `Draw` on the small state, in which no flag is set: its one item, a
water item, is drawn under the state "transparent". -/
theorem draws_use_selected_pipeline_state_witness :
    ∃ b, Draw sampleApp = some b ∧
      (some PSO.transparent, 0, 1) ∈ drawsWithPSO b.mCommandList ∧
      ∀ d ∈ drawsWithPSO b.mCommandList, d.1 = some PSO.transparent :=
  ⟨_, rfl, by decide, (draws_use_selected_pipeline_state sampleApp _ rfl).1⟩

theorem fixed_lookup {l1 l2 : List RenderItem}
    (h : l2.map RenderItem.fixed = l1.map RenderItem.fixed) {k : Nat} {it : RenderItem}
    (hk : l1[k]? = some it) : ∃ it2, l2[k]? = some it2 ∧ it2.Mat = it.Mat := by
  have h1 : (l2.map RenderItem.fixed)[k]? = some it.fixed := by
    rw [h, List.getElem?_map, hk]; rfl
  rw [List.getElem?_map] at h1
  cases h2 : l2[k]? with
  | none => rw [h2] at h1; cases h1
  | some it2 =>
    rw [h2] at h1
    have : it2.fixed = it.fixed := Option.some.inj h1
    exact ⟨it2, rfl, congrArg (fun p => p.2.2) this⟩

/-- After `Initialize`, a frame in which the key 1 is down draws a water item under the
wireframe state. -/
theorem wireframe_frame (rng : Nat → Nat) (fence0 : Nat) (k2 k3 : Bool) (g : Nat) :
    ∃ (b : App) (k : Nat) (it : RenderItem),
      run [Event.update { key1 := true, key2 := k2, key3 := k3, gpu := g }, Event.draw]
        (Initialize rng fence0) = some b ∧
      b.mAllRitems[k]? = some it ∧ it.Mat = .water ∧
      (some PSO.opaque_wireframe, k, 1) ∈ drawsWithPSO b.mCommandList ∧
      PSO.opaque_wireframe.BlendEnable = false := by
  obtain ⟨_, c, _, _, _, hupd, _, hrc, _, hcur, hits, hflag, _⟩ :=
    Update_spec { key1 := true, key2 := k2, key3 := k3, gpu := g } _ (Initialize_ready rng fence0)
  obtain ⟨d, hd⟩ := Draw_ok c hrc _ hcur
  obtain ⟨_, _, _, hdits, _, _, _, hcmd⟩ := Draw_ready c d hrc hd
  obtain ⟨k, it, hk, hw⟩ := exists_water rng
  have hk0 : (Initialize rng fence0).mAllRitems[k]? = some it := by
    rw [Initialize_eq]; exact hk
  obtain ⟨it2, hk2, hm2⟩ := fixed_lookup hits hk0
  refine ⟨d, k, it2, ?_, by rw [hdits]; exact hk2, hm2.trans hw, ?_, rfl⟩
  · rw [run_cons, show step _ (Event.update _) = some c from hupd, Option.some_bind, run_cons,
      show step c Event.draw = some d from hd, Option.some_bind]
    rfl
  · rw [hcmd, drawsWithPSO_canonical, hflag]
    exact List.mem_map.mpr ⟨k, List.mem_range.mpr (lookup_lt hk2), rfl⟩

/-- Counterexample to C17 as stated: after `Initialize` under the stream of draws that is
constantly 0, in a frame in which the key 1 is down (`debugMode`), a water item is drawn under
the wireframe state, which does not blend. -/
theorem water_drawn_in_wireframe :
    ∃ (b : App) (k : Nat) (it : RenderItem),
      run [Event.update { key1 := true, key2 := false, key3 := false, gpu := 0 }, Event.draw]
        (Initialize (fun _ => 0) 0) = some b ∧
      b.mAllRitems[k]? = some it ∧ it.Mat = .water ∧
      (some PSO.opaque_wireframe, k, 1) ∈ drawsWithPSO b.mCommandList ∧
      PSO.opaque_wireframe.BlendEnable = false :=
  wireframe_frame (fun _ => 0) 0 false false 0

/-- C18: in every state reached from `Initialize` by calls of `Update` and `Draw`, once
`Update` has been called, `Draw` returns, whatever the three flags are, and the draws of its
command list are one `DrawIndexedInstanced` with instance count 1 for every render item, each
item once, in the order of the list of render items. -/
theorem one_draw_per_item (rng : Nat → Nat) (fence0 : Nat) (evs : List Event) (a : App)
    (h : run evs (Initialize rng fence0) = some a) (hu : 0 < updates evs) :
    a.mAllRitems.length = (BuildRenderItems rng).mAllRitems.length ∧
    ∃ b, Draw a = some b ∧
      draws b.mCommandList =
        (List.range (BuildRenderItems rng).mAllRitems.length).map (fun k => (k, 1)) ∧
      (draws b.mCommandList).length = (BuildRenderItems rng).mAllRitems.length ∧
      ((draws b.mCommandList).map (fun d => d.1)).Nodup := by
  obtain ⟨hra, _, hits, hcur, _⟩ := run_spec evs _ a (Initialize_ready rng fence0) h
  have hlen : a.mAllRitems.length = (BuildRenderItems rng).mAllRitems.length := by
    have := congrArg List.length hits
    rw [List.length_map, List.length_map] at this
    rw [this, Initialize_eq]
  obtain ⟨b, hb⟩ := Draw_ok a hra _ (hcur hu)
  obtain ⟨_, _, _, _, _, _, _, hcmd⟩ := Draw_ready a b hra hb
  have hd : draws b.mCommandList =
      (List.range (BuildRenderItems rng).mAllRitems.length).map (fun k => (k, 1)) := by
    rw [hcmd, draws_canonical, hlen]
  refine ⟨hlen, b, hb, hd, by rw [hd]; simp, ?_⟩
  rw [hd, List.map_map]
  have : ((fun d : Nat × Nat => d.1) ∘ fun k => (k, 1)) = id := rfl
  rw [this, List.map_id]
  exact List.nodup_range _

/-- Witness of C18: the first frame after `Initialize` under the stream of draws that is
constantly 0, with no key down. -/
theorem one_draw_per_item_witness :
    ∃ a, run [Event.update { key1 := false, key2 := false, key3 := false, gpu := 0 }]
        (Initialize (fun _ => 0) 0) = some a ∧
      ∃ b, Draw a = some b ∧
        draws b.mCommandList =
          (List.range (BuildRenderItems (fun _ => 0)).mAllRitems.length).map (fun k => (k, 1)) := by
  obtain ⟨_, c, _, _, _, hupd, _⟩ :=
    Update_spec { key1 := false, key2 := false, key3 := false, gpu := 0 } _
      (Initialize_ready (fun _ => 0) 0)
  have hrun : run [Event.update { key1 := false, key2 := false, key3 := false, gpu := 0 }]
      (Initialize (fun _ => 0) 0) = some c := by
    rw [run_cons, show step _ (Event.update _) = some c from hupd, Option.some_bind]
    rfl
  obtain ⟨_, b, hb, hd, _⟩ := one_draw_per_item (fun _ => 0) 0 _ c hrun (by decide)
  exact ⟨c, hrun, b, hb, hd⟩

/-- The completed fence value after the wait of `Update`: the GPU has passed `inp.gpu` more
of the signalled values, and the fence `f` of the frame resource when the wait was needed. -/
theorem acquire_completed (inp : Input) (a b : App) (ha : Ready a)
    (hb : acquireFrameResource inp a = some b) (f : Nat)
    (hf : a.fences[(a.mCurrFrameResourceIndex + 1) % 3]? = some f) :
    b.completed =
      if f ≠ 0 ∧ min a.mCurrentFence (a.completed + inp.gpu) < f then f
      else min a.mCurrentFence (a.completed + inp.gpu) := by
  obtain ⟨h1, h2, h3, h4, h5, h6, h7, h8⟩ := ha
  have hlt : (a.mCurrFrameResourceIndex + 1) % 3 < a.mFrameResources.length := by
    rw [h1]; exact Nat.mod_lt _ (by decide)
  have hget : a.mFrameResources[(a.mCurrFrameResourceIndex + 1) % 3]? =
      some (a.mFrameResources[(a.mCurrFrameResourceIndex + 1) % 3]) :=
    List.getElem?_eq_getElem hlt
  have hf2 : (a.mFrameResources[(a.mCurrFrameResourceIndex + 1) % 3]).Fence = f := by
    unfold App.fences at hf
    rw [List.getElem?_map, hget] at hf
    exact Option.some.inj hf
  have hle : f ≤ a.mCurrentFence := h4 _ (List.mem_iff_getElem?.mpr ⟨_, hf⟩)
  unfold acquireFrameResource at hb
  simp only [OnKeyboardInput, gNumFrameResources, hget, gpuAdvance, waitForFence, hf2] at hb
  by_cases hw : f ≠ 0 ∧ min a.mCurrentFence (a.completed + inp.gpu) < f
  · rw [if_pos hw, if_pos hle] at hb
    rw [if_pos hw, ← Option.some.inj hb]
    show max (min a.mCurrentFence (a.completed + inp.gpu)) f = f
    omega
  · rw [if_neg hw] at hb
    rw [if_neg hw, ← Option.some.inj hb]

/-- One frame from a ready state: `Update` and `Draw` return; the index steps to the next
frame resource, whose fence `f` the GPU has reached after the wait when it is not 0, and which
gets the next value of the fence counter. -/
theorem frame_spec (inp : Input) (a : App) (ha : Ready a) (f : Nat)
    (hf : a.fences[(a.mCurrFrameResourceIndex + 1) % 3]? = some f) :
    ∃ b d, acquireFrameResource inp a = some b ∧ run (frames [inp]) a = some d ∧ Ready d ∧
      d.mCurrFrameResourceIndex = (a.mCurrFrameResourceIndex + 1) % 3 ∧
      b.completed = (if f ≠ 0 ∧ min a.mCurrentFence (a.completed + inp.gpu) < f then f
        else min a.mCurrentFence (a.completed + inp.gpu)) ∧
      d.completed = b.completed ∧
      d.mCurrentFence = a.mCurrentFence + 1 ∧
      d.fences = a.fences.set ((a.mCurrFrameResourceIndex + 1) % 3) (a.mCurrentFence + 1) := by
  obtain ⟨b, c, hacq, _, _, hupd, _, hrc, hidx, hcur, _, _, _, _, hcf, hcm, _, _, _, hcb⟩ :=
    Update_spec inp a ha
  obtain ⟨d, hd⟩ := Draw_ok c hrc _ hcur
  obtain ⟨hrd, hdi, _, _, hdm, hdc, hdf, _⟩ := Draw_ready c d hrc hd
  refine ⟨b, d, hacq, ?_, hrd, by rw [hdi, hidx], acquire_completed inp a b ha hacq f hf,
    by rw [hdc, hcb], by rw [hdm, hcm], by rw [hdf, hcf, hidx, hcm]⟩
  have hfr : frames [inp] = [Event.update inp, Event.draw] := by simp [frames]
  rw [hfr, run_cons, show step a (Event.update inp) = some c from hupd, Option.some_bind,
    run_cons, show step c Event.draw = some d from hd, Option.some_bind]
  rfl

/-- With a GPU that completes nothing on its own, the fourth call of `Update` after
`Initialize` finds the fence of its frame resource, the one of the first frame, not reached,
and waits for it. -/
theorem fourth_update_waits (rng : Nat → Nat) (fence0 : Nat) (k1 k2 k3 : Bool) :
    ∃ a b, run (frames [{ key1 := k1, key2 := k2, key3 := k3, gpu := 0 },
          { key1 := k1, key2 := k2, key3 := k3, gpu := 0 },
          { key1 := k1, key2 := k2, key3 := k3, gpu := 0 }]) (Initialize rng fence0) = some a ∧
      acquireFrameResource { key1 := k1, key2 := k2, key3 := k3, gpu := 0 } a = some b ∧
      a.fences = [fence0 + 3, fence0 + 1, fence0 + 2] ∧ a.completed = fence0 ∧
      b.mCurrFrameResourceIndex = 1 ∧ b.completed = fence0 + 1 := by
  have h0 := Initialize_ready rng fence0
  have e0 : (Initialize rng fence0).fences = [0, 0, 0] ∧
      (Initialize rng fence0).mCurrFrameResourceIndex = 0 ∧
      (Initialize rng fence0).mCurrentFence = fence0 ∧
      (Initialize rng fence0).completed = fence0 := by
    rw [Initialize_eq]; exact ⟨rfl, rfl, rfl, rfl⟩
  obtain ⟨f0, i0, m0, c0⟩ := e0
  obtain ⟨_, a1, _, r1, hr1, i1, cb1, c1, m1, f1⟩ :=
    frame_spec { key1 := k1, key2 := k2, key3 := k3, gpu := 0 } _ h0 0 (by rw [f0, i0]; rfl)
  rw [i0] at i1
  rw [f0, i0, m0] at f1
  rw [m0] at m1
  have c1a : a1.completed = fence0 := by
    rw [c1, cb1, m0, c0]; dsimp only; rw [if_neg (by omega)]; omega
  obtain ⟨_, a2, _, r2, hr2, i2, cb2, c2, m2, f2⟩ :=
    frame_spec { key1 := k1, key2 := k2, key3 := k3, gpu := 0 } a1 hr1 0 (by rw [f1, i1]; rfl)
  rw [i1] at i2
  rw [f1, i1, m1] at f2
  rw [m1] at m2
  have c2a : a2.completed = fence0 := by
    rw [c2, cb2, m1, c1a]; dsimp only; rw [if_neg (by omega)]; omega
  obtain ⟨_, a3, _, r3, hr3, i3, cb3, c3, m3, f3⟩ :=
    frame_spec { key1 := k1, key2 := k2, key3 := k3, gpu := 0 } a2 hr2 0 (by rw [f2, i2]; rfl)
  rw [i2] at i3
  rw [f2, i2, m2] at f3
  rw [m2] at m3
  have c3a : a3.completed = fence0 := by
    rw [c3, cb3, m2, c2a]; dsimp only; rw [if_neg (by omega)]; omega
  obtain ⟨b, _, hb, _, _, _, cb4, _⟩ :=
    frame_spec { key1 := k1, key2 := k2, key3 := k3, gpu := 0 } a3 hr3 (fence0 + 1)
      (by rw [f3, i3]; rfl)
  have c4a : b.completed = fence0 + 1 := by
    rw [cb4, m3, c3a]; dsimp only; rw [if_pos (by omega)]
  obtain ⟨cv, hb2, _⟩ := acquire_spec { key1 := k1, key2 := k2, key3 := k3, gpu := 0 } a3 hr3
  have hbi : b.mCurrFrameResourceIndex = 1 := by
    rw [hb2] at hb
    rw [← Option.some.inj hb]
    show (a3.mCurrFrameResourceIndex + 1) % 3 = 1
    rw [i3]
  refine ⟨a3, b, ?_, hb, ?_, c3a, hbi, c4a⟩
  · have hfr : frames [{ key1 := k1, key2 := k2, key3 := k3, gpu := 0 },
        { key1 := k1, key2 := k2, key3 := k3, gpu := 0 },
        { key1 := k1, key2 := k2, key3 := k3, gpu := 0 }] =
        frames [({ key1 := k1, key2 := k2, key3 := k3, gpu := 0 } : Input)] ++
          (frames [({ key1 := k1, key2 := k2, key3 := k3, gpu := 0 } : Input)] ++
            frames [({ key1 := k1, key2 := k2, key3 := k3, gpu := 0 } : Input)]) := by
      simp [frames]
    rw [hfr, run_append, r1, Option.some_bind, run_append, r2, Option.some_bind, r3]
  · rw [f3]; simp

/-! ## The claims on the ring of frame resources -/

/-- C19: there are exactly 3 frame resources.  In every state reached from `Initialize` by
calls of `Update` and `Draw`, the index of the current frame resource is the number of calls
of `Update` so far modulo 3, so it is 0, 1 or 2; the next call of `Update`, the n-th, returns
and selects the slot n mod 3; after three more calls of `Update` the index is the same again,
after one or two more it is different. -/
theorem ring_slot_cycle (rng : Nat → Nat) (fence0 : Nat) (evs : List Event) (a : App)
    (h : run evs (Initialize rng fence0) = some a) :
    (Initialize rng fence0).mFrameResources.length = 3 ∧
    a.mFrameResources.length = 3 ∧
    a.mCurrFrameResourceIndex = updates evs % 3 ∧
    a.mCurrFrameResourceIndex < 3 ∧
    (0 < updates evs → a.mCurrFrameResource = some (updates evs % 3)) ∧
    (∀ inp, ∃ c, Update inp a = some c ∧
      c.mCurrFrameResourceIndex = (updates evs + 1) % 3 ∧
      c.mCurrFrameResource = some ((updates evs + 1) % 3)) ∧
    (∀ more a1, run more a = some a1 →
      (updates more = 3 → a1.mCurrFrameResourceIndex = a.mCurrFrameResourceIndex) ∧
      (updates more = 1 ∨ updates more = 2 →
        a1.mCurrFrameResourceIndex ≠ a.mCurrFrameResourceIndex)) := by
  have h0 := Initialize_ready rng fence0
  obtain ⟨hra, hidx, _, hcur, _⟩ := run_spec evs _ a h0 h
  have hi0 : (Initialize rng fence0).mCurrFrameResourceIndex = 0 := by rw [Initialize_eq]
  rw [hi0, Nat.zero_add] at hidx
  refine ⟨h0.1, hra.1, hidx, hra.2.1, ?_, ?_, ?_⟩
  · intro hu; rw [hcur hu, hidx]
  · intro inp
    obtain ⟨_, c, _, _, _, hupd, _, _, hci, hcc, _⟩ := Update_spec inp a hra
    refine ⟨c, hupd, ?_, ?_⟩
    · rw [hci, hidx]; omega
    · rw [hcc, hci, hidx]; congr 1; omega
  · intro more a1 hm
    obtain ⟨_, hidx1, _⟩ := run_spec more a a1 hra hm
    have hlt := hra.2.1
    constructor
    · intro h3; rw [hidx1, h3]; omega
    · intro h12; rw [hidx1]; omega

/-- Witness of C19: the state that `Initialize` leaves, before any call. -/
theorem ring_slot_cycle_witness :
    run [] (Initialize (fun _ => 0) 0) = some (Initialize (fun _ => 0) 0) ∧
    (Initialize (fun _ => 0) 0).mFrameResources.length = 3 ∧
    ∃ c, Update { key1 := false, key2 := false, key3 := false, gpu := 0 }
        (Initialize (fun _ => 0) 0) = some c ∧
      c.mCurrFrameResourceIndex = 1 ∧ c.mCurrFrameResource = some 1 :=
  ⟨rfl, (ring_slot_cycle (fun _ => 0) 0 [] _ rfl).1,
    (ring_slot_cycle (fun _ => 0) 0 [] _ rfl).2.2.2.2.2.1 _⟩

/-- C20: in every state reached from `Initialize` by calls of `Update` and `Draw`, with
the GPU passing any number of the signalled fence values between the calls, a call of `Update`
returns (its wait ends), and at the point after the wait, and again after `AnimateMaterials`
where `UpdateObjectCBs` copies into the current frame resource, the fence of that frame
resource is 0 or the completed fence value of the GPU has reached it; the same holds when `Update` returns, which is the state in
which the following `Draw` resets the command allocator of the frame resource, and that `Draw`
returns.  The completed value never decreases and never passes the fence counter. -/
theorem fence_reached_before_reuse (rng : Nat → Nat) (fence0 : Nat) (evs : List Event)
    (a : App) (h : run evs (Initialize rng fence0) = some a) (inp : Input) :
    ∃ b c, acquireFrameResource inp a = some b ∧ FenceReached b ∧
      (∃ b1 b2, AnimateMaterials inp b = some b1 ∧ FenceReached b1 ∧
        UpdateObjectCBs b1 = some b2) ∧
      Update inp a = some c ∧ FenceReached c ∧
      (∃ d, Draw c = some d) ∧
      a.completed ≤ b.completed ∧ b.completed = c.completed ∧
      c.completed ≤ c.mCurrentFence := by
  obtain ⟨hra, _⟩ := run_spec evs _ a (Initialize_ready rng fence0) h
  obtain ⟨b, c, hacq, hfb, _, hupd, hfc, hrc, _, hcur, _, _, _, _, _, _, hac, _, _, hcb⟩ :=
    Update_spec inp a hra
  obtain ⟨cv, fr, w, ocb, mcb, hget, _, _, _, hf2, _, _, _, _, _, _, _, hacq2, hanim, hobj, _⟩ :=
    Update_eq inp a hra
  rw [hacq] at hacq2
  obtain rfl := Option.some.inj hacq2
  refine ⟨_, c, hacq, hfb, ⟨_, _, hanim, ⟨fr.Fence, rfl, fences_lookup hget, hf2⟩, hobj⟩,
    hupd, hfc, Draw_ok c hrc _ hcur, ?_, hcb.symm, hrc.2.2.2.2.1⟩
  rw [← hcb]; exact hac

/-- Witness of C20: after `Initialize` and three frames during which the GPU completes
nothing, the fourth call of `Update` steps to the frame resource of the first frame, whose
fence 1 is not reached; the wait ends with the completed value 1. -/
theorem fence_reached_before_reuse_witness :
    ∃ a b, run (frames [{ key1 := false, key2 := false, key3 := false, gpu := 0 },
          { key1 := false, key2 := false, key3 := false, gpu := 0 },
          { key1 := false, key2 := false, key3 := false, gpu := 0 }])
        (Initialize (fun _ => 0) 0) = some a ∧
      acquireFrameResource { key1 := false, key2 := false, key3 := false, gpu := 0 } a = some b ∧
      a.fences = [3, 1, 2] ∧ a.completed = 0 ∧ b.mCurrFrameResourceIndex = 1 ∧
      b.completed = 1 ∧ FenceReached b := by
  obtain ⟨a, b, hrun, hb, hf, hc, hi, hcb⟩ :=
    fourth_update_waits (fun _ => 0) 0 false false false
  obtain ⟨b1, _, hb1, hfr, _⟩ := fence_reached_before_reuse (fun _ => 0) 0 _ a hrun
    { key1 := false, key2 := false, key3 := false, gpu := 0 }
  rw [hb] at hb1
  cases hb1
  exact ⟨a, b, hrun, hb, hf, hc, hi, hcb, hfr⟩

/-! ## The claims on the positions of the blocks -/

theorem TreeOrder.apart {S T : Tree} (h : TreeOrder S T) : Apart S T := by
  obtain ⟨_, hrect, hord, _⟩ := h
  unfold Apart
  rw [le_abs, le_abs]
  simp only [inRect] at hrect
  omega

theorem Apart.symm {S T : Tree} (h : Apart S T) : Apart T S := by
  unfold Apart at h ⊢
  rw [abs_sub_comm T.x, abs_sub_comm T.z]
  exact h

/-- Any two distinct placed trees are anchored at least 3 cells apart along x or along z. -/
theorem Build_apart (rng : Nat → Nat) (S T : Tree) (hS : S ∈ (BuildRenderItems rng).trees)
    (hT : T ∈ (BuildRenderItems rng).trees) (hne : S ≠ T) : Apart S T :=
  ((Build_inv rng).2.2.2.2.imp (S := Apart) (fun {_ _} h => h.apart)).forall
    (fun _ _ h => h.symm) hS hT hne

/-- C28: for every sequence of random draws and every two distinct placed trees, the anchors
are at least 3 cells apart along x or along z, so no cell lies within distance 1 of both
anchors: the 3 x 3 canopies of the two trees share no cell. -/
theorem canopies_apart (rng : Nat → Nat) (S T : Tree)
    (hS : S ∈ (BuildRenderItems rng).trees) (hT : T ∈ (BuildRenderItems rng).trees)
    (hne : S ≠ T) :
    (3 ≤ |S.x - T.x| ∨ 3 ≤ |S.z - T.z|) ∧
    ∀ c : Int × Int, ¬ (|c.1 - S.x| ≤ 1 ∧ |c.2 - S.z| ≤ 1 ∧
      |c.1 - T.x| ≤ 1 ∧ |c.2 - T.z| ≤ 1) := by
  have h := Build_apart rng S T hS hT hne
  refine ⟨h, ?_⟩
  rintro c ⟨h1, h2, h3, h4⟩
  unfold Apart at h
  rw [le_abs, le_abs] at h
  rw [abs_le] at h1 h2 h3 h4
  omega

/-- Witness of C28: the two trees placed under `rngTwo`, anchored at (3, 1) and (6, 1). -/
theorem canopies_apart_witness :
    ({ x := 3, z := 1, random := 1, slot := 1, first := 486 } : Tree) ∈
      (BuildRenderItems rngTwo).trees ∧
    ({ x := 6, z := 1, random := 1, slot := 2, first := 525 } : Tree) ∈
      (BuildRenderItems rngTwo).trees ∧
    (3 ≤ |(3 : Int) - 6| ∨ 3 ≤ |(1 : Int) - 1|) :=
  ⟨rngTwo_trees.1, rngTwo_trees.2,
    (canopies_apart rngTwo _ _ rngTwo_trees.1 rngTwo_trees.2 (by decide)).1⟩

theorem filter_columnItems_terrain {cap : Int → Bool} {capMat : Material} {mat : Int → Material}
    (hr : LayerRule cap capMat mat) (hc : isTerrain capMat = true) (x z : Int) (i0 h : Nat) :
    (columnItems x z i0 mat h).filter (fun it => !isTerrain it.Mat) = [] ∧
    (columnItems x z i0 mat h).filter (fun it => isTerrain it.Mat) = columnItems x z i0 mat h := by
  have hall : ∀ it ∈ columnItems x z i0 mat h, isTerrain it.Mat = true := by
    intro it hit
    obtain ⟨n, _, rfl⟩ := mem_columnItems hit
    exact hr.terrain hc n (by omega)
  constructor
  · rw [List.filter_eq_nil_iff]
    intro it hit
    simp [hall it hit]
  · rw [List.filter_eq_self]
    exact hall

theorem filter_treeItems_terrain (x z r : Int) (i0 : Nat) :
    (treeItems x z r i0).filter (fun it => !isTerrain it.Mat) = treeItems x z r i0 ∧
    (treeItems x z r i0).filter (fun it => isTerrain it.Mat) = [] := by
  constructor <;> rfl

/-- The wood and leaves items of the world are the items of the placed trees, in the order
of placement. -/
theorem Build_treePart (rng : Nat → Nat) :
    (BuildRenderItems rng).mAllRitems.filter (fun it => !isTerrain it.Mat) =
      (BuildRenderItems rng).trees.flatMap Tree.items := by
  have hk : ∀ {cap capMat x z h s t}, CellStep cap capMat x z h s t → isTerrain capMat = true →
      s.mAllRitems.filter (fun it => !isTerrain it.Mat) = s.trees.flatMap Tree.items →
      t.mAllRitems.filter (fun it => !isTerrain it.Mat) = t.trees.flatMap Tree.items := by
    rintro cap capMat x z h s t ⟨mat, hr, c1, _, _, _, _, c6, _⟩ hcap hs
    rw [c1, c6, List.filter_append, (filter_columnItems_terrain hr hcap x z _ h).1,
      List.append_nil, hs]
  refine Build_induct (fun s => s.mAllRitems.filter (fun it => !isTerrain it.Mat) =
      s.trees.flatMap Tree.items) rng rfl ?_ ?_ ?_ ?_
  · rintro x z s t _ _ _ _ ⟨r, u, _, _, hc, _, htree, _⟩ hs
    have hu := hk hc rfl hs
    rcases htree with ⟨_, _, _, _, i5, i6, _⟩ | ⟨_, _, _, _, _, _, _, _, _, _, p11, p12, _⟩
    · rw [i5, i6]; exact hu
    · rw [p11, p12, List.filter_append, (filter_treeItems_terrain _ _ _ _).1, hu,
        List.flatMap_append]
      simp [Tree.items]
  · rintro x z s t _ _ _ _ ⟨r, _, _, _, hc⟩ hs
    rcases hc with ⟨_, hc⟩ | ⟨_, hc⟩ <;> exact hk hc rfl hs
  · rintro x z s t _ _ _ _ ⟨r, _, _, hc⟩ hs
    exact hk hc rfl hs
  · rintro x z s t _ _ _ _ hc hs
    exact hk hc rfl hs

/-- Every render item lies over the 100 x 100 grid, and every terrain block lies at a layer
from 0 to 10. -/
theorem Build_extent (rng : Nat → Nat) :
    ∀ it ∈ (BuildRenderItems rng).mAllRitems,
      0 ≤ it.World.1 ∧ it.World.1 < 100 ∧ 0 ≤ it.World.2.2 ∧ it.World.2.2 < 100 ∧
      (isTerrain it.Mat = true → it.World.2.1 ≤ 10) := by
  refine Build_items _ rng ?_ ?_ ?_ ?_ ?_
  · intro x z r n i mat h1 h2 h3 h4 hr hn _
    simp only [mkItem]
    exact ⟨h1, by omega, h3, by omega, fun _ => by omega⟩
  · intro x z r i it h1 h2 h3 h4 hr hit
    obtain ⟨hm, _, _, b1, b2, b3, b4, _⟩ := mem_treeItems hit
    refine ⟨by omega, by omega, by omega, by omega, ?_⟩
    intro ht
    rcases hm with hm | hm <;> rw [hm] at ht <;> cases ht
  · intro x z top n i mat h1 h2 h3 h4 ht hn _
    simp only [mkItem]
    exact ⟨by omega, h2, by omega, h4, fun _ => by omega⟩
  · intro x z r n i mat h1 h2 h3 h4 hr hn _
    simp only [mkItem]
    exact ⟨by omega, h2, h3, by omega, fun _ => by omega⟩
  · intro x z n i mat h1 h2 h3 h4 hn _
    simp only [mkItem]
    exact ⟨h1, by omega, by omega, h4, fun _ => by omega⟩

/-- At every position there is at most one terrain block. -/
theorem terrain_le_one (rng : Nat → Nat) (x y z : Int) :
    (terrainAt (BuildRenderItems rng).mAllRitems x y z).length ≤ 1 := by
  by_cases hin : (0 ≤ x ∧ x < 100) ∧ (0 ≤ z ∧ z < 100)
  · have h := terrain_column (fun col => ∀ y, (col y).length ≤ 1) rng x z hin.1 hin.2
      (fun _ _ k r mat _ _ y => by show (if _ then _ else _ : List Material).length ≤ 1
                                   split_ifs <;> simp)
      (fun _ _ k r mat _ =>
        ⟨fun _ _ y => by show (if _ then _ else _ : List Material).length ≤ 1
                         split_ifs <;> simp,
         fun _ _ y => by show (if _ then _ else _ : List Material).length ≤ 1
                         split_ifs <;> simp⟩)
      (fun _ _ k r mat _ _ y => by show (if _ then _ else _ : List Material).length ≤ 1
                                   split_ifs <;> simp)
      (fun _ _ mat _ y => by show (if _ then _ else _ : List Material).length ≤ 1
                             split_ifs <;> simp)
    exact h y
  · have : terrainAt (BuildRenderItems rng).mAllRitems x y z = [] := by
      unfold terrainAt
      apply matsWhere_eq_nil
      intro it hit
      obtain ⟨h1, h2, h3, h4, _⟩ := Build_extent rng it hit
      have hne : ¬ (it.World = (x, y, z)) := by
        intro he
        rw [he] at h1 h2 h3 h4
        simp only at h1 h2 h3 h4
        exact hin ⟨⟨h1, h2⟩, h3, h4⟩
      simp [hne]
    rw [this]; simp

theorem terrain_nodup (rng : Nat → Nat) :
    (positions ((BuildRenderItems rng).mAllRitems.filter (fun it => isTerrain it.Mat))).Nodup := by
  unfold positions
  rw [List.Nodup, List.pairwise_map, List.pairwise_iff_forall_sublist]
  intro a b hsub heq
  have h1 : ((BuildRenderItems rng).mAllRitems.filter
      (fun it => decide (it.World = a.World) && isTerrain it.Mat)).length ≤ 1 := by
    have h := terrain_le_one rng a.World.1 a.World.2.1 a.World.2.2
    unfold terrainAt matsWhere at h
    rw [List.length_map] at h
    exact h
  have h2 := hsub.filter (fun it => decide (it.World = a.World))
  rw [List.filter_filter] at h2
  have h3 : [a, b].filter (fun it => decide (it.World = a.World)) = [a, b] := by
    simp [List.filter_cons, heq]
  rw [h3] at h2
  have h4 := h2.length_le
  simp only [List.length_cons, List.length_nil] at h4
  omega

theorem treeItems_nodup (x z r : Int) (i0 : Nat) : (positions (treeItems x z r i0)).Nodup := by
  simp only [positions, treeItems, mkItem, List.map_cons, List.map_nil, List.nodup_cons,
    List.mem_cons, List.mem_singleton, List.not_mem_nil, Prod.mk.injEq, List.nodup_nil,
    true_and, and_true, or_false, not_false_eq_true]
  omega

theorem mem_treeItems_off {x z r : Int} {i0 : Nat} {it : RenderItem}
    (hit : it ∈ treeItems x z r i0) :
    (it.World.1 = x ∧ it.World.2.2 = z) ∨ it.World.2.1 = r + 10 := by
  simp only [treeItems, List.mem_cons, List.mem_singleton, List.not_mem_nil, or_false] at hit
  rcases hit with h | h | h | h | h | h | h | h | h | h | h | h <;> subst h <;>
    simp [mkItem]

theorem mem_positions {items : List RenderItem} {p : Int × Int × Int} :
    p ∈ positions items ↔ ∃ it ∈ items, it.World = p := by
  unfold positions
  rw [List.mem_map]

theorem trees_nodup (rng : Nat → Nat) :
    (positions ((BuildRenderItems rng).trees.flatMap Tree.items)).Nodup := by
  unfold positions
  rw [List.map_flatMap, List.nodup_flatMap]
  constructor
  · intro t _
    exact treeItems_nodup t.x t.z t.random t.first
  · refine (Build_inv rng).2.2.2.2.imp ?_
    intro S T hord
    have hap := hord.apart
    show List.Disjoint (List.map (fun it => it.World) S.items) (List.map (fun it => it.World) T.items)
    intro p hS hT
    obtain ⟨e1, h1, rfl⟩ := List.mem_map.mp hS
    obtain ⟨e2, h2, he⟩ := List.mem_map.mp hT
    obtain ⟨_, _, _, a1, a2, a3, a4, _⟩ := mem_treeItems h1
    obtain ⟨_, _, _, b1, b2, b3, b4, _⟩ := mem_treeItems h2
    rw [he] at b1 b2 b3 b4
    unfold Apart at hap
    rw [le_abs, le_abs] at hap
    omega

theorem mem_terrainAt {items : List RenderItem} {e : RenderItem} (he : e ∈ items)
    (ht : isTerrain e.Mat = true) :
    e.Mat ∈ terrainAt items e.World.1 e.World.2.1 e.World.2.2 := by
  unfold terrainAt matsWhere
  rw [List.mem_map]
  exact ⟨e, List.mem_filter.mpr ⟨he, by simp [ht]⟩, rfl⟩

/-- No terrain block is at the position of a block of a tree. -/
theorem terrain_off_trees (rng : Nat → Nat) :
    List.Disjoint
      (positions ((BuildRenderItems rng).mAllRitems.filter (fun it => isTerrain it.Mat)))
      (positions ((BuildRenderItems rng).trees.flatMap Tree.items)) := by
  intro p h1 h2
  obtain ⟨e1, he1, rfl⟩ := mem_positions.mp h1
  obtain ⟨e2, he2, heq⟩ := mem_positions.mp h2
  obtain ⟨hm1, ht1⟩ := List.mem_filter.mp he1
  obtain ⟨T, hT, hTe⟩ := List.mem_flatMap.mp he2
  obtain ⟨_, _, _, _, hr, _⟩ := (Build_inv rng).2.2.1 T hT
  obtain ⟨_, _, _, _, hy⟩ := Build_extent rng e1 hm1
  have hy10 := hy ht1
  obtain ⟨_, c1, _⟩ := mem_treeItems hTe
  rcases mem_treeItems_off hTe with ⟨hx, hz⟩ | hoff
  · have hnil := (tree_on_column rng T hT).2 e2.World.2.1 c1
    have hmem := mem_terrainAt hm1 ht1
    rw [← heq, hx, hz, hnil] at hmem
    cases hmem
  · rw [heq] at hoff
    omega

/-- C27: for every sequence of random draws, no two render items of the world have the same
position: the list of the positions of the render items has no duplicate, so two items that
stand at different places of the list of render items have different positions. -/
theorem positions_injective (rng : Nat → Nat) :
    (positions (BuildRenderItems rng).mAllRitems).Nodup ∧
    ∀ (i j : Nat) (a b : RenderItem), (BuildRenderItems rng).mAllRitems[i]? = some a →
      (BuildRenderItems rng).mAllRitems[j]? = some b → a.World = b.World → i = j := by
  have hperm := List.filter_append_perm (fun it => isTerrain it.Mat)
    (BuildRenderItems rng).mAllRitems
  have hnd : (positions (BuildRenderItems rng).mAllRitems).Nodup := by
    unfold positions
    rw [← (hperm.map (fun it => it.World)).nodup_iff, List.map_append, List.nodup_append]
    refine ⟨terrain_nodup rng, ?_, ?_⟩
    · have := trees_nodup rng
      rw [← Build_treePart] at this
      exact this
    · have := terrain_off_trees rng
      rw [← Build_treePart] at this
      exact this
  refine ⟨hnd, ?_⟩
  intro i j a b hi hj hab
  have hi2 : (positions (BuildRenderItems rng).mAllRitems)[i]? = some a.World := by
    unfold positions; rw [List.getElem?_map, hi]; rfl
  have hj2 : (positions (BuildRenderItems rng).mAllRitems)[j]? = some a.World := by
    unfold positions; rw [List.getElem?_map, hj, hab]; rfl
  have key := List.nodup_iff_getElem?_ne_getElem?.mp hnd
  rcases Nat.lt_trichotomy i j with h | h | h
  · exact absurd (hi2.trans hj2.symm) (key i j h (lookup_lt hj2))
  · exact h
  · exact absurd (hj2.trans hi2.symm) (key j i h (lookup_lt hi2))

/-! ## The number of render items -/

theorem forUp_count {σ : Type} (N : σ → Int) (lo hi a b : Int) (body : Int → σ → σ) (s : σ)
    (hle : lo ≤ hi)
    (hstep : ∀ k t, lo ≤ k → k < hi → N t + a ≤ N (body k t) ∧ N (body k t) ≤ N t + b) :
    N s + (hi - lo) * a ≤ N (forUp lo hi body s) ∧
    N (forUp lo hi body s) ≤ N s + (hi - lo) * b := by
  refine forUp_inv (fun k t => N s + (k - lo) * a ≤ N t ∧ N t ≤ N s + (k - lo) * b)
    lo hi body s hle ⟨by simp, by simp⟩ ?_
  intro k t hk1 hk2 ⟨h1, h2⟩
  obtain ⟨g1, g2⟩ := hstep k t hk1 hk2
  have e1 : (k + 1 - lo) * a = (k - lo) * a + a := by ring
  have e2 : (k + 1 - lo) * b = (k - lo) * b + b := by ring
  rw [e1, e2]
  constructor <;> linarith

theorem quadrant_count (N : Gen → Int) (cell : Int → Int → Gen → Gen)
    (zlo zhi xlo xhi a b : Int) (s : Gen) (hz : zlo ≤ zhi) (hx : xlo ≤ xhi)
    (hstep : ∀ z x t, N t + a ≤ N (cell z x t) ∧ N (cell z x t) ≤ N t + b) :
    N s + (zhi - zlo) * ((xhi - xlo) * a) ≤
      N (forUp zlo zhi (fun z s1 => forUp xlo xhi (cell z) s1) s) ∧
    N (forUp zlo zhi (fun z s1 => forUp xlo xhi (cell z) s1) s) ≤
      N s + (zhi - zlo) * ((xhi - xlo) * b) := by
  refine forUp_count N zlo zhi _ _ _ s hz ?_
  intro z t _ _
  exact forUp_count N xlo xhi a b (cell z) t hx (fun x u _ _ => hstep z x u)

theorem CellStep.adds {cap : Int → Bool} {capMat : Material} {x z : Int} {h : Nat} {s t : Gen}
    (hc : CellStep cap capMat x z h s t) : terrainCount t = terrainCount s + h := by
  obtain ⟨mat, _, c1, _, _, _, _, c6, _⟩ := hc
  unfold terrainCount
  rw [c1, c6, List.length_append, columnItems_length]
  push_cast
  ring

theorem TreeStep.keepsCount {x z : Int} {s t : Gen} (hc : TreeStep x z s t) :
    terrainCount t = terrainCount s := by
  unfold terrainCount
  rcases hc with ⟨_, _, _, _, i5, i6, _⟩ | ⟨_, _, _, _, _, _, _, _, _, _, p11, p12, _⟩
  · rw [i5, i6]
  · rw [p11, p12, List.length_append, List.length_append, treeItems_length]
    push_cast
    simp only [List.length_singleton, Nat.cast_one]
    ring

theorem grassQuadrant_count (rng : Nat → Nat) (s : Gen) :
    terrainCount s + 22500 ≤ terrainCount (grassQuadrant rng s) ∧
    terrainCount (grassQuadrant rng s) ≤ terrainCount s + 25000 := by
  have h := quadrant_count terrainCount (grassCell rng) 0 50 0 50 9 10 s
    (by decide) (by decide) (fun z x t => by
      obtain ⟨r, u, _, hr, hc, _, ht, _⟩ := grassCell_spec rng z x t
      rw [ht.keepsCount, hc.adds]
      rcases hr with rfl | rfl <;> simp)
  unfold grassQuadrant
  omega

theorem sandQuadrant_count (rng : Nat → Nat) (s : Gen) :
    terrainCount s + 22500 ≤ terrainCount (sandQuadrant rng s) ∧
    terrainCount (sandQuadrant rng s) ≤ terrainCount s + 25000 := by
  have h := quadrant_count terrainCount (sandCell rng) 50 100 50 100 9 10 s
    (by decide) (by decide) (fun z x t => by
      obtain ⟨r, _, _, _, hc⟩ := sandCell_spec rng z x t
      rcases hc with ⟨_, hc⟩ | ⟨_, hc⟩ <;> rw [hc.adds] <;> simp)
  unfold sandQuadrant
  omega

theorem gravelQuadrant_count (rng : Nat → Nat) (s : Gen) :
    terrainCount s + 22500 ≤ terrainCount (gravelQuadrant rng s) ∧
    terrainCount (gravelQuadrant rng s) ≤ terrainCount s + 27500 := by
  have h := quadrant_count terrainCount (gravelCell rng) 0 50 50 100 9 11 s
    (by decide) (by decide) (fun z x t => by
      obtain ⟨r, _, hr, hc⟩ := gravelCell_spec rng z x t
      rw [hc.adds]
      rcases hr with rfl | rfl | rfl <;> simp)
  unfold gravelQuadrant
  omega

theorem waterQuadrant_count (rng : Nat → Nat) (s : Gen) :
    terrainCount (waterQuadrant rng s) = terrainCount s + 22500 := by
  have h := quadrant_count terrainCount (waterCell rng) 50 100 0 50 9 9 s
    (by decide) (by decide) (fun z x t => by
      rw [(waterCell_spec rng z x t).adds]
      simp)
  unfold waterQuadrant
  omega

/-- The number of render items of the world, for every sequence of draws: between 90000
and 100000 blocks of terrain columns, and twelve blocks for each of the at most 80 trees. -/
theorem Build_count (rng : Nat → Nat) :
    90000 ≤ terrainCount (BuildRenderItems rng) ∧ terrainCount (BuildRenderItems rng) ≤ 100000 ∧
    90000 ≤ (BuildRenderItems rng).mAllRitems.length ∧
    (BuildRenderItems rng).mAllRitems.length ≤ 100960 := by
  have hg := grassQuadrant_count rng Gen.init
  have hs := sandQuadrant_count rng (grassQuadrant rng Gen.init)
  have hv := gravelQuadrant_count rng (sandQuadrant rng (grassQuadrant rng Gen.init))
  have hw := waterQuadrant_count rng
    (gravelQuadrant rng (sandQuadrant rng (grassQuadrant rng Gen.init)))
  have h0 : terrainCount Gen.init = 0 := rfl
  have hN : 90000 ≤ terrainCount (BuildRenderItems rng) ∧
      terrainCount (BuildRenderItems rng) ≤ 100000 := by
    unfold BuildRenderItems
    omega
  obtain ⟨_, ⟨t1, t2, t3⟩, _⟩ := Build_inv rng
  refine ⟨hN.1, hN.2, ?_, ?_⟩ <;>
  · have := hN
    unfold terrainCount at this
    omega

/-! ## The claims on the fence counter and on the dirty countdowns -/

/-- Induction over a sequence of calls from a ready state, counting the calls of `Update`. -/
theorem run_induct (P : Nat → App → Prop)
    (hU : ∀ n inp a c, Ready a → P n a → Update inp a = some c → P (n + 1) c)
    (hD : ∀ n a c, Ready a → P n a → Draw a = some c → P n c)
    (evs : List Event) (n : Nat) (a b : App) (ha : Ready a) (hp : P n a)
    (h : run evs a = some b) : P (n + updates evs) b := by
  induction evs generalizing a n with
  | nil =>
    have hb : a = b := by simpa [run] using h
    subst hb
    exact hp
  | cons e evs ih =>
    rw [run_cons] at h
    cases e with
    | update inp =>
      obtain ⟨_, c, _, _, _, hupd, _, hrc, _⟩ := Update_spec inp a ha
      have hstep : step a (Event.update inp) = some c := hupd
      rw [hstep, Option.some_bind] at h
      have hu : updates (Event.update inp :: evs) = updates evs + 1 := by simp [updates]
      have := ih (n + 1) c hrc (hU n inp a c ha hp hupd) h
      rw [hu, ← Nat.add_assoc, Nat.add_right_comm]
      exact this
    | draw =>
      cases hd : Draw a with
      | none =>
        have hstep : step a Event.draw = none := hd
        rw [hstep] at h; cases h
      | some c =>
        have hstep : step a Event.draw = some c := hd
        rw [hstep, Option.some_bind] at h
        have hu : updates (Event.draw :: evs) = updates evs := by simp [updates]
        rw [hu]
        exact ih n c (Draw_ready a c ha hd).1 (hD n a c ha hp hd) h

/-- No call lowers the fence value of a frame resource. -/
theorem run_fences (evs : List Event) (a b : App) (ha : Ready a) (h : run evs a = some b) :
    ∀ (j f : Nat), a.fences[j]? = some f → ∃ g, b.fences[j]? = some g ∧ f ≤ g := by
  refine run_induct (fun _ x => ∀ (j f : Nat), a.fences[j]? = some f → ∃ g, x.fences[j]? = some g ∧ f ≤ g)
    ?_ ?_ evs 0 a b ha (fun j f hf => ⟨f, hf, le_refl _⟩) h
  · intro _ inp x c hx hp hupd j f hf
    obtain ⟨_, c2, _, _, _, hupd2, _, _, _, _, _, _, _, _, hcf, _⟩ := Update_spec inp x hx
    rw [hupd] at hupd2
    obtain rfl := Option.some.inj hupd2
    rw [hcf]
    exact hp j f hf
  · intro _ x c hx hp hd j f hf
    obtain ⟨g, hg, hfg⟩ := hp j f hf
    obtain ⟨_, _, _, _, _, _, hcf, _⟩ := Draw_ready x c hx hd
    rw [hcf]
    by_cases hj : j = x.mCurrFrameResourceIndex
    · subst hj
      refine ⟨x.mCurrentFence + 1, ?_, ?_⟩
      · exact getElem?_set_same _ _ _ (lookup_lt hg)
      · have := hx.2.2.2.1 g (List.mem_iff_getElem?.mpr ⟨_, hg⟩)
        omega
    · refine ⟨g, ?_, hfg⟩
      rw [List.getElem?_set_ne (fun h2 => hj h2.symm)]
      exact hg

/-- C21: the fence counter is monotonic.  In every state reached from `Initialize` by calls
of `Update` and `Draw`, a call of `Draw` that returns raises the fence counter by exactly one
and stamps the new value on the current frame resource; after it that value is the largest of
the fence values of the frame resources; no call lowers the fence value of a frame resource
(neither this `Draw` nor any sequence of calls after it); and the value that any later `Draw`
stamps is strictly greater. -/
theorem fence_counter_monotonic (rng : Nat → Nat) (fence0 : Nat) (evs more : List Event)
    (a b c : App) (h : run evs (Initialize rng fence0) = some a) (hd : Draw a = some b)
    (hm : run more b = some c) :
    b.mCurrentFence = a.mCurrentFence + 1 ∧
    a.mCurrFrameResource = some a.mCurrFrameResourceIndex ∧
    b.fences[a.mCurrFrameResourceIndex]? = some (a.mCurrentFence + 1) ∧
    (∀ g ∈ b.fences, g ≤ a.mCurrentFence + 1) ∧
    (∀ (j f : Nat), a.fences[j]? = some f → ∃ g, b.fences[j]? = some g ∧ f ≤ g) ∧
    (∀ (j f : Nat), b.fences[j]? = some f → ∃ g, c.fences[j]? = some g ∧ f ≤ g) ∧
    (∀ d, Draw c = some d →
      d.fences[c.mCurrFrameResourceIndex]? = some (c.mCurrentFence + 1) ∧
      a.mCurrentFence + 1 < c.mCurrentFence + 1) := by
  obtain ⟨hra, _⟩ := run_spec evs _ a (Initialize_ready rng fence0) h
  obtain ⟨hrb, _, _, _, hbm, _, hbf, _⟩ := Draw_ready a b hra hd
  obtain ⟨hrc, _, _, _, _, hcm, _⟩ := run_spec more b c hrb hm
  obtain ⟨k, _, hk, _, _⟩ := Draw_some a b hd
  have hki := hra.2.2.1 k hk
  have hstamp : ∀ (x y : App), Ready x → Draw x = some y →
      y.fences[x.mCurrFrameResourceIndex]? = some (x.mCurrentFence + 1) := by
    intro x y hx hxy
    obtain ⟨_, _, _, _, _, _, hyf, _⟩ := Draw_ready x y hx hxy
    have : x.mCurrFrameResourceIndex < x.fences.length := by
      unfold App.fences
      rw [List.length_map, hx.1]; exact hx.2.1
    rw [hyf]
    exact getElem?_set_same _ _ _ this
  refine ⟨hbm, by rw [hk, hki], hstamp a b hra hd, ?_,
    run_fences [Event.draw] a b hra (by rw [run_cons, show step a Event.draw = some b from hd]; rfl),
    run_fences more b c hrb hm, ?_⟩
  · intro g hg
    rw [← hbm]
    exact hrb.2.2.2.1 g hg
  · intro d hcd
    exact ⟨hstamp c d hrc hcd, by omega⟩

/-- Witness of C21: the first two frames after `Initialize` under the stream of draws that is
constantly 0, with no key down: the `Draw` of the first frame stamps 1, that of the second
stamps 2. -/
theorem fence_counter_monotonic_witness :
    ∃ a b c d, run [Event.update { key1 := false, key2 := false, key3 := false, gpu := 0 }]
        (Initialize (fun _ => 0) 0) = some a ∧
      Draw a = some b ∧
      run [Event.update { key1 := false, key2 := false, key3 := false, gpu := 0 }] b = some c ∧
      Draw c = some d ∧
      b.mCurrentFence = a.mCurrentFence + 1 ∧
      d.fences[c.mCurrFrameResourceIndex]? = some (c.mCurrentFence + 1) ∧
      a.mCurrentFence + 1 < c.mCurrentFence + 1 := by
  obtain ⟨_, a, _, _, _, hupd, _, hra, _, hcur, _⟩ :=
    Update_spec { key1 := false, key2 := false, key3 := false, gpu := 0 } _
      (Initialize_ready (fun _ => 0) 0)
  obtain ⟨b, hb⟩ := Draw_ok a hra _ hcur
  obtain ⟨hrb, _⟩ := Draw_ready a b hra hb
  obtain ⟨_, c, _, _, _, hupd2, _, hrc, _, hcur2, _⟩ :=
    Update_spec { key1 := false, key2 := false, key3 := false, gpu := 0 } b hrb
  obtain ⟨d, hd⟩ := Draw_ok c hrc _ hcur2
  have hrun : run [Event.update { key1 := false, key2 := false, key3 := false, gpu := 0 }]
      (Initialize (fun _ => 0) 0) = some a := by
    rw [run_cons, show step _ (Event.update _) = some a from hupd, Option.some_bind]
    rfl
  have hrun2 : run [Event.update { key1 := false, key2 := false, key3 := false, gpu := 0 }]
      b = some c := by
    rw [run_cons, show step _ (Event.update _) = some c from hupd2, Option.some_bind]
    rfl
  have key := fence_counter_monotonic (fun _ => 0) 0 _ _ a b c hrun hb hrun2
  exact ⟨a, b, c, d, hrun, hb, hrun2, hd, key.1, (key.2.2.2.2.2.2 d hd).1,
    (key.2.2.2.2.2.2 d hd).2⟩

theorem copied_iff (n s : Nat) (hs : s < 3) :
    copied n s = true ↔ (3 ≤ n ∨ (1 ≤ s ∧ s ≤ n)) := by
  unfold copied
  rcases n with _ | _ | _ | n
  · interval_cases s <;> simp
  · interval_cases s <;> simp [List.range']
  · interval_cases s <;> simp [List.range']
  · have : min (n + 1 + 1 + 1) 3 = 3 := by omega
    rw [this]
    interval_cases s <;> simp [List.range']

theorem copied_next (n : Nat) : copied (n + 1) ((n + 1) % 3) = true := by
  rw [copied_iff _ _ (Nat.mod_lt _ (by decide))]
  omega

theorem copied_before (n : Nat) (h : n < 3) : copied n ((n + 1) % 3) = false := by
  rw [← Bool.not_eq_true, copied_iff _ _ (Nat.mod_lt _ (by decide))]
  omega

theorem copied_late (n s : Nat) (h : 3 ≤ n) (hs : s < 3) : copied n s = true := by
  rw [copied_iff _ _ hs]
  exact Or.inl h

theorem copied_other (n s : Nat) (hs : s < 3) (hne : s ≠ (n + 1) % 3) :
    copied (n + 1) s = copied n s := by
  rw [Bool.eq_iff_iff, copied_iff _ _ hs, copied_iff _ _ hs]
  omega

theorem lookup_set {α : Type} {l : List α} {k s : Nat} {y z : α}
    (h : (l.set k y)[s]? = some z) :
    (s = k ∧ z = y) ∨ (s ≠ k ∧ l[s]? = some z) := by
  by_cases hsk : s = k
  · subst hsk
    have hlt : s < l.length := by
      have := lookup_lt h
      rwa [List.length_set] at this
    rw [getElem?_set_same _ _ _ hlt] at h
    exact Or.inl ⟨rfl, (Option.some.inj h).symm⟩
  · rw [List.getElem?_set_ne (fun h2 => hsk h2.symm)] at h
    exact Or.inr ⟨hsk, h⟩

theorem afterCopy_world (e : RenderItem) : e.afterCopy.World = e.World :=
  congrArg (fun p => p.1) (afterCopy_fixed e)

theorem afterCopy_count (e : RenderItem) :
    e.afterCopy.NumFramesDirty =
      if 0 < e.NumFramesDirty then e.NumFramesDirty - 1 else e.NumFramesDirty := by
  unfold RenderItem.afterCopy
  by_cases h : 0 < e.NumFramesDirty
  · rw [if_pos h, if_pos h]
  · rw [if_neg h, if_neg h]

theorem count_afterCopy (mat : MaterialData) :
    mat.afterCopy.NumFramesDirty =
      if 0 < mat.NumFramesDirty then mat.NumFramesDirty - 1 else mat.NumFramesDirty := by
  unfold MaterialData.afterCopy
  by_cases h : 0 < mat.NumFramesDirty
  · rw [if_pos h, if_pos h]
  · rw [if_neg h, if_neg h]

theorem Synced.init (rng : Nat → Nat) (fence0 : Nat) : Synced 0 (Initialize rng fence0) := by
  rw [Initialize_eq]
  refine ⟨rfl, ?_, ?_, ?_, ?_⟩
  · intro e he
    rw [Build_fresh rng e he]; rfl
  · intro k mat hk _
    obtain rfl := Option.some.inj hk
    rfl
  · intro mat hk
    obtain rfl := Option.some.inj hk
    rfl
  · intro s fr hfr
    have hmem := List.mem_iff_getElem?.mpr ⟨s, hfr⟩
    simp only [List.mem_cons, List.mem_singleton, List.not_mem_nil, or_false, or_self] at hmem
    subst hmem
    refine ⟨fun i e _ => ⟨rfl, rfl⟩, fun k mat _ _ => ⟨rfl, rfl⟩, ?_⟩
    intro mat _ h0
    exact absurd h0 (by decide)

theorem Synced.draw {n : Nat} {a c : App} (hs : Synced n a) (h : Draw a = some c) :
    Synced n c := by
  obtain ⟨k, fr, hk, hfr, rfl⟩ := Draw_some a c h
  obtain ⟨s1, s2, s3, s4, s5⟩ := hs
  refine ⟨s1, s2, s3, s4, ?_⟩
  intro s fr2 hfr2
  rcases lookup_set hfr2 with ⟨rfl, rfl⟩ | ⟨_, hold⟩
  · exact s5 s fr hfr
  · exact s5 s fr2 hold

theorem Synced.update {n : Nat} {inp : Input} {a c : App} (ha : Ready a) (hs : Synced n a)
    (h : Update inp a = some c) : Synced (n + 1) c := by
  obtain ⟨cv, fr, w, ocb, mcb, hget, hw, _, _, _, hcnt, o1, o2, o3, m1, m2, m3, _, _, _, hupd⟩ :=
    Update_eq inp a ha
  rw [hupd] at h
  obtain rfl := Option.some.inj h
  obtain ⟨s1, s2, s3, s4, s5⟩ := hs
  have hk : (a.mCurrFrameResourceIndex + 1) % 3 = (n + 1) % 3 := by rw [s1]; omega
  have hk3 : (n + 1) % 3 < 3 := Nat.mod_lt _ (by decide)
  obtain ⟨f1, f2, f3⟩ := s5 _ fr hget
  have hitem : ∀ (i : Nat) (e : RenderItem),
      (a.mAllRitems.map RenderItem.afterCopy)[i]? = some e →
      ∃ e0, a.mAllRitems[i]? = some e0 ∧ e0.afterCopy = e := by
    intro i e he
    rw [List.getElem?_map] at he
    exact Option.map_eq_some'.mp he
  have hmat : ∀ (k : Material) (mat : MaterialData), k ≠ Material.water →
      Option.map MaterialData.afterCopy
        (if k = Material.water then some (w.animate inp.dt) else a.mMaterials k) = some mat →
      ∃ m0, a.mMaterials k = some m0 ∧ m0.afterCopy = mat := by
    intro k mat hne hkm
    rw [if_neg hne] at hkm
    exact Option.map_eq_some'.mp hkm
  have hwat : ∀ (mat : MaterialData),
      Option.map MaterialData.afterCopy
        (if Material.water = Material.water then some (w.animate inp.dt)
          else a.mMaterials Material.water) = some mat →
      (w.animate inp.dt).afterCopy = mat := by
    intro mat hkm
    rw [if_pos rfl] at hkm
    exact Option.some.inj hkm
  refine ⟨hk, ?_, ?_, ?_, ?_⟩
  · intro e he
    obtain ⟨e0, he0, rfl⟩ := List.mem_map.mp he
    rw [afterCopy_count, s2 e0 he0]
    split <;> omega
  · intro k mat hkm hne
    obtain ⟨m0, hm0, rfl⟩ := hmat k mat hne hkm
    rw [count_afterCopy, s3 k m0 hm0 hne]
    split <;> omega
  · intro mat hkm
    obtain rfl := hwat mat hkm
    rw [count_afterCopy]
    simp [MaterialData.animate]
  · intro s fr2 hfr2
    rcases lookup_set hfr2 with ⟨rfl, rfl⟩ | ⟨hsne, hold⟩
    · refine ⟨?_, ?_, ?_⟩
      · intro i e he
        obtain ⟨e0, he0, rfl⟩ := hitem i e he
        obtain ⟨d1, d2⟩ := o2 i e0 he0
        obtain ⟨g1, g2⟩ := f1 i e0 he0
        have hN := s2 e0 (List.mem_iff_getElem?.mpr ⟨i, he0⟩)
        show ocb.data i = _ ∧ ocb.writes i = _
        rw [d1, d2, g1, g2, hk, copied_next, afterCopy_world]
        by_cases hd : 0 < e0.NumFramesDirty
        · have hn3 : n < 3 := by omega
          rw [if_pos hd, if_pos hd, copied_before n hn3]
          simp
        · have hn3 : 3 ≤ n := by omega
          rw [if_neg hd, if_neg hd, copied_late n _ hn3 hk3]
          simp
      · intro k mat hkm hne
        obtain ⟨m0, hm0, rfl⟩ := hmat k mat hne hkm
        obtain ⟨d1, d2⟩ := m2 k m0 (by rw [if_neg hne]; exact hm0)
        obtain ⟨g1, g2⟩ := f2 k m0 hm0 hne
        have hN := s3 k m0 hm0 hne
        show mcb.data k.slot = _ ∧ mcb.writes k.slot = _
        rw [d1, d2, g1, g2, hk, copied_next, constants_afterCopy]
        by_cases hd : 0 < m0.NumFramesDirty
        · have hn3 : n < 3 := by omega
          rw [if_pos hd, if_pos hd, copied_before n hn3]
          simp
        · have hn3 : 3 ≤ n := by omega
          rw [if_neg hd, if_neg hd, copied_late n _ hn3 hk3]
          simp
      · intro mat hkm _ _
        obtain rfl := hwat mat hkm
        obtain ⟨d1, _⟩ := m2 Material.water (w.animate inp.dt) (if_pos rfl)
        show mcb.data Material.water.slot = _
        rw [d1, constants_afterCopy]
        simp [MaterialData.animate]
    · have hs3 : s < 3 := by
        have := lookup_lt hold
        rwa [ha.1] at this
      obtain ⟨g1, g2, _⟩ := s5 s fr2 hold
      have hc := copied_other n s hs3 (by rw [← hk]; exact hsne)
      refine ⟨?_, ?_, ?_⟩
      · intro i e he
        obtain ⟨e0, he0, rfl⟩ := hitem i e he
        rw [hc, afterCopy_world]
        exact g1 i e0 he0
      · intro k mat hkm hne
        obtain ⟨m0, hm0, rfl⟩ := hmat k mat hne hkm
        rw [hc, constants_afterCopy]
        exact g2 k m0 hm0 hne
      · intro mat _ _ hsn
        exact absurd hsn (by rw [← hk]; exact hsne)

/-- After every sequence of calls from `Initialize`, the countdowns and the records of the
upload buffers are those of `Synced` for the number of calls of `Update`. -/
theorem run_synced (rng : Nat → Nat) (fence0 : Nat) (evs : List Event) (a : App)
    (h : run evs (Initialize rng fence0) = some a) : Synced (updates evs) a := by
  have := run_induct Synced (fun _ _ _ _ hx hp hu => Synced.update hx hp hu)
    (fun _ _ _ _ hp hd => Synced.draw hp hd) evs 0 _ a (Initialize_ready rng fence0)
    (Synced.init rng fence0) h
  rwa [Nat.zero_add] at this

/-- C22: in every state reached from `Initialize` by calls of `Update` and `Draw`, the
countdown `NumFramesDirty` of every render item is between 0 and 3.  The next call of `Update`
returns; it reaches `UpdateObjectCBs` with the same items, and `UpdateObjectCBs` leaves every
item with its fixed part and a countdown between 0 and 3: an item whose countdown is positive
is copied (its record in the object buffer of the current frame resource is its `World`,
written once more) and its countdown is one less; an item whose countdown is not positive is
not copied (its record is as before, written as often as before) and is unchanged.  The items
that `Update` leaves are those that `UpdateObjectCBs` leaves. -/
theorem dirty_countdown_bounded (rng : Nat → Nat) (fence0 : Nat) (evs : List Event) (a : App)
    (h : run evs (Initialize rng fence0) = some a) (inp : Input) :
    (∀ e ∈ a.mAllRitems, 0 ≤ e.NumFramesDirty ∧ e.NumFramesDirty ≤ 3) ∧
    ∃ (b b1 b2 c : App) (k : Nat) (fr1 fr2 : FrameResource),
      acquireFrameResource inp a = some b ∧
      AnimateMaterials inp b = some b1 ∧ UpdateObjectCBs b1 = some b2 ∧
      Update inp a = some c ∧
      b1.mAllRitems = a.mAllRitems ∧ c.mAllRitems = b2.mAllRitems ∧
      b1.mCurrFrameResource = some k ∧ b2.mCurrFrameResource = some k ∧
      b1.mFrameResources[k]? = some fr1 ∧ b2.mFrameResources[k]? = some fr2 ∧
      b2.mAllRitems.length = b1.mAllRitems.length ∧
      ∀ (i : Nat) (e : RenderItem), b1.mAllRitems[i]? = some e →
        ∃ e2 : RenderItem, b2.mAllRitems[i]? = some e2 ∧
        0 ≤ e2.NumFramesDirty ∧ e2.NumFramesDirty ≤ 3 ∧ e2.fixed = e.fixed ∧
        (0 < e.NumFramesDirty →
          e2.NumFramesDirty = e.NumFramesDirty - 1 ∧
          fr2.ObjectCB.data e.ObjCBIndex = some e.World ∧
          fr2.ObjectCB.writes e.ObjCBIndex = fr1.ObjectCB.writes e.ObjCBIndex + 1) ∧
        (¬ 0 < e.NumFramesDirty →
          e2 = e ∧
          fr2.ObjectCB.data e.ObjCBIndex = fr1.ObjectCB.data e.ObjCBIndex ∧
          fr2.ObjectCB.writes e.ObjCBIndex = fr1.ObjectCB.writes e.ObjCBIndex) := by
  obtain ⟨hra, _⟩ := run_spec evs _ a (Initialize_ready rng fence0) h
  obtain ⟨_, s2, _⟩ := run_synced rng fence0 evs a h
  have hb : ∀ e ∈ a.mAllRitems, 0 ≤ e.NumFramesDirty ∧ e.NumFramesDirty ≤ 3 := by
    intro e he
    rw [s2 e he]
    omega
  obtain ⟨cv, fr, w, ocb, mcb, hget, _, _, _, _, _, _, o2, _, _, _, _, hacq, hanim, hobj, hupd⟩ :=
    Update_eq inp a hra
  have hlt : (a.mCurrFrameResourceIndex + 1) % 3 < a.mFrameResources.length := lookup_lt hget
  refine ⟨hb, _, _, _, _, (a.mCurrFrameResourceIndex + 1) % 3, fr, { fr with ObjectCB := ocb },
    hacq, hanim, hobj, hupd, rfl, rfl, rfl, rfl, hget, getElem?_set_same _ _ _ hlt,
    List.length_map _ _, ?_⟩
  intro i e he0
  have he : a.mAllRitems[i]? = some e := he0
  have hi := dense_index hra.2.2.2.2.2.2.2.2.1 he
  obtain ⟨d1, d2⟩ := o2 i e he
  obtain ⟨h0, h3⟩ := hb e (List.mem_iff_getElem?.mpr ⟨i, he⟩)
  refine ⟨e.afterCopy, ?_, ?_, ?_, afterCopy_fixed e, ?_, ?_⟩
  · show (a.mAllRitems.map RenderItem.afterCopy)[i]? = _
    rw [List.getElem?_map, he]; rfl
  · rw [afterCopy_count]; split <;> omega
  · rw [afterCopy_count]; split <;> omega
  · intro hd
    rw [afterCopy_count, if_pos hd, hi]
    show _ ∧ ocb.data i = _ ∧ ocb.writes i = _
    rw [d1, d2, if_pos hd, if_pos hd]
    exact ⟨rfl, rfl, rfl⟩
  · intro hd
    rw [hi]
    show _ ∧ ocb.data i = _ ∧ ocb.writes i = _
    rw [d1, d2, if_neg hd, if_neg hd]
    refine ⟨?_, rfl, rfl⟩
    unfold RenderItem.afterCopy
    rw [if_neg hd]

/-- Witness of C22: the state that `Initialize` leaves under the stream of draws that is
constantly 0, and the first call of `Update`, with no key down. -/
theorem dirty_countdown_bounded_witness :
    run [] (Initialize (fun _ => 0) 0) = some (Initialize (fun _ => 0) 0) ∧
    (∀ e ∈ (Initialize (fun _ => 0) 0).mAllRitems,
      0 ≤ e.NumFramesDirty ∧ e.NumFramesDirty ≤ 3) ∧
    ∃ c, Update { key1 := false, key2 := false, key3 := false, gpu := 0 }
      (Initialize (fun _ => 0) 0) = some c := by
  have key := dirty_countdown_bounded (fun _ => 0) 0 [] _ rfl
    { key1 := false, key2 := false, key3 := false, gpu := 0 }
  obtain ⟨h1, _, _, _, c, _, _, _, _, _, _, hc, _⟩ := key
  exact ⟨rfl, h1, c, hc⟩

/-- C23: in every state reached from `Initialize` by calls of `Update` and `Draw`, `n` of
them calls of `Update`, `mMaterials` holds the ten materials; the countdown of every material
but water, which are never changed after their creation, is `max 0 (3 - n)`; the countdown of
the water material is 2 once `Update` has been called.  The next call of `Update` returns;
it takes the countdown `d` of a material but water to `max 0 (d - 1)` and leaves its
constants, and it leaves the water material, which `AnimateMaterials` changes in it, with the
countdown 2. -/
theorem material_countdown (rng : Nat → Nat) (fence0 : Nat) (evs : List Event) (a : App)
    (h : run evs (Initialize rng fence0) = some a) :
    (∀ k, ∃ mat, a.mMaterials k = some mat) ∧
    (∀ k mat, a.mMaterials k = some mat → k ≠ Material.water →
      mat.NumFramesDirty = max 0 (3 - (updates evs : Int))) ∧
    (∀ mat, a.mMaterials Material.water = some mat →
      (updates evs = 0 → mat.NumFramesDirty = 3) ∧
      (0 < updates evs → mat.NumFramesDirty = 2)) ∧
    (∀ inp, ∃ c, Update inp a = some c ∧
      ∀ (k : Material) (mat : MaterialData), a.mMaterials k = some mat →
        ∃ mat2 : MaterialData, c.mMaterials k = some mat2 ∧
        (k ≠ Material.water →
          mat2.NumFramesDirty = max 0 (mat.NumFramesDirty - 1) ∧
          mat2.constants = mat.constants) ∧
        (k = Material.water → mat2.NumFramesDirty = 2)) := by
  obtain ⟨hra, _⟩ := run_spec evs _ a (Initialize_ready rng fence0) h
  obtain ⟨_, _, s3, s4, _⟩ := run_synced rng fence0 evs a h
  have hall : ∀ k, ∃ mat, a.mMaterials k = some mat := by
    intro k
    have := hra.2.2.2.2.2.2.2.2.2 k
    unfold App.matIndex at this
    cases hm : a.mMaterials k with
    | none => rw [hm] at this; cases this
    | some mat => exact ⟨mat, rfl⟩
  refine ⟨hall, ?_, ?_, ?_⟩
  · intro k mat hk hne
    rw [s3 k mat hk hne]
    omega
  · intro mat hk
    have := s4 mat hk
    constructor
    · intro h0; rw [this, if_pos h0]
    · intro h0; rw [this, if_neg (by omega)]
  · intro inp
    obtain ⟨cv, fr, w, ocb, mcb, _, hw, _, _, _, _, _, _, _, _, _, _, _, _, _, hupd⟩ :=
      Update_eq inp a hra
    refine ⟨_, hupd, ?_⟩
    intro k mat hk
    by_cases hkw : k = Material.water
    · subst hkw
      refine ⟨(w.animate inp.dt).afterCopy, ?_, fun hne => absurd rfl hne, fun _ => ?_⟩
      · show Option.map MaterialData.afterCopy
            (if Material.water = Material.water then some (w.animate inp.dt)
              else a.mMaterials Material.water) = _
        rw [if_pos rfl]; rfl
      · rw [count_afterCopy]
        simp [MaterialData.animate]
    · refine ⟨mat.afterCopy, ?_, fun _ => ⟨?_, constants_afterCopy mat⟩, fun hc => absurd hc hkw⟩
      · show Option.map MaterialData.afterCopy
            (if k = Material.water then some (w.animate inp.dt) else a.mMaterials k) = _
        rw [if_neg hkw, hk]; rfl
      · have := s3 k mat hk hkw
        rw [count_afterCopy]
        split <;> omega

/-- Witness of C23: the state that `Initialize` leaves under the stream of draws that is
constantly 0: the countdown of the dirt material is 3, and after the first call of `Update`
it is 2, as is that of the water material. -/
theorem material_countdown_witness :
    run [] (Initialize (fun _ => 0) 0) = some (Initialize (fun _ => 0) 0) ∧
    (∃ mat, (Initialize (fun _ => 0) 0).mMaterials Material.dirt = some mat ∧
      mat.NumFramesDirty = 3) ∧
    ∃ (c : App) (mat2 mat3 : MaterialData), Update { key1 := false, key2 := false, key3 := false, gpu := 0 }
        (Initialize (fun _ => 0) 0) = some c ∧
      c.mMaterials Material.dirt = some mat2 ∧ mat2.NumFramesDirty = 2 ∧
      c.mMaterials Material.water = some mat3 ∧ mat3.NumFramesDirty = 2 := by
  have key := material_countdown (fun _ => 0) 0 [] _ rfl
  obtain ⟨k1, k2, _, k4⟩ := key
  obtain ⟨mat, hmat⟩ := k1 Material.dirt
  obtain ⟨w, hw⟩ := k1 Material.water
  have hN := k2 Material.dirt mat hmat (by decide)
  obtain ⟨c, hc, hstep⟩ := k4 { key1 := false, key2 := false, key3 := false, gpu := 0 }
  obtain ⟨mat2, hm2, hd2, _⟩ := hstep Material.dirt mat hmat
  obtain ⟨mat3, hm3, _, hd3⟩ := hstep Material.water w hw
  have h3 : mat.NumFramesDirty = 3 := by
    rw [hN]; rfl
  refine ⟨rfl, ⟨mat, hmat, h3⟩, c, mat2, mat3, hc, hm2, ?_, hm3, hd3 rfl⟩
  rw [(hd2 (by decide)).1, h3]; rfl

theorem copied_spec (n s : Nat) (hs : s < 3) :
    copied n s = true ↔ ∃ m, 1 ≤ m ∧ m ≤ n ∧ m ≤ 3 ∧ m % 3 = s := by
  rw [copied_iff n s hs]
  constructor
  · rintro (h | ⟨h1, h2⟩)
    · by_cases h0 : s = 0
      · exact ⟨3, by omega, h, le_refl _, by omega⟩
      · exact ⟨s, by omega, by omega, by omega, by omega⟩
    · exact ⟨s, h1, h2, by omega, by omega⟩
  · rintro ⟨m, h1, h2, h3, h4⟩
    omega

/-- C24: in every state reached from `Initialize` by calls of `Update` and `Draw`, `n` of
them calls of `Update`: a render item, whose countdown `Initialize` leaves at 3 and which is
never changed, has its object index as its fixed index, the countdown `max 0 (3 - n)`, and in
each of the 3 frame resources its record is its `World`, written exactly once, when the frame
resource is one that the first `min n 3` calls of `Update` copied into (the `m`-th call copies
into the slot `m % 3`), and is unwritten otherwise; so the first three calls copy it into the
slots 1, 2 and 0, each once, and no later call copies it.  The same holds of every material
but water, with its constants.  Once `Update` has been called, the current frame resource
holds, for every render item and for every material, water too, the current constants of the
entity at its fixed index, and `Draw` returns. -/
theorem change_reaches_all_slots (rng : Nat → Nat) (fence0 : Nat) (evs : List Event) (a : App)
    (h : run evs (Initialize rng fence0) = some a) :
    a.mFrameResources.length = 3 ∧
    (∀ (i : Nat) (e : RenderItem), a.mAllRitems[i]? = some e →
      e.ObjCBIndex = i ∧ e.NumFramesDirty = max 0 (3 - (updates evs : Int)) ∧
      ∀ (s : Nat) (fr : FrameResource), a.mFrameResources[s]? = some fr →
        fr.ObjectCB.data e.ObjCBIndex =
          (if copied (updates evs) s then some e.World else none) ∧
        fr.ObjectCB.writes e.ObjCBIndex = (if copied (updates evs) s then 1 else 0)) ∧
    (∀ (k : Material) (mat : MaterialData), a.mMaterials k = some mat →
      mat.MatCBIndex = k.slot ∧
      (k ≠ Material.water →
        mat.NumFramesDirty = max 0 (3 - (updates evs : Int)) ∧
        ∀ (s : Nat) (fr : FrameResource), a.mFrameResources[s]? = some fr →
          fr.MaterialCB.data mat.MatCBIndex =
            (if copied (updates evs) s then some mat.constants else none) ∧
          fr.MaterialCB.writes mat.MatCBIndex = (if copied (updates evs) s then 1 else 0))) ∧
    (∀ s, s < 3 →
      (copied (updates evs) s = true ↔ ∃ m, 1 ≤ m ∧ m ≤ updates evs ∧ m ≤ 3 ∧ m % 3 = s)) ∧
    (0 < updates evs → ∃ (k : Nat) (fr : FrameResource),
      a.mCurrFrameResource = some k ∧ k = updates evs % 3 ∧
      a.mFrameResources[k]? = some fr ∧
      (∀ e ∈ a.mAllRitems, fr.ObjectCB.data e.ObjCBIndex = some e.World) ∧
      (∀ (j : Material) (mat : MaterialData), a.mMaterials j = some mat →
        fr.MaterialCB.data mat.MatCBIndex = some mat.constants) ∧
      ∃ d, Draw a = some d) := by
  obtain ⟨hra, _, _, hcur, _⟩ := run_spec evs _ a (Initialize_ready rng fence0) h
  obtain ⟨s1, s2, s3, s4, s5⟩ := run_synced rng fence0 evs a h
  have hdense := hra.2.2.2.2.2.2.2.2.1
  have hslot : ∀ (k : Material) (mat : MaterialData), a.mMaterials k = some mat →
      mat.MatCBIndex = k.slot := by
    intro k mat hk
    have := hra.2.2.2.2.2.2.2.2.2 k
    unfold App.matIndex at this
    rw [hk] at this
    exact Option.some.inj this
  refine ⟨hra.1, ?_, ?_, fun s hs => copied_spec _ s hs, ?_⟩
  · intro i e he
    have hi := dense_index hdense he
    refine ⟨hi, ?_, ?_⟩
    · rw [s2 e (List.mem_iff_getElem?.mpr ⟨i, he⟩)]; omega
    · intro s fr hfr
      rw [hi]
      exact (s5 s fr hfr).1 i e he
  · intro k mat hk
    refine ⟨hslot k mat hk, fun hne => ⟨?_, ?_⟩⟩
    · rw [s3 k mat hk hne]; omega
    · intro s fr hfr
      rw [hslot k mat hk]
      exact (s5 s fr hfr).2.1 k mat hk hne
  · intro hu
    have hc := hcur hu
    rw [s1] at hc
    have hlt : updates evs % 3 < a.mFrameResources.length := by
      rw [hra.1]; exact Nat.mod_lt _ (by decide)
    have hget : a.mFrameResources[updates evs % 3]? =
        some (a.mFrameResources[updates evs % 3]) := List.getElem?_eq_getElem hlt
    obtain ⟨g1, g2, g3⟩ := s5 _ _ hget
    have hcp : copied (updates evs) (updates evs % 3) = true := by
      rw [copied_iff _ _ (Nat.mod_lt _ (by decide))]
      omega
    refine ⟨_, _, hc, rfl, hget, ?_, ?_, Draw_ok a hra _ hc⟩
    · intro e he
      obtain ⟨i, hi⟩ := List.mem_iff_getElem?.mp he
      rw [dense_index hdense hi, (g1 i e hi).1, hcp]
      rfl
    · intro j mat hj
      rw [hslot j mat hj]
      by_cases hjw : j = Material.water
      · subst hjw
        exact g3 mat hj hu rfl
      · rw [(g2 j mat hj hjw).1, hcp]
        rfl

/-- Witness of C24: after `Initialize` under the stream of draws that is constantly 0 and
three frames with no key down, every one of the three frame resources holds the record of
every render item, written exactly once. -/
theorem change_reaches_all_slots_witness :
    ∃ a, run (frames [{ key1 := false, key2 := false, key3 := false, gpu := 0 },
          { key1 := false, key2 := false, key3 := false, gpu := 0 },
          { key1 := false, key2 := false, key3 := false, gpu := 0 }])
        (Initialize (fun _ => 0) 0) = some a ∧
      a.mFrameResources.length = 3 ∧
      ∀ (i : Nat) (e : RenderItem), a.mAllRitems[i]? = some e →
        e.NumFramesDirty = 0 ∧
        ∀ (s : Nat) (fr : FrameResource), a.mFrameResources[s]? = some fr →
          fr.ObjectCB.data e.ObjCBIndex = some e.World ∧
          fr.ObjectCB.writes e.ObjCBIndex = 1 := by
  obtain ⟨a, ha⟩ := frames_total [{ key1 := false, key2 := false, key3 := false, gpu := 0 },
      { key1 := false, key2 := false, key3 := false, gpu := 0 },
      { key1 := false, key2 := false, key3 := false, gpu := 0 }] _
    (Initialize_ready (fun _ => 0) 0)
  have key := change_reaches_all_slots (fun _ => 0) 0 _ a ha
  have hu : updates (frames [({ key1 := false, key2 := false, key3 := false, gpu := 0 } : Input),
      { key1 := false, key2 := false, key3 := false, gpu := 0 },
      { key1 := false, key2 := false, key3 := false, gpu := 0 }]) = 3 := rfl
  rw [hu] at key
  obtain ⟨k0, k1, _⟩ := key
  refine ⟨a, ha, k0, ?_⟩
  intro i e he
  obtain ⟨_, hN, hs⟩ := k1 i e he
  refine ⟨by rw [hN]; rfl, ?_⟩
  intro s fr hfr
  have hs3 : s < 3 := by
    have := lookup_lt hfr
    rwa [k0] at this
  have := hs s fr hfr
  rw [copied_late 3 s (le_refl _) hs3] at this
  exact this

/-! ## The claims on the sizes of the buffers and on the addresses of the records -/

theorem materialCount_ten (a : App) (h : ∀ k, ∃ mat, a.mMaterials k = some mat) :
    a.materialCount = 10 := by
  have hs : ∀ k, (a.mMaterials k).isSome = true := by
    intro k
    obtain ⟨mat, hm⟩ := h k
    rw [hm]; rfl
  unfold App.materialCount Material.all
  simp [hs]

theorem ready_materials {a : App} (ha : Ready a) (k : Material) :
    ∃ mat, a.mMaterials k = some mat ∧ mat.MatCBIndex = k.slot := by
  have := ha.2.2.2.2.2.2.2.2.2 k
  unfold App.matIndex at this
  cases hm : a.mMaterials k with
  | none => rw [hm] at this; cases this
  | some mat =>
    rw [hm] at this
    exact ⟨mat, rfl, Option.some.inj this⟩

theorem ready_counts {a : App} (ha : Ready a) {fr : FrameResource}
    (hfr : fr ∈ a.mFrameResources) :
    fr.PassCB.count = 1 ∧ fr.ObjectCB.count = a.mAllRitems.length ∧ fr.MaterialCB.count = 10 := by
  have := ha.2.2.2.2.2.2.2.1 fr hfr
  unfold FrameResource.counts at this
  simp only [Prod.mk.injEq] at this
  exact this

theorem run_length (rng : Nat → Nat) (fence0 : Nat) (evs : List Event) (a : App)
    (h : run evs (Initialize rng fence0) = some a) :
    a.mAllRitems.length = (BuildRenderItems rng).mAllRitems.length := by
  obtain ⟨_, _, hits, _⟩ := run_spec evs _ a (Initialize_ready rng fence0) h
  have := congrArg List.length hits
  rw [List.length_map, List.length_map] at this
  rw [this, Initialize_eq]

/-- C29: `Initialize` runs `BuildMaterials` and `BuildRenderItems` before
`BuildFrameResources`, and in every state reached from it by calls of `Update` and `Draw`:
there are 10 materials and between 90000 and 100960 render items, as many as the generation
pass created; every frame resource has one pass record, as many object records as there are
render items and as many material records as there are materials; the object index of every
render item is below the number of object records and the slot index of every material is
below 10, the number of material records; and the next call of `Update`, which has no result
when a write falls outside a buffer, returns. -/
theorem buffer_writes_in_range (rng : Nat → Nat) (fence0 : Nat) (evs : List Event) (a : App)
    (h : run evs (Initialize rng fence0) = some a) :
    Initialize rng fence0 =
      BuildFrameResources
        ((BuildMaterials { mCurrentFence := fence0, completed := fence0 }).BuildRenderItems rng) ∧
    a.materialCount = 10 ∧
    a.mAllRitems.length = (BuildRenderItems rng).mAllRitems.length ∧
    90000 ≤ a.mAllRitems.length ∧ a.mAllRitems.length ≤ 100960 ∧
    (∀ fr ∈ a.mFrameResources,
      fr.PassCB.count = 1 ∧ fr.ObjectCB.count = a.mAllRitems.length ∧
      fr.MaterialCB.count = a.materialCount ∧
      (∀ e ∈ a.mAllRitems, e.ObjCBIndex < fr.ObjectCB.count) ∧
      (∀ (k : Material) (mat : MaterialData), a.mMaterials k = some mat →
        mat.MatCBIndex < fr.MaterialCB.count ∧ mat.MatCBIndex < 10)) ∧
    (∀ inp, ∃ c, Update inp a = some c) := by
  obtain ⟨hra, _⟩ := run_spec evs _ a (Initialize_ready rng fence0) h
  have hlen := run_length rng fence0 evs a h
  have hmc := materialCount_ten a (fun k => (ready_materials hra k).imp (fun _ hm => hm.1))
  obtain ⟨_, _, c3, c4⟩ := Build_count rng
  refine ⟨rfl, hmc, hlen, by rw [hlen]; exact c3, by rw [hlen]; exact c4, ?_, ?_⟩
  · intro fr hfr
    obtain ⟨p1, p2, p3⟩ := ready_counts hra hfr
    refine ⟨p1, p2, by rw [p3, hmc], ?_, ?_⟩
    · intro e he
      rw [p2]
      exact dense_lt hra.2.2.2.2.2.2.2.2.1 he
    · intro k mat hk
      obtain ⟨m2, hm2, hslot⟩ := ready_materials hra k
      rw [hk] at hm2
      obtain rfl := Option.some.inj hm2
      rw [p3, hslot]
      exact ⟨slot_lt k, slot_lt k⟩
  · intro inp
    obtain ⟨_, c, _, _, _, hupd, _⟩ := Update_spec inp a hra
    exact ⟨c, hupd⟩

/-- Witness of C29: the state that `Initialize` leaves under the stream of draws that is
constantly 0. -/
theorem buffer_writes_in_range_witness :
    run [] (Initialize (fun _ => 0) 0) = some (Initialize (fun _ => 0) 0) ∧
    (Initialize (fun _ => 0) 0).materialCount = 10 ∧
    90000 ≤ (Initialize (fun _ => 0) 0).mAllRitems.length ∧
    ∃ c, Update { key1 := false, key2 := false, key3 := false, gpu := 0 }
      (Initialize (fun _ => 0) 0) = some c :=
  ⟨rfl, (buffer_writes_in_range (fun _ => 0) 0 [] _ rfl).2.1,
    (buffer_writes_in_range (fun _ => 0) 0 [] _ rfl).2.2.2.1,
    (buffer_writes_in_range (fun _ => 0) 0 [] _ rfl).2.2.2.2.2.2 _⟩

theorem Calc_bounds (n : Nat) :
    CalcConstantBufferByteSize n % 256 = 0 ∧ CalcConstantBufferByteSize n + 256 ≤ 4294967296 := by
  unfold CalcConstantBufferByteSize
  omega

/-- C25: in every state reached from `Initialize` by calls of `Update` and `Draw`, with
object and material records of `sizeObject` and `sizeMaterial` bytes and buffers that lie
within 4 GiB and within the address space: the rounded size is a multiple of 256, the least
one that is not below the size (for a size that does not wrap around in 32 bits); rounding a
rounded size, or any multiple of 256, changes nothing; the address of a render item is the
address of the object buffer plus its object index times the rounded object size, that of its
material the address of the material buffer plus its slot index times the rounded material
size; and the addresses of two render items, and of two materials, are at least one rounded
record size apart. -/
theorem record_addresses (rng : Nat → Nat) (fence0 : Nat) (evs : List Event) (a : App)
    (h : run evs (Initialize rng fence0) = some a)
    (objectCB matCB sizeObject sizeMaterial : Nat)
    (ho32 : a.mAllRitems.length * CalcConstantBufferByteSize sizeObject < 4294967296)
    (ho64 : objectCB + a.mAllRitems.length * CalcConstantBufferByteSize sizeObject <
      18446744073709551616)
    (hm32 : 10 * CalcConstantBufferByteSize sizeMaterial < 4294967296)
    (hm64 : matCB + 10 * CalcConstantBufferByteSize sizeMaterial < 18446744073709551616) :
    (∀ n, CalcConstantBufferByteSize n % 256 = 0) ∧
    (∀ n, n + 255 < 4294967296 →
      n ≤ CalcConstantBufferByteSize n ∧ CalcConstantBufferByteSize n < n + 256) ∧
    (∀ n, CalcConstantBufferByteSize (CalcConstantBufferByteSize n) =
      CalcConstantBufferByteSize n) ∧
    (∀ n, n % 256 = 0 → n < 4294967296 → CalcConstantBufferByteSize n = n) ∧
    (∀ e ∈ a.mAllRitems,
      objCBAddress objectCB (CalcConstantBufferByteSize sizeObject) e =
        objectCB + e.ObjCBIndex * CalcConstantBufferByteSize sizeObject) ∧
    (∀ e ∈ a.mAllRitems, ∃ mat, a.mMaterials e.Mat = some mat ∧
      matCBAddress matCB (CalcConstantBufferByteSize sizeMaterial) mat =
        matCB + mat.MatCBIndex * CalcConstantBufferByteSize sizeMaterial) ∧
    (∀ (i j : Nat) (e1 e2 : RenderItem), a.mAllRitems[i]? = some e1 →
      a.mAllRitems[j]? = some e2 → i ≠ j →
      e1.ObjCBIndex ≠ e2.ObjCBIndex ∧
      (objCBAddress objectCB (CalcConstantBufferByteSize sizeObject) e1 +
          CalcConstantBufferByteSize sizeObject ≤
        objCBAddress objectCB (CalcConstantBufferByteSize sizeObject) e2 ∨
       objCBAddress objectCB (CalcConstantBufferByteSize sizeObject) e2 +
          CalcConstantBufferByteSize sizeObject ≤
        objCBAddress objectCB (CalcConstantBufferByteSize sizeObject) e1)) ∧
    (∀ (k j : Material) (m1 m2 : MaterialData), a.mMaterials k = some m1 →
      a.mMaterials j = some m2 → k ≠ j →
      m1.MatCBIndex ≠ m2.MatCBIndex ∧
      (matCBAddress matCB (CalcConstantBufferByteSize sizeMaterial) m1 +
          CalcConstantBufferByteSize sizeMaterial ≤
        matCBAddress matCB (CalcConstantBufferByteSize sizeMaterial) m2 ∨
       matCBAddress matCB (CalcConstantBufferByteSize sizeMaterial) m2 +
          CalcConstantBufferByteSize sizeMaterial ≤
        matCBAddress matCB (CalcConstantBufferByteSize sizeMaterial) m1)) := by
  obtain ⟨hra, _⟩ := run_spec evs _ a (Initialize_ready rng fence0) h
  have hdense := hra.2.2.2.2.2.2.2.2.1
  obtain ⟨hS1, hS2⟩ := Calc_bounds sizeObject
  obtain ⟨hM1, hM2⟩ := Calc_bounds sizeMaterial
  generalize CalcConstantBufferByteSize sizeObject = S at *
  generalize CalcConstantBufferByteSize sizeMaterial = M at *
  have hobj : ∀ e ∈ a.mAllRitems, objCBAddress objectCB S e = objectCB + e.ObjCBIndex * S := by
    intro e he
    have hlt := dense_lt hdense he
    have h1 : e.ObjCBIndex * S + S ≤ a.mAllRitems.length * S := by
      have := Nat.mul_le_mul_right S (Nat.succ_le_of_lt hlt)
      rw [Nat.succ_mul] at this
      exact this
    have hin : e.ObjCBIndex * S % 4294967296 = e.ObjCBIndex * S :=
      Nat.mod_eq_of_lt (by omega)
    unfold objCBAddress
    rw [hin]
    exact Nat.mod_eq_of_lt (by omega)
  have hmat : ∀ (k : Material) (mat : MaterialData), a.mMaterials k = some mat →
      mat.MatCBIndex = k.slot ∧ matCBAddress matCB M mat = matCB + mat.MatCBIndex * M := by
    intro k mat hk
    obtain ⟨m2, hm2, hslot⟩ := ready_materials hra k
    rw [hk] at hm2
    obtain rfl := Option.some.inj hm2
    have hlt := slot_lt k
    refine ⟨hslot, ?_⟩
    have h1 : mat.MatCBIndex * M + M ≤ 10 * M := by
      have := Nat.mul_le_mul_right M (Nat.succ_le_of_lt (hslot ▸ hlt))
      rw [Nat.succ_mul] at this
      exact this
    have hin : mat.MatCBIndex * M % 4294967296 = mat.MatCBIndex * M :=
      Nat.mod_eq_of_lt (by omega)
    unfold matCBAddress
    rw [hin]
    exact Nat.mod_eq_of_lt (by omega)
  refine ⟨fun n => (Calc_bounds n).1, ?_, ?_, ?_, hobj, ?_, ?_, ?_⟩
  · intro n hn
    unfold CalcConstantBufferByteSize
    omega
  · intro n
    unfold CalcConstantBufferByteSize
    omega
  · intro n h1 h2
    unfold CalcConstantBufferByteSize
    omega
  · intro e _
    obtain ⟨mat, hm, _⟩ := ready_materials hra e.Mat
    exact ⟨mat, hm, (hmat _ mat hm).2⟩
  · intro i j e1 e2 h1 h2 hij
    have i1 := dense_index hdense h1
    have i2 := dense_index hdense h2
    rw [hobj e1 (List.mem_iff_getElem?.mpr ⟨i, h1⟩), hobj e2 (List.mem_iff_getElem?.mpr ⟨j, h2⟩),
      i1, i2]
    refine ⟨hij, ?_⟩
    rcases Nat.lt_or_gt_of_ne hij with hlt | hlt
    · left
      have := Nat.mul_le_mul_right S (Nat.succ_le_of_lt hlt)
      rw [Nat.succ_mul] at this
      omega
    · right
      have := Nat.mul_le_mul_right S (Nat.succ_le_of_lt hlt)
      rw [Nat.succ_mul] at this
      omega
  · intro k j m1 m2 h1 h2 hkj
    obtain ⟨s1, a1⟩ := hmat k m1 h1
    obtain ⟨s2, a2⟩ := hmat j m2 h2
    have hne : m1.MatCBIndex ≠ m2.MatCBIndex := by
      rw [s1, s2]
      exact fun heq => hkj (slot_injective heq)
    rw [a1, a2]
    refine ⟨hne, ?_⟩
    rcases Nat.lt_or_gt_of_ne hne with hlt | hlt
    · left
      have := Nat.mul_le_mul_right M (Nat.succ_le_of_lt hlt)
      rw [Nat.succ_mul] at this
      omega
    · right
      have := Nat.mul_le_mul_right M (Nat.succ_le_of_lt hlt)
      rw [Nat.succ_mul] at this
      omega

/-- Witness of C25: the state that `Initialize` leaves under the stream of draws that is
constantly 0, with records of 128 and 96 bytes, the object buffer at the address 65536 and the
material buffer at the address 0: the rounded sizes are 256 and 256, and the render item with
the object index `i` is addressed at `65536 + i * 256`. -/
theorem record_addresses_witness :
    run [] (Initialize (fun _ => 0) 0) = some (Initialize (fun _ => 0) 0) ∧
    (Initialize (fun _ => 0) 0).mAllRitems.length * CalcConstantBufferByteSize 128 < 4294967296 ∧
    CalcConstantBufferByteSize 128 = 256 ∧ CalcConstantBufferByteSize 96 = 256 ∧
    CalcConstantBufferByteSize (CalcConstantBufferByteSize 128) = CalcConstantBufferByteSize 128 ∧
    ∀ e ∈ (Initialize (fun _ => 0) 0).mAllRitems,
      objCBAddress 65536 (CalcConstantBufferByteSize 128) e =
        65536 + e.ObjCBIndex * CalcConstantBufferByteSize 128 := by
  have hlen : (Initialize (fun _ => 0) 0).mAllRitems.length ≤ 100960 := by
    rw [run_length (fun _ => 0) 0 [] _ rfl]
    exact (Build_count (fun _ => 0)).2.2.2
  have h128 : CalcConstantBufferByteSize 128 = 256 := by decide
  have h96 : CalcConstantBufferByteSize 96 = 256 := by decide
  have ho32 : (Initialize (fun _ => 0) 0).mAllRitems.length * CalcConstantBufferByteSize 128 <
      4294967296 := by
    rw [h128]; omega
  have key := record_addresses (fun _ => 0) 0 [] _ rfl 65536 0 128 96 ho32
    (by rw [h128]; omega) (by rw [h96]; decide) (by rw [h96]; decide)
  exact ⟨rfl, ho32, h128, h96, key.2.2.1 128, key.2.2.2.2.1⟩

/-! ## The claims on the pass constants and on the sky colour -/

/-- No call after `Initialize` writes `mEyePos`: it is the origin in every state reached. -/
theorem run_eye (rng : Nat → Nat) (fence0 : Nat) (evs : List Event) (a : App)
    (h : run evs (Initialize rng fence0) = some a) : a.mEyePos = (0, 0, 0) := by
  refine run_induct (fun _ x => x.mEyePos = (0, 0, 0)) ?_ ?_ evs 0 _ a
    (Initialize_ready rng fence0) (by rw [Initialize_eq]) h
  · intro _ inp x c hx hp hupd
    obtain ⟨_, _, _, _, _, _, _, _, _, _, _, _, _, _, _, _, _, _, _, _, hupd2⟩ :=
      Update_eq inp x hx
    rw [hupd] at hupd2
    obtain rfl := Option.some.inj hupd2
    exact hp
  · intro _ x c _ hp hd
    obtain ⟨_, _, _, _, rfl⟩ := Draw_some x c hd
    exact hp

/-- In every state reached from `Initialize`, a call of `Update` returns with the eye
position of the pass constants at the origin, in `mMainPassCB` and in the record 0 of the pass
buffer of the current frame resource, while the position of the camera is the one that the
keys W, S, A and D have moved it to. -/
theorem eye_position_origin (rng : Nat → Nat) (fence0 : Nat) (evs : List Event) (a : App)
    (h : run evs (Initialize rng fence0) = some a) (inp : Input) :
    ∃ (c : App) (k : Nat) (fr : FrameResource), Update inp a = some c ∧
      c.mCurrFrameResource = some k ∧ c.mFrameResources[k]? = some fr ∧
      fr.PassCB.data 0 = some c.mMainPassCB ∧
      c.mMainPassCB.EyePosW = (0, 0, 0) ∧
      c.mCamera.mPosition = (OnKeyboardInput inp a).mCamera.mPosition := by
  obtain ⟨hra, _⟩ := run_spec evs _ a (Initialize_ready rng fence0) h
  have heye := run_eye rng fence0 evs a h
  obtain ⟨cv, fr, w, ocb, mcb, hget, _, _, _, _, _, _, _, _, _, _, _, _, _, _, hupd⟩ :=
    Update_eq inp a hra
  refine ⟨_, _, _, hupd, rfl, getElem?_set_same _ _ _ (lookup_lt hget), rfl, ?_, rfl⟩
  exact heye

/-- C26, evaluated at a failing input: after `Initialize`, in the frame of `walkInput` (a
tenth of a second, the key W down, `Camera::Walk` moving the camera along the z axis by the
distance it is given), `Update` leaves the camera at (0, 0, 1), and the eye position of the
pass constants that `UpdateMainPassCB` has built and copied to the current frame resource is
(0, 0, 0): it is `mEyePos`, which only `UpdateCamera` writes, and the call of `UpdateCamera`
is commented out (line 264). -/
theorem eye_position_stale :
    ∃ (c : App) (k : Nat) (fr : FrameResource),
      Update walkInput (Initialize (fun _ => 0) 0) = some c ∧
      c.mCurrFrameResource = some k ∧ c.mFrameResources[k]? = some fr ∧
      fr.PassCB.data 0 = some c.mMainPassCB ∧
      c.mCamera.mPosition = (0, 0, 1) ∧
      c.mMainPassCB.EyePosW = (0, 0, 0) ∧
      c.mMainPassCB.EyePosW ≠ c.mCamera.mPosition := by
  have hcam : ∀ (rng : Nat → Nat) (fence0 : Nat),
      (OnKeyboardInput walkInput (Initialize rng fence0)).mCamera.mPosition = (0, 0, 1) := by
    intro rng fence0
    rw [Initialize_eq]
    simp only [OnKeyboardInput, walkInput]
    norm_num
  obtain ⟨c, k, fr, h1, h2, h3, h4, h5, h6⟩ :=
    eye_position_origin (fun _ => 0) 0 [] _ rfl walkInput
  rw [hcam] at h6
  refine ⟨c, k, fr, h1, h2, h3, h4, h6, h5, ?_⟩
  rw [h5, h6]
  intro hcon
  have := congrArg (fun p : ℚ × ℚ × ℚ => p.2.2) hcon
  norm_num at this

theorem changeLightStrength_sky (c : DayCycle) :
    (changeLightStrength c).lightAngle = c.lightAngle ∧
    (changeLightStrength c).angleIncrease = c.angleIncrease ∧
    (changeLightStrength c).colourChange = c.colourChange ∧
    (changeLightStrength c).red = c.red ∧
    (changeLightStrength c).green = c.green ∧
    (changeLightStrength c).blue = c.blue := by
  unfold changeLightStrength changeSunStrength
  dsimp only
  split_ifs <;> exact ⟨rfl, rfl, rfl, rfl, rfl, rfl⟩

theorem advanceLightAngle_sky (c : DayCycle) :
    (advanceLightAngle c).lightAngle =
      (if c.lightAngle + c.angleIncrease ≥ 1 then -1 else c.lightAngle + c.angleIncrease) ∧
    (advanceLightAngle c).angleIncrease = c.angleIncrease ∧
    (advanceLightAngle c).colourChange = c.colourChange ∧
    (advanceLightAngle c).red = c.red ∧
    (advanceLightAngle c).green = c.green ∧
    (advanceLightAngle c).blue = c.blue := by
  unfold advanceLightAngle
  dsimp only
  split_ifs <;> exact ⟨rfl, rfl, rfl, rfl, rfl, rfl⟩

theorem backColourChange_dusk (c : DayCycle) (h1 : 0 ≤ c.lightAngle)
    (h2 : c.lightAngle < 1 / 2) :
    backColourChange c = { c with
      red := c.red,
      green := c.green - 203921557 / 1000000000 / c.colourChange,
      blue := c.blue - 454901934 / 1000000000 / c.colourChange } := by
  have n1 : ¬ (c.lightAngle ≥ -50 / 100 ∧ c.lightAngle < 0) := fun h => by linarith [h.2]
  have p2 : c.lightAngle ≥ 0 ∧ c.lightAngle < 50 / 100 := ⟨h1, by linarith⟩
  have n3 : ¬ (c.lightAngle ≥ 50 / 100 ∧ c.lightAngle < 1) := fun h => by linarith [h.1]
  have n4 : ¬ (c.lightAngle < -50 / 100) := by linarith
  unfold backColourChange
  simp only [n1, p2, n3, n4, if_true, if_false, and_self]

theorem backColourChange_night (c : DayCycle) (h1 : 1 / 2 ≤ c.lightAngle)
    (h2 : c.lightAngle < 1) :
    backColourChange c = { c with
      red := c.red,
      green := c.green - 545098066 / 1000000000 / c.colourChange,
      blue := c.blue - 545098066 / 1000000000 / c.colourChange } := by
  have n1 : ¬ (c.lightAngle ≥ -50 / 100 ∧ c.lightAngle < 0) := fun h => by linarith [h.2]
  have n2 : ¬ (c.lightAngle ≥ 0 ∧ c.lightAngle < 50 / 100) := fun h => by linarith [h.2]
  have p3 : c.lightAngle ≥ 50 / 100 ∧ c.lightAngle < 1 := ⟨by linarith, h2⟩
  have n4 : ¬ (c.lightAngle < -50 / 100) := by linarith
  unfold backColourChange
  simp only [n1, n2, p3, n4, if_true, if_false, and_self]

theorem backColourChange_dawn (c : DayCycle) (h1 : c.lightAngle < -1 / 2) :
    backColourChange c = { c with
      red := c.red + 980392218 / 1000000000 / c.colourChange,
      green := c.green + 980392218 / 1000000000 / c.colourChange,
      blue := c.blue + 823529482 / 1000000000 / c.colourChange } := by
  have n1 : ¬ (c.lightAngle ≥ -50 / 100 ∧ c.lightAngle < 0) := fun h => by linarith [h.1]
  have n2 : ¬ (c.lightAngle ≥ 0 ∧ c.lightAngle < 50 / 100) := fun h => by linarith [h.1]
  have n3 : ¬ (c.lightAngle ≥ 50 / 100 ∧ c.lightAngle < 1) := fun h => by linarith [h.1]
  have p4 : c.lightAngle < -50 / 100 := by linarith
  unfold backColourChange
  simp only [n1, n2, n3, p4, if_true, if_false, and_self]

theorem backColourChange_morning (c : DayCycle) (h1 : -1 / 2 ≤ c.lightAngle)
    (h2 : c.lightAngle < 0) :
    backColourChange c = { c with
      red := c.red - 98092218 / 100000000 / c.colourChange,
      green := c.green - 231372595 / 1000000000 / c.colourChange,
      blue := c.blue + 176470518 / 1000000000 / c.colourChange } := by
  have p1 : c.lightAngle ≥ -50 / 100 ∧ c.lightAngle < 0 := ⟨by linarith, h2⟩
  have n2 : ¬ (c.lightAngle ≥ 0 ∧ c.lightAngle < 50 / 100) := fun h => by linarith [h.1]
  have n3 : ¬ (c.lightAngle ≥ 50 / 100 ∧ c.lightAngle < 1) := fun h => by linarith [h.1]
  have n4 : ¬ (c.lightAngle < -50 / 100) := by linarith
  unfold backColourChange
  simp only [p1, n2, n3, n4, if_true, if_false, and_self]

theorem DayCycle.At.cast {c : DayCycle} {la r g b la2 r2 g2 b2 : ℚ} (h : c.At la r g b)
    (h1 : la = la2) (h2 : r = r2) (h3 : g = g2) (h4 : b = b2) : c.At la2 r2 g2 b2 := by
  subst h1 h2 h3 h4
  exact h

/-- One step of the cycle, when `backColourChange` changes the colour to `(r, g, b)`. -/
theorem next_fields (c : DayCycle) (r g b : ℚ)
    (hb : backColourChange (changeLightStrength c) =
      { changeLightStrength c with red := r, green := g, blue := b }) :
    c.next.lightAngle =
      (if c.lightAngle + c.angleIncrease ≥ 1 then -1 else c.lightAngle + c.angleIncrease) ∧
    c.next.angleIncrease = c.angleIncrease ∧ c.next.colourChange = c.colourChange ∧
    c.next.red = r ∧ c.next.green = g ∧ c.next.blue = b := by
  obtain ⟨f1, f2, f3, _, _, _⟩ := changeLightStrength_sky c
  obtain ⟨a1, a2, a3, a4, a5, a6⟩ :=
    advanceLightAngle_sky (backColourChange (changeLightStrength c))
  unfold DayCycle.next
  rw [a1, a2, a3, a4, a5, a6, hb]
  dsimp only
  rw [f1, f2, f3]
  exact ⟨rfl, rfl, rfl, rfl, rfl, rfl⟩

theorem next_dusk {c : DayCycle} {la r g b : ℚ} (h : c.At la r g b) (h1 : 0 ≤ la)
    (h2 : la < 1 / 2) :
    c.next.At (la + 1 / 100) r (g - 203921557 / 1000000000 / 50)
      (b - 454901934 / 1000000000 / 50) := by
  obtain ⟨e1, e2, e3, e4, e5, e6⟩ := h
  obtain ⟨f1, _, f3, f4, f5, f6⟩ := changeLightStrength_sky c
  obtain ⟨n1, n2, n3, n4, n5, n6⟩ := next_fields c _ _ _
    (backColourChange_dusk (changeLightStrength c) (by rw [f1, e1]; exact h1)
      (by rw [f1, e1]; exact h2))
  refine ⟨?_, by rw [n2, e2], by rw [n3, e3], by rw [n4, f4, e4], by rw [n5, f5, f3, e5, e3],
    by rw [n6, f6, f3, e6, e3]⟩
  rw [n1, e1, e2, if_neg (by simp only [ge_iff_le, not_le]; linarith)]

theorem next_night {c : DayCycle} {la r g b : ℚ} (h : c.At la r g b) (h1 : 1 / 2 ≤ la)
    (h2 : la < 1) :
    c.next.At (if la + 1 / 100 ≥ 1 then -1 else la + 1 / 100) r
      (g - 545098066 / 1000000000 / 50) (b - 545098066 / 1000000000 / 50) := by
  obtain ⟨e1, e2, e3, e4, e5, e6⟩ := h
  obtain ⟨f1, _, f3, f4, f5, f6⟩ := changeLightStrength_sky c
  obtain ⟨n1, n2, n3, n4, n5, n6⟩ := next_fields c _ _ _
    (backColourChange_night (changeLightStrength c) (by rw [f1, e1]; exact h1)
      (by rw [f1, e1]; exact h2))
  refine ⟨?_, by rw [n2, e2], by rw [n3, e3], by rw [n4, f4, e4], by rw [n5, f5, f3, e5, e3],
    by rw [n6, f6, f3, e6, e3]⟩
  rw [n1, e1, e2]

theorem next_dawn {c : DayCycle} {la r g b : ℚ} (h : c.At la r g b) (h1 : la < -1 / 2) :
    c.next.At (la + 1 / 100) (r + 980392218 / 1000000000 / 50)
      (g + 980392218 / 1000000000 / 50) (b + 823529482 / 1000000000 / 50) := by
  obtain ⟨e1, e2, e3, e4, e5, e6⟩ := h
  obtain ⟨f1, _, f3, f4, f5, f6⟩ := changeLightStrength_sky c
  obtain ⟨n1, n2, n3, n4, n5, n6⟩ := next_fields c _ _ _
    (backColourChange_dawn (changeLightStrength c) (by rw [f1, e1]; exact h1))
  refine ⟨?_, by rw [n2, e2], by rw [n3, e3], by rw [n4, f4, f3, e4, e3],
    by rw [n5, f5, f3, e5, e3], by rw [n6, f6, f3, e6, e3]⟩
  rw [n1, e1, e2, if_neg (by simp only [ge_iff_le, not_le]; linarith)]

theorem next_morning {c : DayCycle} {la r g b : ℚ} (h : c.At la r g b) (h1 : -1 / 2 ≤ la)
    (h2 : la < 0) :
    c.next.At (la + 1 / 100) (r - 98092218 / 100000000 / 50)
      (g - 231372595 / 1000000000 / 50) (b + 176470518 / 1000000000 / 50) := by
  obtain ⟨e1, e2, e3, e4, e5, e6⟩ := h
  obtain ⟨f1, _, f3, f4, f5, f6⟩ := changeLightStrength_sky c
  obtain ⟨n1, n2, n3, n4, n5, n6⟩ := next_fields c _ _ _
    (backColourChange_morning (changeLightStrength c) (by rw [f1, e1]; exact h1)
      (by rw [f1, e1]; exact h2))
  refine ⟨?_, by rw [n2, e2], by rw [n3, e3], by rw [n4, f4, f3, e4, e3],
    by rw [n5, f5, f3, e5, e3], by rw [n6, f6, f3, e6, e3]⟩
  rw [n1, e1, e2, if_neg (by simp only [ge_iff_le, not_le]; linarith)]

/-- Noon to dusk: the first 50 steps of the cycle from its initial values. -/
theorem dusk_phase (k : Nat) (hk : k ≤ 50) :
    (DayCycle.next^[k] {}).At ((k : ℚ) / 100) 0
      (749019623 / 1000000000 - k * (203921557 / 1000000000 / 50))
      (1 - k * (454901934 / 1000000000 / 50)) := by
  induction k with
  | zero =>
    refine ⟨?_, rfl, ?_, rfl, ?_, ?_⟩
    · show (0 : ℚ) = _
      norm_num
    · show (1 / 2 : ℚ) / (1 / 100) = 50
      norm_num
    · show (749019623 / 1000000000 : ℚ) = _
      norm_num
    · show (1 : ℚ) = _
      norm_num
  | succ k ih =>
    have hk2 : (k : ℚ) < 50 := by exact_mod_cast Nat.lt_of_succ_le hk
    have hk0 : (0 : ℚ) ≤ k := Nat.cast_nonneg k
    rw [Function.iterate_succ_apply']
    refine (next_dusk (ih (Nat.le_of_succ_le hk)) (by positivity) (by linarith)).cast
      ?_ rfl ?_ ?_ <;> push_cast <;> ring

/-- Dusk to midnight: the steps 50 to 99. -/
theorem night_phase (k : Nat) (hk : k < 50) :
    (DayCycle.next^[50 + k] {}).At ((50 + (k : ℚ)) / 100) 0
      (545098066 / 1000000000 - k * (545098066 / 1000000000 / 50))
      (545098066 / 1000000000 - k * (545098066 / 1000000000 / 50)) := by
  induction k with
  | zero =>
    refine (dusk_phase 50 (le_refl _)).cast ?_ rfl ?_ ?_ <;> norm_num
  | succ k ih =>
    have hk2 : (k : ℚ) + 1 < 50 := by exact_mod_cast hk
    have hk0 : (0 : ℚ) ≤ k := Nat.cast_nonneg k
    show (DayCycle.next^[(50 + k) + 1] {}).At _ _ _ _
    rw [Function.iterate_succ_apply']
    have := next_night (ih (Nat.lt_of_succ_lt hk)) (by linarith) (by linarith)
    rw [if_neg (by simp only [ge_iff_le, not_le]; linarith)] at this
    refine this.cast ?_ rfl ?_ ?_ <;> push_cast <;> ring

/-- Midnight: after 100 steps `lightAngle` is -1 and the colour is black. -/
theorem midnight : (DayCycle.next^[100] {}).At (-1) 0 0 0 := by
  show (DayCycle.next^[(50 + 49) + 1] {}).At _ _ _ _
  rw [Function.iterate_succ_apply']
  have := next_night (night_phase 49 (by decide)) (by norm_num) (by norm_num)
  rw [if_pos (by norm_num)] at this
  refine this.cast rfl rfl ?_ ?_ <;> norm_num

/-- Midnight to morning: the steps 100 to 150. -/
theorem dawn_phase (k : Nat) (hk : k ≤ 50) :
    (DayCycle.next^[100 + k] {}).At (-1 + (k : ℚ) / 100)
      (k * (980392218 / 1000000000 / 50)) (k * (980392218 / 1000000000 / 50))
      (k * (823529482 / 1000000000 / 50)) := by
  induction k with
  | zero =>
    refine midnight.cast ?_ ?_ ?_ ?_ <;> norm_num
  | succ k ih =>
    have hk2 : (k : ℚ) < 50 := by exact_mod_cast Nat.lt_of_succ_le hk
    show (DayCycle.next^[(100 + k) + 1] {}).At _ _ _ _
    rw [Function.iterate_succ_apply']
    refine (next_dawn (ih (Nat.le_of_succ_le hk)) (by linarith)).cast ?_ ?_ ?_ ?_ <;>
      push_cast <;> ring

/-- Morning to noon: the steps 150 to 200. -/
theorem morning_phase (k : Nat) (hk : k ≤ 50) :
    (DayCycle.next^[150 + k] {}).At (-1 / 2 + (k : ℚ) / 100)
      (980392218 / 1000000000 - k * (98092218 / 100000000 / 50))
      (980392218 / 1000000000 - k * (231372595 / 1000000000 / 50))
      (823529482 / 1000000000 + k * (176470518 / 1000000000 / 50)) := by
  induction k with
  | zero =>
    refine (dawn_phase 50 (le_refl _)).cast ?_ ?_ ?_ ?_ <;> norm_num
  | succ k ih =>
    have hk2 : (k : ℚ) < 50 := by exact_mod_cast Nat.lt_of_succ_le hk
    have hk0 : (0 : ℚ) ≤ k := Nat.cast_nonneg k
    show (DayCycle.next^[(150 + k) + 1] {}).At _ _ _ _
    rw [Function.iterate_succ_apply']
    refine (next_morning (ih (Nat.le_of_succ_le hk)) (by linarith) (by linarith)).cast
      ?_ ?_ ?_ ?_ <;> push_cast <;> ring

theorem updates_frames (inps : List Input) : updates (frames inps) = inps.length := by
  induction inps with
  | nil => rfl
  | cons inp inps ih =>
    have hf : frames (inp :: inps) = [Event.update inp, Event.draw] ++ frames inps := by
      simp [frames]
    rw [hf, updates_append, ih, List.length_cons, Nat.add_comm]
    rfl

/-- The cycle of day and night after a sequence of calls: one step for every call of
`Update`. -/
theorem run_cycle (evs : List Event) (a b : App) (ha : Ready a) (h : run evs a = some b) :
    b.cycle = DayCycle.next^[updates evs] a.cycle := by
  have := run_induct (fun n x => x.cycle = DayCycle.next^[n] a.cycle) ?_ ?_ evs 0 a b ha rfl h
  · rwa [Nat.zero_add] at this
  · intro n inp x c hx hp hupd
    obtain ⟨_, _, _, _, _, _, _, _, _, _, _, _, _, _, _, _, _, _, _, _, hupd2⟩ :=
      Update_eq inp x hx
    rw [hupd] at hupd2
    obtain rfl := Option.some.inj hupd2
    show x.cycle.next = _
    rw [Function.iterate_succ_apply', hp]
  · intro n x c _ hp hd
    obtain ⟨_, _, _, _, rfl⟩ := Draw_some x c hd
    exact hp

/-- C30, evaluated on the first day after `Initialize`, in exact arithmetic, frame by frame
with no key down: after 50 frames the sky colour is dark cyan, after 100 black, after 150
light golden yellow, as the comment of `backColourChange` has it; after 200 frames
`lightAngle` is 0 again, green and blue are those of deep sky blue, and red is -0.000529962,
not 0: from morning to noon the code takes 0.98092218 off red in 50 steps (line 322), not the
0.980392218 that it put on from midnight to morning (line 349). -/
theorem sky_colour_drifts :
    ∃ a b c d : App,
      run (frames (List.replicate 50 idleInput)) (Initialize (fun _ => 0) 0) = some a ∧
      run (frames (List.replicate 50 idleInput)) a = some b ∧
      run (frames (List.replicate 50 idleInput)) b = some c ∧
      run (frames (List.replicate 50 idleInput)) c = some d ∧
      (a.cycle.red, a.cycle.green, a.cycle.blue) =
        (0, 545098066 / 1000000000, 545098066 / 1000000000) ∧
      (b.cycle.red, b.cycle.green, b.cycle.blue) = (0, 0, 0) ∧
      (c.cycle.red, c.cycle.green, c.cycle.blue) =
        (980392218 / 1000000000, 980392218 / 1000000000, 823529482 / 1000000000) ∧
      (d.cycle.red, d.cycle.green, d.cycle.blue) =
        (-529962 / 1000000000, 749019623 / 1000000000, 1) ∧
      d.cycle.lightAngle = 0 ∧ d.cycle.red ≠ 0 := by
  have hu : updates (frames (List.replicate 50 idleInput)) = 50 := by
    rw [updates_frames, List.length_replicate]
  have h0 := Initialize_ready (fun _ => 0) 0
  have hc0 : (Initialize (fun _ => 0) 0).cycle = {} := by rw [Initialize_eq]
  obtain ⟨a, ha⟩ := frames_total (List.replicate 50 idleInput) _ h0
  obtain ⟨hra, _⟩ := run_spec _ _ a h0 ha
  obtain ⟨b, hb⟩ := frames_total (List.replicate 50 idleInput) a hra
  obtain ⟨hrb, _⟩ := run_spec _ _ b hra hb
  obtain ⟨c, hc⟩ := frames_total (List.replicate 50 idleInput) b hrb
  obtain ⟨hrc, _⟩ := run_spec _ _ c hrb hc
  obtain ⟨d, hd⟩ := frames_total (List.replicate 50 idleInput) c hrc
  have ca : a.cycle = DayCycle.next^[50] {} := by
    rw [run_cycle _ _ a h0 ha, hu, hc0]
  have cb : b.cycle = DayCycle.next^[100] {} := by
    rw [run_cycle _ a b hra hb, hu, ca, ← Function.iterate_add_apply]
  have cc : c.cycle = DayCycle.next^[100 + 50] {} := by
    rw [run_cycle _ b c hrb hc, hu, cb, ← Function.iterate_add_apply]
  have cd : d.cycle = DayCycle.next^[150 + 50] {} := by
    rw [run_cycle _ c d hrc hd, hu, cc, ← Function.iterate_add_apply]
  obtain ⟨_, _, _, a4, a5, a6⟩ := dusk_phase 50 (le_refl _)
  obtain ⟨_, _, _, b4, b5, b6⟩ := midnight
  obtain ⟨_, _, _, c4, c5, c6⟩ := dawn_phase 50 (le_refl _)
  obtain ⟨d1, _, _, d4, d5, d6⟩ := morning_phase 50 (le_refl _)
  refine ⟨a, b, c, d, ha, hb, hc, hd, ?_, ?_, ?_, ?_, ?_, ?_⟩
  · rw [ca, a4, a5, a6]; norm_num
  · rw [cb, b4, b5, b6]
  · rw [cc, c4, c5, c6]; norm_num
  · rw [cd, d4, d5, d6]; norm_num
  · rw [cd, d1]; norm_num
  · rw [cd, d4]; norm_num

end CrateApp
